import Mathlib

/-!
# i3ipc-simple: JSON scanner, type registry, materializer and emitter

A shallow embedding of `src/i3ipc.h` (the single-header library i3ipc-simple).

Conventions of the embedding:

* A byte (`char`) is a `Nat` below 256; text is a `List Nat`.
* `size_t` is a `Nat` reduced modulo `2^64`, `int` is an `Int` in the 32-bit range.
* A C function that returns an error code returns an `Outcome`.
* Loops and recursion take a `fuel` argument and recurse structurally on it; the entry
  points compute a fuel that is large enough from the size of their input.
* Memory is abstracted to values (`Val`): a struct is the list of the values of its entries in
  the field table `i3ipc__global_fields`, in table order, and a pointer is `none` (NULL) or
  `some` of the block it points to.
* Floating point arithmetic is not modelled: the `double` of a number token is kept as the
  exact decimal it approximates, and `printf("%f")` is a parameter of the emitter.
-/

namespace I3ipc

/-! ## Basics -/

/-- The bytes of an ASCII string literal. -/
def bytes (s : String) : List Nat := s.data.map Char.toNat

/-- Result of a modelled C function: `done` is return code 0 together with the outputs,
`fail c` is the nonzero return code `c`, `aborted` is a failed `assert`, and `starved` says
that the fuel of the model ran out (no counterpart in the C code). -/
inductive Outcome (α : Type) where
  | done (a : α)
  | fail (code : Nat)
  | aborted
  | starved

namespace Outcome

/-- Sequencing: the continuation runs only after a `done`. -/
def bind {α β : Type} (x : Outcome α) (f : α → Outcome β) : Outcome β :=
  match x with
  | done a => f a
  | fail c => fail c
  | aborted => aborted
  | starved => starved

/-- Whether the outcome is `done`. -/
def isDone {α : Type} : Outcome α → Bool
  | done _ => true
  | _ => false

/-- The outputs of a `done` outcome. -/
def get? {α : Type} : Outcome α → Option α
  | done a => some a
  | _ => none

end Outcome

/-- C `strcmp(a, b) == 0`: both strings are read up to their first 0 byte. -/
def cstr (s : List Nat) : List Nat := s.takeWhile (fun c => c != 0)

/-- C `strcmp(a, b) == 0`. -/
def strcmp_eq (a b : List Nat) : Bool := cstr a == cstr b

/-! ## JSON tokens (`I3ipc_json_token`) -/

/-- `I3IPC_JSON_BOOL` -/
def I3IPC_JSON_BOOL : Nat := 256
/-- `I3IPC_JSON_NULL` -/
def I3IPC_JSON_NULL : Nat := 257
/-- `I3IPC_JSON_STRING` -/
def I3IPC_JSON_STRING : Nat := 258
/-- `I3IPC_JSON_NUMBER` -/
def I3IPC_JSON_NUMBER : Nat := 259

/-- The `double` that `i3ipc__json_scan_number` computes, kept exact: the value is
`ipart + num / den`, negated when `neg`. The rounding of the C arithmetic is not modelled. -/
structure I3ipc_double where
  neg : Bool
  ipart : Nat
  num : Nat
  den : Nat
  deriving DecidableEq, Repr

/-- The double 0.0 (all bits zero). -/
def I3ipc_double.zero : I3ipc_double := ⟨false, 0, 0, 1⟩

/-- `I3ipc_json_token`. `type` is 0 at the end of input, the character itself for a
punctuation token and one of the `I3IPC_JSON_*` values otherwise. `str` holds the `str_size`
decoded bytes that `str` points to in C; the byte after them is 0. -/
structure I3ipc_json_token where
  type : Nat
  str : List Nat
  number : I3ipc_double
  number_long : Nat
  flag : Bool
  deriving DecidableEq, Repr

/-- `tok.str_size` -/
def I3ipc_json_token.str_size (t : I3ipc_json_token) : Nat := t.str.length

/-- `memset(&tok, 0, sizeof(tok))` -/
def tok_zero : I3ipc_json_token := ⟨0, [], I3ipc_double.zero, 0, false⟩

/-- Punctuation token. -/
def tok_punct (c : Nat) : I3ipc_json_token := { tok_zero with type := c }
/-- Bool token. -/
def tok_bool (b : Bool) : I3ipc_json_token := { tok_zero with type := I3IPC_JSON_BOOL, flag := b }
/-- Null token. -/
def tok_null : I3ipc_json_token := { tok_zero with type := I3IPC_JSON_NULL }
/-- String token. -/
def tok_string (s : List Nat) : I3ipc_json_token := { tok_zero with type := I3IPC_JSON_STRING, str := s }
/-- Number token. -/
def tok_number (d : I3ipc_double) (n : Nat) : I3ipc_json_token :=
  { tok_zero with type := I3IPC_JSON_NUMBER, number := d, number_long := n }

/-! ## Scanner -/

/-- `'0' <= c && c <= '9'` -/
def isdigit (c : Nat) : Bool := 48 ≤ c && c ≤ 57

/-- The characters `i3ipc__json_scan_number` collects: digits and `- . + e E`. -/
def isnumchar (c : Nat) : Bool :=
  isdigit c || c == 45 || c == 46 || c == 43 || c == 101 || c == 69

/-- The value loop `val_int = 10 * val_int + (*c - '0')` over a run of digits, in `size_t`. -/
def digits_sizet (ds : List Nat) : Nat :=
  ds.foldl (fun v c => (10 * v + (c - 48)) % 2 ^ 64) 0

/-- The value loop `val = 10.0 * val + (*c - '0')` over a run of digits, kept exact. -/
def digits_exact (ds : List Nat) : Nat :=
  ds.foldl (fun v c => 10 * v + (c - 48)) 0

/-- `i3ipc__json_scan_number`. Input: the `state->left` bytes at `state->cur`. Output: the
double, the `size_t` value and the bytes that remain. -/
def i3ipc__json_scan_number (cur : List Nat) :
    Outcome (I3ipc_double × Nat × List Nat) :=
  let run := cur.takeWhile isnumchar
  let length := run.length
  if length ≥ 256 then Outcome.fail 1 else
  let rest := cur.drop length
  let flipsign := run.head? == some 45
  let c := if flipsign then run.drop 1 else run
  let idigits := c.takeWhile isdigit
  let c := c.dropWhile isdigit
  let val_int := digits_sizet idigits
  let ipart := digits_exact idigits
  let (num, den, c) :=
    if c.head? == some 46 then
      let c := c.drop 1
      let fdigits := (c.takeWhile isdigit).take 19
      let num := fdigits.foldl (fun v d => (10 * v + d - 48) % 2 ^ 64) 0
      let den := fdigits.foldl (fun v _ => (v * 10) % 2 ^ 64) 1
      (num, den, c.dropWhile isdigit)
    else (0, 1, c)
  if c != [] then Outcome.fail 1 else
  Outcome.done (⟨flipsign, ipart, num, den⟩,
    if flipsign then (2 ^ 64 - val_int) % 2 ^ 64 else val_int, rest)

/-- The value of a hexadecimal digit, `none` for the C value -1. -/
def hexval (jc : Nat) : Option Nat :=
  if 48 ≤ jc && jc ≤ 57 then some (jc - 48)
  else if 65 ≤ jc && jc ≤ 70 then some (10 + jc - 65)
  else if 97 ≤ jc && jc ≤ 102 then some (10 + jc - 97)
  else none

/-- The UTF-8 bytes that `i3ipc__json_scan_string` stores for the code point `cp`; each
store truncates to a `char`. -/
def utf8_encode (cp : Nat) : List Nat :=
  if cp ≤ 0x7f then [cp % 256]
  else if cp ≤ 0x7ff then [(0xc0 ||| cp >>> 6) % 256, (0x80 ||| (cp &&& 0x3f)) % 256]
  else if cp ≤ 0xffff then
    [(0xe0 ||| cp >>> 12) % 256, (0x80 ||| (cp >>> 6 &&& 0x3f)) % 256,
     (0x80 ||| (cp &&& 0x3f)) % 256]
  else if cp ≤ 0x10ffff then
    [(0xf0 ||| cp >>> 18) % 256, (0x80 ||| (cp >>> 12 &&& 0x3f)) % 256,
     (0x80 ||| (cp >>> 6 &&& 0x3f)) % 256, (0x80 ||| (cp &&& 0x3f)) % 256]
  else [0xef, 0xbf, 0xbd]

/-- The `switch` of `i3ipc__json_scan_string` on the character after a backslash; 0 for the
default case. -/
def escape_char (c : Nat) : Nat :=
  if c == 34 then 34          -- \"
  else if c == 92 then 92     -- \\
  else if c == 47 then 47     -- \/
  else if c == 98 then 8      -- \b
  else if c == 102 then 12    -- \f
  else if c == 110 then 10    -- \n
  else if c == 114 then 13    -- \r
  else if c == 116 then 9     -- \t
  else if c == 117 then 117   -- \u
  else 0

/-- The loop of `i3ipc__json_scan_string`. `rest` holds the bytes `cur[i .. left)`, `out` the
bytes written through `p` so far; the result is the decoded bytes and the final `i`. -/
def scan_string_loop : Nat → List Nat → List Nat → Nat → List Nat × Nat
  | 0, _, out, i => (out, i)
  | _ + 1, [], out, i => (out, i)
  | fuel + 1, c :: rest, out, i =>
    if c == 34 then (out, i + 1)
    else if c == 92 then
      let ic := escape_char (rest.headD 0)
      if ic == 117 then
        match rest with
        | _ :: h1 :: h2 :: h3 :: h4 :: rest5 =>
          match hexval h1, hexval h2, hexval h3, hexval h4 with
          | some v1, some v2, some v3, some v4 =>
            let cp := ((v1 * 16 + v2) * 16 + v3) * 16 + v4
            scan_string_loop fuel rest5 (out ++ utf8_encode cp) (i + 6)
          | _, _, _, _ => scan_string_loop fuel rest (out ++ [c]) (i + 1)
        | _ => scan_string_loop fuel rest (out ++ [c]) (i + 1)
      else if ic != 0 then
        scan_string_loop fuel (rest.drop 1) (out ++ [ic]) (i + 2)
      else scan_string_loop fuel rest (out ++ [c]) (i + 1)
    else scan_string_loop fuel rest (out ++ [c]) (i + 1)

/-- `i3ipc__json_scan_string`. Input: the bytes at `state->cur`, the first of which is the
opening quote. Output: the decoded bytes (their count is the return value `length`; in C they
overwrite the start of the literal and are followed by a 0 byte) and the bytes that remain. -/
def i3ipc__json_scan_string (cur : List Nat) : List Nat × List Nat :=
  let r := scan_string_loop cur.length (cur.drop 1) [] 1
  (r.1, cur.drop r.2)

/-- Whitespace as skipped by `i3ipc__json_scan_token`. -/
def isspace (c : Nat) : Bool := c == 32 || c == 9 || c == 10 || c == 13

/-- `i3ipc__json_scan_token`: the next token and the bytes that remain. -/
def i3ipc__json_scan_token (cur0 : List Nat) : Outcome (I3ipc_json_token × List Nat) :=
  let cur := cur0.dropWhile isspace
  match cur with
  | [] => Outcome.done (tok_zero, cur)
  | c :: _ =>
    if c == 91 || c == 93 || c == 123 || c == 125 || c == 58 || c == 44 then
      Outcome.done (tok_punct c, cur.drop 1)
    else if c == 116 then
      if cur.length < 4 || cur.take 4 != bytes "true" then Outcome.fail 3
      else Outcome.done (tok_bool true, cur.drop 4)
    else if c == 102 then
      if cur.length < 5 || cur.take 4 != bytes "fals" then Outcome.fail 4
      else Outcome.done (tok_bool false, cur.drop 5)
    else if c == 110 then
      if cur.length < 4 || cur.take 4 != bytes "null" then Outcome.fail 5
      else Outcome.done (tok_null, cur.drop 4)
    else if c == 34 then
      let r := i3ipc__json_scan_string cur
      Outcome.done (tok_string r.1, r.2)
    else if c == 45 || isdigit c then
      match i3ipc__json_scan_number cur with
      | Outcome.done (d, n, rest) => Outcome.done (tok_number d n, rest)
      | _ => Outcome.fail 1
    else Outcome.fail 2

/-- The loop of `i3ipc__json_scan`: tokens are appended until the end token (type 0) has been
stored. -/
def json_scan_loop : Nat → List Nat → List I3ipc_json_token → Outcome (List I3ipc_json_token)
  | 0, _, _ => Outcome.starved
  | fuel + 1, cur, tokens =>
    match i3ipc__json_scan_token cur with
    | Outcome.done (tok, rest) =>
      if tok.type == 0 then Outcome.done (tokens ++ [tok])
      else json_scan_loop fuel rest (tokens ++ [tok])
    | _ => Outcome.fail 1

/-- `i3ipc__json_scan` on a payload: every token but the last consumes at least one byte, so
`length + 1` rounds are enough. -/
def i3ipc__json_scan (payload : List Nat) : Outcome (List I3ipc_json_token) :=
  json_scan_loop (payload.length + 1) payload []

/-! ## Type registry -/

/-- `I3IPC_TYPE_ISARRAY` -/
def I3IPC_TYPE_ISARRAY : Nat := 1
/-- `I3IPC_TYPE_ISSIZE` -/
def I3IPC_TYPE_ISSIZE : Nat := 2
/-- `I3IPC_TYPE_ISENUM` -/
def I3IPC_TYPE_ISENUM : Nat := 4
/-- `I3IPC_TYPE_ISPTR` -/
def I3IPC_TYPE_ISPTR : Nat := 8
/-- `I3IPC_TYPE_ISOPT` -/
def I3IPC_TYPE_ISOPT : Nat := 16
/-- `I3IPC_TYPE_ISOMIT` -/
def I3IPC_TYPE_ISOMIT : Nat := 32
/-- `I3IPC_TYPE_ISFLAG` -/
def I3IPC_TYPE_ISFLAG : Nat := 64
/-- `I3IPC_TYPE_MARKER` -/
def I3IPC_TYPE_MARKER : Nat := 128
/-- `I3IPC_TYPE_INLINE` -/
def I3IPC_TYPE_INLINE : Nat := 256
/-- `I3IPC_TYPE_GROUP_DERIVED = ISSIZE | ISENUM | ISFLAG` -/
def I3IPC_TYPE_GROUP_DERIVED : Nat := 70
/-- `I3IPC_TYPE_GROUP_MAYBE = ISPTR | ISOPT` -/
def I3IPC_TYPE_GROUP_MAYBE : Nat := 24

/-- `flags & mask` is nonzero. -/
def hasflag (flags mask : Nat) : Bool := flags &&& mask != 0

/-- `flags & ~mask` -/
def clearflag (flags mask : Nat) : Nat := flags &&& (511 ^^^ mask)

/-! `enum I3ipc_type_values` -/

/-- `I3IPC_TYPE_BOOL` -/
def I3IPC_TYPE_BOOL : Nat := 0
/-- `I3IPC_TYPE_CHAR` -/
def I3IPC_TYPE_CHAR : Nat := 1
/-- `I3IPC_TYPE_INT` -/
def I3IPC_TYPE_INT : Nat := 2
/-- `I3IPC_TYPE_FLOAT` -/
def I3IPC_TYPE_FLOAT : Nat := 3
/-- `I3IPC_TYPE_SIZET` -/
def I3IPC_TYPE_SIZET : Nat := 4
/-- `I3IPC_TYPE_RECT` -/
def I3IPC_TYPE_RECT : Nat := 5
/-- `I3IPC_TYPE_STRING` -/
def I3IPC_TYPE_STRING : Nat := 6
/-- `I3IPC_TYPE_NODE` -/
def I3IPC_TYPE_NODE : Nat := 7
/-- `I3IPC_TYPE_BAR_CONFIG` -/
def I3IPC_TYPE_BAR_CONFIG : Nat := 8
/-- `I3IPC_TYPE_NODE_WINDOW_PROPERTIES` -/
def I3IPC_TYPE_NODE_WINDOW_PROPERTIES : Nat := 9
/-- `I3IPC_TYPE_BAR_CONFIG_COLORS` -/
def I3IPC_TYPE_BAR_CONFIG_COLORS : Nat := 10
/-- `I3IPC_TYPE_REPLY_COMMAND_EL` -/
def I3IPC_TYPE_REPLY_COMMAND_EL : Nat := 11
/-- `I3IPC_TYPE_REPLY_OUTPUTS_EL` -/
def I3IPC_TYPE_REPLY_OUTPUTS_EL : Nat := 12
/-- `I3IPC_TYPE_REPLY_WORKSPACES_EL` -/
def I3IPC_TYPE_REPLY_WORKSPACES_EL : Nat := 13
/-- `I3IPC_TYPE_EVENT_BINDING_BINDING` -/
def I3IPC_TYPE_EVENT_BINDING_BINDING : Nat := 14
/-- `I3IPC_TYPE_REPLY_COMMAND` -/
def I3IPC_TYPE_REPLY_COMMAND : Nat := 15
/-- `I3IPC_TYPE_REPLY_WORKSPACES` -/
def I3IPC_TYPE_REPLY_WORKSPACES : Nat := 16
/-- `I3IPC_TYPE_REPLY_SUBSCRIBE` -/
def I3IPC_TYPE_REPLY_SUBSCRIBE : Nat := 17
/-- `I3IPC_TYPE_REPLY_OUTPUTS` -/
def I3IPC_TYPE_REPLY_OUTPUTS : Nat := 18
/-- `I3IPC_TYPE_REPLY_TREE` -/
def I3IPC_TYPE_REPLY_TREE : Nat := 19
/-- `I3IPC_TYPE_REPLY_MARKS` -/
def I3IPC_TYPE_REPLY_MARKS : Nat := 20
/-- `I3IPC_TYPE_REPLY_BAR_CONFIG_IDS` -/
def I3IPC_TYPE_REPLY_BAR_CONFIG_IDS : Nat := 21
/-- `I3IPC_TYPE_REPLY_BAR_CONFIG` -/
def I3IPC_TYPE_REPLY_BAR_CONFIG : Nat := 22
/-- `I3IPC_TYPE_REPLY_VERSION` -/
def I3IPC_TYPE_REPLY_VERSION : Nat := 23
/-- `I3IPC_TYPE_REPLY_BINDING_MODES` -/
def I3IPC_TYPE_REPLY_BINDING_MODES : Nat := 24
/-- `I3IPC_TYPE_REPLY_CONFIG` -/
def I3IPC_TYPE_REPLY_CONFIG : Nat := 25
/-- `I3IPC_TYPE_REPLY_TICK` -/
def I3IPC_TYPE_REPLY_TICK : Nat := 26
/-- `I3IPC_TYPE_REPLY_SYNC` -/
def I3IPC_TYPE_REPLY_SYNC : Nat := 27
/-- `I3IPC_TYPE_EVENT` -/
def I3IPC_TYPE_EVENT : Nat := 28
/-- `I3IPC_TYPE_EVENT_WORKSPACE` -/
def I3IPC_TYPE_EVENT_WORKSPACE : Nat := 29
/-- `I3IPC_TYPE_EVENT_OUTPUT` -/
def I3IPC_TYPE_EVENT_OUTPUT : Nat := 30
/-- `I3IPC_TYPE_EVENT_MODE` -/
def I3IPC_TYPE_EVENT_MODE : Nat := 31
/-- `I3IPC_TYPE_EVENT_WINDOW` -/
def I3IPC_TYPE_EVENT_WINDOW : Nat := 32
/-- `I3IPC_TYPE_EVENT_BARCONFIG_UPDATE` -/
def I3IPC_TYPE_EVENT_BARCONFIG_UPDATE : Nat := 33
/-- `I3IPC_TYPE_EVENT_BINDING` -/
def I3IPC_TYPE_EVENT_BINDING : Nat := 34
/-- `I3IPC_TYPE_EVENT_SHUTDOWN` -/
def I3IPC_TYPE_EVENT_SHUTDOWN : Nat := 35
/-- `I3IPC_TYPE_EVENT_TICK` -/
def I3IPC_TYPE_EVENT_TICK : Nat := 36
/-- `I3IPC_TYPE_COUNT` -/
def I3IPC_TYPE_COUNT : Nat := 37
/-- `I3IPC_TYPE_PRIMITIVE_COUNT = I3IPC_TYPE_RECT` -/
def I3IPC_TYPE_PRIMITIVE_COUNT : Nat := 5

/-- `I3ipc_field`. For a marker entry `offset` is `sizeof(T)`, `align` is the alignment that
the C table casts into `full_name`, and `json_name` is the name of `T`. For a member entry
the byte offset is abstracted: the member is located by the position of its entry inside its
type, and `offset` is not used. `json_name` is filled in by `i3ipc__init_globals`. -/
structure I3ipc_field where
  type : Int
  flags : Nat
  name : List Nat
  offset : Nat
  align : Nat
  full_name : List Nat
  json_name : List Nat
  deriving DecidableEq, Repr

/-- `I3ipc_type`; `fields` is the slice of `fields_size` entries that follow the marker. -/
structure I3ipc_type where
  type : Int
  is_primitive : Bool
  is_inline : Bool
  size : Nat
  alignment : Nat
  fields : List I3ipc_field
  name : List Nat
  deriving DecidableEq, Repr

/-- `type.fields_size` -/
def I3ipc_type.fields_size (t : I3ipc_type) : Nat := t.fields.length

/-- `I3IPC__TYPE_BEGIN2(type, T, flags)`; `size` and `align` are `sizeof(T)` and
`I3IPC_ALIGNOF(T)` on x86-64 (LP64). -/
def TYPE_BEGIN2 (type : Int) (T : String) (size align flags : Nat) : List I3ipc_field :=
  [⟨type, I3IPC_TYPE_MARKER ||| flags, [], size, align, [], bytes T⟩]
/-- `I3IPC__TYPE_BEGIN(type, T)` -/
def TYPE_BEGIN (type : Int) (T : String) (size align : Nat) : List I3ipc_field :=
  TYPE_BEGIN2 type T size align 0
/-- `I3IPC__DOFIELD2(T, subtype, name, flags)` -/
def DOFIELD2 (T : String) (subtype : Nat) (name : String) (flags : Nat) : List I3ipc_field :=
  [⟨subtype, flags, bytes name, 0, 0, bytes T ++ 46 :: bytes name, []⟩]
/-- `I3IPC__DOFIELD(T, subtype, name)` -/
def DOFIELD (T : String) (subtype : Nat) (name : String) : List I3ipc_field :=
  DOFIELD2 T subtype name 0
/-- `I3IPC__DOPTR(T, subtype, name)` -/
def DOPTR (T : String) (subtype : Nat) (name : String) : List I3ipc_field :=
  DOFIELD2 T subtype name I3IPC_TYPE_ISPTR
/-- `I3IPC__DOMAYBE(T, subtype, name)` -/
def DOMAYBE (T : String) (subtype : Nat) (name : String) : List I3ipc_field :=
  DOFIELD2 T subtype name I3IPC_TYPE_ISOPT ++
  DOFIELD2 T I3IPC_TYPE_BOOL (name ++ "_set") I3IPC_TYPE_ISFLAG
/-- `I3IPC__DOARRAY2(T, subtype, name, flags)` -/
def DOARRAY2 (T : String) (subtype : Nat) (name : String) (flags : Nat) : List I3ipc_field :=
  DOFIELD2 T subtype name (I3IPC_TYPE_ISARRAY ||| flags) ++
  DOFIELD2 T I3IPC_TYPE_INT (name ++ "_size") I3IPC_TYPE_ISSIZE
/-- `I3IPC__DOARRAY3(T, subtype, name)` -/
def DOARRAY3 (T : String) (subtype : Nat) (name : String) : List I3ipc_field :=
  DOARRAY2 T subtype name (I3IPC_TYPE_ISOPT ||| I3IPC_TYPE_ISOMIT)
/-- `I3IPC__DOENUM2(T, subtype, name, flags)` -/
def DOENUM2 (T : String) (subtype : Nat) (name : String) (flags : Nat) : List I3ipc_field :=
  DOARRAY2 T subtype name flags ++
  DOFIELD2 T I3IPC_TYPE_INT (name ++ "_enum") I3IPC_TYPE_ISENUM
/-- `I3IPC__DOARRAY(T, subtype, name)` -/
def DOARRAY (T : String) (subtype : Nat) (name : String) : List I3ipc_field :=
  DOARRAY2 T subtype name 0
/-- `I3IPC__DOENUM(T, subtype, name)` -/
def DOENUM (T : String) (subtype : Nat) (name : String) : List I3ipc_field :=
  DOENUM2 T subtype name 0

/-- `i3ipc__global_fields` as written in the source, before `i3ipc__init_globals` has filled
in the JSON names. -/
def i3ipc__global_fields : List I3ipc_field := List.flatten [
  TYPE_BEGIN I3IPC_TYPE_BOOL "bool" 1 1,
  TYPE_BEGIN I3IPC_TYPE_CHAR "char" 1 1,
  TYPE_BEGIN I3IPC_TYPE_INT "int" 4 4,
  TYPE_BEGIN I3IPC_TYPE_FLOAT "float" 4 4,
  TYPE_BEGIN I3IPC_TYPE_SIZET "size_t" 8 8,
  TYPE_BEGIN I3IPC_TYPE_RECT "I3ipc_rect" 16 4,
  DOFIELD "I3ipc_rect" I3IPC_TYPE_INT "x",
  DOFIELD "I3ipc_rect" I3IPC_TYPE_INT "y",
  DOFIELD "I3ipc_rect" I3IPC_TYPE_INT "width",
  DOFIELD "I3ipc_rect" I3IPC_TYPE_INT "height",
  TYPE_BEGIN I3IPC_TYPE_STRING "I3ipc_string" 16 8,
  DOARRAY "I3ipc_string" I3IPC_TYPE_CHAR "str",
  TYPE_BEGIN I3IPC_TYPE_NODE_WINDOW_PROPERTIES "I3ipc_node_window_properties" 72 8,
  DOARRAY2 "I3ipc_node_window_properties" I3IPC_TYPE_CHAR "title" I3IPC_TYPE_ISOPT,
  DOARRAY2 "I3ipc_node_window_properties" I3IPC_TYPE_CHAR "instance" I3IPC_TYPE_ISOPT,
  DOARRAY2 "I3ipc_node_window_properties" I3IPC_TYPE_CHAR "window_class" I3IPC_TYPE_ISOPT,
  DOARRAY2 "I3ipc_node_window_properties" I3IPC_TYPE_CHAR "window_role" I3IPC_TYPE_ISOPT,
  DOMAYBE "I3ipc_node_window_properties" I3IPC_TYPE_INT "transient_for",
  TYPE_BEGIN I3IPC_TYPE_NODE "I3ipc_node" 272 8,
  DOFIELD "I3ipc_node" I3IPC_TYPE_SIZET "id",
  DOARRAY2 "I3ipc_node" I3IPC_TYPE_CHAR "name" I3IPC_TYPE_ISOPT,
  DOENUM "I3ipc_node" I3IPC_TYPE_CHAR "type",
  DOENUM "I3ipc_node" I3IPC_TYPE_CHAR "border",
  DOFIELD "I3ipc_node" I3IPC_TYPE_INT "current_border_width",
  DOENUM "I3ipc_node" I3IPC_TYPE_CHAR "layout",
  DOENUM "I3ipc_node" I3IPC_TYPE_CHAR "orientation",
  DOMAYBE "I3ipc_node" I3IPC_TYPE_FLOAT "percent",
  DOFIELD "I3ipc_node" I3IPC_TYPE_RECT "rect",
  DOFIELD "I3ipc_node" I3IPC_TYPE_RECT "window_rect",
  DOFIELD "I3ipc_node" I3IPC_TYPE_RECT "deco_rect",
  DOFIELD "I3ipc_node" I3IPC_TYPE_RECT "geometry",
  DOMAYBE "I3ipc_node" I3IPC_TYPE_INT "window",
  DOPTR "I3ipc_node" I3IPC_TYPE_NODE_WINDOW_PROPERTIES "window_properties",
  DOENUM2 "I3ipc_node" I3IPC_TYPE_CHAR "window_type" I3IPC_TYPE_ISOPT,
  DOFIELD "I3ipc_node" I3IPC_TYPE_BOOL "urgent",
  DOARRAY3 "I3ipc_node" I3IPC_TYPE_STRING "marks",
  DOFIELD "I3ipc_node" I3IPC_TYPE_BOOL "focused",
  DOARRAY "I3ipc_node" I3IPC_TYPE_SIZET "focus",
  DOFIELD "I3ipc_node" I3IPC_TYPE_INT "fullscreen_mode",
  DOARRAY "I3ipc_node" I3IPC_TYPE_NODE "nodes",
  DOARRAY "I3ipc_node" I3IPC_TYPE_NODE "floating_nodes",
  TYPE_BEGIN I3IPC_TYPE_BAR_CONFIG_COLORS "I3ipc_bar_config_colors" 336 8,
  DOARRAY3 "I3ipc_bar_config_colors" I3IPC_TYPE_CHAR "background",
  DOARRAY3 "I3ipc_bar_config_colors" I3IPC_TYPE_CHAR "statusline",
  DOARRAY3 "I3ipc_bar_config_colors" I3IPC_TYPE_CHAR "separator",
  DOARRAY3 "I3ipc_bar_config_colors" I3IPC_TYPE_CHAR "focused_background",
  DOARRAY3 "I3ipc_bar_config_colors" I3IPC_TYPE_CHAR "focused_statusline",
  DOARRAY3 "I3ipc_bar_config_colors" I3IPC_TYPE_CHAR "focused_separator",
  DOARRAY3 "I3ipc_bar_config_colors" I3IPC_TYPE_CHAR "focused_workspace_text",
  DOARRAY3 "I3ipc_bar_config_colors" I3IPC_TYPE_CHAR "focused_workspace_bg",
  DOARRAY3 "I3ipc_bar_config_colors" I3IPC_TYPE_CHAR "focused_workspace_border",
  DOARRAY3 "I3ipc_bar_config_colors" I3IPC_TYPE_CHAR "active_workspace_text",
  DOARRAY3 "I3ipc_bar_config_colors" I3IPC_TYPE_CHAR "active_workspace_bg",
  DOARRAY3 "I3ipc_bar_config_colors" I3IPC_TYPE_CHAR "active_workspace_border",
  DOARRAY3 "I3ipc_bar_config_colors" I3IPC_TYPE_CHAR "inactive_workspace_text",
  DOARRAY3 "I3ipc_bar_config_colors" I3IPC_TYPE_CHAR "inactive_workspace_bg",
  DOARRAY3 "I3ipc_bar_config_colors" I3IPC_TYPE_CHAR "inactive_workspace_border",
  DOARRAY3 "I3ipc_bar_config_colors" I3IPC_TYPE_CHAR "urgent_workspace_text",
  DOARRAY3 "I3ipc_bar_config_colors" I3IPC_TYPE_CHAR "urgent_workspace_bg",
  DOARRAY3 "I3ipc_bar_config_colors" I3IPC_TYPE_CHAR "urgent_workspace_border",
  DOARRAY3 "I3ipc_bar_config_colors" I3IPC_TYPE_CHAR "binding_mode_text",
  DOARRAY3 "I3ipc_bar_config_colors" I3IPC_TYPE_CHAR "binding_mode_bg",
  DOARRAY3 "I3ipc_bar_config_colors" I3IPC_TYPE_CHAR "binding_mode_border",
  TYPE_BEGIN I3IPC_TYPE_BAR_CONFIG "I3ipc_bar_config" 416 8,
  DOARRAY "I3ipc_bar_config" I3IPC_TYPE_CHAR "id",
  DOENUM "I3ipc_bar_config" I3IPC_TYPE_CHAR "mode",
  DOENUM "I3ipc_bar_config" I3IPC_TYPE_CHAR "position",
  DOARRAY "I3ipc_bar_config" I3IPC_TYPE_CHAR "status_command",
  DOARRAY "I3ipc_bar_config" I3IPC_TYPE_CHAR "font",
  DOFIELD "I3ipc_bar_config" I3IPC_TYPE_BOOL "workspace_buttons",
  DOFIELD "I3ipc_bar_config" I3IPC_TYPE_BOOL "binding_mode_indicator",
  DOFIELD "I3ipc_bar_config" I3IPC_TYPE_BOOL "verbose",
  DOFIELD "I3ipc_bar_config" I3IPC_TYPE_BAR_CONFIG_COLORS "colors",
  TYPE_BEGIN I3IPC_TYPE_REPLY_COMMAND_EL "I3ipc_reply_command_el" 24 8,
  DOFIELD "I3ipc_reply_command_el" I3IPC_TYPE_BOOL "success",
  DOARRAY3 "I3ipc_reply_command_el" I3IPC_TYPE_CHAR "error",
  TYPE_BEGIN2 I3IPC_TYPE_REPLY_COMMAND "I3ipc_reply_command" 16 8 I3IPC_TYPE_INLINE,
  DOARRAY "I3ipc_reply_command" I3IPC_TYPE_REPLY_COMMAND_EL "commands",
  TYPE_BEGIN I3IPC_TYPE_REPLY_WORKSPACES_EL "I3ipc_reply_workspaces_el" 64 8,
  DOFIELD "I3ipc_reply_workspaces_el" I3IPC_TYPE_SIZET "id",
  DOFIELD "I3ipc_reply_workspaces_el" I3IPC_TYPE_INT "num",
  DOARRAY "I3ipc_reply_workspaces_el" I3IPC_TYPE_CHAR "name",
  DOFIELD "I3ipc_reply_workspaces_el" I3IPC_TYPE_BOOL "visible",
  DOFIELD "I3ipc_reply_workspaces_el" I3IPC_TYPE_BOOL "focused",
  DOFIELD "I3ipc_reply_workspaces_el" I3IPC_TYPE_BOOL "urgent",
  DOFIELD "I3ipc_reply_workspaces_el" I3IPC_TYPE_RECT "rect",
  DOARRAY "I3ipc_reply_workspaces_el" I3IPC_TYPE_CHAR "output",
  TYPE_BEGIN2 I3IPC_TYPE_REPLY_WORKSPACES "I3ipc_reply_workspaces" 16 8 I3IPC_TYPE_INLINE,
  DOARRAY "I3ipc_reply_workspaces" I3IPC_TYPE_REPLY_WORKSPACES_EL "workspaces",
  TYPE_BEGIN I3IPC_TYPE_REPLY_SUBSCRIBE "I3ipc_reply_subscribe" 1 1,
  DOFIELD "I3ipc_reply_subscribe" I3IPC_TYPE_BOOL "success",
  TYPE_BEGIN I3IPC_TYPE_REPLY_OUTPUTS_EL "I3ipc_reply_outputs_el" 48 8,
  DOARRAY "I3ipc_reply_outputs_el" I3IPC_TYPE_CHAR "name",
  DOFIELD "I3ipc_reply_outputs_el" I3IPC_TYPE_BOOL "active",
  DOFIELD "I3ipc_reply_outputs_el" I3IPC_TYPE_BOOL "primary",
  DOARRAY2 "I3ipc_reply_outputs_el" I3IPC_TYPE_CHAR "current_workspace" I3IPC_TYPE_ISOPT,
  DOFIELD "I3ipc_reply_outputs_el" I3IPC_TYPE_RECT "rect",
  TYPE_BEGIN2 I3IPC_TYPE_REPLY_OUTPUTS "I3ipc_reply_outputs" 16 8 I3IPC_TYPE_INLINE,
  DOARRAY "I3ipc_reply_outputs" I3IPC_TYPE_REPLY_OUTPUTS_EL "outputs",
  TYPE_BEGIN2 I3IPC_TYPE_REPLY_TREE "I3ipc_reply_tree" 272 8 I3IPC_TYPE_INLINE,
  DOFIELD "I3ipc_reply_tree" I3IPC_TYPE_NODE "root",
  TYPE_BEGIN2 I3IPC_TYPE_REPLY_MARKS "I3ipc_reply_marks" 16 8 I3IPC_TYPE_INLINE,
  DOARRAY "I3ipc_reply_marks" I3IPC_TYPE_STRING "marks",
  TYPE_BEGIN2 I3IPC_TYPE_REPLY_BAR_CONFIG_IDS "I3ipc_reply_bar_config_ids" 16 8 I3IPC_TYPE_INLINE,
  DOARRAY "I3ipc_reply_bar_config_ids" I3IPC_TYPE_STRING "ids",
  TYPE_BEGIN2 I3IPC_TYPE_REPLY_BAR_CONFIG "I3ipc_reply_bar_config" 416 8 I3IPC_TYPE_INLINE,
  DOFIELD "I3ipc_reply_bar_config" I3IPC_TYPE_BAR_CONFIG "cfg",
  TYPE_BEGIN I3IPC_TYPE_REPLY_VERSION "I3ipc_reply_version" 48 8,
  DOFIELD "I3ipc_reply_version" I3IPC_TYPE_INT "major",
  DOFIELD "I3ipc_reply_version" I3IPC_TYPE_INT "minor",
  DOFIELD "I3ipc_reply_version" I3IPC_TYPE_INT "patch",
  DOARRAY "I3ipc_reply_version" I3IPC_TYPE_CHAR "human_readable",
  DOARRAY "I3ipc_reply_version" I3IPC_TYPE_CHAR "loaded_config_file_name",
  TYPE_BEGIN2 I3IPC_TYPE_REPLY_BINDING_MODES "I3ipc_reply_binding_modes" 16 8 I3IPC_TYPE_INLINE,
  DOARRAY "I3ipc_reply_binding_modes" I3IPC_TYPE_STRING "modes",
  TYPE_BEGIN I3IPC_TYPE_REPLY_CONFIG "I3ipc_reply_config" 16 8,
  DOARRAY "I3ipc_reply_config" I3IPC_TYPE_CHAR "config",
  TYPE_BEGIN I3IPC_TYPE_REPLY_TICK "I3ipc_reply_tick" 1 1,
  DOFIELD "I3ipc_reply_tick" I3IPC_TYPE_BOOL "success",
  TYPE_BEGIN I3IPC_TYPE_REPLY_SYNC "I3ipc_reply_sync" 1 1,
  DOFIELD "I3ipc_reply_sync" I3IPC_TYPE_BOOL "success",
  TYPE_BEGIN I3IPC_TYPE_EVENT "I3ipc_event" 424 8,
  TYPE_BEGIN I3IPC_TYPE_EVENT_WORKSPACE "I3ipc_event_workspace" 40 8,
  DOENUM "I3ipc_event_workspace" I3IPC_TYPE_CHAR "change",
  DOPTR "I3ipc_event_workspace" I3IPC_TYPE_NODE "current",
  DOPTR "I3ipc_event_workspace" I3IPC_TYPE_NODE "old",
  TYPE_BEGIN I3IPC_TYPE_EVENT_OUTPUT "I3ipc_event_output" 24 8,
  DOENUM "I3ipc_event_output" I3IPC_TYPE_CHAR "change",
  TYPE_BEGIN I3IPC_TYPE_EVENT_MODE "I3ipc_event_mode" 24 8,
  DOARRAY "I3ipc_event_mode" I3IPC_TYPE_CHAR "change",
  DOFIELD "I3ipc_event_mode" I3IPC_TYPE_BOOL "pango_markup",
  TYPE_BEGIN I3IPC_TYPE_EVENT_WINDOW "I3ipc_event_window" 296 8,
  DOENUM "I3ipc_event_window" I3IPC_TYPE_CHAR "change",
  DOFIELD "I3ipc_event_window" I3IPC_TYPE_NODE "container",
  TYPE_BEGIN2 I3IPC_TYPE_EVENT_BARCONFIG_UPDATE "I3ipc_event_barconfig_update" 424 8 I3IPC_TYPE_INLINE,
  DOFIELD "I3ipc_event_barconfig_update" I3IPC_TYPE_BAR_CONFIG "cfg",
  TYPE_BEGIN I3IPC_TYPE_EVENT_BINDING_BINDING "I3ipc_event_binding_binding" 64 8,
  DOARRAY "I3ipc_event_binding_binding" I3IPC_TYPE_CHAR "command",
  DOARRAY "I3ipc_event_binding_binding" I3IPC_TYPE_STRING "event_state_mask",
  DOFIELD "I3ipc_event_binding_binding" I3IPC_TYPE_INT "input_code",
  DOARRAY2 "I3ipc_event_binding_binding" I3IPC_TYPE_CHAR "symbol" I3IPC_TYPE_ISOPT,
  DOENUM "I3ipc_event_binding_binding" I3IPC_TYPE_CHAR "input_type",
  TYPE_BEGIN I3IPC_TYPE_EVENT_BINDING "I3ipc_event_binding" 88 8,
  DOENUM "I3ipc_event_binding" I3IPC_TYPE_CHAR "change",
  DOFIELD "I3ipc_event_binding" I3IPC_TYPE_EVENT_BINDING_BINDING "binding",
  TYPE_BEGIN I3IPC_TYPE_EVENT_SHUTDOWN "I3ipc_event_shutdown" 24 8,
  DOENUM "I3ipc_event_shutdown" I3IPC_TYPE_CHAR "change",
  TYPE_BEGIN I3IPC_TYPE_EVENT_TICK "I3ipc_event_tick" 24 8,
  DOFIELD "I3ipc_event_tick" I3IPC_TYPE_BOOL "first",
  DOARRAY "I3ipc_event_tick" I3IPC_TYPE_CHAR "payload",
  TYPE_BEGIN (-1) "char" 1 1]

/-- The loop of `i3ipc__init_globals` over the field table. `cur` is the type whose member
entries are being collected (`type` and `type_first` in C); it is stored into the type table
when the next marker is reached, which is when C sets its `fields_size`. A member entry gets
its `json_name`: `class` for `I3ipc_node_window_properties.window_class`, its `name`
otherwise. -/
def init_globals_loop : List I3ipc_field → Option I3ipc_type → List I3ipc_type → List I3ipc_type
  | [], _, types => types
  | f :: rest, cur, types =>
    if hasflag f.flags I3IPC_TYPE_MARKER then
      let types := match cur with
        | some t => types.set t.type.toNat t
        | none => types
      if f.type != -1 then
        init_globals_loop rest (some
          { type := f.type, is_primitive := f.type < I3IPC_TYPE_PRIMITIVE_COUNT,
            is_inline := hasflag f.flags I3IPC_TYPE_INLINE, size := f.offset,
            alignment := f.align, fields := [], name := f.json_name }) types
      else init_globals_loop rest none types
    else
      let json_name :=
        if f.full_name == bytes "I3ipc_node_window_properties.window_class" then bytes "class"
        else f.name
      init_globals_loop rest
        (cur.map (fun t => { t with fields := t.fields ++ [{ f with json_name := json_name }] }))
        types

/-- `i3ipc__global_types` after `i3ipc__init_globals`: every slot starts with `type = -1`. -/
def i3ipc__global_types : List I3ipc_type :=
  init_globals_loop i3ipc__global_fields none
    (List.replicate I3IPC_TYPE_COUNT ⟨-1, false, false, 0, 0, [], []⟩)

/-- `i3ipc__type_get`; `none` stands for a failed assertion. -/
def i3ipc__type_get (type : Nat) : Option I3ipc_type :=
  if type ≤ I3IPC_TYPE_COUNT then
    match i3ipc__global_types.get? type with
    | some t => if t.type == (type : Int) then some t else none
    | none => none
  else none

/-- `i3ipc__global_enums`; `none` is a NULL entry. -/
def i3ipc__global_enums : List (Option (List Nat)) :=
  [ "$I3ipc_node.type", "root", "output", "con", "floating_con", "workspace", "dockarea",
    "$I3ipc_node.border", "normal", "none", "pixel",
    "$I3ipc_node.layout", "splith", "splitv", "stacked", "tabbed", "dockarea", "output",
    "$I3ipc_node.orientation", "none", "horizontal", "vertical",
    "$I3ipc_node.window_type" ].map (fun s => some (bytes s)) ++ [none] ++
  [ "normal", "dialog", "utility", "toolbar", "splash",
    "menu", "dropdown_menu", "popup_menu", "tooltip", "notification", "dock", "unknown",
    "$I3ipc_bar_config.mode", "dock", "hide",
    "$I3ipc_bar_config.position", "bottom", "top",
    "$I3ipc_event_workspace.change", "focus", "init", "empty", "urgent", "reload", "rename",
    "restored", "move",
    "$I3ipc_event_output.change", "unspecified",
    "$I3ipc_event_window.change", "new", "close", "focus", "title", "fullscreen_mode", "move",
    "floating", "urgent", "mark",
    "$I3ipc_event_binding.change", "run",
    "$I3ipc_event_binding.input_type", "keyboard", "mouse",
    "$I3ipc_event_shutdown.change", "restart", "exit",
    "$$" ].map (fun s => some (bytes s))

/-! ## Values: the memory written by the materializer -/

/-- The content of a memory region, seen at a type of the registry. `chars` is a `char*`
(NULL or the bytes found at the target, up to and including the 0 byte that ends the copy),
`block` is any other pointer (NULL or the elements of the block it points to: the elements of
an array, or the one record of an `ISPTR` member), `struct` is a record with one value per
entry of its field table, and `event` is an `I3ipc_event` seen through its `type` member. -/
inductive Val where
  | bool (b : Bool)
  | int (n : Int)
  | sizet (n : Nat)
  | float (d : I3ipc_double)
  | chars (p : Option (List Nat))
  | block (p : Option (List Val))
  | struct (fs : List Val)
  | event (type : Int) (body : Val)
  deriving Repr

/-- All-zero memory for a member of type `type_id` with flags `flags`, as `calloc` and
`memset` leave it. -/
def zero_val : Nat → Nat → Nat → Val
  | 0, _, _ => Val.int 0
  | fuel + 1, type_id, flags =>
    if type_id == I3IPC_TYPE_CHAR && hasflag flags I3IPC_TYPE_ISARRAY then Val.chars none
    else if hasflag flags (I3IPC_TYPE_ISARRAY ||| I3IPC_TYPE_ISPTR) then Val.block none
    else if type_id == I3IPC_TYPE_BOOL then Val.bool false
    else if type_id == I3IPC_TYPE_INT || type_id == I3IPC_TYPE_CHAR then Val.int 0
    else if type_id == I3IPC_TYPE_FLOAT then Val.float I3ipc_double.zero
    else if type_id == I3IPC_TYPE_SIZET then Val.sizet 0
    else match i3ipc__type_get type_id with
      | some t => Val.struct (t.fields.map (fun f => zero_val fuel f.type.toNat f.flags))
      | none => Val.struct []

/-- Zeroed storage for a value of type `type_id` with flags `flags`; records nest at most
three deep (a reply holds a node, a node holds a rect). -/
def zero_of (type_id flags : Nat) : Val := zero_val 4 type_id flags

/-- The member at entry `i` of a record: `base + type.fields[i].offset`. -/
def Val.field (v : Val) (i : Nat) : Val :=
  match v with
  | Val.struct fs => fs.getD i (Val.int 0)
  | _ => Val.int 0

/-- Store `x` into the member at entry `i` of a record. -/
def Val.set_field (v : Val) (i : Nat) (x : Val) : Val :=
  match v with
  | Val.struct fs => Val.struct (fs.set i x)
  | w => w

/-- The C value of a `size_t` converted to `int`. -/
def sizet_to_int (n : Nat) : Int :=
  let m : Nat := n % 2 ^ 32
  if m < 2 ^ 31 then (m : Int) else (m : Int) - 2 ^ 32

/-! ## Token stream -/

/-- The token part of `I3ipc_json_state`: `tokens` holds the tokens from `tokens_cur` on. -/
structure I3ipc_json_state where
  tokens : List I3ipc_json_token
  err_flag : Bool
  deriving DecidableEq, Repr

/-- `i3ipc__json_peek`. After the end token nothing is read any more; the model then answers
with an end token. -/
def i3ipc__json_peek (state : I3ipc_json_state) : I3ipc_json_token :=
  state.tokens.headD tok_zero

/-- `i3ipc__json_pop`: the state after `tokens_cur++`. -/
def i3ipc__json_pop (state : I3ipc_json_state) : I3ipc_json_state :=
  { state with tokens := state.tokens.drop 1 }

/-- `i3ipc__json_trymatchany`: whether the next token has one of the types, the token in
`out_tok`, and the state. -/
def i3ipc__json_trymatchany (state : I3ipc_json_state) (type : List Nat) :
    Bool × I3ipc_json_token × I3ipc_json_state :=
  let tok := i3ipc__json_peek state
  if type.contains tok.type then (true, tok, i3ipc__json_pop state) else (false, tok, state)

/-- `i3ipc__json_matchany`: on a mismatch the error flag is set and the return code is 1
(here `false`); the diagnostic output is not modelled. -/
def i3ipc__json_matchany (state : I3ipc_json_state) (type : List Nat) :
    Bool × I3ipc_json_token × I3ipc_json_state :=
  let r := i3ipc__json_trymatchany state type
  if r.1 then r else (false, r.2.1, { state with err_flag := true })

/-- `i3ipc__json_trymatch` -/
def i3ipc__json_trymatch (state : I3ipc_json_state) (type : Nat) :
    Bool × I3ipc_json_token × I3ipc_json_state :=
  i3ipc__json_trymatchany state [type]

/-- `i3ipc__json_match` -/
def i3ipc__json_match (state : I3ipc_json_state) (type : Nat) :
    Bool × I3ipc_json_token × I3ipc_json_state :=
  i3ipc__json_matchany state [type]

/-- `i3ipc__json_looparr`: whether another element follows, and the state. -/
def i3ipc__json_looparr (state : I3ipc_json_state) (io_iter : Nat) : Bool × I3ipc_json_state :=
  if io_iter == 0 then
    let r := i3ipc__json_match state 91
    if !r.1 then (false, { r.2.2 with err_flag := true })
    else
      let r := i3ipc__json_trymatch r.2.2 93
      if r.1 then (false, r.2.2) else (true, r.2.2)
  else
    let r := i3ipc__json_matchany state [44, 93]
    if !r.1 then (false, { r.2.2 with err_flag := true })
    else if r.2.1.type != 44 then (false, r.2.2)
    else (true, r.2.2)

/-- The tail of `i3ipc__json_loopobj`: the key string and the colon. -/
def loopobj_key (state : I3ipc_json_state) : Bool × I3ipc_json_token × I3ipc_json_state :=
  let k := i3ipc__json_match state I3IPC_JSON_STRING
  if !k.1 then (false, tok_zero, k.2.2)
  else
    let c := i3ipc__json_match k.2.2 58
    if !c.1 then (false, tok_zero, c.2.2)
    else (true, k.2.1, c.2.2)

/-- `i3ipc__json_loopobj`: whether another member follows, its key, and the state. -/
def i3ipc__json_loopobj (state : I3ipc_json_state) (io_iter : Nat) :
    Bool × I3ipc_json_token × I3ipc_json_state :=
  if io_iter == 0 then
    let r := i3ipc__json_match state 123
    if !r.1 then (false, tok_zero, { r.2.2 with err_flag := true })
    else
      let r2 := i3ipc__json_trymatch r.2.2 125
      if r2.1 then (false, tok_zero, r2.2.2) else loopobj_key r2.2.2
  else
    let r := i3ipc__json_matchany state [44, 125]
    if !r.1 then (false, tok_zero, { r.2.2 with err_flag := true })
    else if r.2.1.type != 44 then (false, tok_zero, r.2.2)
    else loopobj_key r.2.2

mutual
/-- `i3ipc__json_skip`: the return code and the state. A matched `{` or `[` is put back
(`--state->tokens_cur`), so the loops start from the state before the match. -/
def i3ipc__json_skip : Nat → I3ipc_json_state → Outcome (Nat × I3ipc_json_state)
  | 0, _ => Outcome.starved
  | fuel + 1, state =>
    let r := i3ipc__json_matchany state
      [123, 91, I3IPC_JSON_STRING, I3IPC_JSON_NUMBER, I3IPC_JSON_BOOL, I3IPC_JSON_NULL]
    if !r.1 then Outcome.done (1, r.2.2)
    else if r.2.1.type == 123 then json_skip_obj fuel state 0
    else if r.2.1.type == 91 then json_skip_arr fuel state 0
    else Outcome.done (0, r.2.2)
/-- The object loop of `i3ipc__json_skip` from iteration `i` on. -/
def json_skip_obj : Nat → I3ipc_json_state → Nat → Outcome (Nat × I3ipc_json_state)
  | 0, _, _ => Outcome.starved
  | fuel + 1, state, i =>
    let r := i3ipc__json_loopobj state i
    if r.1 then
      match i3ipc__json_skip fuel r.2.2 with
      | Outcome.done (c, st) =>
        if c != 0 then Outcome.done (4, st) else json_skip_obj fuel st (i + 1)
      | o => o
    else if r.2.2.err_flag then Outcome.done (9, r.2.2)
    else Outcome.done (0, r.2.2)
/-- The array loop of `i3ipc__json_skip` from iteration `i` on. -/
def json_skip_arr : Nat → I3ipc_json_state → Nat → Outcome (Nat × I3ipc_json_state)
  | 0, _, _ => Outcome.starved
  | fuel + 1, state, i =>
    let r := i3ipc__json_looparr state i
    if r.1 then
      match i3ipc__json_skip fuel r.2 with
      | Outcome.done (c, st) =>
        if c != 0 then Outcome.done (4, st) else json_skip_arr fuel st (i + 1)
      | o => o
    else if r.2.err_flag then Outcome.done (9, r.2)
    else Outcome.done (0, r.2)
end

/-- The search of `i3ipc__parse_loopfields` for the entry whose JSON name equals the key:
derived entries are passed over and the first match wins; `none` is `field == -1`. -/
def find_field (type : I3ipc_type) (key : I3ipc_json_token) : Option Nat :=
  type.fields.findIdx? (fun f =>
    !hasflag f.flags I3IPC_TYPE_GROUP_DERIVED && strcmp_eq f.json_name key.str)

/-- The `while (true)` loop of `i3ipc__parse_loopfields`, entered with iteration count `j`:
members with an unknown key are skipped. The result is the return value, the field found and
the state. -/
def parse_loopfields_loop :
    Nat → I3ipc_json_state → I3ipc_type → Nat → Outcome (Bool × Nat × I3ipc_json_state)
  | 0, _, _, _ => Outcome.starved
  | fuel + 1, state, type, j =>
    let r := i3ipc__json_loopobj state j
    if !r.1 then Outcome.done (false, 0, r.2.2)
    else
      match find_field type r.2.1 with
      | some field => Outcome.done (true, field, r.2.2)
      | none =>
        match i3ipc__json_skip fuel r.2.2 with
        | Outcome.done (c, st) =>
          if c != 0 then Outcome.done (false, 0, st)
          else parse_loopfields_loop fuel st type 1
        | Outcome.fail c => Outcome.fail c
        | Outcome.aborted => Outcome.aborted
        | Outcome.starved => Outcome.starved

/-- `i3ipc__parse_loopfields`; `io_field` is `none` for -1. -/
def i3ipc__parse_loopfields (fuel : Nat) (state : I3ipc_json_state) (type : I3ipc_type)
    (io_field : Option Nat) : Outcome (Bool × Nat × I3ipc_json_state) :=
  parse_loopfields_loop fuel state type (if io_field.isNone then 0 else 1)

/-! ## Materializer -/

/-- `I3ipc_parse_state_allocs` -/
structure I3ipc_parse_state_allocs where
  size : Nat
  alignment : Nat
  deriving DecidableEq, Repr

/-- `I3ipc_parse_state`. `memory` says whether `p->memory` is set (second pass); `next_enum`
is NULL or the bytes at the string it points to. -/
structure I3ipc_parse_state where
  state : I3ipc_json_state
  allocs : List I3ipc_parse_state_allocs
  allocs_size : Nat
  memory : Bool
  copy_strings : Bool
  next_size : Int
  next_enum : Option (List Nat)
  next_set : Bool
  deriving DecidableEq, Repr

/-- The first loop of the enum branch of `i3ipc__parse_doderived`: the index after the
sentinel `$<full_name>`, `none` for `start == -1`. -/
def enum_start (full_name : List Nat) : Option Nat :=
  (i3ipc__global_enums.findIdx? (fun s =>
    match s with
    | some t => t.head? == some 36 && strcmp_eq (t.drop 1) full_name
    | none => false)).map (fun j => j + 1)

/-- The second loop of the enum branch of `i3ipc__parse_doderived` over the entries from
`start` on; `k` is `j - start`. The table ends with the sentinel `$$`, so the loop stops
inside it. -/
def enum_find (next_enum : Option (List Nat)) : List (Option (List Nat)) → Nat → Int
  | [], _ => -1
  | s :: rest, k =>
    match s, next_enum with
    | some t, some e =>
      if t.head? == some 36 then -1
      else if strcmp_eq t e then (k : Int) else enum_find next_enum rest (k + 1)
    | some t, none =>
      if t.head? == some 36 then -1 else enum_find next_enum rest (k + 1)
    | none, some _ => enum_find next_enum rest (k + 1)
    | none, none => (k : Int)

/-- The loop of `i3ipc__parse_doderived` over the entries `fs` that start at index `i`, for
the base entry `f0`. The assertions on the type of a derived entry hold for every entry of
the table and are left out. -/
def doderived_loop (p : I3ipc_parse_state) (f0 : I3ipc_field) :
    List I3ipc_field → Nat → Val → Val
  | [], _, base => base
  | f :: fs, i, base =>
    if !hasflag f.flags I3IPC_TYPE_GROUP_DERIVED then base
    else if hasflag f.flags I3IPC_TYPE_ISSIZE then
      doderived_loop p f0 fs (i + 1) (base.set_field i (Val.int p.next_size))
    else if hasflag f.flags I3IPC_TYPE_ISFLAG then
      doderived_loop p f0 fs (i + 1) (base.set_field i (Val.bool p.next_set))
    else
      match enum_start f0.full_name with
      | none => doderived_loop p f0 fs (i + 1) base
      | some start =>
        doderived_loop p f0 fs (i + 1)
          (base.set_field i (Val.int (enum_find p.next_enum (i3ipc__global_enums.drop start) 0)))

/-- `i3ipc__parse_doderived` -/
def i3ipc__parse_doderived (p : I3ipc_parse_state) (type : I3ipc_type) (field : Nat)
    (base : Val) : Val :=
  match type.fields.get? field with
  | some f0 => doderived_loop p f0 (type.fields.drop (field + 1)) (field + 1) base
  | none => base

/-- `i3ipc__parse_alloc`: the state, the handle, and the offset inside `p->memory` of the
returned pointer (`none` for NULL). In the first pass the request is appended. -/
def i3ipc__parse_alloc (p : I3ipc_parse_state) (size alignment : Nat) :
    I3ipc_parse_state × Nat × Option Nat :=
  if !p.memory then
    let a : I3ipc_parse_state_allocs := ⟨size, alignment⟩
    ({ p with
        allocs := if p.allocs_size < p.allocs.length then p.allocs.set p.allocs_size a
                  else p.allocs ++ [a],
        allocs_size := p.allocs_size + 1 }, p.allocs_size, none)
  else
    ({ p with allocs_size := p.allocs_size + 1 }, p.allocs_size,
      some ((p.allocs.getD p.allocs_size ⟨0, 0⟩).size))

/-- Set the size of request `index`: `p->allocs[index].size = size`. -/
def set_alloc_size (p : I3ipc_parse_state) (index size : Nat) : I3ipc_parse_state :=
  { p with allocs := p.allocs.modify (fun a => { a with size := size }) index }

/-- The end of `i3ipc__parse_helper`: `p->next_set = was_set; p->next_enum = was_enum`. -/
def parse_finish (p : I3ipc_parse_state) (was_set : Bool) (was_enum : Option (List Nat))
    (base : Option Val) : Outcome (I3ipc_parse_state × Option Val) :=
  Outcome.done ({ p with next_set := was_set, next_enum := was_enum }, base)

/-- The branch of `i3ipc__parse_helper` for `type_flags & I3IPC_TYPE_GROUP_MAYBE`; `helper`
is the recursive call. -/
def parse_maybe (helper : I3ipc_parse_state → Nat → Nat → Option Val →
      Outcome (I3ipc_parse_state × Option Val))
    (p : I3ipc_parse_state) (type : I3ipc_type) (type_id type_flags : Nat)
    (base : Option Val) : Outcome (I3ipc_parse_state × Option Val) :=
  let m := i3ipc__json_trymatch p.state I3IPC_JSON_NULL
  let p := { p with state := m.2.2 }
  if !m.1 then
    let inner := clearflag type_flags I3IPC_TYPE_GROUP_MAYBE
    if hasflag type_flags I3IPC_TYPE_ISPTR then
      let a := i3ipc__parse_alloc p type.size type.alignment
      let ptr_base := if a.2.2.isSome then some (zero_of type_id inner) else none
      match helper a.1 type_id inner ptr_base with
      | Outcome.done (p, ptr_base) =>
        parse_finish p true p.next_enum
          (base.map (fun _ => Val.block (ptr_base.map (fun v => [v]))))
      | Outcome.fail _ => Outcome.fail 6
      | Outcome.aborted => Outcome.aborted
      | Outcome.starved => Outcome.starved
    else
      match helper p type_id inner base with
      | Outcome.done (p, base) => parse_finish p true p.next_enum base
      | Outcome.fail _ => Outcome.fail 6
      | Outcome.aborted => Outcome.aborted
      | Outcome.starved => Outcome.starved
  else parse_finish { p with next_size := 0 } false none base

/-- The branch of `i3ipc__parse_helper` for a string (`is_string_type`). -/
def parse_string (p : I3ipc_parse_state) (type_id : Nat) (base : Option Val) :
    Outcome (I3ipc_parse_state × Option Val) :=
  let m := i3ipc__json_match p.state I3IPC_JSON_STRING
  let p := { p with state := m.2.2 }
  if !m.1 then Outcome.fail 1 else
  let tok := m.2.1
  let a := i3ipc__parse_alloc p (tok.str_size + 1) 1
  let p := if p.copy_strings then a.1 else p
  let str_base : Option (List Nat) :=
    if p.copy_strings then (if a.2.2.isSome then some (tok.str ++ [0]) else none)
    else some (tok.str ++ [0])
  match base with
  | some b =>
    if type_id == I3IPC_TYPE_STRING then
      parse_finish p true str_base
        (some ((b.set_field 0 (Val.chars str_base)).set_field 1 (Val.int tok.str_size)))
    else
      parse_finish { p with next_size := tok.str_size } true str_base
        (some (Val.chars str_base))
  | none => parse_finish p true none none

/-- The branch of `i3ipc__parse_helper` for `type_flags & I3IPC_TYPE_ISARRAY`; `array_loop`
is the loop over the elements. -/
def parse_array (array_loop : I3ipc_parse_state → Nat → Bool → Nat → List Val →
      Outcome (I3ipc_parse_state × Nat × List Val))
    (p : I3ipc_parse_state) (type : I3ipc_type) (type_id : Nat) (base : Option Val) :
    Outcome (I3ipc_parse_state × Option Val) :=
  let a := i3ipc__parse_alloc p (2 ^ 64 - 1) type.alignment
  let index := a.2.1
  match array_loop a.1 type_id (base.isSome && a.2.2.isSome) 0 [] with
  | Outcome.done (p, i, elems) =>
    if p.state.err_flag then Outcome.fail 9 else
    let p := if base.isNone then set_alloc_size p index ((i * type.size) % 2 ^ 64) else p
    parse_finish { p with next_size := i } true none
      (base.map (fun _ => Val.block (if a.2.2.isSome then some elems else none)))
  | Outcome.fail c => Outcome.fail c
  | Outcome.aborted => Outcome.aborted
  | Outcome.starved => Outcome.starved

/-- The branch of `i3ipc__parse_helper` for `type.is_inline`; `helper` is the recursive
call. -/
def parse_inline (helper : I3ipc_parse_state → Nat → Nat → Option Val →
      Outcome (I3ipc_parse_state × Option Val))
    (p : I3ipc_parse_state) (type : I3ipc_type) (base : Option Val) :
    Outcome (I3ipc_parse_state × Option Val) :=
  match type.fields with
  | [] => Outcome.aborted
  | field :: others =>
    if others.any (fun f => !hasflag f.flags I3IPC_TYPE_GROUP_DERIVED) then Outcome.aborted
    else
      match helper p field.type.toNat field.flags (base.map (fun b => b.field 0)) with
      | Outcome.done (p, inline_base) =>
        parse_finish p true none
          (match base, inline_base with
           | some b, some v => some (i3ipc__parse_doderived p type 0 (b.set_field 0 v))
           | b, _ => b)
      | Outcome.fail _ => Outcome.fail 17
      | Outcome.aborted => Outcome.aborted
      | Outcome.starved => Outcome.starved

/-- The branch of `i3ipc__parse_helper` for a primitive type. -/
def parse_primitive (p : I3ipc_parse_state) (type_id : Nat) (base : Option Val) :
    Outcome (I3ipc_parse_state × Option Val) :=
  let tok_type := if type_id == I3IPC_TYPE_BOOL then I3IPC_JSON_BOOL else I3IPC_JSON_NUMBER
  let m := i3ipc__json_match p.state tok_type
  let p := { p with state := m.2.2 }
  if !m.1 then Outcome.fail 1 else
  let tok := m.2.1
  match base with
  | none => parse_finish p true none none
  | some _ =>
    if type_id == I3IPC_TYPE_BOOL then parse_finish p true none (some (Val.bool tok.flag))
    else if type_id == I3IPC_TYPE_SIZET then
      parse_finish p true none (some (Val.sizet tok.number_long))
    else if type_id == I3IPC_TYPE_INT then
      parse_finish p true none (some (Val.int (sizet_to_int tok.number_long)))
    else if type_id == I3IPC_TYPE_FLOAT then
      parse_finish p true none (some (Val.float tok.number))
    else Outcome.aborted

/-- The branch of `i3ipc__parse_helper` for a record; `fields_loop` is the loop over the
members. -/
def parse_record (fields_loop : I3ipc_parse_state → I3ipc_type → Option Nat → Option Val →
      Outcome (I3ipc_parse_state × Option Val))
    (p : I3ipc_parse_state) (type : I3ipc_type) (base : Option Val) :
    Outcome (I3ipc_parse_state × Option Val) :=
  match fields_loop p type none base with
  | Outcome.done (p, base) =>
    if p.state.err_flag then Outcome.fail 9 else parse_finish p true none base
  | Outcome.fail c => Outcome.fail c
  | Outcome.aborted => Outcome.aborted
  | Outcome.starved => Outcome.starved

/-- What the body of the array loop does with the result of the element: the body of `for
(i = 0; i3ipc__json_looparr(&p->state, &i); ++i)`, with `again` the rest of the loop. -/
def array_loop_step (helper : I3ipc_parse_state → Nat → Nat → Option Val →
      Outcome (I3ipc_parse_state × Option Val))
    (again : I3ipc_parse_state → Nat → Bool → Nat → List Val →
      Outcome (I3ipc_parse_state × Nat × List Val))
    (p : I3ipc_parse_state) (type_id : Nat) (store : Bool) (i : Nat) (elems : List Val) :
    Outcome (I3ipc_parse_state × Nat × List Val) :=
  let r := i3ipc__json_looparr p.state i
  let p := { p with state := r.2 }
  if !r.1 then Outcome.done (p, i, elems)
  else
    match helper p type_id 0 (if store then some (zero_of type_id 0) else none) with
    | Outcome.done (p, v) => again p type_id store (i + 1) (elems ++ v.toList)
    | Outcome.fail _ => Outcome.fail 6
    | Outcome.aborted => Outcome.aborted
    | Outcome.starved => Outcome.starved

/-- One round of the record loop: `i3ipc__parse_loopfields`, then the body of the loop, then
the rest of the loop (`again`). `loopfields` is `i3ipc__parse_loopfields` with its fuel. -/
def fields_loop_step
    (loopfields : I3ipc_json_state → I3ipc_type → Option Nat →
      Outcome (Bool × Nat × I3ipc_json_state))
    (helper : I3ipc_parse_state → Nat → Nat → Option Val →
      Outcome (I3ipc_parse_state × Option Val))
    (again : I3ipc_parse_state → I3ipc_type → Option Nat → Option Val →
      Outcome (I3ipc_parse_state × Option Val))
    (p : I3ipc_parse_state) (type : I3ipc_type) (field : Option Nat) (base : Option Val) :
    Outcome (I3ipc_parse_state × Option Val) :=
  match loopfields p.state type field with
  | Outcome.done (more, field, st) =>
    let p := { p with state := st }
    if !more then Outcome.done (p, base)
    else
      match type.fields.get? field with
      | none => Outcome.aborted
      | some f =>
        match helper p f.type.toNat f.flags (base.map (fun b => b.field field)) with
        | Outcome.done (p, field_base) =>
          again p type (some field)
            (match base, field_base with
             | some b, some v => some (i3ipc__parse_doderived p type field (b.set_field field v))
             | b, _ => b)
        | Outcome.fail _ => Outcome.fail 3
        | Outcome.aborted => Outcome.aborted
        | Outcome.starved => Outcome.starved
  | Outcome.fail c => Outcome.fail c
  | Outcome.aborted => Outcome.aborted
  | Outcome.starved => Outcome.starved

mutual
/-- `i3ipc__parse_helper(p, type_id, type_flags, base)`. `base` is `none` for NULL (first
pass) and otherwise the present content of the memory at `base`; the result holds the content
after the call. The branches of the function are `parse_maybe`, `parse_string`,
`parse_array`, `parse_inline`, `parse_primitive` and `parse_record`, in the order of the
source. Any nonzero return code of a nested call becomes the code of the C `return`. -/
def i3ipc__parse_helper :
    Nat → I3ipc_parse_state → Nat → Nat → Option Val →
    Outcome (I3ipc_parse_state × Option Val)
  | 0, _, _, _, _ => Outcome.starved
  | fuel + 1, p, type_id, type_flags, base =>
    if type_id == I3IPC_TYPE_EVENT then Outcome.aborted else
    match i3ipc__type_get type_id with
    | none => Outcome.aborted
    | some type =>
    if hasflag type_flags I3IPC_TYPE_GROUP_MAYBE then
      parse_maybe (i3ipc__parse_helper fuel) p type type_id type_flags base
    else if (type_id == I3IPC_TYPE_STRING && type_flags == 0)
        || (type_id == I3IPC_TYPE_CHAR && hasflag type_flags I3IPC_TYPE_ISARRAY) then
      parse_string p type_id base
    else if hasflag type_flags I3IPC_TYPE_ISARRAY then
      parse_array (parse_array_loop fuel) p type type_id base
    else if type.is_inline then
      parse_inline (i3ipc__parse_helper fuel) p type base
    else if type_flags == 0 && type.is_primitive then
      parse_primitive p type_id base
    else if type_flags == 0 then
      parse_record (parse_fields_loop fuel) p type base
    else Outcome.aborted
/-- The array loop of `i3ipc__parse_helper`: `for (i = 0; i3ipc__json_looparr(&p->state, &i);
++i)`. `elems` holds the elements written so far into the block at `arr_base`, each parsed
into zeroed memory; `store` says whether elements are written at all. -/
def parse_array_loop :
    Nat → I3ipc_parse_state → Nat → Bool → Nat → List Val →
    Outcome (I3ipc_parse_state × Nat × List Val)
  | 0, _, _, _, _, _ => Outcome.starved
  | fuel + 1, p, type_id, store, i, elems =>
    array_loop_step (i3ipc__parse_helper fuel) (parse_array_loop fuel) p type_id store i elems
/-- The record loop of `i3ipc__parse_helper`: `for (int field = -1;
i3ipc__parse_loopfields(&p->state, &type, &field);)`. -/
def parse_fields_loop :
    Nat → I3ipc_parse_state → I3ipc_type → Option Nat → Option Val →
    Outcome (I3ipc_parse_state × Option Val)
  | 0, _, _, _, _ => Outcome.starved
  | fuel + 1, p, type, field, base =>
    fields_loop_step (i3ipc__parse_loopfields fuel) (i3ipc__parse_helper fuel)
      (parse_fields_loop fuel) p type field base
end

/-- `I3IPC_ERROR_MALFORMED` -/
def I3IPC_ERROR_MALFORMED : Nat := 257

/-- The alignment loop of `i3ipc_parse_try`: every request is replaced by its offset, and
the result also holds `total_size`. -/
def layout_allocs : List I3ipc_parse_state_allocs → Nat → List I3ipc_parse_state_allocs × Nat
  | [], off => ([], off)
  | a :: rest, off =>
    let i_size := a.size
    let off := ((off + a.alignment - 1) &&& (2 ^ 64 - 1 - (a.alignment - 1))) % 2 ^ 64
    let r := layout_allocs rest ((off + i_size) % 2 ^ 64)
    ({ a with size := off } :: r.1, r.2)

/-- Fuel for the two passes over `n` tokens. -/
def parse_fuel (n : Nat) : Nat := 4 * n + 16

/-- The first part of `i3ipc_parse_try`, up to the end of the first pass: the tokens, the
type, and the parse state behind the first pass, whose first `allocs_size` entries of
`allocs` are the requests. The text written to `i3ipc__err` is not part of the model; the
diagnostic of a type mismatch reads the names of both types as that of
`i3ipc_message_receive_try` does. -/
def parse_first_pass (staticalloc : Bool) (msg_type : Int) (payload : List Nat)
    (message_type : Int) (type_id : Nat) :
    Outcome (List I3ipc_json_token × I3ipc_type × I3ipc_parse_state) :=
  if msg_type != message_type then Outcome.fail I3IPC_ERROR_MALFORMED else
  match i3ipc__json_scan payload with
  | Outcome.done tokens =>
    match i3ipc__type_get type_id with
    | none => Outcome.aborted
    | some type =>
      let p : I3ipc_parse_state :=
        { state := ⟨tokens, false⟩, allocs := [], allocs_size := 0, memory := false,
          copy_strings := !staticalloc, next_size := 0, next_enum := none, next_set := false }
      let p := (i3ipc__parse_alloc p type.size type.alignment).1
      match i3ipc__parse_helper (parse_fuel tokens.length) p type_id 0 none with
      | Outcome.done (p, _) =>
        let m := i3ipc__json_match p.state 0
        if !m.1 then Outcome.fail I3IPC_ERROR_MALFORMED
        else Outcome.done (tokens, type, { p with state := m.2.2 })
      | Outcome.fail _ => Outcome.fail I3IPC_ERROR_MALFORMED
      | Outcome.aborted => Outcome.aborted
      | Outcome.starved => Outcome.starved
  | Outcome.fail _ => Outcome.fail I3IPC_ERROR_MALFORMED
  | Outcome.aborted => Outcome.aborted
  | Outcome.starved => Outcome.starved

/-- The requests of a parse state: the first `allocs_size` entries of `allocs`. -/
def I3ipc_parse_state.requests (p : I3ipc_parse_state) : List I3ipc_parse_state_allocs :=
  p.allocs.take p.allocs_size

/-- `i3ipc_parse_try(msg, message_type, type_id, &data)` in a context that is initialised
and holds no error, with `msg->message_type = msg_type` and the `message_length` payload
bytes `payload`. The result is the record at `data`; `fail I3IPC_ERROR_MALFORMED` is the
error that the call hands to `i3ipc__error_handle`. The first pass is `parse_first_pass`;
here follow the alignment loop and the second pass. -/
def i3ipc_parse_try (staticalloc : Bool) (msg_type : Int) (payload : List Nat)
    (message_type : Int) (type_id : Nat) : Outcome Val :=
  match parse_first_pass staticalloc msg_type payload message_type type_id with
  | Outcome.done (tokens, type, p) =>
    let plan := layout_allocs p.requests 0
    let p := { p with
      state := { p.state with tokens := tokens }, allocs := plan.1, allocs_size := 0,
      memory := true }
    let p := (i3ipc__parse_alloc p type.size type.alignment).1
    match i3ipc__parse_helper (parse_fuel tokens.length) p type_id 0
        (some (zero_of type_id 0)) with
    | Outcome.done (_, some data) => Outcome.done data
    | Outcome.done (_, none) => Outcome.aborted
    | Outcome.fail _ => Outcome.fail I3IPC_ERROR_MALFORMED
    | Outcome.aborted => Outcome.aborted
    | Outcome.starved => Outcome.starved
  | Outcome.fail c => Outcome.fail c
  | Outcome.aborted => Outcome.aborted
  | Outcome.starved => Outcome.starved

/-! ## Emitter -/

/-- The decimal digits of `n`, most significant first, in front of `acc`. -/
def decimal_digits : Nat → Nat → List Nat → List Nat
  | 0, _, acc => acc
  | fuel + 1, n, acc =>
    if n < 10 then (48 + n) :: acc else decimal_digits fuel (n / 10) ((48 + n % 10) :: acc)

/-- `printf("%lu", n)` for a 64-bit value. -/
def print_lu (n : Nat) : List Nat := decimal_digits 20 (n % 2 ^ 64) []

/-- `printf("%d", n)` -/
def print_d (n : Int) : List Nat :=
  if n < 0 then 45 :: decimal_digits 20 n.natAbs [] else decimal_digits 20 n.natAbs []

/-- A lower-case hexadecimal digit. -/
def hexdigit (n : Nat) : Nat := if n < 10 then 48 + n else 87 + n

/-- What the loop body of `i3ipc__printjson_string` writes for the byte `c`; a byte of 128 or
more is a negative `char` and is written unchanged. -/
def printjson_char (c : Nat) : List Nat :=
  if c == 92 || c == 34 then [92, c]
  else if c == 10 then [92, 110]
  else if c < 32 then [92, 117, 48, 48, hexdigit (c / 16), hexdigit (c % 16)]
  else [c]

/-- `i3ipc__printjson_string(f, str, str_size, for_human)`: the bytes written. `str` holds
the bytes at the pointer; `str_size = -1` stands for `strlen(str)`. -/
def i3ipc__printjson_string (str : List Nat) (str_size : Int) (for_human : Bool) : List Nat :=
  let str_size : Int := if str_size == -1 then ((cstr str).length : Int) else str_size
  let flag_dots := decide (str_size > 200) && for_human
  let str_size : Int := if flag_dots then 31 else str_size
  [34] ++ ((str.take str_size.toNat).map printjson_char).flatten ++ [34]
    ++ (if flag_dots then [46, 46, 46] else [])

/-- `*(int*)base` -/
def Val.as_int : Val → Int
  | Val.int n => n
  | _ => 0

/-- `*(bool*)base` -/
def Val.as_bool : Val → Bool
  | Val.bool b => b
  | _ => false

/-- The loop of `i3ipc__type_readderived`: `(field_set, field_size, field_enum)` read from
the derived entries `fs` that follow the field, which start at index `j`. -/
def readderived_loop : List I3ipc_field → Nat → Val → Bool × Int × Int → Bool × Int × Int
  | [], _, _, r => r
  | f :: fs, j, base, r =>
    if !hasflag f.flags I3IPC_TYPE_GROUP_DERIVED then r
    else if hasflag f.flags I3IPC_TYPE_ISFLAG then
      readderived_loop fs (j + 1) base ((base.field j).as_bool, r.2)
    else if hasflag f.flags I3IPC_TYPE_ISSIZE then
      readderived_loop fs (j + 1) base (r.1, (base.field j).as_int, r.2.2)
    else readderived_loop fs (j + 1) base (r.1, r.2.1, (base.field j).as_int)

/-- `i3ipc__type_readderived(type, field, base, &set, &size, &enum)` -/
def i3ipc__type_readderived (type : I3ipc_type) (field : Nat) (base : Val) : Bool × Int × Int :=
  readderived_loop (type.fields.drop (field + 1)) (field + 1) base (true, -1, -1)

/-- `*(char**)base` is not NULL. Only an optional `int` or `float` member is read this way
without being a pointer, and only when its `_set` sibling is true: the eight bytes read then
cover the sibling, so the answer is true. -/
def Val.nonnull : Val → Bool
  | Val.chars p => p.isSome
  | Val.block p => p.isSome
  | _ => true

/-- `i3ipc__field_is_set` -/
def i3ipc__field_is_set : Nat → Nat → Nat → Val → Bool
  | 0, _, _, _ => true
  | fuel + 1, type_id, type_flags, base =>
    let is_string_type := (type_id == I3IPC_TYPE_STRING && type_flags == 0)
      || (type_id == I3IPC_TYPE_CHAR && hasflag type_flags I3IPC_TYPE_ISARRAY)
    match i3ipc__type_get type_id with
    | none => true
    | some type =>
      if hasflag type_flags (I3IPC_TYPE_ISPTR ||| I3IPC_TYPE_ISOPT) then base.nonnull
      else if is_string_type then
        (if type_id == I3IPC_TYPE_STRING then (base.field 0).nonnull else base.nonnull)
      else if hasflag type_flags I3IPC_TYPE_ISARRAY then base.nonnull
      else if type.is_inline then
        match type.fields with
        | field :: _ => i3ipc__field_is_set fuel field.type.toNat field.flags (base.field 0)
        | [] => true
      else true

/-- `I3IPC_EVENT_WORKSPACE`, the first event type (`I3IPC_EVENT_TYPE_BEGIN`). -/
def I3IPC_EVENT_WORKSPACE : Int := -2147483648

/-- `i3ipc__message_type_to_event`; `none` for -1. -/
def i3ipc__message_type_to_event (message_type : Int) : Option Nat :=
  if message_type == I3IPC_EVENT_WORKSPACE then some I3IPC_TYPE_EVENT_WORKSPACE
  else if message_type == I3IPC_EVENT_WORKSPACE + 1 then some I3IPC_TYPE_EVENT_OUTPUT
  else if message_type == I3IPC_EVENT_WORKSPACE + 2 then some I3IPC_TYPE_EVENT_MODE
  else if message_type == I3IPC_EVENT_WORKSPACE + 3 then some I3IPC_TYPE_EVENT_WINDOW
  else if message_type == I3IPC_EVENT_WORKSPACE + 4 then some I3IPC_TYPE_EVENT_BARCONFIG_UPDATE
  else if message_type == I3IPC_EVENT_WORKSPACE + 5 then some I3IPC_TYPE_EVENT_BINDING
  else if message_type == I3IPC_EVENT_WORKSPACE + 6 then some I3IPC_TYPE_EVENT_SHUTDOWN
  else if message_type == I3IPC_EVENT_WORKSPACE + 7 then some I3IPC_TYPE_EVENT_TICK
  else none

/-- The size that the inline branch of `i3ipc__printjson_helper` reads from the derived
entries `fs` after the first one (index `i`); `none` for a failed assertion. -/
def inline_size : List I3ipc_field → Nat → Val → Int → Option Int
  | [], _, _, size => some size
  | f :: fs, i, base, _ =>
    if !hasflag f.flags I3IPC_TYPE_GROUP_DERIVED then none
    else if hasflag f.flags I3IPC_TYPE_ISSIZE then
      inline_size fs (i + 1) base (base.field i).as_int
    else none

mutual
/-- `i3ipc__printjson_helper(f, type_id, type_flags, base, size)`: the bytes written to `f`.
`fmt_f` is `printf("%f")` of a `float`. -/
def i3ipc__printjson_helper (fmt_f : I3ipc_double → List Nat) :
    Nat → Nat → Nat → Val → Int → Outcome (List Nat)
  | 0, _, _, _, _ => Outcome.starved
  | fuel + 1, type_id, type_flags, base, size =>
    let is_string_type := (type_id == I3IPC_TYPE_STRING && type_flags == 0)
      || (type_id == I3IPC_TYPE_CHAR && hasflag type_flags I3IPC_TYPE_ISARRAY)
    match i3ipc__type_get type_id with
    | none => Outcome.aborted
    | some type =>
    if hasflag type_flags I3IPC_TYPE_ISPTR then
      match base with
      | Val.block (some (ptr_base :: _)) =>
        i3ipc__printjson_helper fmt_f fuel type_id (type_flags ^^^ I3IPC_TYPE_ISPTR) ptr_base (-1)
      | _ => Outcome.aborted
    else if is_string_type then
      if type_id == I3IPC_TYPE_STRING then
        match base.field 0 with
        | Val.chars (some str) =>
          Outcome.done (i3ipc__printjson_string str (base.field 1).as_int false)
        | _ => Outcome.aborted
      else if size == -1 then Outcome.aborted
      else
        match base with
        | Val.chars (some str) => Outcome.done (i3ipc__printjson_string str size false)
        | _ => Outcome.aborted
    else if hasflag type_flags I3IPC_TYPE_ISARRAY then
      if size == -1 then Outcome.aborted
      else
        match base with
        | Val.block (some arr) =>
          (printjson_array fmt_f fuel type_id arr 0 size).bind (fun out =>
            Outcome.done ([91] ++ out ++ [93]))
        | _ => Outcome.aborted
    else if type.is_inline then
      match type.fields with
      | [] => Outcome.aborted
      | field :: others =>
        match inline_size others 1 base (-1) with
        | none => Outcome.aborted
        | some size =>
          i3ipc__printjson_helper fmt_f fuel field.type.toNat field.flags (base.field 0) size
    else if type_flags == 0 && type.is_primitive then
      match base with
      | Val.bool b => Outcome.done (if b then bytes "true" else bytes "false")
      | Val.sizet n => Outcome.done (print_lu n)
      | Val.int n => if type_id == I3IPC_TYPE_INT then Outcome.done (print_d n) else Outcome.aborted
      | Val.float d => Outcome.done (fmt_f d)
      | _ => Outcome.aborted
    else if type_flags == 0 && type_id == I3IPC_TYPE_EVENT then
      match base with
      | Val.event ev_type body =>
        match i3ipc__message_type_to_event ev_type with
        | some subtype => i3ipc__printjson_helper fmt_f fuel subtype type_flags body size
        | none => Outcome.aborted
      | _ => Outcome.aborted
    else if type_flags == 0 then
      (printjson_fields fmt_f fuel type type.fields 0 base).bind (fun out =>
        Outcome.done ([123] ++ out ++ [125]))
    else Outcome.aborted
/-- The array loop of `i3ipc__printjson_helper` from element `i` on. -/
def printjson_array (fmt_f : I3ipc_double → List Nat) :
    Nat → Nat → List Val → Nat → Int → Outcome (List Nat)
  | 0, _, _, _, _ => Outcome.starved
  | fuel + 1, type_id, arr, i, size =>
    if (i : Int) < size then
      match arr.get? i with
      | none => Outcome.aborted
      | some el =>
        (i3ipc__printjson_helper fmt_f fuel type_id 0 el (-1)).bind (fun x =>
          (printjson_array fmt_f fuel type_id arr (i + 1) size).bind (fun rest =>
            Outcome.done ((if i != 0 then [44] else []) ++ x ++ rest)))
    else Outcome.done []
/-- The record loop of `i3ipc__printjson_helper` over the entries `fs`, which start at
index `i`. -/
def printjson_fields (fmt_f : I3ipc_double → List Nat) :
    Nat → I3ipc_type → List I3ipc_field → Nat → Val → Outcome (List Nat)
  | 0, _, _, _, _ => Outcome.starved
  | _ + 1, _, [], _, _ => Outcome.done []
  | fuel + 1, type, field :: fs, i, base =>
    if hasflag field.flags I3IPC_TYPE_GROUP_DERIVED then
      printjson_fields fmt_f fuel type fs (i + 1) base
    else
      let d := i3ipc__type_readderived type i base
      let i_set := d.1 && i3ipc__field_is_set 4 field.type.toNat field.flags (base.field i)
      if !i_set && hasflag field.flags I3IPC_TYPE_ISOMIT then
        printjson_fields fmt_f fuel type fs (i + 1) base
      else if !(!i_set && hasflag field.flags I3IPC_TYPE_ISOPT) && !i_set then
        printjson_fields fmt_f fuel type fs (i + 1) base
      else
        let head := (if i != 0 then [44] else [])
          ++ i3ipc__printjson_string field.json_name (-1) false ++ [58]
        (if i_set then
          i3ipc__printjson_helper fmt_f fuel field.type.toNat
            (clearflag field.flags I3IPC_TYPE_ISOPT) (base.field i) d.2.1
         else Outcome.done (bytes "null")).bind (fun x =>
          (printjson_fields fmt_f fuel type fs (i + 1) base).bind (fun rest =>
            Outcome.done (head ++ x ++ rest)))
end

mutual
/-- Number of nodes of a value, used as fuel by the emitter. -/
def Val.weight : Val → Nat
  | Val.block (some l) => 1 + Val.weight_list l
  | Val.struct l => 1 + Val.weight_list l
  | Val.event _ b => 1 + Val.weight b
  | _ => 1
/-- Number of nodes of a list of values. -/
def Val.weight_list : List Val → Nat
  | [] => 1
  | v :: l => Val.weight v + Val.weight_list l
end

/-- `i3ipc_printjson(type_id, obj, f)` with no error latched: the bytes written to `f`. -/
def i3ipc_printjson (fmt_f : I3ipc_double → List Nat) (type_id : Nat) (obj : Val) :
    Outcome (List Nat) :=
  i3ipc__printjson_helper fmt_f (2 * obj.weight + 8) type_id 0 obj (-1)

/-! ## Public value enums and the enum table -/

/-- `enum I3ipc_node_values`: every constant with its value. -/
def I3ipc_node_values : List (String × Nat) :=
  [("I3IPC_NODE_TYPE_ROOT", 0), ("I3IPC_NODE_TYPE_OUTPUT", 1), ("I3IPC_NODE_TYPE_CON", 2),
   ("I3IPC_NODE_TYPE_FLOATING_CON", 3), ("I3IPC_NODE_TYPE_WORKSPACE", 4),
   ("I3IPC_NODE_TYPE_DOCKAREA", 5), ("I3IPC_NODE_BORDER_NORMAL", 0),
   ("I3IPC_NODE_BORDER_NONE", 1), ("I3IPC_NODE_BORDER_PIXEL", 2),
   ("I3IPC_NODE_LAYOUT_SPLITH", 0), ("I3IPC_NODE_LAYOUT_SPLITV", 1),
   ("I3IPC_NODE_LAYOUT_STACKED", 2), ("I3IPC_NODE_LAYOUT_TABBED", 3),
   ("I3IPC_NODE_LAYOUT_DOCKAREA", 4), ("I3IPC_NODE_LAYOUT_OUTPUT", 5),
   ("I3IPC_NODE_ORIENTATION_NONE", 0), ("I3IPC_NODE_ORIENTATION_HORIZONTAL", 1),
   ("I3IPC_NODE_ORIENTATION_VERTICAL", 2), ("I3IPC_NODE_WINDOW_TYPE_NULL", 0),
   ("I3IPC_NODE_WINDOW_TYPE_NORMAL", 1), ("I3IPC_NODE_WINDOW_TYPE_DIALOG", 2),
   ("I3IPC_NODE_WINDOW_TYPE_UTILITY", 3), ("I3IPC_NODE_WINDOW_TYPE_TOOLBAR", 4),
   ("I3IPC_NODE_WINDOW_TYPE_SPLASH", 5), ("I3IPC_NODE_WINDOW_TYPE_MENU", 6),
   ("I3IPC_NODE_WINDOW_TYPE_DROPDOWN_MENU", 7), ("I3IPC_NODE_WINDOW_TYPE_POPUP_MENU", 8),
   ("I3IPC_NODE_WINDOW_TYPE_TOOLTIP", 9), ("I3IPC_NODE_WINDOW_TYPE_NOTIFICATION", 10),
   ("I3IPC_NODE_WINDOW_TYPE_DOCK", 11), ("I3IPC_NODE_WINDOW_TYPE_UNKNOWN", 12)]

/-- `enum I3ipc_reply_bar_config_values`: every constant with its value. -/
def I3ipc_reply_bar_config_values : List (String × Nat) :=
  [("I3IPC_BAR_CONFIG_MODE_DOCK", 0), ("I3IPC_BAR_CONFIG_MODE_HIDE", 1),
   ("I3IPC_BAR_CONFIG_POSITION_BOTTOM", 0), ("I3IPC_BAR_CONFIG_POSITION_TOP", 1)]

/-- `enum I3ipc_event_workspace_values`: every constant with its value. -/
def I3ipc_event_workspace_values : List (String × Nat) :=
  [("I3IPC_WORKSPACE_CHANGE_FOCUS", 0), ("I3IPC_WORKSPACE_CHANGE_INIT", 1),
   ("I3IPC_WORKSPACE_CHANGE_EMPTY", 2), ("I3IPC_WORKSPACE_CHANGE_URGENT", 3),
   ("I3IPC_WORKSPACE_CHANGE_RELOAD", 4), ("I3IPC_WORKSPACE_CHANGE_RENAME", 5),
   ("I3IPC_WORKSPACE_CHANGE_RESTORED", 6), ("I3IPC_WORKSPACE_CHANGE_MOVE", 7)]

/-- `enum I3ipc_event_output_values`: every constant with its value. -/
def I3ipc_event_output_values : List (String × Nat) :=
  [("I3IPC_OUTPUT_CHANGE_UNSPECIFIED", 0)]

/-- `enum I3ipc_event_window_values`: every constant with its value. -/
def I3ipc_event_window_values : List (String × Nat) :=
  [("I3IPC_WINDOW_CHANGE_NEW", 0), ("I3IPC_WINDOW_CHANGE_CLOSE", 1),
   ("I3IPC_WINDOW_CHANGE_FOCUS", 2), ("I3IPC_WINDOW_CHANGE_TITLE", 3),
   ("I3IPC_WINDOW_CHANGE_FULLSCREEN_MODE", 4), ("I3IPC_WINDOW_CHANGE_MOVE", 5),
   ("I3IPC_WINDOW_CHANGE_FLOATING", 6), ("I3IPC_WINDOW_CHANGE_URGENT", 7),
   ("I3IPC_WINDOW_CHANGE_MARK", 8)]

/-- `enum I3ipc_event_binding_values`: every constant with its value. -/
def I3ipc_event_binding_values : List (String × Nat) :=
  [("I3IPC_BINDING_CHANGE_RUN", 0), ("I3IPC_BINDING_INPUT_TYPE_KEYBOARD", 0),
   ("I3IPC_BINDING_INPUT_TYPE_MOUSE", 1)]

/-- `enum I3ipc_event_shutdown_values`: every constant with its value. -/
def I3ipc_event_shutdown_values : List (String × Nat) :=
  [("I3IPC_SHUTDOWN_CHANGE_RESTART", 0), ("I3IPC_SHUTDOWN_CHANGE_EXIT", 1)]

/-- The groups of constants: the enum, the prefix of the constant names of the group, and
the name after `$` of the partition of `i3ipc__global_enums` that lists the group. -/
def enum_groups : List (List (String × Nat) × String × String) :=
  [(I3ipc_node_values, "I3IPC_NODE_TYPE_", "I3ipc_node.type"),
   (I3ipc_node_values, "I3IPC_NODE_BORDER_", "I3ipc_node.border"),
   (I3ipc_node_values, "I3IPC_NODE_LAYOUT_", "I3ipc_node.layout"),
   (I3ipc_node_values, "I3IPC_NODE_ORIENTATION_", "I3ipc_node.orientation"),
   (I3ipc_node_values, "I3IPC_NODE_WINDOW_TYPE_", "I3ipc_node.window_type"),
   (I3ipc_reply_bar_config_values, "I3IPC_BAR_CONFIG_MODE_", "I3ipc_bar_config.mode"),
   (I3ipc_reply_bar_config_values, "I3IPC_BAR_CONFIG_POSITION_", "I3ipc_bar_config.position"),
   (I3ipc_event_workspace_values, "I3IPC_WORKSPACE_CHANGE_", "I3ipc_event_workspace.change"),
   (I3ipc_event_output_values, "I3IPC_OUTPUT_CHANGE_", "I3ipc_event_output.change"),
   (I3ipc_event_window_values, "I3IPC_WINDOW_CHANGE_", "I3ipc_event_window.change"),
   (I3ipc_event_binding_values, "I3IPC_BINDING_CHANGE_", "I3ipc_event_binding.change"),
   (I3ipc_event_binding_values, "I3IPC_BINDING_INPUT_TYPE_", "I3ipc_event_binding.input_type"),
   (I3ipc_event_shutdown_values, "I3IPC_SHUTDOWN_CHANGE_", "I3ipc_event_shutdown.change")]

/-- The constants of a group: those whose name starts with the prefix. -/
def group_constants (g : List (String × Nat) × String × String) : List (List Nat × Nat) :=
  (g.1.map (fun c => (bytes c.1, c.2))).filter (fun c => (bytes g.2.1).isPrefixOf c.1)

/-- The table entry that a constant name stands for: the name without the prefix of its
group in lower case, and the NULL entry for the name `NULL`. -/
def constant_entry (pre name : List Nat) : Option (List Nat) :=
  let rest := name.drop pre.length
  if rest == bytes "NULL" then none
  else some (rest.map (fun c => if 65 ≤ c && c ≤ 90 then c + 32 else c))

/-- The partition of `i3ipc__global_enums` named `full_name`: the entries after the sentinel
`$<full_name>` up to the next sentinel. -/
def enum_partition (full_name : List Nat) : List (Option (List Nat)) :=
  match enum_start full_name with
  | some start =>
    (i3ipc__global_enums.drop start).takeWhile (fun s =>
      match s with
      | some t => t.head? != some 36
      | none => true)
  | none => []

/-- The index of the first entry of a partition that equals `s` as a C string, -1 when there
is none. -/
def enum_index (part : List (Option (List Nat))) (s : List Nat) : Int :=
  match part.findIdx? (fun e => e == some (cstr s)) with
  | some k => (k : Int)
  | none => -1

/-! ## Reading records -/

/-- The index of the entry of type `type_id` whose C member is called `name`. -/
def member_index (type_id : Nat) (name : String) : Nat :=
  match i3ipc__type_get type_id with
  | some t => (t.fields.findIdx? (fun f => f.name == bytes name)).getD 0
  | none => 0

/-- The member `name` of a record of type `type_id`. -/
def Val.member (v : Val) (type_id : Nat) (name : String) : Val :=
  v.field (member_index type_id name)

/-- The bytes a `char*` points to, `none` for NULL. -/
def Val.as_chars : Val → Option (List Nat)
  | Val.chars p => p
  | _ => none

/-- The elements of the block a pointer points to, `none` for NULL. -/
def Val.elems : Val → Option (List Val)
  | Val.block p => p
  | _ => none

/-- The record a pointer points to (the first element of its block). -/
def Val.target (v : Val) : Val :=
  match v with
  | Val.block (some (x :: _)) => x
  | _ => Val.struct []

/-- The enum-annotated members of the registry: the type, the index of the string entry,
and the index of its `_enum` entry. -/
def enum_members : List (Nat × Nat × Nat) :=
  (List.range I3IPC_TYPE_COUNT).flatMap (fun type_id =>
    match i3ipc__type_get type_id with
    | some t =>
      (List.range t.fields.length).filterMap (fun i =>
        match t.fields.get? (i + 2) with
        | some e => if hasflag e.flags I3IPC_TYPE_ISENUM then some (type_id, i, i + 2) else none
        | none => none)
    | none => [])

/-! ## Context, sockets and messages -/

/-- `I3IPC_STATE_UNINITIALIZED` -/
def I3IPC_STATE_UNINITIALIZED : Int := 0
/-- `I3IPC_STATE_READY` -/
def I3IPC_STATE_READY : Int := 1
/-- `I3IPC_ERROR_CLOSED` -/
def I3IPC_ERROR_CLOSED : Int := 256
/-- `I3IPC_ERROR_MALFORMED` as an `int` -/
def I3IPC_ERROR_MALFORMED_code : Int := 257
/-- `I3IPC_ERROR_IO` -/
def I3IPC_ERROR_IO : Int := 258
/-- `I3IPC_ERROR_FAILED` -/
def I3IPC_ERROR_FAILED : Int := 259
/-- `I3IPC_ERROR_BADSTATE` -/
def I3IPC_ERROR_BADSTATE : Int := -1
/-- `I3IPC_STATE_ERROR_BEGIN` -/
def I3IPC_STATE_ERROR_BEGIN : Int := I3IPC_ERROR_CLOSED

/-- `I3IPC_RUN_COMMAND` -/
def I3IPC_RUN_COMMAND : Int := 0
/-- `I3IPC_SUBSCRIBE` -/
def I3IPC_SUBSCRIBE : Int := 2
/-- `I3IPC_GET_BAR_CONFIG` -/
def I3IPC_GET_BAR_CONFIG : Int := 6
/-- `I3IPC_SEND_TICK` -/
def I3IPC_SEND_TICK : Int := 10
/-- `I3IPC_SYNC` -/
def I3IPC_SYNC : Int := 11
/-- `I3IPC_MESSAGE_TYPE_COUNT` -/
def I3IPC_MESSAGE_TYPE_COUNT : Int := 12
/-- `I3IPC_REPLY_COMMAND` -/
def I3IPC_REPLY_COMMAND : Int := 0
/-- `I3IPC_REPLY_SUBSCRIBE` -/
def I3IPC_REPLY_SUBSCRIBE : Int := 2
/-- `I3IPC_EVENT_WINDOW` -/
def I3IPC_EVENT_WINDOW : Int := I3IPC_EVENT_WORKSPACE + 3
/-- `I3IPC_EVENT_TYPE_BEGIN` -/
def I3IPC_EVENT_TYPE_BEGIN : Int := I3IPC_EVENT_WORKSPACE
/-- `I3IPC_EVENT_TYPE_END` -/
def I3IPC_EVENT_TYPE_END : Int := I3IPC_EVENT_WORKSPACE + 8
/-- `I3IPC_EVENT_ANY` -/
def I3IPC_EVENT_ANY : Int := -2

/-- `I3IPC_WRITE_ALL_EOF` -/
def I3IPC_WRITE_ALL_EOF : Nat := 102
/-- `I3IPC_READ_ALL_ERROR` -/
def I3IPC_READ_ALL_ERROR : Nat := 201
/-- `I3IPC_READ_ALL_EOF` -/
def I3IPC_READ_ALL_EOF : Nat := 202
/-- `I3IPC_READ_ALL_WOULDBLOCK` -/
def I3IPC_READ_ALL_WOULDBLOCK : Nat := 203

/-- `sizeof(I3ipc_message)`: the struct is packed. -/
def sizeof_message : Nat := 14

/-- An `int32_t` read from four bytes in host order (little endian). -/
def int32_of_bytes (b : List Nat) : Int :=
  let u : Nat := b.getD 0 0 % 256 + 256 * (b.getD 1 0 % 256) + 65536 * (b.getD 2 0 % 256)
    + 16777216 * (b.getD 3 0 % 256)
  if u < 2 ^ 31 then (u : Int) else (u : Int) - 2 ^ 32

/-- The four bytes of an `int32_t` in host order (little endian). -/
def bytes_of_int32 (n : Int) : List Nat :=
  let u : Nat := (n % 2 ^ 32).toNat
  [u % 256, u / 256 % 256, u / 65536 % 256, u / 16777216 % 256]

/-- `I3ipc_message` as it lies in a buffer: the members of the struct and the bytes that
follow it. -/
structure I3ipc_message where
  magic : List Nat
  message_length : Int
  message_type : Int
  data : List Nat
  deriving DecidableEq, Repr

/-- The message that starts at the first byte of a buffer. -/
def message_at (buf : List Nat) : I3ipc_message :=
  { magic := buf.take 6, message_length := int32_of_bytes (buf.drop 6),
    message_type := int32_of_bytes (buf.drop 10), data := buf.drop sizeof_message }

/-- The bytes of the struct `I3ipc_message` with magic `i3-ipc`. -/
def message_header (message_length message_type : Int) : List Nat :=
  bytes "i3-ipc" ++ bytes_of_int32 message_length ++ bytes_of_int32 message_type

/-- What `read` answers once the data that the peer has sent is used up: 0 (`eof`), -1 with
`EWOULDBLOCK` or `EAGAIN` (`wouldblock`), or -1 with another `errno` (`error`). -/
inductive Sock_end where
  | eof
  | error
  | wouldblock
  deriving DecidableEq, Repr

/-- The incoming side of a socket: the bytes that the peer has sent and are not yet read, and
what happens behind them. -/
structure I3ipc_sock where
  data : List Nat
  at_end : Sock_end
  deriving DecidableEq, Repr

/-- `i3ipc__read_all_try(fd, buf, buf_size)`: the return code, the bytes stored in `buf`, and
the socket. The single `read` calls of the loop are not told apart. -/
def i3ipc__read_all_try (s : I3ipc_sock) (buf_size : Nat) : Nat × List Nat × I3ipc_sock :=
  if buf_size ≤ s.data.length then
    (0, s.data.take buf_size, { s with data := s.data.drop buf_size })
  else
    (match s.at_end with
     | Sock_end.eof => I3IPC_READ_ALL_EOF
     | Sock_end.error => I3IPC_READ_ALL_ERROR
     | Sock_end.wouldblock => I3IPC_READ_ALL_WOULDBLOCK,
     s.data, { s with data := [] })

/-- `I3ipc_context`. `msg` is the content of `buffers[I3IPC_CONTEXT_MSG]` as far as it has
been written by the last operation on it; `reorder` holds the entries
`buffers[I3IPC_CONTEXT_REORDER][0 .. events_queued-1]`, each with the bytes that were copied
into it, so that `events_queued` is the length of the list: entries from `events_queued` on
are never read. -/
structure I3ipc_context where
  state : Int
  sock : Int
  sock_events : Int
  nopanic : Bool
  staticalloc : Bool
  debug_do_not_write_messages : Bool
  debug_nodata_is_error : Bool
  loglevel : Int
  reorder : List (List Nat)
  msg : List Nat
  deriving DecidableEq, Repr

/-- `context->events_queued` -/
def I3ipc_context.events_queued (context : I3ipc_context) : Nat := context.reorder.length

/-- The global context together with what the program sees of its surroundings: the data
arriving on the two sockets, the frames written so far (`true` marks the event socket), and
the results of the coming calls that open a socket (`some fd` on success), of the coming
calls of `i3ipc__write_all_try`, and of the coming calls of `poll`. -/
structure I3ipc_world where
  context : I3ipc_context
  sock_data : I3ipc_sock
  sock_events_data : I3ipc_sock
  written : List (Bool × List Nat)
  opens : List (Option Int)
  writes : List Nat
  polls : List Int
  deriving DecidableEq, Repr

/-- `i3ipc_error_code` -/
def i3ipc_error_code (context : I3ipc_context) : Int :=
  if context.state < I3IPC_STATE_ERROR_BEGIN then 0 else context.state

/-- `i3ipc_error_reinitialize(force_reinit)`; `aborted` is the failing `assert(code)`. -/
def i3ipc_error_reinitialize (w : I3ipc_world) (force_reinit : Bool) : Outcome I3ipc_world :=
  let code := i3ipc_error_code w.context
  if code == 0 then Outcome.aborted
  else if code != I3IPC_ERROR_FAILED || force_reinit then
    Outcome.done { w with context :=
      { w.context with state := I3IPC_STATE_UNINITIALIZED, sock := 0, sock_events := 0,
                       reorder := [] } }
  else
    Outcome.done { w with context := { w.context with state := I3IPC_STATE_READY } }

/-- `i3ipc__error_handle(code)`: the code is latched unless it is `I3IPC_ERROR_BADSTATE`;
without `nopanic` the program aborts. -/
def i3ipc__error_handle (w : I3ipc_world) (code : Int) : Outcome (I3ipc_world × Int) :=
  if code != 0 then
    let w := if code != I3IPC_ERROR_BADSTATE
      then { w with context := { w.context with state := code } } else w
    if !w.context.nopanic then Outcome.aborted else Outcome.done (w, code)
  else Outcome.done (w, code)

/-- `i3ipc_set_staticalloc`: the world and the previous value. -/
def i3ipc_set_staticalloc (w : I3ipc_world) (value : Bool) : I3ipc_world × Bool :=
  ({ w with context := { w.context with staticalloc := value } }, w.context.staticalloc)

/-- `i3ipc_init_try(NULL)`. The two calls of `i3ipc__socket_open_try` take their results
from `opens`. -/
def i3ipc_init_try (w : I3ipc_world) : I3ipc_world × Int :=
  if w.context.state == I3IPC_STATE_READY then (w, 0)
  else if i3ipc_error_code w.context != 0 then (w, I3IPC_ERROR_BADSTATE)
  else
    match w.opens with
    | some fd :: some fd_events :: rest =>
      ({ w with context := { w.context with sock := fd, sock_events := fd_events,
                                            state := I3IPC_STATE_READY },
                opens := rest }, 0)
    | some fd :: rest =>
      ({ w with context := { w.context with sock := fd, state := I3IPC_ERROR_CLOSED },
                opens := rest.drop 1 }, I3IPC_ERROR_CLOSED)
    | rest =>
      ({ w with context := { w.context with state := I3IPC_ERROR_CLOSED },
                opens := rest.drop 1 }, I3IPC_ERROR_CLOSED)

/-- `i3ipc__message_type_to_socket`: `true` for `sock_events`, `false` for `sock`, and `none`
when `assert(false)` is reached. -/
def i3ipc__message_type_to_socket (message_type : Int) : Option Bool :=
  if message_type == I3IPC_SUBSCRIBE then some true
  else if 0 ≤ message_type && message_type < I3IPC_MESSAGE_TYPE_COUNT then some false
  else if I3IPC_EVENT_TYPE_BEGIN ≤ message_type && message_type < I3IPC_EVENT_TYPE_END then
    some true
  else if message_type == I3IPC_EVENT_ANY then some true
  else none

/-- The incoming data of the socket chosen by `i3ipc__message_type_to_socket`. -/
def I3ipc_world.incoming (w : I3ipc_world) (events : Bool) : I3ipc_sock :=
  if events then w.sock_events_data else w.sock_data

/-- The world after a read from the chosen socket. -/
def I3ipc_world.set_incoming (w : I3ipc_world) (events : Bool) (s : I3ipc_sock) :
    I3ipc_world :=
  if events then { w with sock_events_data := s } else { w with sock_data := s }

/-- The world with another content of `buffers[I3IPC_CONTEXT_MSG]`. -/
def I3ipc_world.set_msg (w : I3ipc_world) (buf : List Nat) : I3ipc_world :=
  { w with context := { w.context with msg := buf } }

/-- `i3ipc_message_send_try(message_type, payload, payload_size)`. `payload` holds the bytes
at the pointer, `none` for NULL; `aborted` is a failing assertion. The model is that of the
code when `payload` holds at least `payload_size` bytes: for NULL or fewer bytes together
with a positive size the code sends what the message buffer or the memory behind `payload`
happens to hold, and the model sends the bytes that there are. -/
def i3ipc_message_send_try (w : I3ipc_world) (message_type : Int)
    (payload : Option (List Nat)) (payload_size : Int) : Outcome (I3ipc_world × Int) :=
  if !(0 ≤ message_type && message_type < I3IPC_MESSAGE_TYPE_COUNT) then Outcome.aborted
  else if !(-1 ≤ payload_size) then Outcome.aborted
  else
    let payload_size : Int :=
      if payload_size == -1 then
        (match payload with
         | some s => ((cstr s).length : Int)
         | none => 0)
      else payload_size
    let r := i3ipc_init_try w
    if r.2 != 0 then Outcome.done r
    else
      let w := r.1
      match i3ipc__message_type_to_socket message_type with
      | none => Outcome.aborted
      | some events =>
        let carries := message_type == I3IPC_RUN_COMMAND || message_type == I3IPC_SUBSCRIBE
          || message_type == I3IPC_SEND_TICK || message_type == I3IPC_SYNC
          || message_type == I3IPC_GET_BAR_CONFIG
        if !carries && payload_size != 0 then Outcome.aborted
        else
          let message_length : Int := if carries then payload_size else 0
          let body : List Nat :=
            if carries then (payload.getD []).take message_length.toNat else []
          let w := w.set_msg (message_header message_length message_type ++ body)
          if w.context.debug_do_not_write_messages then Outcome.done (w, 0)
          else
            let code := w.writes.headD 0
            let w := { w with writes := w.writes.drop 1 }
            if code == I3IPC_WRITE_ALL_EOF then i3ipc__error_handle w I3IPC_ERROR_CLOSED
            else if code != 0 then i3ipc__error_handle w I3IPC_ERROR_IO
            else Outcome.done ({ w with written := w.written ++ [(events, w.context.msg)] }, 0)

/-- Whether a message of type `msg_type` matches the expected `message_type` in
`i3ipc_message_receive_try`. -/
def receive_matches (message_type msg_type : Int) : Bool :=
  if msg_type == message_type then true
  else if message_type == I3IPC_EVENT_ANY then
    if msg_type == I3IPC_REPLY_SUBSCRIBE then true
    else if I3IPC_EVENT_TYPE_BEGIN ≤ msg_type && msg_type < I3IPC_EVENT_TYPE_END then true
    else false
  else false

/-- The part of `i3ipc_message_receive_try` behind the two reads: the return code `code` of
the reads is turned into an error, or the 0 byte is stored behind the payload and the type is
compared. The text written to `i3ipc__err` and `stderr` is not part of the model. On a
mismatch the code prints the names of both types, which it reads with
`i3ipc__message_type_str`; that read is inside the tables for every type but
`I3IPC_EVENT_TYPE_END`, where it is one entry behind `i3ipc__global_event_type_name`, so
for a frame of that type the model says what the code does up to the diagnostic only. -/
def receive_finish (w : I3ipc_world) (message_type : Int) (code : Nat) :
    Outcome (I3ipc_world × Int) :=
  if code == I3IPC_READ_ALL_EOF then i3ipc__error_handle w I3IPC_ERROR_CLOSED
  else if code == I3IPC_READ_ALL_WOULDBLOCK && w.context.debug_nodata_is_error then
    i3ipc__error_handle w I3IPC_ERROR_MALFORMED_code
  else if code != 0 then i3ipc__error_handle w I3IPC_ERROR_IO
  else
    let msg := message_at w.context.msg
    let w := w.set_msg (w.context.msg.take (sizeof_message + msg.message_length.toNat) ++ [0])
    if !receive_matches message_type msg.message_type then
      i3ipc__error_handle w I3IPC_ERROR_MALFORMED_code
    else Outcome.done (w, 0)

/-- `i3ipc_message_receive_try(message_type, &msg)`. The message received is the content of
`buffers[I3IPC_CONTEXT_MSG]`, that is `w.context.msg` of the result. `aborted` is a failing
assertion or `abort()`. -/
def i3ipc_message_receive_try (w : I3ipc_world) (message_type : Int) :
    Outcome (I3ipc_world × Int) :=
  let r := i3ipc_init_try w
  if r.2 != 0 then Outcome.done r
  else
    let w := r.1
    match i3ipc__message_type_to_socket message_type with
    | none => Outcome.aborted
    | some events =>
      let h := i3ipc__read_all_try (w.incoming events) sizeof_message
      let w := (w.set_incoming events h.2.2).set_msg h.2.1
      if h.1 == 0 then
        let msg := message_at w.context.msg
        if msg.message_length < 0 then i3ipc__error_handle w I3IPC_ERROR_MALFORMED_code
        else
          let size : Nat := (sizeof_message + msg.message_length.toNat + 1) % 2 ^ 64
          let size_max : Nat := 256 * 1024 * 1024
          if size > size_max then i3ipc__error_handle w I3IPC_ERROR_MALFORMED_code
          else
            let b := i3ipc__read_all_try (w.incoming events) msg.message_length.toNat
            let w := (w.set_incoming events b.2.2).set_msg (w.context.msg ++ b.2.1)
            receive_finish w message_type b.1
      else receive_finish w message_type h.1

/-- `i3ipc_message_try`: the message received is `w.context.msg` of the result. -/
def i3ipc_message_try (w : I3ipc_world) (message_type : Int) (payload : Option (List Nat))
    (payload_size : Int) : Outcome (I3ipc_world × Int) :=
  match i3ipc_message_send_try w message_type payload payload_size with
  | Outcome.done (w, code) =>
    if code != 0 then Outcome.done (w, code) else i3ipc_message_receive_try w message_type
  | o => o

/-- The loop `for (int i = 0;; ++i)` of `i3ipc_message_receive_reorder_try` from `i` on. -/
def receive_reorder_loop :
    Nat → I3ipc_world → Int → Nat → Outcome (I3ipc_world × Int)
  | 0, _, _, _ => Outcome.starved
  | fuel + 1, w, message_type, i =>
    if i < w.context.events_queued then
      match w.context.reorder.get? i with
      | none => Outcome.aborted
      | some entry =>
        if message_type == I3IPC_EVENT_ANY
            || (message_at entry).message_type == message_type then
          let size := sizeof_message + (message_at entry).message_length.toNat
          Outcome.done ({ w with context :=
            { w.context with msg := entry.take size,
                             reorder := w.context.reorder.eraseIdx i } }, 0)
        else receive_reorder_loop fuel w message_type (i + 1)
    else
      match i3ipc_message_receive_try w I3IPC_EVENT_ANY with
      | Outcome.done (w, code) =>
        if code != 0 then Outcome.done (w, code)
        else
          let msg := message_at w.context.msg
          if message_type == I3IPC_EVENT_ANY || msg.message_type == message_type then
            Outcome.done (w, 0)
          else if i != w.context.events_queued then Outcome.aborted
          else
            let size := sizeof_message + msg.message_length.toNat
            receive_reorder_loop fuel
              { w with context :=
                { w.context with reorder := w.context.reorder ++ [w.context.msg.take size] } }
              message_type (i + 1)
      | o => o

/-- `i3ipc_message_receive_reorder_try(message_type, &msg)`: the message is `w.context.msg`
of the result. Every round of the loop passes a queued entry or reads at least the 14 bytes
of a header, which bounds the number of rounds. -/
def i3ipc_message_receive_reorder_try (w : I3ipc_world) (message_type : Int) :
    Outcome (I3ipc_world × Int) :=
  let r := i3ipc_init_try w
  if r.2 != 0 then Outcome.done r
  else
    receive_reorder_loop (r.1.context.events_queued + r.1.sock_events_data.data.length + 2)
      r.1 message_type 0

/-- `i3ipc_parse_try(msg, message_type, type_id, &data)` on the global context: the world,
the return code and `data`. Setting `msg->message_length` to 0 is not modelled. -/
def i3ipc_parse_try_context (w : I3ipc_world) (msg : I3ipc_message) (message_type : Int)
    (type_id : Nat) : Outcome (I3ipc_world × Int × Option Val) :=
  if i3ipc_error_code w.context != 0 then Outcome.done (w, I3IPC_ERROR_BADSTATE, none)
  else
    let r := i3ipc_init_try w
    if r.2 != 0 then Outcome.done (r.1, r.2, none)
    else
      let w := r.1
      match i3ipc_parse_try w.context.staticalloc msg.message_type
          (msg.data.take msg.message_length.toNat) message_type type_id with
      | Outcome.done data => Outcome.done (w, 0, some data)
      | Outcome.fail _ =>
        (i3ipc__error_handle w I3IPC_ERROR_MALFORMED_code).bind
          (fun x => Outcome.done (x.1, x.2, none))
      | Outcome.aborted => Outcome.aborted
      | Outcome.starved => Outcome.starved

/-- `i3ipc_message_and_parse_try(message, type, payload, payload_size, &data)` -/
def i3ipc_message_and_parse_try (w : I3ipc_world) (message : Int) (type : Nat)
    (payload : Option (List Nat)) (payload_size : Int) :
    Outcome (I3ipc_world × Int × Option Val) :=
  if i3ipc_error_code w.context != 0 then Outcome.done (w, I3IPC_ERROR_BADSTATE, none)
  else
    match i3ipc_message_try w message payload payload_size with
    | Outcome.done (w, code) =>
      if code != 0 then Outcome.done (w, code, none)
      else i3ipc_parse_try_context w (message_at w.context.msg) message type
    | Outcome.fail c => Outcome.fail c
    | Outcome.aborted => Outcome.aborted
    | Outcome.starved => Outcome.starved

/-- `i3ipc_run_command(commands)`: the world and the reply, `none` for NULL. -/
def i3ipc_run_command (w : I3ipc_world) (commands : Option (List Nat)) :
    Outcome (I3ipc_world × Option Val) :=
  (i3ipc_message_and_parse_try w I3IPC_RUN_COMMAND I3IPC_TYPE_REPLY_COMMAND commands (-1)).bind
    (fun x => Outcome.done (x.1, x.2.2))

/-- The loop of `i3ipc_run_command_simple` over `reply->commands[i]` from the elements `els`
on: every element with `success == false` goes to `i3ipc__error_handle`. -/
def run_command_check : List Val → I3ipc_world → Outcome I3ipc_world
  | [], w => Outcome.done w
  | el :: els, w =>
    if !(el.member I3IPC_TYPE_REPLY_COMMAND_EL "success").as_bool then
      (i3ipc__error_handle w I3IPC_ERROR_FAILED).bind (fun x => run_command_check els x.1)
    else run_command_check els w

/-- `i3ipc_run_command_simple(command)`. The loop runs over the first `commands_size`
elements of `commands`; `aborted` also stands for a read outside of the array. -/
def i3ipc_run_command_simple (w : I3ipc_world) (command : Option (List Nat)) :
    Outcome I3ipc_world :=
  let s := i3ipc_set_staticalloc w true
  (i3ipc_run_command s.1 command).bind (fun x =>
    let w := (i3ipc_set_staticalloc x.1 s.2).1
    match x.2 with
    | none => Outcome.done w
    | some reply =>
      let commands_size :=
        (reply.member I3IPC_TYPE_REPLY_COMMAND "commands_size").as_int.toNat
      match (reply.member I3IPC_TYPE_REPLY_COMMAND "commands").elems with
      | none => if commands_size == 0 then Outcome.done w else Outcome.aborted
      | some els =>
        if els.length < commands_size then Outcome.aborted
        else run_command_check (els.take commands_size) w)

/-- `i3ipc__global_event_type_name` -/
def i3ipc__global_event_type_name : List String :=
  ["workspace", "output", "mode", "window", "barconfig_update", "binding", "shutdown", "tick"]

/-- The payload that `i3ipc_subscribe` builds from the event types from index `i` on;
`none` is a failing assertion. -/
def subscribe_payload : List Int → Nat → Option (List Nat)
  | [], _ => some []
  | ev :: evs, i =>
    if !(I3IPC_EVENT_TYPE_BEGIN ≤ ev && ev < I3IPC_EVENT_TYPE_END) then none
    else
      (subscribe_payload evs (i + 1)).map (fun rest =>
        (if i != 0 then [44] else []) ++ [34] ++
        ((bytes (i3ipc__global_event_type_name.getD (ev - I3IPC_EVENT_TYPE_BEGIN).toNat "")).take
          256) ++ [34] ++ rest)

/-- What `i3ipc_subscribe`, `i3ipc_send_tick` and `i3ipc_sync` do with the reply:
`!reply->success` goes to `i3ipc__error_handle(I3IPC_ERROR_MALFORMED)`. -/
def check_success (w : I3ipc_world) (type_id : Nat) (reply : Val) : Outcome I3ipc_world :=
  if !(reply.member type_id "success").as_bool then
    (i3ipc__error_handle w I3IPC_ERROR_MALFORMED_code).bind (fun x => Outcome.done x.1)
  else Outcome.done w

/-- The first loop of `i3ipc_subscribe` from index `i` on: what it adds to `size`, that is
`(i > 0) + 2 + strlen(c)` for each event type; `none` is a failing assertion. -/
def subscribe_size : List Int → Nat → Option Nat
  | [], _ => some 0
  | ev :: evs, i =>
    if !(I3IPC_EVENT_TYPE_BEGIN ≤ ev && ev < I3IPC_EVENT_TYPE_END) then none
    else
      (subscribe_size evs (i + 1)).map (fun rest =>
        (if i > 0 then 1 else 0) + 2 +
        (cstr (bytes (i3ipc__global_event_type_name.getD
          (ev - I3IPC_EVENT_TYPE_BEGIN).toNat ""))).length + rest)

/-- The part of `i3ipc_subscribe` behind `i3ipc_message_send_try`, which has returned `x.2`:
the reply is received, parsed and checked. -/
def subscribe_finish (x : I3ipc_world × Int) : Outcome I3ipc_world :=
  if x.2 != 0 then Outcome.done x.1
  else
    (i3ipc_message_receive_reorder_try x.1 I3IPC_REPLY_SUBSCRIBE).bind (fun y =>
      if y.2 != 0 then Outcome.done y.1
      else
        (i3ipc_parse_try_context y.1 (message_at y.1.context.msg) I3IPC_REPLY_SUBSCRIBE
            I3IPC_TYPE_REPLY_SUBSCRIBE).bind (fun z =>
          match z.2.2 with
          | none => Outcome.done z.1
          | some reply =>
            if z.2.1 != 0 then Outcome.done z.1
            else check_success z.1 I3IPC_TYPE_REPLY_SUBSCRIBE reply))

/-- `i3ipc_subscribe(event_type, event_type_size)`: `size` is computed, the `pos` bytes of the
buffer are written, `assert(pos == size)` is checked, and the buffer is sent. -/
def i3ipc_subscribe (w : I3ipc_world) (event_type : List Int) : Outcome I3ipc_world :=
  match subscribe_size event_type 0 with
  | none => Outcome.aborted
  | some added =>
    let size : Nat := 2 + added
    match subscribe_payload event_type 0 with
    | none => Outcome.aborted
    | some body =>
      let buf := [91] ++ body ++ [93]
      if buf.length != size then Outcome.aborted
      else
        (i3ipc_message_send_try w I3IPC_SUBSCRIBE (some (buf ++ [0])) size).bind
          subscribe_finish

/-- `i3ipc_send_tick(payload)` -/
def i3ipc_send_tick (w : I3ipc_world) (payload : Option (List Nat)) : Outcome I3ipc_world :=
  let s := i3ipc_set_staticalloc w true
  (i3ipc_message_and_parse_try s.1 I3IPC_SEND_TICK I3IPC_TYPE_REPLY_TICK payload (-1)).bind
    (fun x =>
      let w := (i3ipc_set_staticalloc x.1 s.2).1
      match x.2.2 with
      | none => Outcome.done w
      | some reply => check_success w I3IPC_TYPE_REPLY_TICK reply)

/-- The digit loops of `i3ipc_sync`: `for (i = 0; i < n; ++i) { buf[s0-i] = val % 10; val /=
10; if (!val) break; }` from `i` on with `n - i = left`; `none` is a write in front of the
buffer. -/
def sync_digits : Nat → List Nat → Nat → Nat → Nat → Option (List Nat)
  | 0, buf, _, _, _ => some buf
  | left + 1, buf, s0, val, i =>
    if s0 < i then none
    else
      let buf := buf.set (s0 - i) (val % 10)
      if val / 10 == 0 then some buf else sync_digits left buf s0 (val / 10) (i + 1)

/-- The payload that `i3ipc_sync` builds; `none` is a write outside of the buffer. -/
def sync_payload (random_value : Int) (window : Nat) : Option (List Nat) :=
  let s := bytes "\x7b\"rnd\":         @,\"window\":                   #\x7d"
  let s0 := (s.findIdx? (fun c => c == 64)).getD 0
  match sync_digits 10 s s0 (random_value % 2 ^ 32).toNat 0 with
  | none => none
  | some buf =>
    match sync_digits 20 buf s0 (window % 2 ^ 64) 0 with
    | none => none
    | some buf => some (buf.filter (fun c => c != 32))

/-- `i3ipc_sync(random_value, window)` -/
def i3ipc_sync (w : I3ipc_world) (random_value : Int) (window : Nat) : Outcome I3ipc_world :=
  if i3ipc_error_code w.context != 0 then Outcome.done w
  else
    match sync_payload random_value window with
    | none => Outcome.aborted
    | some buf =>
      let s := i3ipc_set_staticalloc w true
      (i3ipc_message_and_parse_try s.1 I3IPC_SYNC I3IPC_TYPE_REPLY_SYNC (some buf)
          buf.length).bind (fun x =>
        let w := (i3ipc_set_staticalloc x.1 s.2).1
        match x.2.2 with
        | none => Outcome.done w
        | some reply => check_success w I3IPC_TYPE_REPLY_SYNC reply)

/-- `i3ipc_event_next(timeout_ms)`: the world and the event, `none` for NULL. The result of
`poll` is taken from `polls`; `fd.events & POLLIN` is always set, as `fd.events` is
`POLLIN`. -/
def i3ipc_event_next (w : I3ipc_world) (timeout_ms : Int) :
    Outcome (I3ipc_world × Option Val) :=
  if i3ipc_error_code w.context != 0 then Outcome.done (w, none)
  else
    let code := w.polls.headD 0
    let w := { w with polls := w.polls.drop 1 }
    if code == -1 then
      (i3ipc__error_handle w I3IPC_ERROR_IO).bind (fun x => Outcome.done (x.1, none))
    else if code == 0 then Outcome.done (w, none)
    else if code != 1 then Outcome.aborted
    else
      (i3ipc_message_receive_reorder_try w I3IPC_EVENT_ANY).bind (fun x =>
        if x.2 != 0 then Outcome.done (x.1, none)
        else
          let msg := message_at x.1.context.msg
          match i3ipc__message_type_to_event msg.message_type with
          | none =>
            (i3ipc__error_handle x.1 I3IPC_ERROR_MALFORMED_code).bind
              (fun y => Outcome.done (y.1, none))
          | some type =>
            (i3ipc_parse_try_context x.1 msg msg.message_type type).bind (fun z =>
              if z.2.1 != 0 then Outcome.done (z.1, none)
              else Outcome.done (z.1, z.2.2.map (fun r => Val.event msg.message_type r))))

/-- The shape of an enum-annotated member at entry `i` of a type: a `char` array, possibly
optional, followed by its `_size` entry and its `_enum` entry and then by no further derived
entry, with a partition in the enum table that carries its full name. -/
def enum_member_shape (type : I3ipc_type) (i : Nat) : Bool :=
  match type.fields.get? i, type.fields.drop (i + 1) with
  | some f, fsz :: fen :: tail =>
    f.type == 1 && (f.flags == 1 || f.flags == 17) && fsz.flags == 2 && fen.flags == 4 &&
    tail.head?.all (fun g => !hasflag g.flags I3IPC_TYPE_GROUP_DERIVED) &&
    (enum_start f.full_name).isSome
  | _, _ => false

/-- The registry type with id `type_id`. -/
def type_of (type_id : Nat) : I3ipc_type :=
  (i3ipc__type_get type_id).getD ⟨-1, false, false, 0, 0, [], []⟩

/-- The member values of a record. -/
def Val.fields : Val → List Val
  | Val.struct fs => fs
  | _ => []


/-- The outputs of a `done` outcome, and `d` for any other outcome. -/
def Outcome.getD {α : Type} (o : Outcome α) (d : α) : α :=
  match o with
  | Outcome.done a => a
  | _ => d

/-- The parse state at the start of the second pass over `tokens` when strings are not
copied (`staticalloc`): no allocation is requested in this mode. -/
def second_pass_static (tokens : List I3ipc_json_token) : I3ipc_parse_state :=
  { state := ⟨tokens, false⟩, allocs := [], allocs_size := 0, memory := true,
    copy_strings := false, next_size := 0, next_enum := none, next_set := false }

/-- The entry `i` of the registry type with id `type_id`. -/
def field_of (type_id i : Nat) : I3ipc_field :=
  (type_of type_id).fields.getD i ⟨0, 0, [], 0, 0, [], []⟩

/-- The world after `i3ipc_message_receive_try` has read the frame `hdr ++ body` from the
socket `events` and stored the 0 byte. -/
def received (w : I3ipc_world) (events : Bool) (hdr body rest : List Nat) : I3ipc_world :=
  (w.set_incoming events { w.incoming events with data := rest }).set_msg (hdr ++ body ++ [0])

/-- The world with the error code `code` latched as the state of the context. -/
def latched (w : I3ipc_world) (code : Int) : I3ipc_world :=
  { w with context := { w.context with state := code } }

/-- The constants of `enum I3ipc_event_type` that name an event, `I3IPC_EVENT_WORKSPACE` to
`I3IPC_EVENT_TICK`. -/
def I3ipc_event_type : List Int :=
  [I3IPC_EVENT_WORKSPACE, I3IPC_EVENT_WORKSPACE + 1, I3IPC_EVENT_WORKSPACE + 2,
   I3IPC_EVENT_WORKSPACE + 3, I3IPC_EVENT_WORKSPACE + 4, I3IPC_EVENT_WORKSPACE + 5,
   I3IPC_EVENT_WORKSPACE + 6, I3IPC_EVENT_WORKSPACE + 7]

/-- The condition under which `i3ipc_message_receive_reorder_try(message_type, ..)` takes a
message that starts with the bytes `m`: `message_type == I3IPC_EVENT_ANY ||
m->message_type == message_type`. -/
def reorder_matches (message_type : Int) (m : List Nat) : Bool :=
  message_type == I3IPC_EVENT_ANY || (message_at m).message_type == message_type

/-- A frame, given by the bytes of its header and of its payload, that
`i3ipc_message_receive_try(I3IPC_EVENT_ANY, ..)` accepts: 14 bytes of header, the payload as
long as the header says and within the size limit, and the type of a subscribe reply or of an
event. -/
def frame_accepted (f : List Nat × List Nat) : Bool :=
  f.1.length == 14 && (message_at f.1).message_length == (f.2.length : Int) &&
  decide (14 + f.2.length + 1 ≤ 256 * 1024 * 1024) &&
  receive_matches I3IPC_EVENT_ANY (message_at f.1).message_type

/-- The bytes of a sequence of frames as they arrive on a socket. -/
def frames_bytes : List (List Nat × List Nat) → List Nat
  | [] => []
  | f :: fs => f.1 ++ f.2 ++ frames_bytes fs

/-- The outputs of the outcome, if it is `done`, satisfy `P`. -/
def Outcome.holds {α : Type} (o : Outcome α) (P : α → Prop) : Prop :=
  match o with
  | Outcome.done a => P a
  | _ => True

/-- The bytes of a frame as the peer sends it: the header with the length of the payload, and
the payload. -/
def frame (message_type : Int) (payload : List Nat) : List Nat :=
  message_header payload.length message_type ++ payload

/-- An initialised context with `nopanic` set and an empty queue, the given data waiting on
the message socket and on the event socket, and the given results of coming `poll` calls. -/
def ready_world (sock_data sock_events_data : List Nat) (polls : List Int) : I3ipc_world :=
  { context := { state := I3IPC_STATE_READY, sock := 3, sock_events := 4, nopanic := true,
                 staticalloc := false, debug_do_not_write_messages := false,
                 debug_nodata_is_error := false, loglevel := 0, reorder := [], msg := [] },
    sock_data := ⟨sock_data, Sock_end.wouldblock⟩,
    sock_events_data := ⟨sock_events_data, Sock_end.wouldblock⟩,
    written := [], opens := [], writes := [], polls := polls }

/-- The world `w` with the entries `queue` in the reorder queue. -/
def with_queue (w : I3ipc_world) (queue : List (List Nat)) : I3ipc_world :=
  { w with context := { w.context with reorder := queue } }

/-- `reply->success` of a reply of type `type_id`. -/
def Val.success (reply : Val) (type_id : Nat) : Bool :=
  (reply.member type_id "success").as_bool

/-- An upper bound of the total size that the alignment loop of `i3ipc_parse_try` computes
for the requests: the sum of the sizes and alignments. -/
def allocs_bound : List I3ipc_parse_state_allocs → Nat
  | [] => 0
  | a :: rest => a.size + a.alignment + allocs_bound rest

/-- In the first pass (`p->memory` is not set) every request recorded so far has an alignment
of 1, 2, 4 or 8. -/
def requests_aligned (p : I3ipc_parse_state) : Prop :=
  p.memory = false ∧
  ∀ (i : Nat) (a : I3ipc_parse_state_allocs), i < p.allocs_size → p.allocs[i]? = some a →
    a.alignment ∈ [1, 2, 4, 8]

/-- The escapes with a single literal byte: the character after the backslash and the byte it
stands for. -/
def simple_escapes : List (Nat × Nat) :=
  [(34, 34), (92, 92), (47, 47), (98, 8), (102, 12), (110, 10), (114, 13), (116, 9)]

/-- The bit layout of UTF-8 for a number below 0x10000, in arithmetic: one byte below 0x80,
two bytes below 0x800, three bytes otherwise. -/
def utf8_bytes (cp : Nat) : List Nat :=
  if cp < 0x80 then [cp]
  else if cp < 0x800 then [0xc0 + cp / 64, 0x80 + cp % 64]
  else [0xe0 + cp / 4096, 0x80 + cp / 64 % 64, 0x80 + cp % 64]

/-- The code point named by four hexadecimal digit values. -/
def code_point (v1 v2 v3 v4 : Nat) : Nat := 4096 * v1 + 256 * v2 + 16 * v3 + v4

/-- The code point is a surrogate half. -/
def is_surrogate (cp : Nat) : Bool := 0xd800 ≤ cp && cp ≤ 0xdfff

/-- The UTF-8 encoding of a code point below 0x10000; a surrogate half has none. -/
def utf8_of_code_point (cp : Nat) : Option (List Nat) :=
  if is_surrogate cp then none else some (utf8_bytes cp)
/-- A run of number characters that is no number of the form `-`? digits (`.` digits)?: it
holds `e`, `E` or `+`, or a second `.`, or a `-` behind its first character. -/
def run_rejected (run : List Nat) : Bool :=
  decide (101 ∈ run ∨ 69 ∈ run ∨ 43 ∈ run ∨ 2 ≤ run.count 46 ∨ 45 ∈ run.drop 1)

/-- The input that is left when `i3ipc__json_scan` has stored `k` tokens, none of them the
end token; `none` when the scan stops before. -/
def after_tokens : Nat → List Nat → Option (List Nat)
  | 0, cur => some cur
  | k + 1, cur =>
    match i3ipc__json_scan_token cur with
    | Outcome.done (tok, rest) => if tok.type == 0 then none else after_tokens k rest
    | _ => none
/-- The number that a string of decimal digits denotes. -/
def decimal_value (ds : List Nat) : Nat := Nat.ofDigits 10 ((ds.map (fun c => c - 48)).reverse)

/-- The text of a number token: an optional `-`, the digits `ds`, and with `frac` a `.` and
the digits `fs`. -/
def number_text (neg frac : Bool) (ds fs : List Nat) : List Nat :=
  (if neg then [45] else []) ++ ds ++ (if frac then 46 :: fs else [])

/-- The integer that the optional `-` and the digits `ds` in front of a fraction part denote:
the integer part of the number, truncated toward zero. -/
def integer_part (neg : Bool) (ds : List Nat) : Int :=
  if neg then -(decimal_value ds : Int) else (decimal_value ds : Int)

/-- The rational number that a number token denotes. -/
def number_value (neg : Bool) (ds fs : List Nat) : ℚ :=
  (if neg then -1 else 1) * ((decimal_value ds : ℚ) + (decimal_value fs : ℚ) / 10 ^ fs.length)

/-- Rounding toward zero. -/
def truncate (q : ℚ) : Int := if 0 ≤ q then Int.floor q else Int.ceil q

/-- The parse state after a token has been taken and `i3ipc__parse_helper` has finished a
primitive value. -/
def primitive_done (p : I3ipc_parse_state) (more : List I3ipc_json_token) : I3ipc_parse_state :=
  { p with state := { p.state with tokens := more }, next_set := true, next_enum := none }
/-- What canonical output holds for a byte of a string: a backslash in front of a backslash
or a double quote, `\n` for the line feed, `\u00` and two lower-case hexadecimal digits for
any other byte below 0x20, and the byte itself otherwise. -/
def canonical_escape (c : Nat) : List Nat :=
  if c = 92 ∨ c = 34 then [92, c]
  else if c = 10 then bytes "\\n"
  else if c < 32 then
    bytes "\\u00" ++ [(bytes "0123456789abcdef").getD (c / 16) 0,
      (bytes "0123456789abcdef").getD (c % 16) 0]
  else [c]

/-- Whether `i3ipc__printjson_helper` takes the member `i` of the record `base` as set: the
`_set` sibling, if there is one, is true, and `i3ipc__field_is_set` finds no null pointer. -/
def member_set (type : I3ipc_type) (field : I3ipc_field) (i : Nat) (base : Val) : Bool :=
  (i3ipc__type_readderived type i base).1 &&
    i3ipc__field_is_set 4 field.type.toNat field.flags (base.field i)

/-- The start of a member in the output of `i3ipc__printjson_helper`: a comma unless the
member has index 0, the key, and a colon. -/
def member_head (field : I3ipc_field) (i : Nat) : List Nat :=
  (if i != 0 then [44] else []) ++ i3ipc__printjson_string field.json_name (-1) false ++ [58]
/-- The JSON array of the names of the event types `evs`: each name in double quotes, single
commas between them, no whitespace. -/
def event_names_json (evs : List Int) : List Nat :=
  [91] ++ List.intercalate [44] (evs.map (fun ev => [34] ++
    bytes (i3ipc__global_event_type_name.getD (ev - I3IPC_EVENT_TYPE_BEGIN).toNat "") ++
    [34])) ++ [93]

/-- The payload of an outbound message of type `t` that is sent with the payload `p`: `p` for
the types that carry one, nothing for the others. -/
def message_payload (t : Int) (p : List Nat) : List Nat :=
  if t ∈ [I3IPC_RUN_COMMAND, I3IPC_SUBSCRIBE, I3IPC_GET_BAR_CONFIG, I3IPC_SEND_TICK, I3IPC_SYNC]
  then p else []

/-- The world after `i3ipc_message_send_try` has built the message `msg` and written it to
the socket `events`. -/
def sent (w : I3ipc_world) (events : Bool) (msg : List Nat) : I3ipc_world :=
  { w.set_msg msg with writes := w.writes.drop 1, written := w.written ++ [(events, msg)] }

/-- `i3ipc__global_message_type_name` -/
def i3ipc__global_message_type_name : List String :=
  ["run_command", "get_workspaces", "subscribe", "get_outputs", "get_tree", "get_marks",
   "get_bar_config", "get_version", "get_binding_modes", "get_config", "send_tick", "sync"]

/-- `i3ipc__global_reply_type_name` -/
def i3ipc__global_reply_type_name : List String :=
  ["command", "workspaces", "subscribe", "outputs", "tree", "marks", "bar_config", "version",
   "binding_modes", "config", "tick", "sync"]

/-- `i3ipc__message_type_str(message_type, is_reply)` for a 32-bit `message_type`: the table
that is read and the index at which it is read, or `none` when a string literal is returned.
`1<<31` is the least `int`, and `message_type ^ 1<<31` is `message_type + 2 ^ 31` for a
negative `message_type`. -/
def i3ipc__message_type_str (message_type : Int) (is_reply : Bool) :
    Option (List String × Int) :=
  if 0 ≤ message_type && message_type < I3IPC_MESSAGE_TYPE_COUNT then
    some (if is_reply then i3ipc__global_message_type_name else i3ipc__global_reply_type_name,
      message_type)
  else if -2 ^ 31 ≤ message_type && message_type ≤ I3IPC_EVENT_TYPE_END then
    some (i3ipc__global_event_type_name, message_type + 2 ^ 31)
  else none

/-- The loop of `i3ipc__json_scan_string` with its stores made visible. `rest` holds the bytes
`cur[i .. left)` and `p` is the index, counted from `state->cur`, of the next store through
the pointer `p`. The result holds, for every store of the loop in turn, the index that is
written and the value of `i` at the time of the store, and behind them the final `p` and
`i`. -/
def scan_string_stores : Nat → List Nat → Nat → Nat → List (Nat × Nat) × Nat × Nat
  | 0, _, p, i => ([], p, i)
  | _ + 1, [], p, i => ([], p, i)
  | fuel + 1, c :: rest, p, i =>
    if c == 34 then ([], p, i + 1)
    else if c == 92 then
      let ic := escape_char (rest.headD 0)
      if ic == 117 then
        match rest with
        | _ :: h1 :: h2 :: h3 :: h4 :: rest5 =>
          match hexval h1, hexval h2, hexval h3, hexval h4 with
          | some v1, some v2, some v3, some v4 =>
            let cp := ((v1 * 16 + v2) * 16 + v3) * 16 + v4
            let n := (utf8_encode cp).length
            let r := scan_string_stores fuel rest5 (p + n) (i + 6)
            ((List.range n).map (fun k => (p + k, i + 6)) ++ r.1, r.2)
          | _, _, _, _ =>
            let r := scan_string_stores fuel rest (p + 1) (i + 1)
            ((p, i) :: r.1, r.2)
        | _ =>
          let r := scan_string_stores fuel rest (p + 1) (i + 1)
          ((p, i) :: r.1, r.2)
      else if ic != 0 then
        let r := scan_string_stores fuel (rest.drop 1) (p + 1) (i + 2)
        ((p, i + 2) :: r.1, r.2)
      else
        let r := scan_string_stores fuel rest (p + 1) (i + 1)
        ((p, i) :: r.1, r.2)
    else
      let r := scan_string_stores fuel rest (p + 1) (i + 1)
      ((p, i) :: r.1, r.2)

/-- The stores of `i3ipc__json_scan_string` on the bytes at `state->cur`: those of the loop,
and the store of the 0 byte behind it. -/
def json_scan_string_stores (cur : List Nat) : List (Nat × Nat) :=
  let r := scan_string_stores cur.length (cur.drop 1) 0 1
  r.1 ++ [(r.2.1, r.2.2)]

/-- What of a parse state does not depend on the allocation mode: the token state, whether
memory has been handed out, and the three values kept for the derived members. -/
def parse_view (p : I3ipc_parse_state) :
    I3ipc_json_state × Bool × Int × Option (List Nat) × Bool :=
  (p.state, p.memory, p.next_size, p.next_enum, p.next_set)

/-- Two results of a pass agree up to the requests: the views of the states and the values
are the same, and the pass is the one of `p`. -/
def modes_result {β : Type} (p : I3ipc_parse_state) (a b : I3ipc_parse_state × β) : Prop :=
  parse_view a.1 = parse_view b.1 ∧ a.2 = b.2 ∧ a.1.memory = p.memory


/-- The first pass at `p1` and the second pass at `p2` are at the same place: the same
tokens lie ahead, the same number of requests has been made, and the allocation mode is the
same. -/
def passes_in_step (p1 p2 : I3ipc_parse_state) : Prop :=
  p1.state = p2.state ∧ p1.allocs_size = p2.allocs_size ∧
  p1.copy_strings = p2.copy_strings ∧ p1.memory = false ∧ p2.memory = true

/-- The descriptor is not a single `char`: type `I3IPC_TYPE_CHAR` occurs only as an array,
which is a string. -/
def no_single_char (type_id type_flags : Nat) : Prop :=
  type_id = I3IPC_TYPE_CHAR → hasflag type_flags I3IPC_TYPE_ISARRAY = true

/-- The pass from `p` to `q` has left the planned offsets and the allocation mode alone. -/
def plan_kept (p q : I3ipc_parse_state) : Prop :=
  q.allocs = p.allocs ∧ q.copy_strings = p.copy_strings

/-- The parse state of `i3ipc_parse_try` at the start of the second pass: the requests of
the first pass `p` have been replaced by their offsets, `allocs_size` and `tokens_cur` are
reset, and the record itself has been allocated. -/
def second_pass_start (tokens : List I3ipc_json_token) (type : I3ipc_type)
    (p : I3ipc_parse_state) : I3ipc_parse_state :=
  (i3ipc__parse_alloc
    { p with
      state := { p.state with tokens := tokens },
      allocs := (layout_allocs p.requests 0).1, allocs_size := 0, memory := true }
    type.size type.alignment).1

/-- What a descriptor can shed before a token has to be consumed: the flags of the `MAYBE`
group, and one level of inline nesting. -/
def descriptor_weight (type_id type_flags : Nat) : Nat :=
  (if hasflag type_flags I3IPC_TYPE_GROUP_MAYBE then 1 else 0)
    + (if (type_of type_id).is_inline then 2 else 0)

/-! ## JSON texts as token lists -/

/-- A token that is a JSON value by itself: `true`, `false`, `null`, a string or a number. -/
def json_prim (t : I3ipc_json_token) : Bool :=
  t.type == I3IPC_JSON_BOOL || t.type == I3IPC_JSON_NULL || t.type == I3IPC_JSON_STRING
    || t.type == I3IPC_JSON_NUMBER

/-- The tokens of a JSON array behind one of its elements: `]`, or `,`, the next element and
what follows it. -/
def elems_tail : List (List I3ipc_json_token) → List I3ipc_json_token
  | [] => [tok_punct 93]
  | v :: vs => tok_punct 44 :: v ++ elems_tail vs

/-- The tokens of the JSON array whose elements have the tokens `vs`. -/
def array_tokens : List (List I3ipc_json_token) → List I3ipc_json_token
  | [] => [tok_punct 91, tok_punct 93]
  | v :: vs => tok_punct 91 :: v ++ elems_tail vs

/-- The tokens of a JSON object behind one of its members: `}`, or `,`, the next member (its
key, `:` and the tokens of its value) and what follows it. -/
def members_tail : List (I3ipc_json_token × List I3ipc_json_token) → List I3ipc_json_token
  | [] => [tok_punct 125]
  | m :: ms => tok_punct 44 :: m.1 :: tok_punct 58 :: m.2 ++ members_tail ms

/-- The tokens of the JSON object with the members `ms`, each a key and the tokens of a
value. -/
def object_tokens : List (I3ipc_json_token × List I3ipc_json_token) → List I3ipc_json_token
  | [] => [tok_punct 123, tok_punct 125]
  | m :: ms => tok_punct 123 :: m.1 :: tok_punct 58 :: m.2 ++ members_tail ms

/-- The token lists of the JSON values: a single token, an array of values, or an object
whose keys are strings and whose members are values. -/
inductive json_value : List I3ipc_json_token → Prop where
  | prim (t : I3ipc_json_token) (h : json_prim t = true) : json_value [t]
  | array (vs : List (List I3ipc_json_token)) (h : ∀ v ∈ vs, json_value v) :
      json_value (array_tokens vs)
  | object (ms : List (I3ipc_json_token × List I3ipc_json_token))
      (hk : ∀ m ∈ ms, m.1.type = I3IPC_JSON_STRING) (hv : ∀ m ∈ ms, json_value m.2) :
      json_value (object_tokens ms)

/-- The tokens of an object at the place where the record loop looks for the next member:
the whole object before the first round, and what follows a member later on. -/
def members_from (first : Bool) (ms : List (I3ipc_json_token × List I3ipc_json_token)) :
    List I3ipc_json_token :=
  if first then object_tokens ms else members_tail ms

/-- The tokens of an array at the place where the array loop looks for the next element: the
whole array before the first round, and what follows an element later on. -/
def elems_from (first : Bool) (vs : List (List I3ipc_json_token)) : List I3ipc_json_token :=
  if first then array_tokens vs else elems_tail vs

/-- What `i3ipc__json_looparr` answers at the elements `vs` of an array that is followed by
the tokens `Z`: false behind the last element, with `]` popped, and true otherwise, with the
next element ahead. -/
def looparr_answer (vs : List (List I3ipc_json_token)) (Z : List I3ipc_json_token)
    (e : Bool) : Bool × I3ipc_json_state :=
  match vs with
  | [] => (false, ⟨Z, e⟩)
  | v :: vs' => (true, ⟨v ++ elems_tail vs' ++ Z, e⟩)

/-- What `i3ipc__json_loopobj` answers at the members `ms` of an object that is followed by
the tokens `Z`: false behind the last member, with `}` popped, and true otherwise, with the
key of the next member and its value ahead. -/
def loopobj_answer (ms : List (I3ipc_json_token × List I3ipc_json_token))
    (Z : List I3ipc_json_token) (e : Bool) : Bool × I3ipc_json_token × I3ipc_json_state :=
  match ms with
  | [] => (false, tok_zero, ⟨Z, e⟩)
  | m :: ms' => (true, m.1, ⟨m.2 ++ members_tail ms' ++ Z, e⟩)

/-- The members `ms` with further members put in between whose keys equal, as C strings, the
JSON key of no entry of `type` that is not derived. -/
inductive extra_members (type : I3ipc_type) :
    List (I3ipc_json_token × List I3ipc_json_token) →
    List (I3ipc_json_token × List I3ipc_json_token) → Prop where
  | nil : extra_members type [] []
  | same (m : I3ipc_json_token × List I3ipc_json_token)
      (ms ms' : List (I3ipc_json_token × List I3ipc_json_token))
      (h : extra_members type ms ms') : extra_members type (m :: ms) (m :: ms')
  | extra (m : I3ipc_json_token × List I3ipc_json_token)
      (ms ms' : List (I3ipc_json_token × List I3ipc_json_token))
      (hk : m.1.type = I3IPC_JSON_STRING) (hv : json_value m.2)
      (hf : find_field type m.1 = none)
      (h : extra_members type ms ms') : extra_members type ms (m :: ms')

/-- The first member of `ms` whose key is the JSON key of an entry of `type`: the entry, the
tokens of the value, and the members behind it. -/
def next_member (type : I3ipc_type) :
    List (I3ipc_json_token × List I3ipc_json_token) →
    Option (Nat × List I3ipc_json_token × List (I3ipc_json_token × List I3ipc_json_token))
  | [] => none
  | m :: ms =>
    match find_field type m.1 with
    | some field => some (field, m.2, ms)
    | none => next_member type ms

/-- What the loop of `i3ipc__parse_loopfields` answers at the members `ms` of an object that
is followed by the tokens `Z`: false behind the last member, with `}` popped, and otherwise
the entry of the next member with a known key, with its value ahead. -/
def loopfields_answer (type : I3ipc_type)
    (ms : List (I3ipc_json_token × List I3ipc_json_token)) (Z : List I3ipc_json_token) :
    Bool × Nat × I3ipc_json_state :=
  match next_member type ms with
  | none => (false, 0, ⟨Z, false⟩)
  | some (fld, v, ms') => (true, fld, ⟨v ++ members_tail ms' ++ Z, false⟩)

/-- Two instances of `i3ipc__parse_helper` treat a JSON value alike: where `h1` succeeds on
the value followed by the tokens `Z`, it has popped the value and nothing else, and `h2` on
the value followed by the tokens `Z2` runs out of fuel or ends with the same parse state and
the same memory, with `Z2` left. -/
def helpers_agree (h1 h2 : I3ipc_parse_state → Nat → Nat → Option Val →
    Outcome (I3ipc_parse_state × Option Val)) : Prop :=
  ∀ (v Z Z2 : List I3ipc_json_token) (a : List I3ipc_parse_state_allocs) (n : Nat)
    (m c : Bool) (z : Int) (e : Option (List Nat)) (s : Bool) (t fl : Nat) (b : Option Val)
    (r : I3ipc_parse_state × Option Val), json_value v →
    h1 ⟨⟨v ++ Z, false⟩, a, n, m, c, z, e, s⟩ t fl b = Outcome.done r →
    ∃ a' n' m' c' z' e' s' b', r = (⟨⟨Z, false⟩, a', n', m', c', z', e', s'⟩, b') ∧
      (h2 ⟨⟨v ++ Z2, false⟩, a, n, m, c, z, e, s⟩ t fl b = Outcome.starved ∨
       h2 ⟨⟨v ++ Z2, false⟩, a, n, m, c, z, e, s⟩ t fl b =
         Outcome.done (⟨⟨Z2, false⟩, a', n', m', c', z', e', s'⟩, b'))

/-- Two instances of the array loop of `i3ipc__parse_helper` treat the elements of an array
alike: where `l1` succeeds on the elements followed by the tokens `Z`, it has popped the
array and nothing else, and `l2` on the elements followed by `Z2` runs out of fuel or ends
with the same result, with `Z2` left. -/
def array_loops_agree (l1 l2 : I3ipc_parse_state → Nat → Bool → Nat → List Val →
    Outcome (I3ipc_parse_state × Nat × List Val)) : Prop :=
  ∀ (first : Bool) (vs : List (List I3ipc_json_token)) (Z Z2 : List I3ipc_json_token)
    (a : List I3ipc_parse_state_allocs) (n : Nat)
    (m c : Bool) (z : Int) (e : Option (List Nat)) (s : Bool) (t : Nat) (store : Bool)
    (i : Nat) (el : List Val) (r : I3ipc_parse_state × Nat × List Val),
    (i == 0) = first → (∀ v ∈ vs, json_value v) →
    l1 ⟨⟨elems_from first vs ++ Z, false⟩, a, n, m, c, z, e, s⟩ t store i el = Outcome.done r →
    ∃ a' n' m' c' z' e' s' i' el', r = (⟨⟨Z, false⟩, a', n', m', c', z', e', s'⟩, i', el') ∧
      (l2 ⟨⟨elems_from first vs ++ Z2, false⟩, a, n, m, c, z, e, s⟩ t store i el
          = Outcome.starved ∨
       l2 ⟨⟨elems_from first vs ++ Z2, false⟩, a, n, m, c, z, e, s⟩ t store i el =
         Outcome.done (⟨⟨Z2, false⟩, a', n', m', c', z', e', s'⟩, i', el'))

/-- Two instances of the record loop of `i3ipc__parse_helper` treat the members of an object
alike, also when the second object has further members with keys of no entry: where `l1`
succeeds on the members `ms` followed by the tokens `Z`, it has popped the object and nothing
else, and `l2` on the members `ms2` followed by `Z2` runs out of fuel or ends with the same
result, with `Z2` left. -/
def fields_loops_agree (l1 l2 : I3ipc_parse_state → I3ipc_type → Option Nat → Option Val →
    Outcome (I3ipc_parse_state × Option Val)) : Prop :=
  ∀ (type : I3ipc_type) (ms ms2 : List (I3ipc_json_token × List I3ipc_json_token))
    (Z Z2 : List I3ipc_json_token) (a : List I3ipc_parse_state_allocs) (n : Nat)
    (m c : Bool) (z : Int) (e : Option (List Nat)) (s : Bool) (field : Option Nat)
    (b : Option Val) (r : I3ipc_parse_state × Option Val),
    extra_members type ms ms2 → (∀ x ∈ ms, x.1.type = I3IPC_JSON_STRING) →
    (∀ x ∈ ms, json_value x.2) →
    l1 ⟨⟨members_from field.isNone ms ++ Z, false⟩, a, n, m, c, z, e, s⟩ type field b
      = Outcome.done r →
    ∃ a' n' m' c' z' e' s' b', r = (⟨⟨Z, false⟩, a', n', m', c', z', e', s'⟩, b') ∧
      (l2 ⟨⟨members_from field.isNone ms2 ++ Z2, false⟩, a, n, m, c, z, e, s⟩ type field b
          = Outcome.starved ∨
       l2 ⟨⟨members_from field.isNone ms2 ++ Z2, false⟩, a, n, m, c, z, e, s⟩ type field b =
         Outcome.done (⟨⟨Z2, false⟩, a', n', m', c', z', e', s'⟩, b'))

/-- The record type in whose entries `i3ipc__parse_helper(p, type_id, type_flags, ..)` looks
up the keys of a JSON object: the type `type_id` itself when the call runs the record loop,
and for an inline type the one of the call for its entry, which pops no token before. The
result is `none` when the call does not read an object this way; `fuel` bounds the chain of
inline types. -/
def object_type : Nat → Nat → Nat → Option I3ipc_type
  | 0, _, _ => none
  | fuel + 1, type_id, type_flags =>
    if type_id == I3IPC_TYPE_EVENT then none else
    match i3ipc__type_get type_id with
    | none => none
    | some type =>
      if hasflag type_flags I3IPC_TYPE_GROUP_MAYBE then none
      else if (type_id == I3IPC_TYPE_STRING && type_flags == 0)
          || (type_id == I3IPC_TYPE_CHAR && hasflag type_flags I3IPC_TYPE_ISARRAY) then none
      else if hasflag type_flags I3IPC_TYPE_ISARRAY then none
      else if type.is_inline then
        match type.fields with
        | [] => none
        | field :: _ => object_type fuel field.type.toNat field.flags
      else if type_flags == 0 && type.is_primitive then none
      else if type_flags == 0 then some type
      else none

/-! ## The pointers that the materializer stores -/

/-- A pointer that `i3ipc__parse_helper` stores through `base`: NULL, `p->memory + off`, or
`tok.str`, which points into the message. -/
inductive I3ipc_pointer where
  | null
  | memory (off : Nat)
  | message
  deriving DecidableEq, Repr

/-- The pointer that `i3ipc__parse_alloc` returns, from the offset that the model keeps. -/
def alloc_pointer : Option Nat → I3ipc_pointer
  | none => I3ipc_pointer.null
  | some off => I3ipc_pointer.memory off

/-- The branch of `i3ipc__parse_helper` for `MAYBE`, as `parse_maybe`, with the pointers that
are stored: `if (base) *(char**)base = ptr_base`, and then those of the recursive call. -/
def parse_maybe_stores (helper : I3ipc_parse_state → Nat → Nat → Option Val →
      Outcome (I3ipc_parse_state × Option Val × List I3ipc_pointer))
    (p : I3ipc_parse_state) (type : I3ipc_type) (type_id type_flags : Nat)
    (base : Option Val) : Outcome (I3ipc_parse_state × Option Val × List I3ipc_pointer) :=
  let m := i3ipc__json_trymatch p.state I3IPC_JSON_NULL
  let p := { p with state := m.2.2 }
  if !m.1 then
    let inner := clearflag type_flags I3IPC_TYPE_GROUP_MAYBE
    if hasflag type_flags I3IPC_TYPE_ISPTR then
      let a := i3ipc__parse_alloc p type.size type.alignment
      let ptr_base := if a.2.2.isSome then some (zero_of type_id inner) else none
      let stored := if base.isSome then [alloc_pointer a.2.2] else []
      match helper a.1 type_id inner ptr_base with
      | Outcome.done (p, ptr_base, s) =>
        Outcome.done ({ p with next_set := true, next_enum := p.next_enum },
          base.map (fun _ => Val.block (ptr_base.map (fun v => [v]))), stored ++ s)
      | Outcome.fail _ => Outcome.fail 6
      | Outcome.aborted => Outcome.aborted
      | Outcome.starved => Outcome.starved
    else
      match helper p type_id inner base with
      | Outcome.done (p, base, s) =>
        Outcome.done ({ p with next_set := true, next_enum := p.next_enum }, base, s)
      | Outcome.fail _ => Outcome.fail 6
      | Outcome.aborted => Outcome.aborted
      | Outcome.starved => Outcome.starved
  else
    Outcome.done ({ p with next_size := 0, next_set := false, next_enum := none }, base, [])

/-- The branch of `i3ipc__parse_helper` for a string, as `parse_string`, with the pointer
that is stored: `str_base`, which is the pointer from `i3ipc__parse_alloc` when strings are
copied and `tok.str` otherwise, is stored when `base` is not NULL. -/
def parse_string_stores (p : I3ipc_parse_state) (type_id : Nat) (base : Option Val) :
    Outcome (I3ipc_parse_state × Option Val × List I3ipc_pointer) :=
  let m := i3ipc__json_match p.state I3IPC_JSON_STRING
  let a := i3ipc__parse_alloc { p with state := m.2.2 } (m.2.1.str_size + 1) 1
  let str_base := if p.copy_strings then alloc_pointer a.2.2 else I3ipc_pointer.message
  match parse_string p type_id base with
  | Outcome.done (p, v) => Outcome.done (p, v, if base.isSome then [str_base] else [])
  | Outcome.fail c => Outcome.fail c
  | Outcome.aborted => Outcome.aborted
  | Outcome.starved => Outcome.starved

/-- The branch of `i3ipc__parse_helper` for an array, as `parse_array`, with the pointers
that are stored: `if (base) *(char**)base = arr_base`, and then those of the elements. -/
def parse_array_stores (array_loop : I3ipc_parse_state → Nat → Bool → Nat → List Val →
      Outcome (I3ipc_parse_state × Nat × List Val × List I3ipc_pointer))
    (p : I3ipc_parse_state) (type : I3ipc_type) (type_id : Nat) (base : Option Val) :
    Outcome (I3ipc_parse_state × Option Val × List I3ipc_pointer) :=
  let a := i3ipc__parse_alloc p (2 ^ 64 - 1) type.alignment
  let index := a.2.1
  let stored := if base.isSome then [alloc_pointer a.2.2] else []
  match array_loop a.1 type_id (base.isSome && a.2.2.isSome) 0 [] with
  | Outcome.done (p, i, elems, s) =>
    if p.state.err_flag then Outcome.fail 9 else
    let p := if base.isNone then set_alloc_size p index ((i * type.size) % 2 ^ 64) else p
    Outcome.done ({ p with next_size := i, next_set := true, next_enum := none },
      base.map (fun _ => Val.block (if a.2.2.isSome then some elems else none)), stored ++ s)
  | Outcome.fail c => Outcome.fail c
  | Outcome.aborted => Outcome.aborted
  | Outcome.starved => Outcome.starved

/-- The branch of `i3ipc__parse_helper` for an inline type, as `parse_inline`, with the
pointers that the call for the entry stores. -/
def parse_inline_stores (helper : I3ipc_parse_state → Nat → Nat → Option Val →
      Outcome (I3ipc_parse_state × Option Val × List I3ipc_pointer))
    (p : I3ipc_parse_state) (type : I3ipc_type) (base : Option Val) :
    Outcome (I3ipc_parse_state × Option Val × List I3ipc_pointer) :=
  match type.fields with
  | [] => Outcome.aborted
  | field :: others =>
    if others.any (fun f => !hasflag f.flags I3IPC_TYPE_GROUP_DERIVED) then Outcome.aborted
    else
      match helper p field.type.toNat field.flags (base.map (fun b => b.field 0)) with
      | Outcome.done (p, inline_base, s) =>
        Outcome.done ({ p with next_set := true, next_enum := none },
          (match base, inline_base with
           | some b, some v => some (i3ipc__parse_doderived p type 0 (b.set_field 0 v))
           | b, _ => b), s)
      | Outcome.fail _ => Outcome.fail 17
      | Outcome.aborted => Outcome.aborted
      | Outcome.starved => Outcome.starved

/-- The branch of `i3ipc__parse_helper` for a record, as `parse_record`, with the pointers
that the calls for the members store. -/
def parse_record_stores (fields_loop : I3ipc_parse_state → I3ipc_type → Option Nat →
      Option Val → Outcome (I3ipc_parse_state × Option Val × List I3ipc_pointer))
    (p : I3ipc_parse_state) (type : I3ipc_type) (base : Option Val) :
    Outcome (I3ipc_parse_state × Option Val × List I3ipc_pointer) :=
  match fields_loop p type none base with
  | Outcome.done (p, base, s) =>
    if p.state.err_flag then Outcome.fail 9
    else Outcome.done ({ p with next_set := true, next_enum := none }, base, s)
  | Outcome.fail c => Outcome.fail c
  | Outcome.aborted => Outcome.aborted
  | Outcome.starved => Outcome.starved

/-- One round of the array loop, as `array_loop_step`, with the pointers that the calls for
the elements store. -/
def array_loop_step_stores (helper : I3ipc_parse_state → Nat → Nat → Option Val →
      Outcome (I3ipc_parse_state × Option Val × List I3ipc_pointer))
    (again : I3ipc_parse_state → Nat → Bool → Nat → List Val →
      Outcome (I3ipc_parse_state × Nat × List Val × List I3ipc_pointer))
    (p : I3ipc_parse_state) (type_id : Nat) (store : Bool) (i : Nat) (elems : List Val) :
    Outcome (I3ipc_parse_state × Nat × List Val × List I3ipc_pointer) :=
  let r := i3ipc__json_looparr p.state i
  let p := { p with state := r.2 }
  if !r.1 then Outcome.done (p, i, elems, [])
  else
    match helper p type_id 0 (if store then some (zero_of type_id 0) else none) with
    | Outcome.done (p, v, s) =>
      match again p type_id store (i + 1) (elems ++ v.toList) with
      | Outcome.done (p, i, elems, s2) => Outcome.done (p, i, elems, s ++ s2)
      | Outcome.fail c => Outcome.fail c
      | Outcome.aborted => Outcome.aborted
      | Outcome.starved => Outcome.starved
    | Outcome.fail _ => Outcome.fail 6
    | Outcome.aborted => Outcome.aborted
    | Outcome.starved => Outcome.starved

/-- One round of the record loop, as `fields_loop_step`, with the pointers that the calls for
the members store. -/
def fields_loop_step_stores
    (loopfields : I3ipc_json_state → I3ipc_type → Option Nat →
      Outcome (Bool × Nat × I3ipc_json_state))
    (helper : I3ipc_parse_state → Nat → Nat → Option Val →
      Outcome (I3ipc_parse_state × Option Val × List I3ipc_pointer))
    (again : I3ipc_parse_state → I3ipc_type → Option Nat → Option Val →
      Outcome (I3ipc_parse_state × Option Val × List I3ipc_pointer))
    (p : I3ipc_parse_state) (type : I3ipc_type) (field : Option Nat) (base : Option Val) :
    Outcome (I3ipc_parse_state × Option Val × List I3ipc_pointer) :=
  match loopfields p.state type field with
  | Outcome.done (more, field, st) =>
    let p := { p with state := st }
    if !more then Outcome.done (p, base, [])
    else
      match type.fields.get? field with
      | none => Outcome.aborted
      | some f =>
        match helper p f.type.toNat f.flags (base.map (fun b => b.field field)) with
        | Outcome.done (p, field_base, s) =>
          match again p type (some field)
            (match base, field_base with
             | some b, some v => some (i3ipc__parse_doderived p type field (b.set_field field v))
             | b, _ => b) with
          | Outcome.done (p, base, s2) => Outcome.done (p, base, s ++ s2)
          | Outcome.fail c => Outcome.fail c
          | Outcome.aborted => Outcome.aborted
          | Outcome.starved => Outcome.starved
        | Outcome.fail _ => Outcome.fail 3
        | Outcome.aborted => Outcome.aborted
        | Outcome.starved => Outcome.starved
  | Outcome.fail c => Outcome.fail c
  | Outcome.aborted => Outcome.aborted
  | Outcome.starved => Outcome.starved

mutual
/-- `i3ipc__parse_helper` with the pointers that it stores through `base` and through the
pointers derived from it, in the order of the stores. The branch for a primitive type stores
no pointer. -/
def i3ipc__parse_helper_stores :
    Nat → I3ipc_parse_state → Nat → Nat → Option Val →
    Outcome (I3ipc_parse_state × Option Val × List I3ipc_pointer)
  | 0, _, _, _, _ => Outcome.starved
  | fuel + 1, p, type_id, type_flags, base =>
    if type_id == I3IPC_TYPE_EVENT then Outcome.aborted else
    match i3ipc__type_get type_id with
    | none => Outcome.aborted
    | some type =>
    if hasflag type_flags I3IPC_TYPE_GROUP_MAYBE then
      parse_maybe_stores (i3ipc__parse_helper_stores fuel) p type type_id type_flags base
    else if (type_id == I3IPC_TYPE_STRING && type_flags == 0)
        || (type_id == I3IPC_TYPE_CHAR && hasflag type_flags I3IPC_TYPE_ISARRAY) then
      parse_string_stores p type_id base
    else if hasflag type_flags I3IPC_TYPE_ISARRAY then
      parse_array_stores (parse_array_loop_stores fuel) p type type_id base
    else if type.is_inline then
      parse_inline_stores (i3ipc__parse_helper_stores fuel) p type base
    else if type_flags == 0 && type.is_primitive then
      match parse_primitive p type_id base with
      | Outcome.done (p, v) => Outcome.done (p, v, [])
      | Outcome.fail c => Outcome.fail c
      | Outcome.aborted => Outcome.aborted
      | Outcome.starved => Outcome.starved
    else if type_flags == 0 then
      parse_record_stores (parse_fields_loop_stores fuel) p type base
    else Outcome.aborted
/-- The array loop of `i3ipc__parse_helper` with the pointers that are stored. -/
def parse_array_loop_stores :
    Nat → I3ipc_parse_state → Nat → Bool → Nat → List Val →
    Outcome (I3ipc_parse_state × Nat × List Val × List I3ipc_pointer)
  | 0, _, _, _, _, _ => Outcome.starved
  | fuel + 1, p, type_id, store, i, elems =>
    array_loop_step_stores (i3ipc__parse_helper_stores fuel) (parse_array_loop_stores fuel)
      p type_id store i elems
/-- The record loop of `i3ipc__parse_helper` with the pointers that are stored. -/
def parse_fields_loop_stores :
    Nat → I3ipc_parse_state → I3ipc_type → Option Nat → Option Val →
    Outcome (I3ipc_parse_state × Option Val × List I3ipc_pointer)
  | 0, _, _, _, _ => Outcome.starved
  | fuel + 1, p, type, field, base =>
    fields_loop_step_stores (i3ipc__parse_loopfields fuel) (i3ipc__parse_helper_stores fuel)
      (parse_fields_loop_stores fuel) p type field base
end

/-- What `i3ipc_parse_try` computes on the way to the record: the record, the pointers that
are stored (first `base`, the address of the record itself, then those that
`i3ipc__parse_helper` stores in the second pass), the requests of the first pass, the offsets
that the alignment loop gives them, and `total_size`. -/
structure I3ipc_parse_result where
  data : Val
  stored : List I3ipc_pointer
  requests : List I3ipc_parse_state_allocs
  offsets : List I3ipc_parse_state_allocs
  total_size : Nat

/-- `i3ipc_parse_try` with the pointers that are stored, as `i3ipc_parse_try`. -/
def i3ipc_parse_try_stores (staticalloc : Bool) (msg_type : Int) (payload : List Nat)
    (message_type : Int) (type_id : Nat) : Outcome I3ipc_parse_result :=
  match parse_first_pass staticalloc msg_type payload message_type type_id with
  | Outcome.done (tokens, type, p) =>
    let plan := layout_allocs p.requests 0
    let requests := p.requests
    let p := { p with
      state := { p.state with tokens := tokens }, allocs := plan.1, allocs_size := 0,
      memory := true }
    let a := i3ipc__parse_alloc p type.size type.alignment
    match i3ipc__parse_helper_stores (parse_fuel tokens.length) a.1 type_id 0
        (some (zero_of type_id 0)) with
    | Outcome.done (_, some data, s) =>
      Outcome.done ⟨data, alloc_pointer a.2.2 :: s, requests, plan.1, plan.2⟩
    | Outcome.done (_, none, _) => Outcome.aborted
    | Outcome.fail _ => Outcome.fail I3IPC_ERROR_MALFORMED
    | Outcome.aborted => Outcome.aborted
    | Outcome.starved => Outcome.starved
  | Outcome.fail c => Outcome.fail c
  | Outcome.aborted => Outcome.aborted
  | Outcome.starved => Outcome.starved

/-- An outcome without the pointers that are stored. -/
def Outcome.without_stores {α β γ : Type} : Outcome (α × β × γ) → Outcome (α × β)
  | Outcome.done (a, b, _) => Outcome.done (a, b)
  | Outcome.fail c => Outcome.fail c
  | Outcome.aborted => Outcome.aborted
  | Outcome.starved => Outcome.starved

/-- An outcome of the array loop without the pointers that are stored. -/
def Outcome.without_loop_stores {α β γ δ : Type} :
    Outcome (α × β × γ × δ) → Outcome (α × β × γ)
  | Outcome.done (a, b, c, _) => Outcome.done (a, b, c)
  | Outcome.fail c => Outcome.fail c
  | Outcome.aborted => Outcome.aborted
  | Outcome.starved => Outcome.starved

/-- The pointers `s` that a run from the parse state `p` to the parse state `r` has stored
are those of the requests made in between: the run has memory and copies strings, it leaves
the offsets alone, and every pointer in `s` is `p->memory` plus the offset of a request with
an index from `p.allocs_size` up to, and not including, `r.allocs_size`. -/
def stores_planned (p r : I3ipc_parse_state) (s : List I3ipc_pointer) : Prop :=
  r.memory = true ∧ r.copy_strings = true ∧ r.allocs = p.allocs ∧
  p.allocs_size ≤ r.allocs_size ∧
  ∀ x ∈ s, ∃ k, p.allocs_size ≤ k ∧ k < r.allocs_size ∧
    x = I3ipc_pointer.memory ((p.allocs.getD k ⟨0, 0⟩).size)

/-- An upper bound for the sum of the size and the alignment of a type of the registry. -/
def request_unit : Nat := 432

/-- What a token can pay for in requests: five times `request_unit`, and the length of its
string. -/
def token_cost (t : I3ipc_json_token) : Nat := 5 * request_unit + t.str.length

/-- The sum of `token_cost` over the tokens. -/
def tokens_cost : List I3ipc_json_token → Nat
  | [] => 0
  | t :: rest => token_cost t + tokens_cost rest

/-- A run of the first pass from the parse state `p` to the parse state `r`: the run has no
memory, every entry of `allocs` is a request, the requests of `p` are untouched, and the new
requests together with `extra` are paid for by the tokens that the run has popped. -/
def first_pass_run (p r : I3ipc_parse_state) (extra : Nat) : Prop :=
  r.memory = false ∧ r.copy_strings = p.copy_strings ∧ r.allocs_size = r.allocs.length ∧
  ∃ new, r.allocs = p.allocs ++ new ∧
    allocs_bound new + extra + tokens_cost r.state.tokens ≤ tokens_cost p.state.tokens

/-! ## Theorems -/

set_option maxRecDepth 1000000
set_option maxHeartbeats 4000000

/-- C6. The enum table agrees with the public enum constants: in every group of constants,
the partition of `i3ipc__global_enums` of the group has as many entries as the group has
constants, and the entry at the index given by a constant is the lower-case name of the
constant (the NULL entry for `I3IPC_NODE_WINDOW_TYPE_NULL`). -/
theorem enum_table_agrees_with_constants :
    ∀ g ∈ enum_groups,
      (enum_partition (bytes g.2.2)).length = (group_constants g).length ∧
      ∀ c ∈ group_constants g,
        (enum_partition (bytes g.2.2)).get? c.2 = some (constant_entry (bytes g.2.1) c.1) := by
  decide!

/-- C1, evaluated at the failing input. The outputs reply `[{}]` parses; the text that
`i3ipc_printjson` writes for the record starts its object with a comma, because the first
member (`name`) is unset and left out while `if (i) fputc(',', f)` still separates the
second; parsing that text fails with `I3IPC_ERROR_MALFORMED`. -/
theorem roundtrip_breaks_when_first_member_unset (fmt_f : I3ipc_double → List Nat) :
    ∃ r text,
      i3ipc_parse_try false 3 (bytes "[\x7b\x7d]") 3 I3IPC_TYPE_REPLY_OUTPUTS = Outcome.done r ∧
      i3ipc_printjson fmt_f I3IPC_TYPE_REPLY_OUTPUTS r = Outcome.done text ∧
      text = bytes ("[\x7b,\"active\":false,\"primary\":false,\"current_workspace\":null," ++
        "\"rect\":\x7b\"x\":0,\"y\":0,\"width\":0,\"height\":0\x7d\x7d]") ∧
      i3ipc_parse_try false 3 text 3 I3IPC_TYPE_REPLY_OUTPUTS =
        Outcome.fail I3IPC_ERROR_MALFORMED := by
  refine ⟨Val.struct [Val.block (some [Val.struct
        [Val.chars none, Val.int 0, Val.bool false, Val.bool false, Val.chars none, Val.int 0,
         Val.struct [Val.int 0, Val.int 0, Val.int 0, Val.int 0]]]), Val.int 1],
    bytes ("[\x7b,\"active\":false,\"primary\":false,\"current_workspace\":null," ++
        "\"rect\":\x7b\"x\":0,\"y\":0,\"width\":0,\"height\":0\x7d\x7d]"), ?_, ?_, rfl, ?_⟩
  · with_unfolding_all rfl
  · with_unfolding_all rfl
  · with_unfolding_all rfl

/-- C6, at the group of the node types: the constant `I3IPC_NODE_TYPE_FLOATING_CON = 3`
names the entry `floating_con`. -/
theorem enum_table_agrees_with_constants_witness :
    (I3ipc_node_values, "I3IPC_NODE_TYPE_", "I3ipc_node.type") ∈ enum_groups ∧
    (bytes "I3IPC_NODE_TYPE_FLOATING_CON", 3) ∈
      group_constants (I3ipc_node_values, "I3IPC_NODE_TYPE_", "I3ipc_node.type") ∧
    (enum_partition (bytes "I3ipc_node.type")).get? 3 =
      some (constant_entry (bytes "I3IPC_NODE_TYPE_") (bytes "I3IPC_NODE_TYPE_FLOATING_CON")) :=
  ⟨by decide!, by decide!,
   (enum_table_agrees_with_constants
      (I3ipc_node_values, "I3IPC_NODE_TYPE_", "I3ipc_node.type") (by decide!)).2
      (bytes "I3IPC_NODE_TYPE_FLOATING_CON", 3) (by decide!)⟩

/-- C2, evaluated at the failing input. For the record parsed from the bar configuration
`{"status_command":"x"}` the emitter writes an object that starts with a comma (the first
member `id` is unset), so parsing the emitted text fails and `emit(parse(emit(r)))` does not
exist. Same defect as C1. -/
theorem emit_parse_emit_breaks_when_first_member_unset (fmt_f : I3ipc_double → List Nat) :
    (i3ipc_parse_try false 6 (bytes "\x7b\"status_command\":\"x\"\x7d") 6
        I3IPC_TYPE_REPLY_BAR_CONFIG).bind (i3ipc_printjson fmt_f I3IPC_TYPE_REPLY_BAR_CONFIG) =
      Outcome.done (bytes ("\x7b,\"status_command\":\"x\",\"workspace_buttons\":false," ++
        "\"binding_mode_indicator\":false,\"verbose\":false,\"colors\":\x7b\x7d\x7d")) ∧
    (i3ipc_parse_try false 6 (bytes ("\x7b,\"status_command\":\"x\",\"workspace_buttons\":false," ++
        "\"binding_mode_indicator\":false,\"verbose\":false,\"colors\":\x7b\x7d\x7d")) 6
        I3IPC_TYPE_REPLY_BAR_CONFIG).bind (i3ipc_printjson fmt_f I3IPC_TYPE_REPLY_BAR_CONFIG) =
      Outcome.fail I3IPC_ERROR_MALFORMED := by
  constructor
  · with_unfolding_all rfl
  · with_unfolding_all rfl

/-- C3, evaluated at the failing input. In the tree `{"marks":["a"],"marks":null}` the second
member only resets the size: `marks` keeps pointing to the array of one element that was
parsed into it, and `marks_size` is 0. -/
theorem size_sibling_stale_after_null :
    (i3ipc_parse_try false 4 (bytes "\x7b\"marks\":[\"a\"],\"marks\":null\x7d") 4
        I3IPC_TYPE_REPLY_TREE).get?.map (fun r =>
      (((r.member I3IPC_TYPE_REPLY_TREE "root").member I3IPC_TYPE_NODE "marks").elems.map
          List.length,
       ((r.member I3IPC_TYPE_REPLY_TREE "root").member I3IPC_TYPE_NODE "marks_size").as_int)) =
      some (some 1, 0) := by
  decide!

/-- C7, evaluated at the failing input. In the tree `{"name":"a","name":null}` the member
`name` points to the bytes `a`, 0 and `name_size` is 0, so the byte at index `name_size` is
`a` and not 0. -/
theorem terminator_missing_after_null :
    (i3ipc_parse_try false 4 (bytes "\x7b\"name\":\"a\",\"name\":null\x7d") 4
        I3IPC_TYPE_REPLY_TREE).get?.map (fun r =>
      (((r.member I3IPC_TYPE_REPLY_TREE "root").member I3IPC_TYPE_NODE "name").as_chars,
       ((r.member I3IPC_TYPE_REPLY_TREE "root").member I3IPC_TYPE_NODE "name_size").as_int,
       ((r.member I3IPC_TYPE_REPLY_TREE "root").member I3IPC_TYPE_NODE "name").as_chars.bind
         (fun str => str.get?
           ((r.member I3IPC_TYPE_REPLY_TREE "root").member I3IPC_TYPE_NODE
             "name_size").as_int.toNat))) =
      some (some [97, 0], 0, some 97) := by
  decide!

/-- C8, evaluated at the failing input. In the tree
`{"window_properties":{},"window_properties":null,"window_type":"normal","window_type":null}`
the last value of both members is null, and both pointers are still set. -/
theorem pointer_kept_after_null :
    (i3ipc_parse_try false 4
        (bytes ("\x7b\"window_properties\":\x7b\x7d,\"window_properties\":null," ++
          "\"window_type\":\"normal\",\"window_type\":null\x7d")) 4
        I3IPC_TYPE_REPLY_TREE).get?.map (fun r =>
      (((r.member I3IPC_TYPE_REPLY_TREE "root").member I3IPC_TYPE_NODE
          "window_properties").nonnull,
       ((r.member I3IPC_TYPE_REPLY_TREE "root").member I3IPC_TYPE_NODE "window_type").as_chars,
       ((r.member I3IPC_TYPE_REPLY_TREE "root").member I3IPC_TYPE_NODE
          "window_type_size").as_int)) =
      some (true, some (bytes "normal" ++ [0]), 0) := by
  decide!

/-- C4 as stated fails. The node type `root\u0000x` (six bytes, not an entry of the partition
`$I3ipc_node.type`) gets `type_enum = 0`, not -1; and the binding input type `mouse`, entry 1
of the partition `$I3ipc_event_binding.input_type`, gets `input_type_enum = 0`. -/
theorem enum_sibling_counterexample :
    ((i3ipc_parse_try false 4 (bytes "\x7b\"type\":\"root\\u0000x\"\x7d") 4
        I3IPC_TYPE_REPLY_TREE).get?.map (fun r =>
      (((r.member I3IPC_TYPE_REPLY_TREE "root").member I3IPC_TYPE_NODE "type").as_chars,
       ((r.member I3IPC_TYPE_REPLY_TREE "root").member I3IPC_TYPE_NODE "type_enum").as_int)) =
      some (some (bytes "root" ++ [0] ++ bytes "x" ++ [0]), 0) ∧
     some (bytes "root" ++ [0] ++ bytes "x") ∉ enum_partition (bytes "I3ipc_node.type")) ∧
    ((i3ipc_parse_try false (-2147483643) (bytes "\x7b\"binding\":\x7b\"input_type\":\"mouse\"\x7d\x7d")
        (-2147483643) I3IPC_TYPE_EVENT_BINDING).get?.map (fun r =>
      (((r.member I3IPC_TYPE_EVENT_BINDING "binding").member I3IPC_TYPE_EVENT_BINDING_BINDING
          "input_type").as_chars,
       ((r.member I3IPC_TYPE_EVENT_BINDING "binding").member I3IPC_TYPE_EVENT_BINDING_BINDING
          "input_type_enum").as_int)) =
      some (some (bytes "mouse" ++ [0]), 0) ∧
     (enum_partition (bytes "I3ipc_event_binding.input_type")).get? 1 =
       some (some (bytes "mouse"))) := by
  decide!

/-- C5 as stated fails. In the tree `{}` no enum-annotated member of the node is present, and
their `_enum` siblings are all 0, not -1. -/
theorem absent_enum_counterexample :
    (i3ipc_parse_try false 4 (bytes "\x7b\x7d") 4 I3IPC_TYPE_REPLY_TREE).get?.map (fun r =>
      ["type_enum", "border_enum", "layout_enum", "orientation_enum", "window_type_enum"].map
        (fun e => ((r.member I3IPC_TYPE_REPLY_TREE "root").member I3IPC_TYPE_NODE e).as_int)) =
      some [0, 0, 0, 0, 0] := by
  decide!

/-- C9 as stated fails. The key `id\u0000x` is not the JSON key of any entry of the node
type, yet the tree with the extra member `"id\u0000x":7` has `id = 7` where the tree `{}`
has `id = 0`. -/
theorem unknown_key_counterexample :
    ((i3ipc__type_get I3IPC_TYPE_NODE).map (fun t =>
      t.fields.all (fun f => f.json_name != bytes "id" ++ [0] ++ bytes "x"))) = some true ∧
    (i3ipc_parse_try false 4 (bytes "\x7b\"id\\u0000x\":7\x7d") 4 I3IPC_TYPE_REPLY_TREE).get?.map
      (fun r => (r.member I3IPC_TYPE_REPLY_TREE "root").member I3IPC_TYPE_NODE "id" matches
        Val.sizet 7) = some true ∧
    (i3ipc_parse_try false 4 (bytes "\x7b\x7d") 4 I3IPC_TYPE_REPLY_TREE).get?.map
      (fun r => (r.member I3IPC_TYPE_REPLY_TREE "root").member I3IPC_TYPE_NODE "id" matches
        Val.sizet 0) = some true := by
  decide!

/-- C10. Parsing the tree `{"window_properties":{"class":"XTerm","instance":"xterm"}}`
gives a node whose `window_properties` pointer is set, with `window_class = "XTerm"`,
`window_class_size = 5`, `instance = "xterm"` and `instance_size = 5`. In the whole registry
the JSON name of an entry is its member name, except for `window_class`, whose JSON name is
`class`. The key `window_class` matches no entry of the type, and the member stays NULL when
the tree uses that key. The emitter writes the member back under the key `class`. -/
theorem renamed_member_window_class (fmt_f : I3ipc_double → List Nat) :
    (i3ipc_parse_try false 4
        (bytes "\x7b\"window_properties\":\x7b\"class\":\"XTerm\",\"instance\":\"xterm\"\x7d\x7d") 4
        I3IPC_TYPE_REPLY_TREE).get?.map (fun r =>
      (((r.member I3IPC_TYPE_REPLY_TREE "root").member I3IPC_TYPE_NODE
          "window_properties").nonnull,
       ["window_class", "instance"].map (fun m =>
         ((((r.member I3IPC_TYPE_REPLY_TREE "root").member I3IPC_TYPE_NODE
          "window_properties").target).member I3IPC_TYPE_NODE_WINDOW_PROPERTIES m).as_chars),
       ["window_class_size", "instance_size"].map (fun m =>
         ((((r.member I3IPC_TYPE_REPLY_TREE "root").member I3IPC_TYPE_NODE
          "window_properties").target).member I3IPC_TYPE_NODE_WINDOW_PROPERTIES m).as_int))) =
      some (true, [some (bytes "XTerm" ++ [0]), some (bytes "xterm" ++ [0])], [5, 5]) ∧
    i3ipc__global_types.all (fun t => t.fields.all (fun f =>
      if f.full_name == bytes "I3ipc_node_window_properties.window_class" then
        f.name == bytes "window_class" && f.json_name == bytes "class"
      else f.json_name == f.name)) = true ∧
    (i3ipc__type_get I3IPC_TYPE_NODE_WINDOW_PROPERTIES).map (fun t =>
      (find_field t (tok_string (bytes "window_class")),
       find_field t (tok_string (bytes "class")))) =
      some (none, some (member_index I3IPC_TYPE_NODE_WINDOW_PROPERTIES "window_class")) ∧
    (i3ipc_parse_try false 4
        (bytes "\x7b\"window_properties\":\x7b\"window_class\":\"XTerm\"\x7d\x7d") 4
        I3IPC_TYPE_REPLY_TREE).get?.map (fun r =>
      (((((r.member I3IPC_TYPE_REPLY_TREE "root").member I3IPC_TYPE_NODE
          "window_properties").target).member I3IPC_TYPE_NODE_WINDOW_PROPERTIES
          "window_class").as_chars,
       ((((r.member I3IPC_TYPE_REPLY_TREE "root").member I3IPC_TYPE_NODE
          "window_properties").target).member I3IPC_TYPE_NODE_WINDOW_PROPERTIES
          "window_class_size").as_int)) = some (none, 0) ∧
    (i3ipc_parse_try false 4
        (bytes "\x7b\"window_properties\":\x7b\"class\":\"XTerm\",\"instance\":\"xterm\"\x7d\x7d") 4
        I3IPC_TYPE_REPLY_TREE).bind (i3ipc_printjson fmt_f I3IPC_TYPE_REPLY_TREE) =
      Outcome.done (bytes ("\x7b\"id\":0,\"name\":null,\"current_border_width\":0,\"percent\":null," ++
        "\"rect\":\x7b\"x\":0,\"y\":0,\"width\":0,\"height\":0\x7d," ++
        "\"window_rect\":\x7b\"x\":0,\"y\":0,\"width\":0,\"height\":0\x7d," ++
        "\"deco_rect\":\x7b\"x\":0,\"y\":0,\"width\":0,\"height\":0\x7d," ++
        "\"geometry\":\x7b\"x\":0,\"y\":0,\"width\":0,\"height\":0\x7d,\"window\":null," ++
        "\"window_properties\":\x7b\"title\":null,\"instance\":\"xterm\",\"class\":\"XTerm\"," ++
        "\"window_role\":null,\"transient_for\":null\x7d,\"window_type\":null,\"urgent\":false," ++
        "\"focused\":false,\"fullscreen_mode\":0\x7d")) := by
  refine ⟨by decide!, by decide!, by decide!, by decide!, ?_⟩
  with_unfolding_all rfl

/-! ### Enum derivation -/

/-- The registry entry of `char`. -/
theorem type_get_char : i3ipc__type_get 1 =
    some ⟨1, true, false, 1, 1, [], bytes "char"⟩ := by
  with_unfolding_all rfl

/-- A 0 byte appended to a string does not change it as a C string. -/
theorem cstr_append_zero (s : List Nat) : cstr (s ++ [0]) = cstr s := by
  induction s with
  | nil => simp [cstr]
  | cons a s ih =>
    unfold cstr at ih ⊢
    by_cases h : a = 0
    · simp [h]
    · simp [h, List.takeWhile_cons, ih]

/-- The string branch of `i3ipc__parse_helper` in the second pass. -/
theorem parse_string_value (fuel : Nat) (p : I3ipc_parse_state) (tok : I3ipc_json_token)
    (rest : List I3ipc_json_token) (b : Val)
    (htok : p.state.tokens = tok :: rest) (hty : tok.type = I3IPC_JSON_STRING)
    (hmem : p.memory = true) :
    ∃ p', i3ipc__parse_helper (fuel + 1) p I3IPC_TYPE_CHAR I3IPC_TYPE_ISARRAY (some b) =
        Outcome.done (p', some (Val.chars (some (tok.str ++ [0])))) ∧
      p'.next_size = tok.str.length ∧ p'.next_enum = some (tok.str ++ [0]) ∧
      p'.next_set = true ∧ p'.state.tokens = rest ∧ p'.state.err_flag = p.state.err_flag ∧ p'.memory = true := by
  unfold i3ipc__parse_helper
  simp [parse_string, type_get_char, I3IPC_TYPE_CHAR, I3IPC_TYPE_EVENT, I3IPC_TYPE_ISARRAY, hasflag, I3IPC_TYPE_GROUP_MAYBE,
    i3ipc__json_match, i3ipc__json_matchany, i3ipc__json_trymatchany, i3ipc__json_peek, htok, hty,
    i3ipc__json_pop, I3IPC_TYPE_STRING, parse_finish, i3ipc__parse_alloc, hmem]
  cases h : p.copy_strings <;> simp [h, I3ipc_json_token.str_size, hmem]

/-- The string branch of `i3ipc__parse_helper` behind `ISOPT`, for a value that is not null. -/
theorem parse_opt_string_value (fuel : Nat) (p : I3ipc_parse_state) (tok : I3ipc_json_token)
    (rest : List I3ipc_json_token) (b : Val)
    (htok : p.state.tokens = tok :: rest) (hty : tok.type = I3IPC_JSON_STRING)
    (hmem : p.memory = true) :
    ∃ p', i3ipc__parse_helper (fuel + 2) p I3IPC_TYPE_CHAR (I3IPC_TYPE_ISARRAY ||| I3IPC_TYPE_ISOPT) (some b) =
        Outcome.done (p', some (Val.chars (some (tok.str ++ [0])))) ∧
      p'.next_size = tok.str.length ∧ p'.next_enum = some (tok.str ++ [0]) ∧
      p'.next_set = true ∧ p'.state.tokens = rest ∧ p'.state.err_flag = p.state.err_flag ∧ p'.memory = true := by
  obtain ⟨p1, h1, h2, h3, h4, h5, h6, h7⟩ := parse_string_value fuel
    { p with state := (i3ipc__json_trymatch p.state I3IPC_JSON_NULL).2.2 } tok rest b
    (by simp [i3ipc__json_trymatch, i3ipc__json_trymatchany, i3ipc__json_peek, htok, hty, I3IPC_JSON_NULL, I3IPC_JSON_STRING])
    hty hmem
  unfold i3ipc__parse_helper
  simp [parse_maybe, type_get_char, I3IPC_TYPE_CHAR, I3IPC_TYPE_EVENT, I3IPC_TYPE_ISARRAY, I3IPC_TYPE_ISOPT, hasflag, I3IPC_TYPE_GROUP_MAYBE,
    I3IPC_TYPE_ISPTR, clearflag]
  simp [I3IPC_TYPE_CHAR, I3IPC_TYPE_ISARRAY] at h1
  have hm : (i3ipc__json_trymatch p.state I3IPC_JSON_NULL).1 = false := by
    simp [i3ipc__json_trymatch, i3ipc__json_trymatchany, i3ipc__json_peek, htok, hty, I3IPC_JSON_NULL, I3IPC_JSON_STRING]
  have e1 : (17 : Nat) &&& 8 = 0 := by decide
  have e2 : (17 : Nat) &&& 487 = 1 := by decide
  simp [hm, h1, parse_finish, e1, e2]
  refine ⟨h2, h3, h5, ?_, h7⟩
  simp [h6, i3ipc__json_trymatch, i3ipc__json_trymatchany, i3ipc__json_peek, htok, hty, I3IPC_JSON_NULL, I3IPC_JSON_STRING]

/-- The search loop of the enum branch finds the first entry, before the next sentinel, that
equals the string as a C string. -/
theorem enum_find_eq_index (e : List Nat) :
    ∀ (l : List (Option (List Nat))) (k : Nat),
      (∀ t, some t ∈ l → cstr t = t) →
      enum_find (some e) l k =
        match (l.takeWhile (fun s => match s with
            | some t => t.head? != some 36
            | none => true)).findIdx? (fun x => x == some (cstr e)) with
        | some j => ((k + j : Nat) : Int)
        | none => -1 := by
  intro l
  induction l with
  | nil => intro k _; simp [enum_find]
  | cons s l ih =>
    intro k hl
    have hl' : ∀ t, some t ∈ l → cstr t = t := fun t ht => hl t (List.mem_cons_of_mem _ ht)
    cases s with
    | none =>
      simp only [enum_find, List.takeWhile_cons, List.findIdx?_cons]
      rw [ih (k + 1) hl']
      simp
      cases h : List.findIdx? (fun x => x == some (cstr e)) (List.takeWhile (fun s => match s with
            | some t => t.head? != some 36
            | none => true) l) <;> simp [h]
      ring
    | some t =>
      have ht : cstr t = t := hl t (List.mem_cons_self _ _)
      by_cases hs : t.head? = some 36
      · simp [enum_find, hs, List.takeWhile_cons]
      · by_cases hc : t = cstr e
        · subst hc
          simp [enum_find, hs, List.takeWhile_cons, List.findIdx?_cons, strcmp_eq, ht]
        · simp only [enum_find, strcmp_eq, ht]
          rw [ih (k + 1) hl']
          simp [hs, hc, List.takeWhile_cons, List.findIdx?_cons]
          cases h : List.findIdx? (fun x => x == some (cstr e)) (List.takeWhile (fun s => match s with
            | some t => t.head? != some 36
            | none => true) l) <;> simp [h]
          ring


/-- `i3ipc__parse_doderived` for a member with a `_size` and an `_enum` entry. -/
theorem doderived_size_enum (p : I3ipc_parse_state) (type : I3ipc_type) (i : Nat)
    (f0 fsz fen : I3ipc_field) (tail : List I3ipc_field) (start : Nat) (base : Val)
    (hf0 : type.fields.get? i = some f0)
    (hdrop : type.fields.drop (i + 1) = fsz :: fen :: tail)
    (hsz : fsz.flags = 2) (hen : fen.flags = 4)
    (htail : tail.head?.all (fun g => !hasflag g.flags I3IPC_TYPE_GROUP_DERIVED) = true)
    (hstart : enum_start f0.full_name = some start) :
    i3ipc__parse_doderived p type i base =
      (base.set_field (i + 1) (Val.int p.next_size)).set_field (i + 2)
        (Val.int (enum_find p.next_enum (i3ipc__global_enums.drop start) 0)) := by
  unfold i3ipc__parse_doderived
  rw [hf0, hdrop]
  have e1 : hasflag 2 I3IPC_TYPE_GROUP_DERIVED = true := by decide
  have e2 : hasflag 2 I3IPC_TYPE_ISSIZE = true := by decide
  have e3 : hasflag 4 I3IPC_TYPE_GROUP_DERIVED = true := by decide
  have e4 : hasflag 4 I3IPC_TYPE_ISSIZE = false := by decide
  have e5 : hasflag 4 I3IPC_TYPE_ISFLAG = false := by decide
  cases tail with
  | nil => simp [doderived_loop, hsz, hen, e1, e2, e3, e4, e5, hstart]
  | cons g tail =>
    simp at htail
    simp [doderived_loop, hsz, hen, e1, e2, e3, e4, e5, hstart, htail]

/-- Reading back a member of a record after a store to another member. -/
theorem field_set_field_ne (fs : List Val) (i j : Nat) (x : Val) (h : i ≠ j) :
    ((Val.struct fs).set_field i x).field j = (Val.struct fs).field j := by
  simp [Val.set_field, Val.field, List.getD_eq_getElem?_getD, List.getElem?_set, h]

/-- Reading back a member of a record after a store to it. -/
theorem field_set_field_eq (fs : List Val) (i : Nat) (x : Val) (h : i < fs.length) :
    ((Val.struct fs).set_field i x).field i = x := by
  simp [Val.set_field, Val.field, List.getD_eq_getElem?_getD, List.getElem?_set, h]

/-- Every entry of the enum table is free of 0 bytes. -/
theorem enums_nul_free (t : List Nat) (h : some t ∈ i3ipc__global_enums) : cstr t = t := by
  have hall : i3ipc__global_enums.all (fun s => match s with
      | some t => cstr t == t
      | none => true) = true := by decide!
  have := List.all_eq_true.mp hall _ h
  simpa using this

/-- Every enum-annotated member of the registry other than the binding input type has the
shape `enum_member_shape`, and its `_enum` entry is two entries after it. -/
theorem enum_members_shape :
    enum_members.all (fun m => m == (14, 7, 9) || (m.2.2 == m.2.1 + 2 &&
      match i3ipc__type_get m.1 with
      | some t => enum_member_shape t m.2.1
      | none => false)) = true := by
  decide!

/-- C4, amended. For every enum-annotated member of the registry other than the binding
input type, and every string token parsed for it in the second pass: the member points to
the decoded bytes followed by a 0 byte, the `_size` sibling is the number of decoded bytes,
and the `_enum` sibling is the index, in the partition of the member, of the first entry that
equals the string as a C string (the string cut at its first 0 byte), and -1 when no entry
does. -/
theorem enum_sibling_is_cstring_index
    (type_id i e : Nat) (hm : (type_id, i, e) ∈ enum_members)
    (hne : (type_id, i, e) ≠ (I3IPC_TYPE_EVENT_BINDING_BINDING, 7, 9))
    (type : I3ipc_type) (ht : i3ipc__type_get type_id = some type)
    (f : I3ipc_field) (hf : type.fields.get? i = some f)
    (fuel : Nat) (p : I3ipc_parse_state) (tok : I3ipc_json_token)
    (rest : List I3ipc_json_token)
    (htok : p.state.tokens = tok :: rest) (hty : tok.type = I3IPC_JSON_STRING)
    (hmem : p.memory = true) (fs : List Val) (hlen : fs.length = type.fields.length) :
    ∃ p', i3ipc__parse_helper (fuel + 2) p f.type.toNat f.flags
          (some ((Val.struct fs).field i)) =
        Outcome.done (p', some (Val.chars (some (tok.str ++ [0])))) ∧
      (i3ipc__parse_doderived p' type i
          ((Val.struct fs).set_field i (Val.chars (some (tok.str ++ [0]))))).field i =
        Val.chars (some (tok.str ++ [0])) ∧
      (i3ipc__parse_doderived p' type i
          ((Val.struct fs).set_field i (Val.chars (some (tok.str ++ [0]))))).field (i + 1) =
        Val.int tok.str.length ∧
      (i3ipc__parse_doderived p' type i
          ((Val.struct fs).set_field i (Val.chars (some (tok.str ++ [0]))))).field e =
        Val.int (enum_index (enum_partition f.full_name) tok.str) := by
  have hs := List.all_eq_true.mp enum_members_shape _ hm
  have hne' : ((type_id, i, e) == (14, 7, 9)) = false := by
    simpa [I3IPC_TYPE_EVENT_BINDING_BINDING] using hne
  simp only [hne', Bool.false_or, Bool.and_eq_true, ht, beq_iff_eq] at hs
  obtain ⟨he, hshape⟩ := hs
  subst he
  unfold enum_member_shape at hshape
  rw [hf] at hshape
  split at hshape
  · rename_i f' fsz fen tail heq1 heq2
    cases heq1
    simp only [Bool.and_eq_true, beq_iff_eq, Bool.or_eq_true, Option.isSome_iff_exists] at hshape
    obtain ⟨⟨⟨⟨⟨hty1, hfl⟩, hsz⟩, hen⟩, htail⟩, start, hstart⟩ := hshape
    have hlen3 : i + 2 < fs.length := by
      have := congrArg List.length heq2
      simp at this
      omega
    have key : ∃ p', i3ipc__parse_helper (fuel + 2) p f.type.toNat f.flags
          (some ((Val.struct fs).field i)) =
        Outcome.done (p', some (Val.chars (some (tok.str ++ [0])))) ∧
        p'.next_size = tok.str.length ∧ p'.next_enum = some (tok.str ++ [0]) := by
      rw [hty1]
      rcases hfl with hfl | hfl
      · obtain ⟨p', h1, h2, h3, _⟩ := parse_string_value (fuel + 1) p tok rest
          ((Val.struct fs).field i) htok hty hmem
        rw [hfl]
        exact ⟨p', h1, h2, h3⟩
      · obtain ⟨p', h1, h2, h3, _⟩ := parse_opt_string_value fuel p tok rest
          ((Val.struct fs).field i) htok hty hmem
        rw [hfl]
        exact ⟨p', h1, h2, h3⟩
    obtain ⟨p', h1, h2, h3⟩ := key
    refine ⟨p', h1, ?_⟩
    rw [doderived_size_enum p' type i f fsz fen tail start _ hf heq2 hsz hen htail hstart]
    have hset : (Val.struct fs).set_field i (Val.chars (some (tok.str ++ [0]))) =
        Val.struct (fs.set i (Val.chars (some (tok.str ++ [0])))) := rfl
    have hset2 : ∀ (l : List Val) (j : Nat) (x : Val),
        (Val.struct l).set_field j x = Val.struct (l.set j x) := fun _ _ _ => rfl
    rw [hset, hset2, hset2]
    refine ⟨?_, ?_, ?_⟩
    · have hi : i < fs.length := by omega
      simp [Val.field, List.getD_eq_getElem?_getD, List.getElem?_set, hi]
    · have hi : i + 1 < fs.length := by omega
      simp [Val.field, List.getD_eq_getElem?_getD, List.getElem?_set, h2, hi]
    · simp only [Val.field, List.getD_eq_getElem?_getD, List.getElem?_set]
      simp [hlen3, h3]
      rw [enum_find_eq_index _ _ _ (fun t ht => enums_nul_free t (List.mem_of_mem_drop ht))]
      simp [enum_index, enum_partition, hstart, cstr_append_zero]
  · simp at hshape


/-! ### Members that are absent from the object -/

/-- A store to one member of a record leaves the other members as they were. -/
theorem field_set_field_other (v : Val) (i j : Nat) (x : Val) (h : i ≠ j) :
    (v.set_field i x).field j = v.field j := by
  cases v <;> simp [Val.set_field, Val.field, List.getD_eq_getElem?_getD, List.getElem?_set, h]

/-- `i3ipc__parse_doderived` writes only behind the entry it starts from. -/
theorem doderived_loop_below (p : I3ipc_parse_state) (f0 : I3ipc_field) :
    ∀ (fs : List I3ipc_field) (i : Nat) (base : Val) (j : Nat), j < i →
      (doderived_loop p f0 fs i base).field j = base.field j := by
  intro fs
  induction fs with
  | nil => intro i base j _; simp [doderived_loop]
  | cons f fs ih =>
    intro i base j hj
    unfold doderived_loop
    split
    · rfl
    · split
      · rw [ih _ _ _ (by omega), field_set_field_other _ _ _ _ (by omega)]
      · split
        · rw [ih _ _ _ (by omega), field_set_field_other _ _ _ _ (by omega)]
        · split
          · rw [ih _ _ _ (by omega)]
          · rw [ih _ _ _ (by omega), field_set_field_other _ _ _ _ (by omega)]

/-- `i3ipc__parse_doderived` stops at the first entry that is not derived. -/
theorem doderived_loop_beyond (p : I3ipc_parse_state) (f0 : I3ipc_field) :
    ∀ (fs : List I3ipc_field) (i : Nat) (base : Val) (k : Nat) (g : I3ipc_field) (j : Nat),
      fs.get? k = some g → hasflag g.flags I3IPC_TYPE_GROUP_DERIVED = false → i + k ≤ j →
      (doderived_loop p f0 fs i base).field j = base.field j := by
  intro fs
  induction fs with
  | nil => intro i base k g j h; simp at h
  | cons f fs ih =>
    intro i base k g j hg hnd hj
    cases k with
    | zero =>
      simp at hg
      subst hg
      simp [doderived_loop, hnd]
    | succ k =>
      simp at hg
      unfold doderived_loop
      split
      · rfl
      · split
        · rw [ih _ _ k g j (by simpa using hg) hnd (by omega), field_set_field_other _ _ _ _ (by omega)]
        · split
          · rw [ih _ _ k g j (by simpa using hg) hnd (by omega), field_set_field_other _ _ _ _ (by omega)]
          · split
            · rw [ih _ _ k g j (by simpa using hg) hnd (by omega)]
            · rw [ih _ _ k g j (by simpa using hg) hnd (by omega), field_set_field_other _ _ _ _ (by omega)]

/-- An index found by `List.findIdx?` holds an element that satisfies the test. -/
theorem findIdx_some_get {α : Type} (q : α → Bool) :
    ∀ (l : List α) (k : Nat), l.findIdx? q = some k → ∃ x, l.get? k = some x ∧ q x = true := by
  intro l
  induction l with
  | nil => intro k h; simp at h
  | cons a l ih =>
    intro k h
    rw [List.findIdx?_cons] at h
    by_cases ha : q a = true
    · simp [ha] at h
      subst h
      exact ⟨a, by simp, ha⟩
    · simp [ha] at h
      obtain ⟨k', hk', rfl⟩ := h
      obtain ⟨x, hx, hq⟩ := ih k' hk'
      exact ⟨x, by simpa using hx, hq⟩

/-- Handling a member of another entry leaves the `_enum` sibling of entry `i` as it was. -/
theorem doderived_other_member (p : I3ipc_parse_state) (type : I3ipc_type) (i fld : Nat)
    (fi g1 g2 g : I3ipc_field) (b v : Val)
    (hi : type.fields.get? i = some fi)
    (hind : hasflag fi.flags I3IPC_TYPE_GROUP_DERIVED = false)
    (h1 : type.fields.get? (i + 1) = some g1)
    (h1d : hasflag g1.flags I3IPC_TYPE_GROUP_DERIVED = true)
    (h2 : type.fields.get? (i + 2) = some g2)
    (h2d : hasflag g2.flags I3IPC_TYPE_GROUP_DERIVED = true)
    (hg : type.fields.get? fld = some g)
    (hgnd : hasflag g.flags I3IPC_TYPE_GROUP_DERIVED = false)
    (hne : i ≠ fld) :
    (i3ipc__parse_doderived p type fld (b.set_field fld v)).field (i + 2) = b.field (i + 2) := by
  have hne1 : fld ≠ i + 1 := by
    intro h; subst h; rw [h1] at hg; cases hg; rw [h1d] at hgnd; cases hgnd
  have hne2 : fld ≠ i + 2 := by
    intro h; subst h; rw [h2] at hg; cases hg; rw [h2d] at hgnd; cases hgnd
  unfold i3ipc__parse_doderived
  rw [hg]
  dsimp only
  rcases Nat.lt_or_gt_of_ne hne with hlt | hgt
  · rw [doderived_loop_below _ _ _ _ _ _ (by omega), field_set_field_other _ _ _ _ (by omega)]
  · rw [doderived_loop_beyond _ _ _ _ _ (i - fld - 1) fi (i + 2) ?_ hind (by omega),
      field_set_field_other _ _ _ _ (by omega)]
    rw [List.get?_eq_getElem?, List.getElem?_drop, ← List.get?_eq_getElem?]
    have : fld + 1 + (i - fld - 1) = i := by omega
    rw [this, hi]

/-- Every enum-annotated member of the registry sits in a record type that is neither inline
nor primitive, is followed by two derived entries of which the second is its `_enum` entry,
and has the `_enum` sibling 0 in zeroed memory. -/
theorem enum_members_record :
    enum_members.all (fun m =>
      match i3ipc__type_get m.1 with
      | some t =>
        !t.is_inline && !t.is_primitive && m.1 != 28 && m.1 != 6 && m.1 != 1 &&
        m.2.2 == m.2.1 + 2 &&
        (match t.fields.get? m.2.1, t.fields.get? (m.2.1 + 1), t.fields.get? (m.2.1 + 2) with
         | some fi, some g1, some g2 =>
           !hasflag fi.flags I3IPC_TYPE_GROUP_DERIVED &&
           hasflag g1.flags I3IPC_TYPE_GROUP_DERIVED && hasflag g2.flags I3IPC_TYPE_GROUP_DERIVED
         | _, _, _ => false) &&
        ((zero_of m.1 0).field m.2.2).as_int == 0 &&
        ((zero_of m.1 0).field m.2.2 matches Val.int _)
      | none => false) = true := by
  decide!

/-- A value that is an `int` is determined by `as_int`. -/
theorem val_int_of_as_int (v : Val) (h : (v matches Val.int _) = true) :
    v = Val.int v.as_int := by
  cases v <;> simp_all [Val.as_int]


/-- An outcome that is `done` is the `done` of its outputs. -/
theorem outcome_done_getD {α : Type} (o : Outcome α) (d : α) (h : o.isDone = true) :
    o = Outcome.done (o.getD d) := by
  cases o <;> simp_all [Outcome.isDone, Outcome.getD]

/-- An outcome that is `done` with a record is the `done` of its outputs. -/
theorem outcome_done_some {α β : Type} (o : Outcome (α × Option β)) (d : α × Option β) (v : β)
    (h : o.isDone = true) (hs : (o.getD d).2.isSome = true) :
    o = Outcome.done ((o.getD d).1, some ((o.getD d).2.getD v)) := by
  cases o with
  | done a =>
    obtain ⟨a1, a2⟩ := a
    cases a2 <;> simp_all [Outcome.getD]
  | fail c => simp [Outcome.isDone] at h
  | aborted => simp [Outcome.isDone] at h
  | starved => simp [Outcome.isDone] at h

/-- The amended C4 at the member `type` of a node and the string `"con"`. -/
theorem enum_sibling_is_cstring_index_witness :
    ∃ p', i3ipc__parse_helper (0 + 2)
          (second_pass_static [tok_string (bytes "con"), tok_zero])
          (field_of I3IPC_TYPE_NODE 3).type.toNat (field_of I3IPC_TYPE_NODE 3).flags
          (some ((Val.struct (zero_of I3IPC_TYPE_NODE 0).fields).field 3)) =
        Outcome.done (p', some (Val.chars (some ((tok_string (bytes "con")).str ++ [0])))) ∧
      (i3ipc__parse_doderived p' (type_of I3IPC_TYPE_NODE) 3
          ((Val.struct (zero_of I3IPC_TYPE_NODE 0).fields).set_field 3
            (Val.chars (some ((tok_string (bytes "con")).str ++ [0]))))).field 3 =
        Val.chars (some ((tok_string (bytes "con")).str ++ [0])) ∧
      (i3ipc__parse_doderived p' (type_of I3IPC_TYPE_NODE) 3
          ((Val.struct (zero_of I3IPC_TYPE_NODE 0).fields).set_field 3
            (Val.chars (some ((tok_string (bytes "con")).str ++ [0]))))).field (3 + 1) =
        Val.int (tok_string (bytes "con")).str.length ∧
      (i3ipc__parse_doderived p' (type_of I3IPC_TYPE_NODE) 3
          ((Val.struct (zero_of I3IPC_TYPE_NODE 0).fields).set_field 3
            (Val.chars (some ((tok_string (bytes "con")).str ++ [0]))))).field 5 =
        Val.int (enum_index (enum_partition (field_of I3IPC_TYPE_NODE 3).full_name)
          (tok_string (bytes "con")).str) :=
  enum_sibling_is_cstring_index I3IPC_TYPE_NODE 3 5 (by decide!) (by decide!)
    (type_of I3IPC_TYPE_NODE) (by with_unfolding_all rfl)
    (field_of I3IPC_TYPE_NODE 3) (by with_unfolding_all rfl)
    0 (second_pass_static [tok_string (bytes "con"), tok_zero]) (tok_string (bytes "con"))
    [tok_zero] rfl rfl rfl (zero_of I3IPC_TYPE_NODE 0).fields (by decide!)


/-! ### Context and transport -/

/-- With an error code latched `i3ipc_init_try` answers `I3IPC_ERROR_BADSTATE` and changes
nothing. -/
theorem init_try_latched (w : I3ipc_world) (h : I3IPC_STATE_ERROR_BEGIN ≤ w.context.state) :
    i3ipc_init_try w = (w, I3IPC_ERROR_BADSTATE) := by
  have h1 : (w.context.state == I3IPC_STATE_READY) = false := by
    simp only [I3IPC_STATE_ERROR_BEGIN, I3IPC_ERROR_CLOSED] at h
    simp only [I3IPC_STATE_READY, beq_eq_false_iff_ne, ne_eq]
    omega
  have h2 : (i3ipc_error_code w.context != 0) = true := by
    simp only [I3IPC_STATE_ERROR_BEGIN, I3IPC_ERROR_CLOSED] at h
    simp only [i3ipc_error_code, I3IPC_STATE_ERROR_BEGIN, I3IPC_ERROR_CLOSED, bne_iff_ne, ne_eq]
    rw [if_neg (by omega)]
    omega
  simp [i3ipc_init_try, h1, h2]

/-- With an error code latched `i3ipc_error_code` is the state. -/
theorem error_code_latched (w : I3ipc_world) (h : I3IPC_STATE_ERROR_BEGIN ≤ w.context.state) :
    i3ipc_error_code w.context = w.context.state ∧
    (i3ipc_error_code w.context != 0) = true := by
  simp only [I3IPC_STATE_ERROR_BEGIN, I3IPC_ERROR_CLOSED] at h
  simp only [i3ipc_error_code, I3IPC_STATE_ERROR_BEGIN, I3IPC_ERROR_CLOSED, bne_iff_ne, ne_eq]
  rw [if_neg (by omega)]
  exact ⟨rfl, by omega⟩

/-- C12. While the context holds an error code (`state >= I3IPC_STATE_ERROR_BEGIN = 256`),
each of `i3ipc_init_try`, `i3ipc_message_send_try`, `i3ipc_message_receive_try`,
`i3ipc_message_receive_reorder_try`, `i3ipc_message_try`, `i3ipc_parse_try` and
`i3ipc_message_and_parse_try` returns `I3IPC_ERROR_BADSTATE` and leaves the context, the
sockets and everything else as they are; `i3ipc_error_code` is the latched code, which is not
`I3IPC_ERROR_BADSTATE`. The sending functions are called with arguments that pass their
assertions (a message type in `[0, I3IPC_MESSAGE_TYPE_COUNT)`, a payload size of at least
-1). -/
theorem latched_error_returns_badstate (w : I3ipc_world)
    (h : I3IPC_STATE_ERROR_BEGIN ≤ w.context.state)
    (message_type expected : Int) (payload : Option (List Nat)) (payload_size : Int)
    (msg : I3ipc_message) (type_id : Nat)
    (hmt : 0 ≤ message_type ∧ message_type < I3IPC_MESSAGE_TYPE_COUNT)
    (hsize : -1 ≤ payload_size) :
    i3ipc_init_try w = (w, I3IPC_ERROR_BADSTATE) ∧
    i3ipc_message_send_try w message_type payload payload_size =
      Outcome.done (w, I3IPC_ERROR_BADSTATE) ∧
    i3ipc_message_receive_try w expected = Outcome.done (w, I3IPC_ERROR_BADSTATE) ∧
    i3ipc_message_receive_reorder_try w expected = Outcome.done (w, I3IPC_ERROR_BADSTATE) ∧
    i3ipc_message_try w message_type payload payload_size =
      Outcome.done (w, I3IPC_ERROR_BADSTATE) ∧
    i3ipc_parse_try_context w msg expected type_id =
      Outcome.done (w, I3IPC_ERROR_BADSTATE, none) ∧
    i3ipc_message_and_parse_try w message_type type_id payload payload_size =
      Outcome.done (w, I3IPC_ERROR_BADSTATE, none) ∧
    i3ipc_error_code w.context = w.context.state ∧
    i3ipc_error_code w.context ≠ I3IPC_ERROR_BADSTATE := by
  have hi := init_try_latched w h
  obtain ⟨hc, hc0⟩ := error_code_latched w h
  have hb : (I3IPC_ERROR_BADSTATE != 0) = true := by decide
  have hsend : i3ipc_message_send_try w message_type payload payload_size =
      Outcome.done (w, I3IPC_ERROR_BADSTATE) := by
    have h1 : (0 ≤ message_type && message_type < I3IPC_MESSAGE_TYPE_COUNT) = true := by
      simp [hmt.1, hmt.2]
    have h2 : decide (-1 ≤ payload_size) = true := by simp [hsize]
    unfold i3ipc_message_send_try
    simp only [h1, h2, hi, hb, Bool.not_true, Bool.false_eq_true, ↓reduceIte]
  refine ⟨hi, hsend, ?_, ?_, ?_, ?_, ?_, hc, ?_⟩
  · unfold i3ipc_message_receive_try
    simp only [hi, hb, ↓reduceIte]
  · unfold i3ipc_message_receive_reorder_try
    simp only [hi, hb, ↓reduceIte]
  · unfold i3ipc_message_try
    simp only [hsend, hb, ↓reduceIte]
  · unfold i3ipc_parse_try_context
    simp only [hc0, ↓reduceIte]
  · unfold i3ipc_message_and_parse_try
    simp only [hc0, ↓reduceIte]
  · rw [hc]
    simp only [I3IPC_STATE_ERROR_BEGIN, I3IPC_ERROR_CLOSED] at h
    simp only [I3IPC_ERROR_BADSTATE]
    omega

/-- C13. With a latched error code `c`, `i3ipc_error_reinitialize(force)` sets the state to
`I3IPC_STATE_UNINITIALIZED`, both socket handles to 0 and the number of queued events to 0
when `c` is not `I3IPC_ERROR_FAILED` (so for `CLOSED`, `MALFORMED` and `IO`) or `force` is
set; when `c` is `I3IPC_ERROR_FAILED` and `force` is not set it only sets the state to
`I3IPC_STATE_READY`, and the socket handles, the queue and everything else stay as they are.
In both cases `i3ipc_error_code` is 0 afterwards. -/
theorem reinitialize_policy (w : I3ipc_world) (force : Bool)
    (h : I3IPC_STATE_ERROR_BEGIN ≤ w.context.state) :
    (w.context.state ≠ I3IPC_ERROR_FAILED ∨ force = true →
      ∃ w', i3ipc_error_reinitialize w force = Outcome.done w' ∧
        w'.context.state = I3IPC_STATE_UNINITIALIZED ∧ w'.context.sock = 0 ∧
        w'.context.sock_events = 0 ∧ w'.context.events_queued = 0 ∧
        i3ipc_error_code w'.context = 0) ∧
    (w.context.state = I3IPC_ERROR_FAILED ∧ force = false →
      i3ipc_error_reinitialize w force =
        Outcome.done { w with context := { w.context with state := I3IPC_STATE_READY } } ∧
      i3ipc_error_code { w.context with state := I3IPC_STATE_READY } = 0) := by
  obtain ⟨hc, hc0⟩ := error_code_latched w h
  have hz : (i3ipc_error_code w.context == 0) = false := by
    simpa [bne_iff_ne] using hc0
  constructor
  · intro hcase
    have hb : (i3ipc_error_code w.context != I3IPC_ERROR_FAILED || force) = true := by
      rw [hc]
      cases hcase with
      | inl h1 => simp [h1]
      | inr h1 => simp [h1]
    refine ⟨{ w with context :=
      { w.context with state := I3IPC_STATE_UNINITIALIZED, sock := 0, sock_events := 0,
                       reorder := [] } }, ?_, rfl, rfl, rfl, rfl, ?_⟩
    · unfold i3ipc_error_reinitialize
      simp only [hz, hb, Bool.false_eq_true, ↓reduceIte]
    · simp [i3ipc_error_code, I3IPC_STATE_UNINITIALIZED, I3IPC_STATE_ERROR_BEGIN,
        I3IPC_ERROR_CLOSED]
  · intro hcase
    have hb : (i3ipc_error_code w.context != I3IPC_ERROR_FAILED || force) = false := by
      rw [hc, hcase.1, hcase.2]
      decide
    constructor
    · unfold i3ipc_error_reinitialize
      simp only [hz, hb, Bool.false_eq_true, ↓reduceIte]
    · simp [i3ipc_error_code, I3IPC_STATE_READY, I3IPC_STATE_ERROR_BEGIN, I3IPC_ERROR_CLOSED]

/-- In the state `I3IPC_STATE_READY` `i3ipc_init_try` returns 0 and changes nothing. -/
theorem init_try_ready (w : I3ipc_world) (h : w.context.state = I3IPC_STATE_READY) :
    i3ipc_init_try w = (w, 0) := by
  simp [i3ipc_init_try, h]

/-- The length and the type of a message are read from its first 14 bytes. -/
theorem message_at_append (hdr x : List Nat) (hh : hdr.length = 14) :
    (message_at (hdr ++ x)).message_length = (message_at hdr).message_length ∧
    (message_at (hdr ++ x)).message_type = (message_at hdr).message_type := by
  have h6 : (hdr ++ x).drop 6 = hdr.drop 6 ++ x := by
    rw [List.drop_append_of_le_length (by omega)]
  have h10 : (hdr ++ x).drop 10 = hdr.drop 10 ++ x := by
    rw [List.drop_append_of_le_length (by omega)]
  have hg : ∀ (l : List Nat) (k : Nat), k < l.length → (l ++ x).getD k 0 = l.getD k 0 := by
    intro l k hk
    simp [List.getD, List.getElem?_append_left hk]
  have l6 : (hdr.drop 6).length = 8 := by simp [hh]
  have l10 : (hdr.drop 10).length = 4 := by simp [hh]
  simp only [message_at, h6, h10, int32_of_bytes]
  rw [hg _ 0 (by omega), hg _ 1 (by omega), hg _ 2 (by omega), hg _ 3 (by omega),
    hg _ 0 (by omega), hg _ 1 (by omega), hg _ 2 (by omega), hg _ 3 (by omega)]
  exact ⟨rfl, rfl⟩


/-- `i3ipc_message_receive_try` on a frame that is complete and within the size limit: the
frame is read, the 0 byte is stored behind the payload, and the type is compared. -/
theorem receive_frame (w : I3ipc_world) (e : Int) (events : Bool) (hdr body rest : List Nat)
    (hs : w.context.state = I3IPC_STATE_READY)
    (hsock : i3ipc__message_type_to_socket e = some events)
    (hdata : (w.incoming events).data = hdr ++ body ++ rest) (hh : hdr.length = 14)
    (hlen : (message_at hdr).message_length = body.length)
    (hcap : 14 + body.length + 1 ≤ 256 * 1024 * 1024) :
    i3ipc_message_receive_try w e =
      if receive_matches e (message_at hdr).message_type
      then Outcome.done (received w events hdr body rest, 0)
      else i3ipc__error_handle (received w events hdr body rest) I3IPC_ERROR_MALFORMED_code := by
  have hm := message_at_append hdr body hh
  have h14 : sizeof_message ≤ (w.incoming events).data.length := by
    simp [hdata, hh, sizeof_message]
  have hread : i3ipc__read_all_try (w.incoming events) sizeof_message =
      (0, hdr, { w.incoming events with data := body ++ rest }) := by
    unfold i3ipc__read_all_try
    rw [if_pos h14]
    simp [hdata, sizeof_message, List.append_assoc, ← hh]
  unfold i3ipc_message_receive_try
  simp only [init_try_ready w hs, hsock, hread, bne_self_eq_false, Bool.false_eq_true,
    ↓reduceIte, beq_self_eq_true]
  have hmsg : ((w.set_incoming events { w.incoming events with data := body ++ rest }).set_msg
      hdr).context.msg = hdr := by
    cases events <;> rfl
  have hinc : ((w.set_incoming events { w.incoming events with data := body ++ rest }).set_msg
      hdr).incoming events = { w.incoming events with data := body ++ rest } := by
    cases events <;> rfl
  simp only [hmsg, hinc, hlen]
  have hneg : ¬ ((body.length : Int) < 0) := by omega
  have hsz : ¬ ((sizeof_message + (body.length : Int).toNat + 1) % 2 ^ 64 > 256 * 1024 * 1024) := by
    simp only [sizeof_message, Int.toNat_ofNat]
    omega
  rw [if_neg hneg, if_neg hsz]
  have hread2 : i3ipc__read_all_try { w.incoming events with data := body ++ rest }
      (body.length : Int).toNat = (0, body, { w.incoming events with data := rest }) := by
    unfold i3ipc__read_all_try
    simp
  simp only [hread2]
  unfold receive_finish
  have hmsg2 : ∀ (x : I3ipc_world) (b : List Nat), (x.set_msg b).context.msg = b := by
    intro x b; rfl
  simp only [hmsg2, hm.1, hm.2, hlen]
  have e1 : ((0 : Nat) == I3IPC_READ_ALL_EOF) = false := by decide
  have e2 : ((0 : Nat) == I3IPC_READ_ALL_WOULDBLOCK) = false := by decide
  have htake : (hdr ++ body).take (sizeof_message + (body.length : Int).toNat) = hdr ++ body := by
    apply List.take_of_length_le
    simp [sizeof_message, hh]
  have hw : ((((w.set_incoming events { w.incoming events with data := body ++ rest }).set_msg
      hdr).set_incoming events { w.incoming events with data := rest }).set_msg
      (hdr ++ body)).set_msg (hdr ++ body ++ [0]) = received w events hdr body rest := by
    cases events <;> rfl
  simp only [e1, e2, Bool.false_and, Bool.false_eq_true, ↓reduceIte, bne_self_eq_false, htake,
    hw]
  cases receive_matches e (message_at hdr).message_type <;> rfl

/-- `i3ipc__error_handle` with one of the codes that are latched: the code becomes the state
and is returned when `nopanic` is set, and the program aborts otherwise. -/
theorem error_handle_latches (w : I3ipc_world) (code : Int) (h0 : code ≠ 0)
    (hb : code ≠ I3IPC_ERROR_BADSTATE) :
    i3ipc__error_handle w code =
      if w.context.nopanic then Outcome.done (latched w code, code) else Outcome.aborted := by
  unfold i3ipc__error_handle latched
  have h1 : (code != 0) = true := by simpa [bne_iff_ne] using h0
  have h2 : (code != I3IPC_ERROR_BADSTATE) = true := by simpa [bne_iff_ne] using hb
  simp only [h1, h2, ↓reduceIte]
  cases w.context.nopanic <;> simp

/-- The comparison of types in `i3ipc_message_receive_try`, in words: the types are equal, or
any event or subscribe reply is expected and the message is a subscribe reply or an event. -/
theorem receive_matches_iff (e t : Int) :
    receive_matches e t = true ↔
      (t = e ∨ (e = I3IPC_EVENT_ANY ∧ (t = I3IPC_REPLY_SUBSCRIBE ∨ t ∈ I3ipc_event_type))) := by
  have hev : (I3IPC_EVENT_TYPE_BEGIN ≤ t ∧ t < I3IPC_EVENT_TYPE_END) ↔ t ∈ I3ipc_event_type := by
    simp only [I3IPC_EVENT_TYPE_BEGIN, I3IPC_EVENT_TYPE_END, I3ipc_event_type,
      I3IPC_EVENT_WORKSPACE, List.mem_cons, List.mem_singleton, List.not_mem_nil, or_false]
    omega
  unfold receive_matches
  by_cases h1 : t = e
  · simp [h1]
  · by_cases h2 : e = I3IPC_EVENT_ANY
    · by_cases h3 : t = I3IPC_REPLY_SUBSCRIBE
      · simp [h1, h2, h3]
      · subst h2
        simp only [beq_iff_eq, h1, ↓reduceIte, h3, Bool.and_eq_true, decide_eq_true_eq,
          Bool.if_false_right, Bool.and_true, false_or, true_and, hev]
    · simp [h1, h2]

/-- C20. `i3ipc_message_receive_try` in an initialised context with `nopanic` set, after the
14 bytes `hdr` of a header have been read from the socket, where `rest` is what the peer has
sent behind them. When the length in the header is negative or `14 + length + 1` exceeds
`256 * 1024 * 1024`, the call fails with `I3IPC_ERROR_MALFORMED`, nothing of `rest` is read
and the message buffer holds the header only. Otherwise, when the peer has sent the payload,
exactly `length` bytes are read and stored behind the header, and a 0 byte is stored directly
behind them. -/
theorem receive_length_validation (w : I3ipc_world) (e : Int) (events : Bool)
    (hdr rest : List Nat)
    (hs : w.context.state = I3IPC_STATE_READY) (hnp : w.context.nopanic = true)
    (hsock : i3ipc__message_type_to_socket e = some events)
    (hdata : (w.incoming events).data = hdr ++ rest) (hh : hdr.length = 14) :
    ((message_at hdr).message_length < 0 ∨
        14 + (message_at hdr).message_length + 1 > 256 * 1024 * 1024 →
      i3ipc_message_receive_try w e =
        Outcome.done (latched ((w.set_incoming events
          { w.incoming events with data := rest }).set_msg hdr) I3IPC_ERROR_MALFORMED_code,
          I3IPC_ERROR_MALFORMED_code)) ∧
    (0 ≤ (message_at hdr).message_length ∧
        14 + (message_at hdr).message_length + 1 ≤ 256 * 1024 * 1024 ∧
        (message_at hdr).message_length.toNat ≤ rest.length →
      ∃ w' code, i3ipc_message_receive_try w e = Outcome.done (w', code) ∧
        (w'.incoming events).data = rest.drop (message_at hdr).message_length.toNat ∧
        w'.context.msg = hdr ++ rest.take (message_at hdr).message_length.toNat ++ [0]) := by
  constructor
  · intro hbad
    have h14 : sizeof_message ≤ (w.incoming events).data.length := by
      simp [hdata, hh, sizeof_message]
    have hread : i3ipc__read_all_try (w.incoming events) sizeof_message =
        (0, hdr, { w.incoming events with data := rest }) := by
      unfold i3ipc__read_all_try
      rw [if_pos h14]
      simp [hdata, sizeof_message, ← hh]
    unfold i3ipc_message_receive_try
    simp only [init_try_ready w hs, hsock, hread, bne_self_eq_false, Bool.false_eq_true,
      ↓reduceIte, beq_self_eq_true]
    have hmsg : ((w.set_incoming events { w.incoming events with data := rest }).set_msg
        hdr).context.msg = hdr := by
      cases events <;> rfl
    have hnp2 : ((w.set_incoming events { w.incoming events with data := rest }).set_msg
        hdr).context.nopanic = true := by
      rw [← hnp]
      cases events <;> rfl
    have heh := error_handle_latches ((w.set_incoming events
      { w.incoming events with data := rest }).set_msg hdr) I3IPC_ERROR_MALFORMED_code
      (by decide) (by decide)
    rw [hnp2] at heh
    simp only [↓reduceIte] at heh
    simp only [hmsg]
    by_cases hneg : (message_at hdr).message_length < 0
    · rw [if_pos hneg, heh]
    · rw [if_neg hneg]
      have hbig : (sizeof_message + (message_at hdr).message_length.toNat + 1) % 2 ^ 64 >
          256 * 1024 * 1024 := by
        have hl : (message_at hdr).message_length < 2 ^ 31 := by
          simp only [message_at, int32_of_bytes]
          split <;> omega
        simp only [sizeof_message]
        omega
      rw [if_pos hbig, heh]
  · intro hok
    obtain ⟨h0, hcap, havail⟩ := hok
    have hlen : (message_at hdr).message_length =
        ((rest.take (message_at hdr).message_length.toNat).length : Int) := by
      rw [List.length_take, Nat.min_eq_left havail]
      omega
    have hcap2 : 14 + (rest.take (message_at hdr).message_length.toNat).length + 1 ≤
        256 * 1024 * 1024 := by
      rw [List.length_take, Nat.min_eq_left havail]
      omega
    have hr := receive_frame w e events hdr (rest.take (message_at hdr).message_length.toNat)
      (rest.drop (message_at hdr).message_length.toNat) hs hsock
      (by rw [hdata, List.append_assoc, List.take_append_drop]) hh hlen hcap2
    have hinc : ∀ (c : Int), ((latched (received w events hdr
        (rest.take (message_at hdr).message_length.toNat)
        (rest.drop (message_at hdr).message_length.toNat)) c).incoming events).data =
        rest.drop (message_at hdr).message_length.toNat := by
      intro c
      cases events <;> rfl
    have hinc2 : ((received w events hdr
        (rest.take (message_at hdr).message_length.toNat)
        (rest.drop (message_at hdr).message_length.toNat)).incoming events).data =
        rest.drop (message_at hdr).message_length.toNat := by
      cases events <;> rfl
    by_cases hm : receive_matches e (message_at hdr).message_type = true
    · rw [if_pos hm] at hr
      exact ⟨_, _, hr, hinc2, rfl⟩
    · have heh := error_handle_latches (received w events hdr
        (rest.take (message_at hdr).message_length.toNat)
        (rest.drop (message_at hdr).message_length.toNat)) I3IPC_ERROR_MALFORMED_code
        (by decide) (by decide)
      have hnp2 : (received w events hdr
          (rest.take (message_at hdr).message_length.toNat)
          (rest.drop (message_at hdr).message_length.toNat)).context.nopanic = true := by
        rw [← hnp]
        cases events <;> rfl
      rw [hnp2] at heh
      simp only [↓reduceIte] at heh
      rw [if_neg hm, heh] at hr
      exact ⟨_, _, hr, hinc _, rfl⟩

/-- The loop of `i3ipc_message_receive_reorder_try` passes over queued entries that do not
match. -/
theorem reorder_loop_skip (w : I3ipc_world) (T : Int) (i : Nat)
    (hi : i ≤ w.context.reorder.length) :
    ∀ (n k fuel : Nat), k + n = i →
      (∀ j x, k ≤ j → j < i → w.context.reorder.get? j = some x → reorder_matches T x = false) →
      receive_reorder_loop (fuel + n) w T k = receive_reorder_loop fuel w T i := by
  intro n
  induction n with
  | zero =>
    intro k fuel hk _
    simp only [Nat.add_zero] at hk ⊢
    rw [hk]
  | succ n ih =>
    intro k fuel hk hno
    have hklt : k < w.context.reorder.length := by omega
    rw [show fuel + (n + 1) = (fuel + n) + 1 by omega, receive_reorder_loop]
    have hq : k < w.context.events_queued := hklt
    rw [if_pos hq]
    have hget : w.context.reorder.get? k = some (w.context.reorder.get ⟨k, hklt⟩) :=
      List.get?_eq_get hklt
    rw [hget]
    have hm := hno k _ (Nat.le_refl k) (by omega) hget
    unfold reorder_matches at hm
    simp only [hm, Bool.false_eq_true, ↓reduceIte]
    exact ih (k + 1) fuel (by omega) (fun j x h1 h2 h3 => hno j x (by omega) h2 h3)

/-- The loop of `i3ipc_message_receive_reorder_try` behind the queue: frames that do not
match are appended to the queue, and the first frame that matches is returned. -/
theorem reorder_loop_read (T : Int) (last : List Nat × List Nat) (rest : List Nat)
    (hlast : frame_accepted last = true) (hlm : reorder_matches T last.1 = true) :
    ∀ (frames : List (List Nat × List Nat)) (w : I3ipc_world) (fuel : Nat),
      w.context.state = I3IPC_STATE_READY →
      w.sock_events_data.data = frames_bytes frames ++ (last.1 ++ last.2 ++ rest) →
      (∀ f ∈ frames, frame_accepted f = true ∧ reorder_matches T f.1 = false) →
      ∃ w', receive_reorder_loop (fuel + frames.length + 1) w T w.context.reorder.length =
          Outcome.done (w', 0) ∧
        w'.context.reorder = w.context.reorder ++ frames.map (fun f => f.1 ++ f.2) ∧
        w'.context.msg = last.1 ++ last.2 ++ [0] ∧
        w'.sock_events_data.data = rest ∧
        w'.context.state = I3IPC_STATE_READY ∧
        w'.sock_data = w.sock_data := by
  have hsock : i3ipc__message_type_to_socket I3IPC_EVENT_ANY = some true := by decide
  intro frames
  induction frames with
  | nil =>
    intro w fuel hs hdata _
    simp only [frame_accepted, Bool.and_eq_true, beq_iff_eq, decide_eq_true_eq] at hlast
    obtain ⟨⟨⟨hh, hlen⟩, hcap⟩, hany⟩ := hlast
    have hr := receive_frame w I3IPC_EVENT_ANY true last.1 last.2 rest hs hsock
      (by simpa [frames_bytes, I3ipc_world.incoming] using hdata) hh hlen hcap
    rw [if_pos hany] at hr
    refine ⟨received w true last.1 last.2 rest, ?_, by simp [received, I3ipc_world.set_msg,
      I3ipc_world.set_incoming], rfl, rfl, hs, rfl⟩
    simp only [List.length_nil, Nat.add_zero]
    rw [receive_reorder_loop]
    have hq : ¬ w.context.reorder.length < w.context.events_queued := by
      simp [I3ipc_context.events_queued]
    rw [if_neg hq, hr]
    have hmt : (message_at (received w true last.1 last.2 rest).context.msg).message_type =
        (message_at last.1).message_type := by
      show (message_at (last.1 ++ last.2 ++ [0])).message_type = _
      rw [List.append_assoc]
      exact (message_at_append last.1 _ hh).2
    unfold reorder_matches at hlm
    simp only [bne_self_eq_false, Bool.false_eq_true, ↓reduceIte, hmt, hlm]
  | cons f frames ih =>
    intro w fuel hs hdata hall
    obtain ⟨hf, hfm⟩ := hall f (List.mem_cons_self _ _)
    simp only [frame_accepted, Bool.and_eq_true, beq_iff_eq, decide_eq_true_eq] at hf
    obtain ⟨⟨⟨hh, hlen⟩, hcap⟩, hany⟩ := hf
    have hr := receive_frame w I3IPC_EVENT_ANY true f.1 f.2
      (frames_bytes frames ++ (last.1 ++ last.2 ++ rest)) hs hsock
      (by simpa [frames_bytes, I3ipc_world.incoming, List.append_assoc] using hdata) hh hlen hcap
    rw [if_pos hany] at hr
    have hmt : (message_at (received w true f.1 f.2
        (frames_bytes frames ++ (last.1 ++ last.2 ++ rest))).context.msg).message_type =
        (message_at f.1).message_type := by
      show (message_at (f.1 ++ f.2 ++ [0])).message_type = _
      rw [List.append_assoc]
      exact (message_at_append f.1 _ hh).2
    have hml : (message_at (received w true f.1 f.2
        (frames_bytes frames ++ (last.1 ++ last.2 ++ rest))).context.msg).message_length =
        (f.2.length : Int) := by
      show (message_at (f.1 ++ f.2 ++ [0])).message_length = _
      rw [List.append_assoc, (message_at_append f.1 _ hh).1, hlen]
    have htake : (received w true f.1 f.2
        (frames_bytes frames ++ (last.1 ++ last.2 ++ rest))).context.msg.take
        (sizeof_message + (f.2.length : Int).toNat) = f.1 ++ f.2 := by
      show (f.1 ++ f.2 ++ [0]).take _ = _
      rw [List.take_append_of_le_length (by simp [sizeof_message, hh])]
      apply List.take_of_length_le
      simp [sizeof_message, hh]
    obtain ⟨w', hrun, hq', hmsg', hdata', hs', hsd'⟩ := ih
      { received w true f.1 f.2 (frames_bytes frames ++ (last.1 ++ last.2 ++ rest)) with
        context := { (received w true f.1 f.2
            (frames_bytes frames ++ (last.1 ++ last.2 ++ rest))).context with
          reorder := w.context.reorder ++ [f.1 ++ f.2] } }
      fuel hs rfl (fun g hg => hall g (List.mem_cons_of_mem _ hg))
    refine ⟨w', ?_, ?_, hmsg', hdata', hs', ?_⟩
    · rw [show fuel + (f :: frames).length + 1 = (fuel + frames.length + 1) + 1 by
        simp only [List.length_cons]; omega, receive_reorder_loop]
      have hq : ¬ w.context.reorder.length < w.context.events_queued := by
        simp [I3ipc_context.events_queued]
      rw [if_neg hq, hr]
      unfold reorder_matches at hfm
      have hev : (received w true f.1 f.2
          (frames_bytes frames ++ (last.1 ++ last.2 ++ rest))).context.events_queued =
          w.context.reorder.length := rfl
      have hro : (received w true f.1 f.2
          (frames_bytes frames ++ (last.1 ++ last.2 ++ rest))).context.reorder =
          w.context.reorder := rfl
      simp only [bne_self_eq_false, Bool.false_eq_true, ↓reduceIte, hmt, hfm, hev, hml, htake,
        hro]
      simp only [List.length_append, List.length_singleton] at hrun
      exact hrun
    · rw [hq']
      simp
    · rw [hsd']
      rfl

/-- The bytes of accepted frames are at least as many as the frames. -/
theorem frames_bytes_length (frames : List (List Nat × List Nat))
    (h : ∀ f ∈ frames, frame_accepted f = true ∧ True) :
    frames.length ≤ (frames_bytes frames).length := by
  induction frames with
  | nil => simp
  | cons f fs ih =>
    have hf := (h f (List.mem_cons_self _ _)).1
    simp only [frame_accepted, Bool.and_eq_true, beq_iff_eq] at hf
    have := ih (fun g hg => h g (List.mem_cons_of_mem _ hg))
    simp only [frames_bytes, List.length_cons, List.length_append]
    omega

/-- C18. `i3ipc_message_receive_reorder_try(T)` in an initialised context. First part: when
the entry `i` of the queue is the first that matches `T` (any entry when `T` is
`I3IPC_EVENT_ANY`, otherwise an entry whose type equals `T`), the call returns that entry in
the message buffer, reads nothing from the sockets, and the queue afterwards is the old queue
with entry `i` removed. Second part: when no queued entry matches and the event socket
delivers the frames `frames`, none of which matches `T`, followed by the frame `last`, which
matches, the call returns `last`, and the queue afterwards is the old queue followed by the
frames of `frames` in the order of their arrival. -/
theorem reorder_queue (w : I3ipc_world) (T : Int) (i : Nat) (entry : List Nat)
    (frames : List (List Nat × List Nat)) (last : List Nat × List Nat) (rest : List Nat)
    (hs : w.context.state = I3IPC_STATE_READY) :
    (w.context.reorder.get? i = some entry →
      reorder_matches T entry = true →
      (∀ j x, j < i → w.context.reorder.get? j = some x → reorder_matches T x = false) →
      i3ipc_message_receive_reorder_try w T =
        Outcome.done ({ w with context := { w.context with
          msg := entry.take (sizeof_message + (message_at entry).message_length.toNat),
          reorder := w.context.reorder.eraseIdx i } }, 0)) ∧
    ((∀ x ∈ w.context.reorder, reorder_matches T x = false) →
      (∀ f ∈ frames, frame_accepted f = true ∧ reorder_matches T f.1 = false) →
      frame_accepted last = true → reorder_matches T last.1 = true →
      w.sock_events_data.data = frames_bytes frames ++ (last.1 ++ last.2 ++ rest) →
      ∃ w', i3ipc_message_receive_reorder_try w T = Outcome.done (w', 0) ∧
        w'.context.reorder = w.context.reorder ++ frames.map (fun f => f.1 ++ f.2) ∧
        w'.context.msg = last.1 ++ last.2 ++ [0] ∧
        w'.sock_events_data.data = rest ∧ w'.sock_data = w.sock_data) := by
  constructor
  · intro hget hm hfirst
    have hi : i < w.context.reorder.length := by
      by_contra hcon
      rw [List.get?_eq_none.mpr (by omega)] at hget
      cases hget
    unfold i3ipc_message_receive_reorder_try
    simp only [init_try_ready w hs, bne_self_eq_false, Bool.false_eq_true, ↓reduceIte]
    have hfuel : w.context.events_queued + w.sock_events_data.data.length + 2 =
        ((w.context.reorder.length - i) + w.sock_events_data.data.length + 1 + 1) + i := by
      simp only [I3ipc_context.events_queued]
      omega
    rw [hfuel, reorder_loop_skip w T i (by omega) i 0 _ (by omega)
      (fun j x _ h2 h3 => hfirst j x h2 h3)]
    rw [receive_reorder_loop]
    have hq : i < w.context.events_queued := hi
    rw [if_pos hq, hget]
    unfold reorder_matches at hm
    simp only [hm, ↓reduceIte]
  · intro hno hall hlast hlm hdata
    unfold i3ipc_message_receive_reorder_try
    simp only [init_try_ready w hs, bne_self_eq_false, Bool.false_eq_true, ↓reduceIte]
    have hlen := frames_bytes_length frames (fun f hf => ⟨(hall f hf).1, trivial⟩)
    have hd : frames.length ≤ w.sock_events_data.data.length := by
      rw [hdata, List.length_append]
      omega
    have hfuel : w.context.events_queued + w.sock_events_data.data.length + 2 =
        ((w.sock_events_data.data.length - frames.length + 1) + frames.length + 1) +
          w.context.reorder.length := by
      simp only [I3ipc_context.events_queued]
      omega
    rw [hfuel, reorder_loop_skip w T w.context.reorder.length (Nat.le_refl _)
      w.context.reorder.length 0 _ (by omega)
      (fun j x _ _ h3 => hno x (List.get?_mem h3))]
    obtain ⟨w', hrun, h1, h2, h3, _, h5⟩ := reorder_loop_read T last rest hlast hlm frames w
      (w.sock_events_data.data.length - frames.length + 1) hs hdata hall
    exact ⟨w', hrun, h1, h2, h3, h5⟩

/-! ### `nopanic` is a setting: no operation changes it -/

/-- What holds for the outcome holds for the outputs. -/
theorem holds_done {α : Type} (o : Outcome α) (P : α → Prop) (a : α) (h : o.holds P)
    (ha : o = Outcome.done a) : P a := by
  rw [ha] at h
  exact h

/-- `Outcome.holds` through `Outcome.bind`. -/
theorem holds_bind {α β : Type} (o : Outcome α) (f : α → Outcome β) (P : α → Prop)
    (Q : β → Prop) (h : o.holds P) (hf : ∀ a, P a → (f a).holds Q) : (o.bind f).holds Q := by
  cases o with
  | done a => exact hf a h
  | fail c => trivial
  | aborted => trivial
  | starved => trivial

/-- `i3ipc_init_try` keeps `nopanic`. -/
theorem init_try_nopanic (w : I3ipc_world) :
    (i3ipc_init_try w).1.context.nopanic = w.context.nopanic := by
  unfold i3ipc_init_try
  split
  · rfl
  · split
    · rfl
    · split <;> rfl

/-- `i3ipc__error_handle` keeps `nopanic`. -/
theorem error_handle_nopanic (w : I3ipc_world) (code : Int) :
    (i3ipc__error_handle w code).holds (fun x => x.1.context.nopanic = w.context.nopanic) := by
  unfold i3ipc__error_handle
  repeat' first | split | dsimp only
  all_goals trivial

/-- `i3ipc__error_handle` keeps `nopanic`, from a world that has kept it. -/
theorem error_handle_nopanic_from (w0 w : I3ipc_world) (code : Int)
    (h : w.context.nopanic = w0.context.nopanic) :
    (i3ipc__error_handle w code).holds (fun x => x.1.context.nopanic = w0.context.nopanic) := by
  have := error_handle_nopanic w code
  cases hh : i3ipc__error_handle w code with
  | done a => rw [hh] at this; exact this.trans h
  | fail c => trivial
  | aborted => trivial
  | starved => trivial

/-- `i3ipc_message_send_try` keeps `nopanic`. -/
theorem send_try_nopanic (w : I3ipc_world) (mt : Int) (payload : Option (List Nat))
    (size : Int) :
    (i3ipc_message_send_try w mt payload size).holds
      (fun x => x.1.context.nopanic = w.context.nopanic) := by
  have hi := init_try_nopanic w
  unfold i3ipc_message_send_try
  repeat' first | split | dsimp only
  all_goals first | trivial | exact hi | exact error_handle_nopanic_from w _ _ hi

/-- `receive_finish` keeps `nopanic`. -/
theorem receive_finish_nopanic (w0 w : I3ipc_world) (e : Int) (code : Nat)
    (h : w.context.nopanic = w0.context.nopanic) :
    (receive_finish w e code).holds (fun x => x.1.context.nopanic = w0.context.nopanic) := by
  unfold receive_finish
  repeat' first | split | dsimp only
  all_goals first | trivial | exact h | exact error_handle_nopanic_from w0 _ _ h

/-- Reading from a socket and writing the message buffer keep `nopanic`. -/
theorem set_incoming_nopanic (w : I3ipc_world) (events : Bool) (s : I3ipc_sock)
    (b : List Nat) :
    ((w.set_incoming events s).set_msg b).context.nopanic = w.context.nopanic := by
  cases events <;> rfl

/-- `i3ipc_message_receive_try` keeps `nopanic`. -/
theorem receive_try_nopanic (w : I3ipc_world) (e : Int) :
    (i3ipc_message_receive_try w e).holds
      (fun x => x.1.context.nopanic = w.context.nopanic) := by
  have hi := init_try_nopanic w
  unfold i3ipc_message_receive_try
  repeat' first | split | dsimp only
  all_goals first
    | trivial
    | exact hi
    | exact error_handle_nopanic_from w _ _ ((set_incoming_nopanic _ _ _ _).trans hi)
    | exact receive_finish_nopanic w _ _ _ ((set_incoming_nopanic _ _ _ _).trans hi)
    | exact receive_finish_nopanic w _ _ _
        ((set_incoming_nopanic _ _ _ _).trans ((set_incoming_nopanic _ _ _ _).trans hi))

/-- `i3ipc_message_try` keeps `nopanic`. -/
theorem message_try_nopanic (w : I3ipc_world) (mt : Int) (payload : Option (List Nat))
    (size : Int) :
    (i3ipc_message_try w mt payload size).holds
      (fun x => x.1.context.nopanic = w.context.nopanic) := by
  have hs := send_try_nopanic w mt payload size
  unfold i3ipc_message_try
  cases hh : i3ipc_message_send_try w mt payload size with
  | done a =>
    obtain ⟨w1, c1⟩ := a
    rw [hh] at hs
    dsimp only
    split
    · exact hs
    · have hr := receive_try_nopanic w1 mt
      cases hh2 : i3ipc_message_receive_try w1 mt with
      | done b => rw [hh2] at hr; exact hr.trans hs
      | fail c => trivial
      | aborted => trivial
      | starved => trivial
  | fail c => trivial
  | aborted => trivial
  | starved => trivial

/-- The loop of `i3ipc_message_receive_reorder_try` keeps `nopanic`. -/
theorem reorder_loop_nopanic (T : Int) (w0 : I3ipc_world) :
    ∀ (fuel : Nat) (w : I3ipc_world) (i : Nat),
      w.context.nopanic = w0.context.nopanic →
      (receive_reorder_loop fuel w T i).holds
        (fun x => x.1.context.nopanic = w0.context.nopanic) := by
  intro fuel
  induction fuel with
  | zero =>
    intro w i _
    trivial
  | succ fuel ih =>
    intro w i h
    rw [receive_reorder_loop]
    split
    · split
      · trivial
      · split
        · exact h
        · exact ih _ _ h
    · have hr := receive_try_nopanic w I3IPC_EVENT_ANY
      cases hh : i3ipc_message_receive_try w I3IPC_EVENT_ANY with
      | done a =>
        obtain ⟨w1, c1⟩ := a
        rw [hh] at hr
        dsimp only
        split
        · exact hr.trans h
        · split
          · exact hr.trans h
          · split
            · trivial
            · exact ih _ _ (hr.trans h)
      | fail c => trivial
      | aborted => trivial
      | starved => trivial

/-- `i3ipc_message_receive_reorder_try` keeps `nopanic`. -/
theorem reorder_try_nopanic (w : I3ipc_world) (T : Int) :
    (i3ipc_message_receive_reorder_try w T).holds
      (fun x => x.1.context.nopanic = w.context.nopanic) := by
  have hi := init_try_nopanic w
  unfold i3ipc_message_receive_reorder_try
  dsimp only
  split
  · exact hi
  · exact reorder_loop_nopanic T w _ _ _ hi

/-- A return code of 0 of `i3ipc_init_try` leaves the context initialised. -/
theorem init_try_zero (w : I3ipc_world) (h : (i3ipc_init_try w).2 = 0) :
    (i3ipc_init_try w).1.context.state = I3IPC_STATE_READY := by
  unfold i3ipc_init_try at h ⊢
  by_cases h1 : (w.context.state == I3IPC_STATE_READY) = true
  · rw [if_pos h1]
    simpa using h1
  · rw [if_neg h1] at h ⊢
    by_cases h2 : (i3ipc_error_code w.context != 0) = true
    · rw [if_pos h2] at h
      simp [I3IPC_ERROR_BADSTATE, I3IPC_ERROR_CLOSED] at h
    · rw [if_neg h2] at h ⊢
      cases hop : w.opens with
      | nil =>
        rw [hop] at h
        simp [I3IPC_ERROR_BADSTATE, I3IPC_ERROR_CLOSED] at h
      | cons a rest =>
        cases a with
        | none =>
          rw [hop] at h
          simp [I3IPC_ERROR_BADSTATE, I3IPC_ERROR_CLOSED] at h
        | some fd =>
          cases rest with
          | nil =>
            rw [hop] at h
            simp [I3IPC_ERROR_BADSTATE, I3IPC_ERROR_CLOSED] at h
          | cons b rest2 =>
            cases b with
            | none =>
              rw [hop] at h
              simp [I3IPC_ERROR_BADSTATE, I3IPC_ERROR_CLOSED] at h
            | some fd2 => rfl

/-- `i3ipc_parse_try` keeps `nopanic`; after a return code of 0 the context is initialised,
and a record is returned only with the code 0. -/
theorem parse_try_context_done (w : I3ipc_world) (msg : I3ipc_message) (mt : Int)
    (type_id : Nat) :
    (i3ipc_parse_try_context w msg mt type_id).holds (fun x =>
      x.1.context.nopanic = w.context.nopanic ∧
      (x.2.1 = 0 → x.1.context.state = I3IPC_STATE_READY) ∧ (x.2.2.isSome = true → x.2.1 = 0)) := by
  have hi := init_try_nopanic w
  unfold i3ipc_parse_try_context
  split
  · exact ⟨rfl, fun h0 => by simp [I3IPC_ERROR_BADSTATE, I3IPC_ERROR_MALFORMED_code] at h0, fun h0 => by simp at h0⟩
  · dsimp only
    split
    · rename_i hne
      refine ⟨hi, fun h0 => ?_, fun h0 => by simp at h0⟩
      simp only [bne_iff_ne, ne_eq] at hne
      exact absurd h0 hne
    · rename_i hz
      have hz0 : (i3ipc_init_try w).2 = 0 := by simpa using hz
      split
      · exact ⟨hi, fun _ => init_try_zero w hz0, fun _ => rfl⟩
      · have heh := error_handle_latches (i3ipc_init_try w).1 I3IPC_ERROR_MALFORMED_code
          (by decide) (by decide)
        rw [heh]
        split
        · exact ⟨hi, fun h0 => by simp [I3IPC_ERROR_BADSTATE, I3IPC_ERROR_MALFORMED_code] at h0, fun h0 => by simp at h0⟩
        · trivial
      · trivial
      · trivial

/-- `i3ipc_message_and_parse_try` keeps `nopanic`; after a return code of 0 the context is
initialised, and a record is returned only with the code 0. -/
theorem message_and_parse_done (w : I3ipc_world) (mt : Int) (type_id : Nat)
    (payload : Option (List Nat)) (size : Int) :
    (i3ipc_message_and_parse_try w mt type_id payload size).holds (fun x =>
      x.1.context.nopanic = w.context.nopanic ∧
      (x.2.1 = 0 → x.1.context.state = I3IPC_STATE_READY) ∧ (x.2.2.isSome = true → x.2.1 = 0)) := by
  have hm := message_try_nopanic w mt payload size
  unfold i3ipc_message_and_parse_try
  split
  · exact ⟨rfl, fun h0 => by simp [I3IPC_ERROR_BADSTATE, I3IPC_ERROR_MALFORMED_code] at h0, fun h0 => by simp at h0⟩
  · cases hh : i3ipc_message_try w mt payload size with
    | done a =>
      obtain ⟨w1, c1⟩ := a
      rw [hh] at hm
      dsimp only
      split
      · rename_i hne
        refine ⟨hm, fun h0 => ?_, fun h0 => by simp at h0⟩
        simp only [bne_iff_ne, ne_eq] at hne
        exact absurd h0 hne
      · have hp := parse_try_context_done w1 (message_at w1.context.msg) mt type_id
        cases hh2 : i3ipc_parse_try_context w1 (message_at w1.context.msg) mt type_id with
        | done b =>
          rw [hh2] at hp
          exact ⟨hp.1.trans hm, hp.2⟩
        | fail c => trivial
        | aborted => trivial
        | starved => trivial
    | fail c => trivial
    | aborted => trivial
    | starved => trivial

/-- The loop of `i3ipc_run_command_simple` with `nopanic` set: `I3IPC_ERROR_FAILED` is
latched exactly when some element has `success == false`. -/
theorem run_command_check_spec :
    ∀ (els : List Val) (w : I3ipc_world), w.context.nopanic = true →
      run_command_check els w = Outcome.done
        (if els.any (fun el => !el.success I3IPC_TYPE_REPLY_COMMAND_EL)
         then latched w I3IPC_ERROR_FAILED else w) := by
  intro els
  induction els with
  | nil => intro w _; rfl
  | cons el els ih =>
    intro w hnp
    unfold run_command_check
    by_cases hs : (el.member I3IPC_TYPE_REPLY_COMMAND_EL "success").as_bool = true
    · have := ih w hnp
      simp only [hs, Bool.not_true, Bool.false_eq_true, ↓reduceIte, List.any_cons, Val.success,
        Bool.false_or]
      simpa [Val.success] using this
    · simp only [Bool.not_eq_true] at hs
      have heh := error_handle_latches w I3IPC_ERROR_FAILED (by decide) (by decide)
      rw [hnp] at heh
      simp only [↓reduceIte] at heh
      have := ih (latched w I3IPC_ERROR_FAILED) hnp
      simp only [hs, Bool.not_false, ↓reduceIte, heh, Outcome.bind, List.any_cons, Val.success,
        Bool.true_or]
      rw [this]
      split <;> rfl

/-- C14. With `nopanic` set, when `i3ipc_run_command_simple` receives a reply that parses as
a command reply (`i3ipc_message_and_parse_try`, run with `staticalloc` set, returns 0 and the
record `reply`, whose `commands` are the `commands_size` elements `els`), then it returns,
and afterwards `i3ipc_error_code()` is `I3IPC_ERROR_FAILED` if and only if some element of
the reply has `success == false`, and 0 otherwise. -/
theorem run_command_simple_failed_iff (w w2 : I3ipc_world) (command : Option (List Nat))
    (reply : Val) (els : List Val)
    (hnp : w.context.nopanic = true)
    (hrun : i3ipc_message_and_parse_try (i3ipc_set_staticalloc w true).1 I3IPC_RUN_COMMAND
      I3IPC_TYPE_REPLY_COMMAND command (-1) = Outcome.done (w2, 0, some reply))
    (hels : (reply.member I3IPC_TYPE_REPLY_COMMAND "commands").elems = some els)
    (hsize : (reply.member I3IPC_TYPE_REPLY_COMMAND "commands_size").as_int = els.length) :
    ∃ w3, i3ipc_run_command_simple w command = Outcome.done w3 ∧
      (i3ipc_error_code w3.context = I3IPC_ERROR_FAILED ↔
        ∃ el ∈ els, el.success I3IPC_TYPE_REPLY_COMMAND_EL = false) ∧
      ((¬ ∃ el ∈ els, el.success I3IPC_TYPE_REPLY_COMMAND_EL = false) →
        i3ipc_error_code w3.context = 0) := by
  have hd := message_and_parse_done (i3ipc_set_staticalloc w true).1 I3IPC_RUN_COMMAND
    I3IPC_TYPE_REPLY_COMMAND command (-1)
  rw [hrun] at hd
  obtain ⟨hnp2, hst, _⟩ := hd
  have hst2 : w2.context.state = I3IPC_STATE_READY := hst rfl
  have hnp3 : (i3ipc_set_staticalloc w2 w.context.staticalloc).1.context.nopanic = true := by
    show w2.context.nopanic = true
    rw [hnp2]
    exact hnp
  have hcheck := run_command_check_spec els
    (i3ipc_set_staticalloc w2 w.context.staticalloc).1 hnp3
  have hany : (els.any (fun el => !el.success I3IPC_TYPE_REPLY_COMMAND_EL)) = true ↔
      ∃ el ∈ els, el.success I3IPC_TYPE_REPLY_COMMAND_EL = false := by
    simp [List.any_eq_true]
  refine ⟨if (els.any (fun el => !el.success I3IPC_TYPE_REPLY_COMMAND_EL)) = true
      then latched (i3ipc_set_staticalloc w2 w.context.staticalloc).1 I3IPC_ERROR_FAILED
      else (i3ipc_set_staticalloc w2 w.context.staticalloc).1, ?_, ?_, ?_⟩
  · unfold i3ipc_run_command_simple i3ipc_run_command
    simp only [hrun, Outcome.bind, hels, hsize, Int.toNat_ofNat, Nat.lt_irrefl, ↓reduceIte,
      List.take_length]
    exact hcheck
  · by_cases ha : (els.any (fun el => !el.success I3IPC_TYPE_REPLY_COMMAND_EL)) = true
    · rw [if_pos ha]
      exact ⟨fun _ => hany.mp ha, fun _ => rfl⟩
    · rw [if_neg ha]
      constructor
      · intro h
        have : i3ipc_error_code (i3ipc_set_staticalloc w2 w.context.staticalloc).1.context = 0 := by
          simp [i3ipc_error_code, i3ipc_set_staticalloc, hst2, I3IPC_STATE_READY,
            I3IPC_STATE_ERROR_BEGIN, I3IPC_ERROR_CLOSED]
        rw [this] at h
        exact absurd h (by decide)
      · intro h
        exact absurd (hany.mpr h) ha
  · intro hno
    have ha : ¬ (els.any (fun el => !el.success I3IPC_TYPE_REPLY_COMMAND_EL)) = true :=
      fun h => hno (hany.mp h)
    rw [if_neg ha]
    simp [i3ipc_error_code, i3ipc_set_staticalloc, hst2, I3IPC_STATE_READY,
      I3IPC_STATE_ERROR_BEGIN, I3IPC_ERROR_CLOSED]

/-- C15 as stated fails. In an initialised context with `nopanic` set, `i3ipc_run_command`
receives the reply `[{"success":false}]`: it returns the record, whose only element has
`success == false`, and `i3ipc_error_code()` is 0 afterwards. -/
theorem run_command_counterexample :
    (i3ipc_run_command
        (ready_world (frame I3IPC_REPLY_COMMAND (bytes "[\x7b\"success\":false\x7d]")) [] [])
        (some (bytes "nop" ++ [0]))).get?.map (fun x =>
      (i3ipc_error_code x.1.context,
       x.2.map (fun reply =>
         ((reply.member I3IPC_TYPE_REPLY_COMMAND "commands").elems.getD []).map
           (fun el => el.success I3IPC_TYPE_REPLY_COMMAND_EL)))) =
      some (0, some [false]) := by
  decide!

/-- C15, amended. `i3ipc_run_command` does not look at the reply: when the reply parses
(`i3ipc_message_and_parse_try` returns 0 and the record `reply`), `i3ipc_run_command` returns
that record in the same world, and `i3ipc_error_code()` is 0 afterwards, whatever the
`success` members of the elements are. -/
theorem run_command_returns_reply (w w2 : I3ipc_world) (commands : Option (List Nat))
    (reply : Val)
    (hrun : i3ipc_message_and_parse_try w I3IPC_RUN_COMMAND I3IPC_TYPE_REPLY_COMMAND commands
      (-1) = Outcome.done (w2, 0, some reply)) :
    i3ipc_run_command w commands = Outcome.done (w2, some reply) ∧
    i3ipc_error_code w2.context = 0 := by
  have hd := message_and_parse_done w I3IPC_RUN_COMMAND I3IPC_TYPE_REPLY_COMMAND commands (-1)
  rw [hrun] at hd
  have hst : w2.context.state = I3IPC_STATE_READY := hd.2.1 rfl
  constructor
  · unfold i3ipc_run_command
    rw [hrun]
    rfl
  · simp [i3ipc_error_code, hst, I3IPC_STATE_READY, I3IPC_STATE_ERROR_BEGIN, I3IPC_ERROR_CLOSED]

/-- The amended C15 at the reply `[{"success":false}]`. -/
theorem run_command_returns_reply_witness :
    i3ipc_run_command
        (ready_world (frame I3IPC_REPLY_COMMAND (bytes "[\x7b\"success\":false\x7d]")) [] [])
        (some (bytes "nop" ++ [0])) =
      Outcome.done
        (((i3ipc_message_and_parse_try
          (ready_world (frame I3IPC_REPLY_COMMAND (bytes "[\x7b\"success\":false\x7d]")) [] [])
          I3IPC_RUN_COMMAND I3IPC_TYPE_REPLY_COMMAND (some (bytes "nop" ++ [0])) (-1)).getD
            (ready_world [] [] [], 0, none)).1,
         some (Val.struct [Val.block (some [Val.struct [Val.bool false, Val.chars none,
           Val.int 0]]), Val.int 1])) ∧
    i3ipc_error_code ((i3ipc_message_and_parse_try
          (ready_world (frame I3IPC_REPLY_COMMAND (bytes "[\x7b\"success\":false\x7d]")) [] [])
          I3IPC_RUN_COMMAND I3IPC_TYPE_REPLY_COMMAND (some (bytes "nop" ++ [0])) (-1)).getD
            (ready_world [] [] [], 0, none)).1.context = 0 :=
  run_command_returns_reply _ _ _ _ (by with_unfolding_all rfl)

/-- What `i3ipc_subscribe`, `i3ipc_send_tick` and `i3ipc_sync` do with a reply when
`nopanic` is set. -/
theorem check_success_spec (w : I3ipc_world) (type_id : Nat) (reply : Val)
    (hnp : w.context.nopanic = true) :
    check_success w type_id reply = Outcome.done
      (if reply.success type_id then w else latched w I3IPC_ERROR_MALFORMED_code) := by
  unfold check_success
  have heh := error_handle_latches w I3IPC_ERROR_MALFORMED_code (by decide) (by decide)
  rw [hnp] at heh
  simp only [↓reduceIte] at heh
  cases hs : (reply.member type_id "success").as_bool
  · simp only [Bool.not_false, ↓reduceIte, heh, Outcome.bind, Val.success, hs,
      Bool.false_eq_true]
  · simp only [Bool.not_true, Bool.false_eq_true, ↓reduceIte, Val.success, hs]

/-- In an initialised context `i3ipc_error_code` is 0. -/
theorem error_code_ready (w : I3ipc_world) (h : w.context.state = I3IPC_STATE_READY) :
    i3ipc_error_code w.context = 0 := by
  simp [i3ipc_error_code, h, I3IPC_STATE_READY, I3IPC_STATE_ERROR_BEGIN, I3IPC_ERROR_CLOSED]

/-- The size that `i3ipc_subscribe` computes in advance is the number of bytes that it
writes between the brackets. -/
theorem subscribe_size_eq : ∀ (evs : List Int) (i : Nat) (body : List Nat),
    subscribe_payload evs i = some body → subscribe_size evs i = some body.length := by
  intro evs
  induction evs with
  | nil =>
    intro i body h
    simp only [subscribe_payload, Option.some.injEq] at h
    rw [← h]
    rfl
  | cons ev evs ih =>
    intro i body h
    simp only [subscribe_payload] at h
    simp only [subscribe_size]
    split at h
    · cases h
    · rename_i hr
      rw [if_neg hr]
      cases hrest : subscribe_payload evs (i + 1) with
      | none =>
        rw [hrest] at h
        cases h
      | some rest =>
        rw [hrest] at h
        simp only [Option.map_some', Option.some.injEq] at h
        rw [ih (i + 1) rest hrest, ← h]
        simp only [Option.map_some', Option.some.injEq, List.length_append, List.length_cons,
          List.length_nil]
        have hname : ∀ k : Nat, (cstr (bytes (i3ipc__global_event_type_name.getD k ""))).length =
            ((bytes (i3ipc__global_event_type_name.getD k "")).take 256).length := by
          intro k
          by_cases hk : k < 8
          · have h8 : ∀ k : Fin 8,
                (cstr (bytes (i3ipc__global_event_type_name.getD k.val ""))).length =
                ((bytes (i3ipc__global_event_type_name.getD k.val "")).take 256).length := by
              decide
            exact h8 ⟨k, hk⟩
          · have hd : i3ipc__global_event_type_name.getD k "" = "" := by
              apply List.getD_eq_default
              simp [i3ipc__global_event_type_name]
              omega
            rw [hd]
            rfl
        rw [hname]
        by_cases hi : i = 0
        · subst hi
          simp
          omega
        · have h1 : (i != 0) = true := by simpa using hi
          have h2 : i > 0 := by omega
          simp only [h1, h2, ↓reduceIte, List.length_cons, List.length_nil]
          omega

/-- C16. With `nopanic` set, when the reply to `i3ipc_subscribe`, `i3ipc_send_tick` or
`i3ipc_sync` parses (the calls that send the message, receive the reply and parse it return 0
and the record `reply`): if `reply->success` is false the operation latches
`I3IPC_ERROR_MALFORMED`, so that `i3ipc_error_code()` is `I3IPC_ERROR_MALFORMED` afterwards,
and if it is true the error code stays 0. `ws` is the world after the message was sent, `wr`
the world after the reply was received and `wp` the world after it was parsed. -/
theorem self_reported_failure (w ws wr wp : I3ipc_world) (reply : Val)
    (event_type : List Int) (body : List Nat) (payload : Option (List Nat))
    (random_value : Int) (window : Nat) (buf : List Nat)
    (hnp : w.context.nopanic = true) :
    (subscribe_payload event_type 0 = some body →
      i3ipc_message_send_try w I3IPC_SUBSCRIBE (some ([91] ++ body ++ [93] ++ [0]))
        ([91] ++ body ++ [93]).length = Outcome.done (ws, 0) →
      i3ipc_message_receive_reorder_try ws I3IPC_REPLY_SUBSCRIBE = Outcome.done (wr, 0) →
      i3ipc_parse_try_context wr (message_at wr.context.msg) I3IPC_REPLY_SUBSCRIBE
        I3IPC_TYPE_REPLY_SUBSCRIBE = Outcome.done (wp, 0, some reply) →
      (reply.success I3IPC_TYPE_REPLY_SUBSCRIBE = false →
        i3ipc_subscribe w event_type =
          Outcome.done (latched wp I3IPC_ERROR_MALFORMED_code) ∧
        i3ipc_error_code (latched wp I3IPC_ERROR_MALFORMED_code).context =
          I3IPC_ERROR_MALFORMED_code) ∧
      (reply.success I3IPC_TYPE_REPLY_SUBSCRIBE = true →
        i3ipc_subscribe w event_type = Outcome.done wp ∧ i3ipc_error_code wp.context = 0)) ∧
    (i3ipc_message_and_parse_try (i3ipc_set_staticalloc w true).1 I3IPC_SEND_TICK
        I3IPC_TYPE_REPLY_TICK payload (-1) = Outcome.done (wp, 0, some reply) →
      (reply.success I3IPC_TYPE_REPLY_TICK = false →
        i3ipc_send_tick w payload = Outcome.done
          (latched (i3ipc_set_staticalloc wp w.context.staticalloc).1
            I3IPC_ERROR_MALFORMED_code) ∧
        i3ipc_error_code (latched (i3ipc_set_staticalloc wp w.context.staticalloc).1
            I3IPC_ERROR_MALFORMED_code).context = I3IPC_ERROR_MALFORMED_code) ∧
      (reply.success I3IPC_TYPE_REPLY_TICK = true →
        i3ipc_send_tick w payload =
          Outcome.done (i3ipc_set_staticalloc wp w.context.staticalloc).1 ∧
        i3ipc_error_code (i3ipc_set_staticalloc wp w.context.staticalloc).1.context = 0)) ∧
    (i3ipc_error_code w.context = 0 → sync_payload random_value window = some buf →
      i3ipc_message_and_parse_try (i3ipc_set_staticalloc w true).1 I3IPC_SYNC
        I3IPC_TYPE_REPLY_SYNC (some buf) buf.length = Outcome.done (wp, 0, some reply) →
      (reply.success I3IPC_TYPE_REPLY_SYNC = false →
        i3ipc_sync w random_value window = Outcome.done
          (latched (i3ipc_set_staticalloc wp w.context.staticalloc).1
            I3IPC_ERROR_MALFORMED_code) ∧
        i3ipc_error_code (latched (i3ipc_set_staticalloc wp w.context.staticalloc).1
            I3IPC_ERROR_MALFORMED_code).context = I3IPC_ERROR_MALFORMED_code) ∧
      (reply.success I3IPC_TYPE_REPLY_SYNC = true →
        i3ipc_sync w random_value window =
          Outcome.done (i3ipc_set_staticalloc wp w.context.staticalloc).1 ∧
        i3ipc_error_code (i3ipc_set_staticalloc wp w.context.staticalloc).1.context = 0)) := by
  refine ⟨?_, ?_, ?_⟩
  · intro hpay hsend hrecv hparse
    have h1 := send_try_nopanic w I3IPC_SUBSCRIBE (some ([91] ++ body ++ [93] ++ [0]))
      ([91] ++ body ++ [93]).length
    rw [hsend] at h1
    have h2 := reorder_try_nopanic ws I3IPC_REPLY_SUBSCRIBE
    rw [hrecv] at h2
    have h3 := parse_try_context_done wr (message_at wr.context.msg) I3IPC_REPLY_SUBSCRIBE
      I3IPC_TYPE_REPLY_SUBSCRIBE
    rw [hparse] at h3
    have hnp3 : wp.context.nopanic = true := by
      rw [h3.1, h2, h1]
      exact hnp
    have hst : wp.context.state = I3IPC_STATE_READY := h3.2.1 rfl
    have hc := check_success_spec wp I3IPC_TYPE_REPLY_SUBSCRIBE reply hnp3
    have hsub : i3ipc_subscribe w event_type =
        check_success wp I3IPC_TYPE_REPLY_SUBSCRIBE reply := by
      have hlen : (([91] ++ body ++ [93]).length != 2 + body.length) = false := by
        simp
        omega
      have hsz : ((2 + body.length : Nat) : Int) = (([91] ++ body ++ [93]).length : Int) := by
        simp
        omega
      unfold i3ipc_subscribe
      simp only [subscribe_size_eq event_type 0 body hpay, hpay, hlen, hsz, hsend, Outcome.bind,
        subscribe_finish, bne_self_eq_false, Bool.false_eq_true, ↓reduceIte, hrecv, hparse]
    constructor
    · intro hs
      rw [hsub, hc, hs]
      exact ⟨rfl, rfl⟩
    · intro hs
      rw [hsub, hc, hs]
      exact ⟨rfl, error_code_ready wp hst⟩
  · intro hrun
    have hd := message_and_parse_done (i3ipc_set_staticalloc w true).1 I3IPC_SEND_TICK
      I3IPC_TYPE_REPLY_TICK payload (-1)
    rw [hrun] at hd
    have hnp3 : (i3ipc_set_staticalloc wp w.context.staticalloc).1.context.nopanic = true := by
      show wp.context.nopanic = true
      rw [hd.1]
      exact hnp
    have hst : (i3ipc_set_staticalloc wp w.context.staticalloc).1.context.state =
        I3IPC_STATE_READY := hd.2.1 rfl
    have hc := check_success_spec (i3ipc_set_staticalloc wp w.context.staticalloc).1
      I3IPC_TYPE_REPLY_TICK reply hnp3
    have hop : i3ipc_send_tick w payload =
        check_success (i3ipc_set_staticalloc wp w.context.staticalloc).1
          I3IPC_TYPE_REPLY_TICK reply := by
      unfold i3ipc_send_tick
      simp only [hrun, Outcome.bind]
      rfl
    constructor
    · intro hs
      rw [hop, hc, hs]
      exact ⟨rfl, rfl⟩
    · intro hs
      rw [hop, hc, hs]
      exact ⟨rfl, error_code_ready _ hst⟩
  · intro herr hpay hrun
    have hd := message_and_parse_done (i3ipc_set_staticalloc w true).1 I3IPC_SYNC
      I3IPC_TYPE_REPLY_SYNC (some buf) buf.length
    rw [hrun] at hd
    have hnp3 : (i3ipc_set_staticalloc wp w.context.staticalloc).1.context.nopanic = true := by
      show wp.context.nopanic = true
      rw [hd.1]
      exact hnp
    have hst : (i3ipc_set_staticalloc wp w.context.staticalloc).1.context.state =
        I3IPC_STATE_READY := hd.2.1 rfl
    have hc := check_success_spec (i3ipc_set_staticalloc wp w.context.staticalloc).1
      I3IPC_TYPE_REPLY_SYNC reply hnp3
    have hop : i3ipc_sync w random_value window =
        check_success (i3ipc_set_staticalloc wp w.context.staticalloc).1
          I3IPC_TYPE_REPLY_SYNC reply := by
      unfold i3ipc_sync
      simp only [herr, bne_self_eq_false, Bool.false_eq_true, ↓reduceIte, hpay, hrun,
        Outcome.bind]
      rfl
    constructor
    · intro hs
      rw [hop, hc, hs]
      exact ⟨rfl, rfl⟩
    · intro hs
      rw [hop, hc, hs]
      exact ⟨rfl, error_code_ready _ hst⟩

/-- C19, evaluated at the failing input. A window event lies in the reorder queue and no
data is readable on the event socket, so that `poll` returns 0: `i3ipc_event_next(0)` returns
NULL and the event stays in the queue. When `poll` reports readable data, the queued event is
returned and nothing is read from the socket. -/
theorem event_next_polls_before_queue :
    (i3ipc_event_next
        (with_queue (ready_world [] [] [0])
          [frame I3IPC_EVENT_WINDOW (bytes "\x7b\"change\":\"focus\"\x7d")]) 0).get?.map
      (fun x => (x.2.isSome, x.1.context.events_queued)) = some (false, 1) ∧
    (i3ipc_event_next
        (with_queue (ready_world [] (frame I3IPC_EVENT_WINDOW (bytes "\x7b\"change\":\"new\"\x7d")) [1])
          [frame I3IPC_EVENT_WINDOW (bytes "\x7b\"change\":\"focus\"\x7d")]) 0).get?.map
      (fun x => (x.2.isSome, x.1.context.events_queued, x.1.sock_events_data.data.length)) =
      some (true, 0, 30) := by
  decide!


/-! ### The alignment loop of `i3ipc_parse_try` -/

/-- Masking with `~(2^k - 1)` rounds down to a multiple of `2^k`. -/
theorem align_mask (x k : Nat) (hx : x < 2 ^ 64) (hk : k ≤ 64) :
    x &&& (2 ^ 64 - 1 - (2 ^ k - 1)) = x / 2 ^ k * 2 ^ k := by
  have hpow : 2 ^ 64 = 2 ^ (64 - k) * 2 ^ k := by
    rw [← Nat.pow_add]
    congr 1
    omega
  have hmask : 2 ^ 64 - 1 - (2 ^ k - 1) = (2 ^ (64 - k) - 1) <<< k := by
    rw [Nat.shiftLeft_eq, Nat.sub_mul, ← hpow]
    have : 1 ≤ 2 ^ k := Nat.one_le_two_pow
    omega
  have hr : x / 2 ^ k * 2 ^ k = (x >>> k) <<< k := by
    rw [Nat.shiftLeft_eq, Nat.shiftRight_eq_div_pow]
  rw [hmask, hr]
  apply Nat.eq_of_testBit_eq
  intro i
  rw [Nat.testBit_and, Nat.testBit_shiftLeft, Nat.testBit_shiftLeft, Nat.testBit_shiftRight,
    Nat.testBit_two_pow_sub_one]
  by_cases hik : k ≤ i
  · have e : k + (i - k) = i := by omega
    rw [e]
    by_cases hi : i < 64
    · have : i - k < 64 - k := by omega
      simp [hik, this]
    · have hxi : x.testBit i = false := by
        apply Nat.testBit_lt_two_pow
        calc x < 2 ^ 64 := hx
          _ ≤ 2 ^ i := Nat.pow_le_pow_right (by decide) (by omega)
      simp [hxi]
  · simp [hik]

/-- The step of the alignment loop for an alignment of 1, 2, 4 or 8: the new offset is the
least multiple of the alignment that is not below the old one. -/
theorem align_step (off al : Nat) (hal : al ∈ [1, 2, 4, 8]) (h : off + al < 2 ^ 64) :
    al ∣ ((off + al - 1) &&& (2 ^ 64 - 1 - (al - 1))) % 2 ^ 64 ∧
    off ≤ ((off + al - 1) &&& (2 ^ 64 - 1 - (al - 1))) % 2 ^ 64 ∧
    ((off + al - 1) &&& (2 ^ 64 - 1 - (al - 1))) % 2 ^ 64 < off + al := by
  have hx : off + al - 1 < 2 ^ 64 := by omega
  simp only [List.mem_cons, List.mem_singleton, List.not_mem_nil, or_false] at hal
  rcases hal with rfl | rfl | rfl | rfl
  · have := align_mask (off + 1 - 1) 0 hx (by decide)
    simp only [pow_zero, pow_one] at this
    rw [this]
    refine ⟨Nat.one_dvd _, ?_, ?_⟩ <;> omega
  · have := align_mask (off + 2 - 1) 1 hx (by decide)
    simp only [pow_one] at this
    rw [this]
    refine ⟨?_, ?_, ?_⟩
    · rw [Nat.mod_eq_of_lt (by omega)]
      exact Nat.dvd_mul_left _ _
    · omega
    · omega
  · have := align_mask (off + 4 - 1) 2 hx (by decide)
    simp only [show (2 : Nat) ^ 2 = 4 by decide] at this
    rw [this]
    refine ⟨?_, ?_, ?_⟩
    · rw [Nat.mod_eq_of_lt (by omega)]
      exact Nat.dvd_mul_left _ _
    · omega
    · omega
  · have := align_mask (off + 8 - 1) 3 hx (by decide)
    simp only [show (2 : Nat) ^ 3 = 8 by decide] at this
    rw [this]
    refine ⟨?_, ?_, ?_⟩
    · rw [Nat.mod_eq_of_lt (by omega)]
      exact Nat.dvd_mul_left _ _
    · omega
    · omega

/-- The alignment loop of `i3ipc_parse_try`, started at the offset `off`. -/
theorem layout_allocs_spec :
    ∀ (allocs : List I3ipc_parse_state_allocs) (off : Nat),
      (∀ a ∈ allocs, a.alignment ∈ [1, 2, 4, 8]) →
      off + allocs_bound allocs < 2 ^ 64 →
      (layout_allocs allocs off).1.length = allocs.length ∧
      off ≤ (layout_allocs allocs off).2 ∧
      (layout_allocs allocs off).2 ≤ off + allocs_bound allocs ∧
      ∀ i a p, allocs.get? i = some a → (layout_allocs allocs off).1.get? i = some p →
        off ≤ p.size ∧ a.alignment ∣ p.size ∧
        p.size + a.size ≤ (layout_allocs allocs off).2 ∧
        ∀ j b q, i < j → allocs.get? j = some b →
          (layout_allocs allocs off).1.get? j = some q → p.size + a.size ≤ q.size := by
  intro allocs
  induction allocs with
  | nil =>
    intro off _ _
    refine ⟨rfl, Nat.le_refl _, by simp [layout_allocs, allocs_bound], ?_⟩
    intro i a p h
    simp at h
  | cons a rest ih =>
    intro off hal hfit
    simp only [allocs_bound] at hfit
    obtain ⟨h1, h2, h3⟩ := align_step off a.alignment (hal a (List.mem_cons_self _ _))
      (by omega)
    have hnext : (((off + a.alignment - 1) &&& (2 ^ 64 - 1 - (a.alignment - 1))) % 2 ^ 64 +
        a.size) % 2 ^ 64 =
        ((off + a.alignment - 1) &&& (2 ^ 64 - 1 - (a.alignment - 1))) % 2 ^ 64 + a.size := by
      apply Nat.mod_eq_of_lt
      omega
    obtain ⟨ih1, ih2, ih3, ih4⟩ := ih
      (((off + a.alignment - 1) &&& (2 ^ 64 - 1 - (a.alignment - 1))) % 2 ^ 64 + a.size)
      (fun b hb => hal b (List.mem_cons_of_mem _ hb)) (by omega)
    simp only [layout_allocs, hnext, allocs_bound, List.length_cons]
    refine ⟨by rw [ih1], by omega, by omega, ?_⟩
    intro i x p hx hp
    cases i with
    | zero =>
      simp only [List.get?_cons_zero, Option.some.injEq] at hx hp
      subst hx
      subst hp
      refine ⟨h2, h1, ih2, ?_⟩
      intro j b q hj hb hq
      cases j with
      | zero => omega
      | succ j =>
        simp only [List.get?_cons_succ] at hb hq
        exact (ih4 j b q hb hq).1
    | succ i =>
      simp only [List.get?_cons_succ] at hx hp
      obtain ⟨g1, g2, g3, g4⟩ := ih4 i x p hx hp
      refine ⟨by omega, g2, g3, ?_⟩
      intro j b q hj hb hq
      cases j with
      | zero => omega
      | succ j =>
        simp only [List.get?_cons_succ] at hb hq
        exact g4 j b q (by omega) hb hq

/-- Every type of the registry has an alignment of 1, 4 or 8. -/
theorem type_alignment (type_id : Nat) (type : I3ipc_type)
    (h : i3ipc__type_get type_id = some type) : type.alignment ∈ [1, 2, 4, 8] := by
  have hall : i3ipc__global_types.all (fun t => decide (t.alignment ∈ [1, 2, 4, 8])) = true := by
    decide!
  have hmem : type ∈ i3ipc__global_types := by
    unfold i3ipc__type_get at h
    split at h
    · split at h
      · rename_i t heq
        split at h
        · cases h
          exact List.get?_mem heq
        · cases h
      · cases h
    · cases h
  have := List.all_eq_true.mp hall type hmem
  simpa using this

/-- `i3ipc__parse_alloc` in the first pass records a request with the given alignment. -/
theorem parse_alloc_aligned (p : I3ipc_parse_state) (size al : Nat)
    (hp : requests_aligned p) (hal : al ∈ [1, 2, 4, 8]) :
    requests_aligned (i3ipc__parse_alloc p size al).1 := by
  obtain ⟨hm, ha⟩ := hp
  unfold i3ipc__parse_alloc
  simp only [hm, Bool.not_false, ↓reduceIte]
  refine ⟨rfl, ?_⟩
  intro i x hi hx
  dsimp only at hi hx
  by_cases hlt : p.allocs_size < p.allocs.length
  · rw [if_pos hlt] at hx
    by_cases hin : i = p.allocs_size
    · subst hin
      rw [List.getElem?_set_self hlt] at hx
      cases hx
      exact hal
    · rw [List.getElem?_set_ne (fun h => hin h.symm)] at hx
      exact ha i x (by omega) hx
  · rw [if_neg hlt] at hx
    by_cases hil : i < p.allocs.length
    · rw [List.getElem?_append_left hil] at hx
      exact ha i x (by omega) hx
    · rw [List.getElem?_append_right (by omega)] at hx
      by_cases h0 : i - p.allocs.length = 0
      · rw [h0] at hx
        cases hx
        exact hal
      · rw [List.getElem?_eq_none (by simp; omega)] at hx
        cases hx

/-- Setting the size of a request keeps the alignments. -/
theorem set_alloc_size_aligned (p : I3ipc_parse_state) (index size : Nat)
    (hp : requests_aligned p) : requests_aligned (set_alloc_size p index size) := by
  obtain ⟨hm, ha⟩ := hp
  refine ⟨hm, ?_⟩
  intro i x hi hx
  unfold set_alloc_size at hx hi
  dsimp only at hx hi
  rw [List.getElem?_modify] at hx
  cases hg : p.allocs[i]? with
  | none => rw [hg] at hx; cases hx
  | some y =>
    rw [hg] at hx
    simp only [Option.map_eq_map, Option.map_some', Option.some.injEq] at hx
    have := ha i y hi hg
    rw [← hx]
    split <;> exact this

/-- The branch for `MAYBE` keeps the alignments of the requests. -/
theorem parse_maybe_aligned
    (helper : I3ipc_parse_state → Nat → Nat → Option Val →
      Outcome (I3ipc_parse_state × Option Val))
    (hh : ∀ p t fl b r, helper p t fl b = Outcome.done r → requests_aligned p →
      requests_aligned r.1)
    (p : I3ipc_parse_state) (type : I3ipc_type) (t fl : Nat) (b : Option Val)
    (hp : requests_aligned p) (ht : type.alignment ∈ [1, 2, 4, 8]) :
    (parse_maybe helper p type t fl b).holds (fun x => requests_aligned x.1) := by
  unfold parse_maybe
  dsimp only
  split
  · split
    · split
      · rename_i p2 v heq
        have h2 : requests_aligned p2 := hh _ _ _ _ _ heq (parse_alloc_aligned _ _ _ hp ht)
        exact h2
      · trivial
      · trivial
      · trivial
    · split
      · rename_i p2 v heq
        have h2 : requests_aligned p2 := hh _ _ _ _ _ heq hp
        exact h2
      · trivial
      · trivial
      · trivial
  · exact hp

/-- The branch for strings keeps the alignments of the requests. -/
theorem parse_string_aligned (p : I3ipc_parse_state) (t : Nat) (b : Option Val)
    (hp : requests_aligned p) :
    (parse_string p t b).holds (fun x => requests_aligned x.1) := by
  have h1 : (1 : Nat) ∈ [1, 2, 4, 8] := by decide
  have key : ∀ (s : I3ipc_json_state) (n : Nat),
      requests_aligned (if p.copy_strings
        then (i3ipc__parse_alloc { p with state := s } n 1).1 else { p with state := s }) := by
    intro s n
    split
    · exact parse_alloc_aligned _ _ _ hp h1
    · exact hp
  unfold parse_string
  dsimp only
  split
  · trivial
  · split
    · split
      · exact key _ _
      · exact key _ _
    · exact key _ _

/-- The branch for arrays keeps the alignments of the requests. -/
theorem parse_array_aligned
    (array_loop : I3ipc_parse_state → Nat → Bool → Nat → List Val →
      Outcome (I3ipc_parse_state × Nat × List Val))
    (hl : ∀ p t s i el r, array_loop p t s i el = Outcome.done r → requests_aligned p →
      requests_aligned r.1)
    (p : I3ipc_parse_state) (type : I3ipc_type) (t : Nat) (b : Option Val)
    (hp : requests_aligned p) (ht : type.alignment ∈ [1, 2, 4, 8]) :
    (parse_array array_loop p type t b).holds (fun x => requests_aligned x.1) := by
  unfold parse_array
  dsimp only
  split
  · rename_i p2 i els heq
    have h2 : requests_aligned p2 := hl _ _ _ _ _ _ heq (parse_alloc_aligned _ _ _ hp ht)
    split
    · trivial
    · show requests_aligned (if b.isNone = true then _ else p2)
      split
      · exact set_alloc_size_aligned _ _ _ h2
      · exact h2
  · trivial
  · trivial
  · trivial

/-- The branch for inline types keeps the alignments of the requests. -/
theorem parse_inline_aligned
    (helper : I3ipc_parse_state → Nat → Nat → Option Val →
      Outcome (I3ipc_parse_state × Option Val))
    (hh : ∀ p t fl b r, helper p t fl b = Outcome.done r → requests_aligned p →
      requests_aligned r.1)
    (p : I3ipc_parse_state) (type : I3ipc_type) (b : Option Val)
    (hp : requests_aligned p) :
    (parse_inline helper p type b).holds (fun x => requests_aligned x.1) := by
  unfold parse_inline
  split
  · trivial
  · split
    · trivial
    · split
      · rename_i p2 v heq
        have h2 : requests_aligned p2 := hh _ _ _ _ _ heq hp
        exact h2
      · trivial
      · trivial
      · trivial

/-- The branch for primitive types keeps the alignments of the requests. -/
theorem parse_primitive_aligned (p : I3ipc_parse_state) (t : Nat) (b : Option Val)
    (hp : requests_aligned p) :
    (parse_primitive p t b).holds (fun x => requests_aligned x.1) := by
  unfold parse_primitive
  dsimp only
  repeat' split
  all_goals first | exact hp | trivial

/-- The branch for records keeps the alignments of the requests. -/
theorem parse_record_aligned
    (fields_loop : I3ipc_parse_state → I3ipc_type → Option Nat → Option Val →
      Outcome (I3ipc_parse_state × Option Val))
    (hl : ∀ p ty fld b r, fields_loop p ty fld b = Outcome.done r → requests_aligned p →
      requests_aligned r.1)
    (p : I3ipc_parse_state) (type : I3ipc_type) (b : Option Val)
    (hp : requests_aligned p) :
    (parse_record fields_loop p type b).holds (fun x => requests_aligned x.1) := by
  unfold parse_record
  split
  · rename_i p2 v heq
    have h2 : requests_aligned p2 := hl _ _ _ _ _ heq hp
    split
    · trivial
    · exact h2
  · trivial
  · trivial
  · trivial

/-- One round of the array loop keeps the alignments of the requests. -/
theorem array_loop_step_aligned
    (helper : I3ipc_parse_state → Nat → Nat → Option Val →
      Outcome (I3ipc_parse_state × Option Val))
    (again : I3ipc_parse_state → Nat → Bool → Nat → List Val →
      Outcome (I3ipc_parse_state × Nat × List Val))
    (hh : ∀ p t fl b r, helper p t fl b = Outcome.done r → requests_aligned p →
      requests_aligned r.1)
    (hl : ∀ p t s i el, requests_aligned p →
      (again p t s i el).holds (fun x => requests_aligned x.1))
    (p : I3ipc_parse_state) (t : Nat) (s : Bool) (i : Nat) (el : List Val)
    (hp : requests_aligned p) :
    (array_loop_step helper again p t s i el).holds (fun x => requests_aligned x.1) := by
  unfold array_loop_step
  dsimp only
  split
  · exact hp
  · split
    · rename_i p2 v heq
      have h2 : requests_aligned p2 := hh _ _ _ _ _ heq hp
      exact hl _ _ _ _ _ h2
    · trivial
    · trivial
    · trivial

/-- One round of the record loop keeps the alignments of the requests. -/
theorem fields_loop_step_aligned
    (loopfields : I3ipc_json_state → I3ipc_type → Option Nat →
      Outcome (Bool × Nat × I3ipc_json_state))
    (helper : I3ipc_parse_state → Nat → Nat → Option Val →
      Outcome (I3ipc_parse_state × Option Val))
    (again : I3ipc_parse_state → I3ipc_type → Option Nat → Option Val →
      Outcome (I3ipc_parse_state × Option Val))
    (hh : ∀ p t fl b r, helper p t fl b = Outcome.done r → requests_aligned p →
      requests_aligned r.1)
    (hl : ∀ p ty fld b, requests_aligned p →
      (again p ty fld b).holds (fun x => requests_aligned x.1))
    (p : I3ipc_parse_state) (type : I3ipc_type) (fld : Option Nat) (b : Option Val)
    (hp : requests_aligned p) :
    (fields_loop_step loopfields helper again p type fld b).holds
      (fun x => requests_aligned x.1) := by
  unfold fields_loop_step
  split
  · dsimp only
    split
    · exact hp
    · split
      · trivial
      · split
        · rename_i p2 v heq
          have h2 : requests_aligned p2 := hh _ _ _ _ _ heq hp
          exact hl _ _ _ _ h2
        · trivial
        · trivial
        · trivial
  · trivial
  · trivial
  · trivial

/-- `i3ipc__parse_helper` and its loops keep the alignments of the requests in the first
pass. -/
theorem parse_helper_aligned : ∀ (fuel : Nat),
    (∀ p t fl b, requests_aligned p →
      (i3ipc__parse_helper fuel p t fl b).holds (fun x => requests_aligned x.1)) ∧
    (∀ p t s i el, requests_aligned p →
      (parse_array_loop fuel p t s i el).holds (fun x => requests_aligned x.1)) ∧
    (∀ p ty fld b, requests_aligned p →
      (parse_fields_loop fuel p ty fld b).holds (fun x => requests_aligned x.1)) := by
  intro fuel
  induction fuel with
  | zero =>
    refine ⟨?_, ?_, ?_⟩
    · intro p t fl b _
      unfold i3ipc__parse_helper
      trivial
    · intro p t s i el _
      unfold parse_array_loop
      trivial
    · intro p ty fld b _
      unfold parse_fields_loop
      trivial
  | succ fuel ih =>
    obtain ⟨ih1, ih2, ih3⟩ := ih
    have hh : ∀ p t fl b r, i3ipc__parse_helper fuel p t fl b = Outcome.done r →
        requests_aligned p → requests_aligned r.1 :=
      fun p t fl b r h hp => holds_done _ (fun x => requests_aligned x.1) _ (ih1 p t fl b hp) h
    have ha : ∀ p t s i el r, parse_array_loop fuel p t s i el = Outcome.done r →
        requests_aligned p → requests_aligned r.1 :=
      fun p t s i el r h hp =>
        holds_done _ (fun x => requests_aligned x.1) _ (ih2 p t s i el hp) h
    have hf : ∀ p ty fld b r, parse_fields_loop fuel p ty fld b = Outcome.done r →
        requests_aligned p → requests_aligned r.1 :=
      fun p ty fld b r h hp =>
        holds_done _ (fun x => requests_aligned x.1) _ (ih3 p ty fld b hp) h
    refine ⟨?_, ?_, ?_⟩
    · intro p t fl b hp
      rw [i3ipc__parse_helper]
      split
      · trivial
      · split
        · trivial
        · rename_i type heq
          have ht := type_alignment t type heq
          split
          · exact parse_maybe_aligned _ hh _ _ _ _ _ hp ht
          · split
            · exact parse_string_aligned _ _ _ hp
            · split
              · exact parse_array_aligned _ ha _ _ _ _ hp ht
              · split
                · exact parse_inline_aligned _ hh _ _ _ hp
                · split
                  · exact parse_primitive_aligned _ _ _ hp
                  · split
                    · exact parse_record_aligned _ hf _ _ _ hp
                    · trivial
    · intro p t s i el hp
      rw [parse_array_loop]
      exact array_loop_step_aligned _ _ hh ih2 _ _ _ _ _ hp
    · intro p ty fld b hp
      rw [parse_fields_loop]
      exact fields_loop_step_aligned _ _ _ hh ih3 _ _ _ _ hp

/-- The requests behind the first pass of `i3ipc_parse_try` have alignments of 1, 2, 4
or 8. -/
theorem first_pass_aligned (staticalloc : Bool) (msg_type : Int) (payload : List Nat)
    (message_type : Int) (type_id : Nat) (tokens : List I3ipc_json_token) (type : I3ipc_type)
    (p : I3ipc_parse_state)
    (h : parse_first_pass staticalloc msg_type payload message_type type_id =
      Outcome.done (tokens, type, p)) :
    ∀ a ∈ p.requests, a.alignment ∈ [1, 2, 4, 8] := by
  have key : requests_aligned p := by
    unfold parse_first_pass at h
    split at h
    · cases h
    · split at h
      · split at h
        · cases h
        · rename_i type2 htype
          dsimp only at h
          split at h
          · rename_i p2 v heq
            split at h
            · cases h
            · cases h
              have h0 : requests_aligned
                  { state := ⟨tokens, false⟩, allocs := [], allocs_size := 0, memory := false,
                    copy_strings := !staticalloc, next_size := 0, next_enum := none,
                    next_set := false } :=
                ⟨rfl, fun i a hi _ => absurd hi (Nat.not_lt_zero i)⟩
              have h1 := parse_alloc_aligned _ type.size type.alignment h0
                (type_alignment type_id type htype)
              exact holds_done _ (fun x => requests_aligned x.1) _
                ((parse_helper_aligned _).1 _ _ _ _ h1) heq
          · cases h
          · cases h
          · cases h
      · cases h
      · cases h
      · cases h
  intro a ha
  unfold I3ipc_parse_state.requests at ha
  obtain ⟨i, hi, hget⟩ := List.mem_take_iff_getElem.mp ha
  have hlt : i < p.allocs_size := by omega
  have hl : i < p.allocs.length := by omega
  exact key.2 i a hlt (by rw [List.getElem?_eq_getElem hl, hget])

/-- A successful `i3ipc_parse_try` has a successful first pass. -/
theorem parse_try_first_pass (staticalloc : Bool) (msg_type : Int) (payload : List Nat)
    (message_type : Int) (type_id : Nat) (r : Val)
    (h : i3ipc_parse_try staticalloc msg_type payload message_type type_id = Outcome.done r) :
    ∃ x, parse_first_pass staticalloc msg_type payload message_type type_id =
      Outcome.done x := by
  unfold i3ipc_parse_try at h
  split at h
  · rename_i tokens type p heq
    exact ⟨_, heq⟩
  · cases h
  · cases h
  · cases h


/-- An outcome that is `done` with the return code 0 and a record. -/
theorem outcome_done_reply {α β : Type} (o : Outcome (α × Int × Option β)) (d : α × Int × Option β)
    (v : β) (h : o.isDone = true) (hc : (o.getD d).2.1 = 0) (hs : (o.getD d).2.2.isSome = true) :
    o = Outcome.done ((o.getD d).1, 0, some ((o.getD d).2.2.getD v)) := by
  cases o with
  | done a =>
    obtain ⟨a1, a2, a3⟩ := a
    cases a3 with
    | none => simp [Outcome.getD] at hs
    | some x =>
      simp only [Outcome.getD] at hc
      simp [Outcome.getD, hc]
  | fail c => simp [Outcome.isDone] at h
  | aborted => simp [Outcome.isDone] at h
  | starved => simp [Outcome.isDone] at h

/-- An outcome that is `done` with the return code 0. -/
theorem outcome_done_zero {α : Type} (o : Outcome (α × Int)) (d : α × Int)
    (h : o.isDone = true) (hc : (o.getD d).2 = 0) :
    o = Outcome.done ((o.getD d).1, 0) := by
  cases o with
  | done a =>
    obtain ⟨a1, a2⟩ := a
    simp only [Outcome.getD] at hc
    simp [Outcome.getD, hc]
  | fail c => simp [Outcome.isDone] at h
  | aborted => simp [Outcome.isDone] at h
  | starved => simp [Outcome.isDone] at h

/-- C12 in a context that holds `I3IPC_ERROR_MALFORMED`: `i3ipc_message_receive_try` returns
`I3IPC_ERROR_BADSTATE` and changes nothing. -/
theorem latched_error_returns_badstate_witness :
    i3ipc_message_receive_try (latched (ready_world [] [] []) I3IPC_ERROR_MALFORMED_code)
        I3IPC_EVENT_ANY =
      Outcome.done (latched (ready_world [] [] []) I3IPC_ERROR_MALFORMED_code,
        I3IPC_ERROR_BADSTATE) :=
  (latched_error_returns_badstate (latched (ready_world [] [] []) I3IPC_ERROR_MALFORMED_code)
    (by decide) 0 I3IPC_EVENT_ANY none 0 (message_at []) 0 (by decide) (by decide)).2.2.1

/-- C13 in a context that holds `I3IPC_ERROR_FAILED`, without `force`: only the state
changes. -/
theorem reinitialize_policy_witness :
    i3ipc_error_reinitialize (latched (ready_world [] [] []) I3IPC_ERROR_FAILED) false =
      Outcome.done { latched (ready_world [] [] []) I3IPC_ERROR_FAILED with
        context := { (latched (ready_world [] [] []) I3IPC_ERROR_FAILED).context with
          state := I3IPC_STATE_READY } } ∧
    i3ipc_error_code { (latched (ready_world [] [] []) I3IPC_ERROR_FAILED).context with
      state := I3IPC_STATE_READY } = 0 :=
  (reinitialize_policy (latched (ready_world [] [] []) I3IPC_ERROR_FAILED) false
    (by decide)).2 ⟨rfl, rfl⟩

/-- C14 at the reply `[{"success":true},{"success":false,"error":"x"}]`. -/
theorem run_command_simple_failed_iff_witness :
    ∃ w3, i3ipc_run_command_simple
        (ready_world (frame I3IPC_REPLY_COMMAND
          (bytes "[\x7b\"success\":true\x7d,\x7b\"success\":false,\"error\":\"x\"\x7d]")) [] [])
        (some (bytes "nop" ++ [0])) = Outcome.done w3 ∧
      (i3ipc_error_code w3.context = I3IPC_ERROR_FAILED ↔
        ∃ el ∈ [Val.struct [Val.bool true, Val.chars none, Val.int 0],
                Val.struct [Val.bool false, Val.chars (some (bytes "x" ++ [0])), Val.int 1]],
          el.success I3IPC_TYPE_REPLY_COMMAND_EL = false) ∧
      ((¬ ∃ el ∈ [Val.struct [Val.bool true, Val.chars none, Val.int 0],
                Val.struct [Val.bool false, Val.chars (some (bytes "x" ++ [0])), Val.int 1]],
          el.success I3IPC_TYPE_REPLY_COMMAND_EL = false) →
        i3ipc_error_code w3.context = 0) :=
  run_command_simple_failed_iff
    (ready_world (frame I3IPC_REPLY_COMMAND
      (bytes "[\x7b\"success\":true\x7d,\x7b\"success\":false,\"error\":\"x\"\x7d]")) [] [])
    _ (some (bytes "nop" ++ [0])) _ _ rfl
    (outcome_done_reply _ (ready_world [] [] [], 0, none) (Val.int 0) (by decide!) (by decide!)
      (by decide!))
    (by with_unfolding_all rfl) (by with_unfolding_all rfl)

/-- C20 at a header with the length -1, and at a header with the length 2 whose payload has
arrived. -/
theorem receive_length_validation_witness :
    i3ipc_message_receive_try
        (ready_world (message_header (-1) 7 ++ bytes "xy") [] []) 7 =
      Outcome.done (latched (((ready_world (message_header (-1) 7 ++ bytes "xy") [] []).set_incoming
        false { (ready_world (message_header (-1) 7 ++ bytes "xy") [] []).incoming false with
          data := bytes "xy" }).set_msg (message_header (-1) 7)) I3IPC_ERROR_MALFORMED_code,
        I3IPC_ERROR_MALFORMED_code) ∧
    ∃ w' code, i3ipc_message_receive_try
        (ready_world (message_header 2 7 ++ bytes "xyz") [] []) 7 = Outcome.done (w', code) ∧
      (w'.incoming false).data = (bytes "xyz").drop (message_at (message_header 2 7)).message_length.toNat ∧
      w'.context.msg = message_header 2 7 ++
        (bytes "xyz").take (message_at (message_header 2 7)).message_length.toNat ++ [0] :=
  ⟨(receive_length_validation (ready_world (message_header (-1) 7 ++ bytes "xy") [] []) 7 false
      (message_header (-1) 7) (bytes "xy") rfl rfl (by decide) (by decide!) (by decide!)).1
      (Or.inl (by decide!)),
   (receive_length_validation (ready_world (message_header 2 7 ++ bytes "xyz") [] []) 7 false
      (message_header 2 7) (bytes "xyz") rfl rfl (by decide) (by decide!) (by decide!)).2
      ⟨by decide!, by decide!, by decide!⟩⟩

/-- C18 at a queue that holds a window event and a workspace event while a workspace event is
expected, and at a queue that holds a window event while the subscribe reply is expected and
arrives behind another window event. -/
theorem reorder_queue_witness :
    i3ipc_message_receive_reorder_try
        (with_queue (ready_world [] [] [])
          [frame I3IPC_EVENT_WINDOW (bytes "\x7b\"change\":\"focus\"\x7d"),
           frame I3IPC_EVENT_WORKSPACE (bytes "\x7b\"change\":\"init\"\x7d")])
        I3IPC_EVENT_WORKSPACE =
      Outcome.done ({ with_queue (ready_world [] [] [])
          [frame I3IPC_EVENT_WINDOW (bytes "\x7b\"change\":\"focus\"\x7d"),
           frame I3IPC_EVENT_WORKSPACE (bytes "\x7b\"change\":\"init\"\x7d")] with
        context := { (with_queue (ready_world [] [] [])
          [frame I3IPC_EVENT_WINDOW (bytes "\x7b\"change\":\"focus\"\x7d"),
           frame I3IPC_EVENT_WORKSPACE (bytes "\x7b\"change\":\"init\"\x7d")]).context with
          msg := (frame I3IPC_EVENT_WORKSPACE (bytes "\x7b\"change\":\"init\"\x7d")).take
            (sizeof_message + (message_at (frame I3IPC_EVENT_WORKSPACE
              (bytes "\x7b\"change\":\"init\"\x7d"))).message_length.toNat),
          reorder := [frame I3IPC_EVENT_WINDOW (bytes "\x7b\"change\":\"focus\"\x7d"),
            frame I3IPC_EVENT_WORKSPACE (bytes "\x7b\"change\":\"init\"\x7d")].eraseIdx 1 } }, 0) ∧
    ∃ w', i3ipc_message_receive_reorder_try
        (with_queue (ready_world []
          (frames_bytes [(message_header 16 I3IPC_EVENT_WINDOW, bytes "\x7b\"change\":\"new\"\x7d")] ++
            (message_header 16 I3IPC_REPLY_SUBSCRIBE ++ bytes "\x7b\"success\":true\x7d" ++ [])) [])
          [frame I3IPC_EVENT_WINDOW (bytes "\x7b\"change\":\"focus\"\x7d")])
        I3IPC_REPLY_SUBSCRIBE = Outcome.done (w', 0) ∧
      w'.context.reorder = [frame I3IPC_EVENT_WINDOW (bytes "\x7b\"change\":\"focus\"\x7d")] ++
        [(message_header 16 I3IPC_EVENT_WINDOW, bytes "\x7b\"change\":\"new\"\x7d")].map
          (fun f => f.1 ++ f.2) ∧
      w'.context.msg = message_header 16 I3IPC_REPLY_SUBSCRIBE ++ bytes "\x7b\"success\":true\x7d" ++ [0] ∧
      w'.sock_events_data.data = [] ∧
      w'.sock_data = (with_queue (ready_world []
          (frames_bytes [(message_header 16 I3IPC_EVENT_WINDOW, bytes "\x7b\"change\":\"new\"\x7d")] ++
            (message_header 16 I3IPC_REPLY_SUBSCRIBE ++ bytes "\x7b\"success\":true\x7d" ++ [])) [])
          [frame I3IPC_EVENT_WINDOW (bytes "\x7b\"change\":\"focus\"\x7d")]).sock_data :=
  ⟨(reorder_queue
      (with_queue (ready_world [] [] [])
        [frame I3IPC_EVENT_WINDOW (bytes "\x7b\"change\":\"focus\"\x7d"),
         frame I3IPC_EVENT_WORKSPACE (bytes "\x7b\"change\":\"init\"\x7d")])
      I3IPC_EVENT_WORKSPACE 1 (frame I3IPC_EVENT_WORKSPACE (bytes "\x7b\"change\":\"init\"\x7d"))
      [] ([], []) [] rfl).1 rfl (by decide!)
      (by
        intro j x hj hx
        have hj0 : j = 0 := by omega
        subst hj0
        simp only [with_queue, ready_world, List.get?_cons_zero, Option.some.injEq] at hx
        subst hx
        decide!),
   (reorder_queue
      (with_queue (ready_world []
        (frames_bytes [(message_header 16 I3IPC_EVENT_WINDOW, bytes "\x7b\"change\":\"new\"\x7d")] ++
          (message_header 16 I3IPC_REPLY_SUBSCRIBE ++ bytes "\x7b\"success\":true\x7d" ++ [])) [])
        [frame I3IPC_EVENT_WINDOW (bytes "\x7b\"change\":\"focus\"\x7d")])
      I3IPC_REPLY_SUBSCRIBE 0 []
      [(message_header 16 I3IPC_EVENT_WINDOW, bytes "\x7b\"change\":\"new\"\x7d")]
      (message_header 16 I3IPC_REPLY_SUBSCRIBE, bytes "\x7b\"success\":true\x7d") [] rfl).2
      (by
        intro x hx
        simp only [with_queue, ready_world, List.mem_singleton] at hx
        subst hx
        decide!)
      (by
        intro f hf
        simp only [List.mem_singleton] at hf
        subst hf
        exact ⟨by decide!, by decide!⟩)
      (by decide!) (by decide!) rfl⟩

/-- C16 at replies with `success` false to `i3ipc_subscribe` and `i3ipc_send_tick` and a
reply with `success` true to `i3ipc_sync`. -/
theorem self_reported_failure_witness :
    (i3ipc_subscribe (ready_world [] (frame I3IPC_REPLY_SUBSCRIBE (bytes "\x7b\"success\":false\x7d")) [])
        [I3IPC_EVENT_WINDOW]).get?.map (fun w => i3ipc_error_code w.context) =
      some I3IPC_ERROR_MALFORMED_code ∧
    (i3ipc_send_tick (ready_world (frame I3IPC_SEND_TICK (bytes "\x7b\"success\":false\x7d")) [] [])
        (some (bytes "x" ++ [0]))).get?.map (fun w => i3ipc_error_code w.context) =
      some I3IPC_ERROR_MALFORMED_code ∧
    (i3ipc_sync (ready_world (frame I3IPC_SYNC (bytes "\x7b\"success\":true\x7d")) [] [])
        5 7).get?.map (fun w => i3ipc_error_code w.context) = some 0 := by
  refine ⟨?_, ?_, ?_⟩
  · have h := ((self_reported_failure
      (ready_world [] (frame I3IPC_REPLY_SUBSCRIBE (bytes "\x7b\"success\":false\x7d")) [])
      _ _ _ _ [I3IPC_EVENT_WINDOW] (bytes "\"window\"") none 0 0 [] rfl).1
      (by decide!)
      (outcome_done_zero _ (ready_world [] [] [], 0) (by decide!) (by decide!))
      (outcome_done_zero _ (ready_world [] [] [], 0) (by decide!) (by decide!))
      (outcome_done_reply _ (ready_world [] [] [], 0, none) (Val.int 0) (by decide!)
        (by decide!) (by decide!))).1 (by decide!)
    rw [h.1]
    exact congrArg some h.2
  · have h := ((self_reported_failure
      (ready_world (frame I3IPC_SEND_TICK (bytes "\x7b\"success\":false\x7d")) [] [])
      (ready_world [] [] []) (ready_world [] [] []) _ _ [] [] (some (bytes "x" ++ [0])) 0 0 []
      rfl).2.1
      (outcome_done_reply _ (ready_world [] [] [], 0, none) (Val.int 0) (by decide!)
        (by decide!) (by decide!))).1 (by decide!)
    rw [h.1]
    exact congrArg some h.2
  · have h := ((self_reported_failure
      (ready_world (frame I3IPC_SYNC (bytes "\x7b\"success\":true\x7d")) [] [])
      (ready_world [] [] []) (ready_world [] [] []) _ _ [] [] none 5 7
      ((sync_payload 5 7).getD []) rfl).2.2 (by decide!) (by decide!)
      (outcome_done_reply _ (ready_world [] [] [], 0, none) (Val.int 0) (by decide!)
        (by decide!) (by decide!))).2 (by decide!)
    rw [h.1]
    exact congrArg some h.2

/-- The bit operations of `utf8_encode` below 0x10000 agree with the arithmetic of UTF-8. -/
theorem utf8_encode_eq (cp : Nat) (h : cp < 0x10000) : utf8_encode cp = utf8_bytes cp := by
  have hor1 : ∀ a, a < 32 → (0xc0 ||| a) % 256 = 0xc0 + a := by decide
  have hor2 : ∀ a, a < 64 → (0x80 ||| a) % 256 = 0x80 + a := by decide
  have hor3 : ∀ a, a < 16 → (0xe0 ||| a) % 256 = 0xe0 + a := by decide
  have hand : ∀ x : Nat, x &&& 0x3f = x % 64 := by
    intro x
    exact Nat.and_pow_two_sub_one_eq_mod x 6
  have hs6 : cp >>> 6 = cp / 64 := by rw [Nat.shiftRight_eq_div_pow]
  have hs12 : cp >>> 12 = cp / 4096 := by rw [Nat.shiftRight_eq_div_pow]
  unfold utf8_encode utf8_bytes
  by_cases h1 : cp ≤ 0x7f
  · have h1b : cp < 0x80 := by omega
    rw [if_pos h1, if_pos h1b, Nat.mod_eq_of_lt (by omega)]
  · have h1b : ¬ cp < 0x80 := by omega
    rw [if_neg h1, if_neg h1b]
    by_cases h2 : cp ≤ 0x7ff
    · have h2b : cp < 0x800 := by omega
      rw [if_pos h2, if_pos h2b, hand, hs6, hor1 _ (by omega), hor2 _ (by omega)]
    · have h2b : ¬ cp < 0x800 := by omega
      have h3 : cp ≤ 0xffff := by omega
      rw [if_neg h2, if_neg h2b, if_pos h3, hand, hand, hs6, hs12, hor3 _ (by omega),
        hor2 _ (by omega), hor2 _ (by omega)]

/-- One round of the loop on an escape with a single literal byte. -/
theorem scan_string_simple (fuel : Nat) (rest out : List Nat) (i e lit : Nat)
    (h : (e, lit) ∈ simple_escapes) :
    scan_string_loop (fuel + 1) (92 :: e :: rest) out i =
      scan_string_loop fuel rest (out ++ [lit]) (i + 2) := by
  simp only [simple_escapes, List.mem_cons, Prod.mk.injEq, List.mem_singleton, List.not_mem_nil,
    or_false] at h
  rcases h with h | h | h | h | h | h | h | h <;> obtain ⟨rfl, rfl⟩ := h <;> rfl

/-- One round of the loop on a `\u` escape with four hexadecimal digits. -/
theorem scan_string_unicode (fuel : Nat) (rest out : List Nat) (i h1 h2 h3 h4 v1 v2 v3 v4 : Nat)
    (e1 : hexval h1 = some v1) (e2 : hexval h2 = some v2) (e3 : hexval h3 = some v3)
    (e4 : hexval h4 = some v4) :
    scan_string_loop (fuel + 1) (92 :: 117 :: h1 :: h2 :: h3 :: h4 :: rest) out i =
      scan_string_loop fuel rest (out ++ utf8_encode (code_point v1 v2 v3 v4)) (i + 6) := by
  have hcp : ((v1 * 16 + v2) * 16 + v3) * 16 + v4 = code_point v1 v2 v3 v4 := by
    unfold code_point
    ring
  rw [← hcp]
  simp [scan_string_loop, escape_char, e1, e2, e3, e4]

/-- A hexadecimal digit has a value below 16. -/
theorem hexval_lt (h v : Nat) (e : hexval h = some v) : v < 16 := by
  unfold hexval at e
  split at e
  · rename_i hc
    simp at hc e
    omega
  · split at e
    · rename_i hc
      simp at hc e
      omega
    · split at e
      · rename_i hc
        simp at hc e
        omega
      · cases e

/-- One round of the loop on a byte that is neither a quote nor a backslash. -/
theorem scan_string_plain (fuel : Nat) (rest out : List Nat) (i c : Nat)
    (h1 : c ≠ 34) (h2 : c ≠ 92) :
    scan_string_loop (fuel + 1) (c :: rest) out i =
      scan_string_loop fuel rest (out ++ [c]) (i + 1) := by
  simp [scan_string_loop, h1, h2]

/-- One round of the loop on a backslash in front of a character that starts no escape. -/
theorem scan_string_unknown (fuel : Nat) (rest out : List Nat) (i e : Nat)
    (h : e ∉ [34, 92, 47, 98, 102, 110, 114, 116, 117]) :
    scan_string_loop (fuel + 1) (92 :: e :: rest) out i =
      scan_string_loop fuel (e :: rest) (out ++ [92]) (i + 1) := by
  simp only [List.mem_cons, List.mem_singleton, List.not_mem_nil, or_false, not_or] at h
  obtain ⟨a1, a2, a3, a4, a5, a6, a7, a8, a9⟩ := h
  simp [scan_string_loop, escape_char, a1, a2, a3, a4, a5, a6, a7, a8, a9]

/-- The loop of `i3ipc__json_scan_string` never runs out of rounds when it starts with at
least as many rounds as bytes: the result is then the same for every such number. -/
theorem scan_string_fuel : ∀ (fuel : Nat) (rest : List Nat), rest.length ≤ fuel →
    ∀ (out : List Nat) (i : Nat),
      scan_string_loop fuel rest out i = scan_string_loop rest.length rest out i := by
  intro fuel
  induction fuel using Nat.strong_induction_on with
  | _ fuel ih =>
    intro rest hl out i
    cases rest with
    | nil => cases fuel <;> rfl
    | cons c rest =>
      cases fuel with
      | zero => simp at hl
      | succ n =>
        have hn : rest.length ≤ n := by simpa using hl
        have key : ∀ (sub o : List Nat) (j : Nat), sub.length ≤ rest.length →
            scan_string_loop n sub o j = scan_string_loop rest.length sub o j := by
          intro sub o j hs
          rw [ih n (by omega) sub (by omega) o j]
          by_cases hlt : rest.length < n + 1
          · rw [ih rest.length hlt sub hs o j]
          · omega
        simp only [List.length_cons, scan_string_loop]
        split
        · rfl
        · split
          · split
            · split
              · rename_i x h1 h2 h3 h4 rest5
                split
                · exact key _ _ _ (by simp; omega)
                · exact key _ _ _ (by simp)
              · exact key _ _ _ (by simp)
            · split
              · exact key _ _ _ (by simp)
              · exact key _ _ _ (by simp)
          · exact key _ _ _ (by simp)

/-- A list of digits holds no other character. -/
theorem digits_not_mem (l : List Nat) (h : ∀ d ∈ l, isdigit d = true) (x : Nat)
    (hx : isdigit x = false) : x ∉ l := by
  intro hm
  rw [h x hm] at hx
  cases hx

/-- `dropWhile` leaves nothing only when every element passes. -/
theorem dropWhile_nil_all (p : Nat → Bool) (l : List Nat) (h : l.dropWhile p = []) :
    ∀ d ∈ l, p d = true := by
  intro d hd
  rw [List.dropWhile_eq_nil_iff] at h
  exact h d hd

/-- A run on which `i3ipc__json_scan_number` reaches the end of the copy is an optional `-`,
digits, and an optional `.` with digits. -/
theorem accepted_run_clean (c0 : List Nat)
    (h : (if (c0.dropWhile isdigit).head? == some 46
          then ((c0.dropWhile isdigit).drop 1).dropWhile isdigit
          else c0.dropWhile isdigit) = []) :
    101 ∉ c0 ∧ 69 ∉ c0 ∧ 43 ∉ c0 ∧ 45 ∉ c0 ∧ c0.count 46 ≤ 1 := by
  have hsplit : c0 = c0.takeWhile isdigit ++ c0.dropWhile isdigit :=
    (List.takeWhile_append_dropWhile isdigit c0).symm
  have hd : ∀ d ∈ c0.takeWhile isdigit, isdigit d = true := by
    intro d hd
    exact (List.mem_takeWhile_imp hd)
  generalize c0.takeWhile isdigit = ds at hsplit hd
  generalize c0.dropWhile isdigit = c1 at hsplit h
  have hc46 : ds.count 46 = 0 := List.count_eq_zero.mpr (digits_not_mem ds hd 46 (by decide))
  cases c1 with
  | nil =>
    rw [hsplit, List.append_nil]
    exact ⟨digits_not_mem ds hd 101 (by decide), digits_not_mem ds hd 69 (by decide),
      digits_not_mem ds hd 43 (by decide), digits_not_mem ds hd 45 (by decide), by omega⟩
  | cons x fs =>
    by_cases hx : x = 46
    · subst hx
      simp only [List.head?_cons, beq_self_eq_true, ↓reduceIte, List.drop_succ_cons,
        List.drop_zero] at h
      have hf := dropWhile_nil_all isdigit fs h
      have hf46 : fs.count 46 = 0 :=
        List.count_eq_zero.mpr (digits_not_mem fs hf 46 (by decide))
      have n1 := digits_not_mem ds hd
      have n2 := digits_not_mem fs hf
      rw [hsplit]
      refine ⟨?_, ?_, ?_, ?_, ?_⟩
      · simp [n1 101 (by decide), n2 101 (by decide)]
      · simp [n1 69 (by decide), n2 69 (by decide)]
      · simp [n1 43 (by decide), n2 43 (by decide)]
      · simp [n1 45 (by decide), n2 45 (by decide)]
      · simp [List.count_append, List.count_cons, hc46, hf46]
    · have hne : ((x :: fs).head? == some 46) = false := by
        simp [hx]
      rw [hne] at h
      simp at h

/-- A rejected run is not an optional `-` in front of a clean rest. -/
theorem rejected_not_clean (run : List Nat) (h : run_rejected run = true)
    (hc : 101 ∉ (if (run.head? == some 45) = true then run.drop 1 else run) ∧
      69 ∉ (if (run.head? == some 45) = true then run.drop 1 else run) ∧
      43 ∉ (if (run.head? == some 45) = true then run.drop 1 else run) ∧
      45 ∉ (if (run.head? == some 45) = true then run.drop 1 else run) ∧
      (if (run.head? == some 45) = true then run.drop 1 else run).count 46 ≤ 1) : False := by
  simp only [run_rejected, decide_eq_true_eq] at h
  cases run with
  | nil => simp at h
  | cons a r =>
    by_cases ha : a = 45
    · subst ha
      simp only [List.head?_cons, beq_self_eq_true, ↓reduceIte, List.drop_succ_cons,
        List.drop_zero] at hc
      obtain ⟨c1, c2, c3, c4, c5⟩ := hc
      simp only [List.mem_cons, List.drop_succ_cons, List.drop_zero, List.count_cons] at h
      simp [c1, c2, c3, c4] at h
      omega
    · have hne : ((a :: r).head? == some 45) = false := by simp [ha]
      rw [hne] at hc
      simp only [Bool.false_eq_true, ↓reduceIte] at hc
      obtain ⟨c1, c2, c3, c4, c5⟩ := hc
      have c4b : 45 ∉ r := fun hm => c4 (List.mem_cons_of_mem _ hm)
      simp only [List.drop_succ_cons, List.drop_zero] at h
      simp [c1, c2, c3, c4b] at h
      omega

/-- `i3ipc__json_scan_number` returns its error on a rejected run. -/
theorem scan_number_rejects (cur : List Nat)
    (h : run_rejected (cur.takeWhile isnumchar) = true) :
    i3ipc__json_scan_number cur = Outcome.fail 1 := by
  unfold i3ipc__json_scan_number
  generalize cur.takeWhile isnumchar = run at h
  dsimp only
  by_cases hl : run.length ≥ 256
  · rw [if_pos hl]
  · rw [if_neg hl]
    have hcl := fun x => rejected_not_clean run h (accepted_run_clean _ x)
    generalize (if (run.head? == some 45) = true then run.drop 1 else run) = c0 at hcl
    by_cases h46 : ((c0.dropWhile isdigit).head? == some 46) = true
    · rw [if_pos h46] at hcl
      simp only [h46, ↓reduceIte]
      have hne : (((c0.dropWhile isdigit).drop 1).dropWhile isdigit != []) = true := by
        simpa using hcl
      rw [if_pos hne]
    · rw [if_neg h46] at hcl
      simp only [h46, Bool.false_eq_true, ↓reduceIte]
      have hne : (c0.dropWhile isdigit != []) = true := by
        simpa using hcl
      rw [if_pos hne]

/-- The index that the loop of `i3ipc__json_scan_string` returns is not below its start. -/
theorem scan_string_index : ∀ (fuel : Nat) (rest out : List Nat) (i : Nat),
    i ≤ (scan_string_loop fuel rest out i).2 := by
  intro fuel
  induction fuel with
  | zero => intro rest out i; exact Nat.le_refl _
  | succ n ih =>
    intro rest out i
    cases rest with
    | nil => exact Nat.le_refl _
    | cons c rest =>
      simp only [scan_string_loop]
      split
      · exact Nat.le_succ _
      · split
        · split
          · split
            · split
              · exact Nat.le_trans (by omega) (ih _ _ _)
              · exact Nat.le_trans (by omega) (ih _ _ _)
            · exact Nat.le_trans (by omega) (ih _ _ _)
          · split
            · exact Nat.le_trans (by omega) (ih _ _ _)
            · exact Nat.le_trans (by omega) (ih _ _ _)
        · exact Nat.le_trans (by omega) (ih _ _ _)

/-- What `i3ipc__json_scan_number` leaves is the input behind the run of number characters. -/
theorem scan_number_rest (cur rest : List Nat) (d : I3ipc_double) (n : Nat)
    (h : i3ipc__json_scan_number cur = Outcome.done (d, n, rest)) :
    rest = cur.drop (cur.takeWhile isnumchar).length := by
  have key : ∀ (b : Bool) (x : I3ipc_double × Nat × List Nat),
      (if b = true then Outcome.fail 1 else Outcome.done x) = Outcome.done (d, n, rest) →
      x.2.2 = rest := by
    intro b x hx
    cases b
    · simp only [Bool.false_eq_true, ↓reduceIte, Outcome.done.injEq] at hx
      rw [hx]
    · simp only [↓reduceIte] at hx
      cases hx
  unfold i3ipc__json_scan_number at h
  dsimp only at h
  by_cases hl : (cur.takeWhile isnumchar).length ≥ 256
  · rw [if_pos hl] at h
    cases h
  · rw [if_neg hl] at h
    exact (key _ _ h).symm

/-- A token other than the end token consumes at least one byte. -/
theorem scan_token_consumes (cur rest : List Nat) (tok : I3ipc_json_token)
    (h : i3ipc__json_scan_token cur = Outcome.done (tok, rest)) (ht : tok.type ≠ 0) :
    rest.length < cur.length := by
  unfold i3ipc__json_scan_token at h
  have hle : (cur.dropWhile isspace).length ≤ cur.length :=
    (List.dropWhile_sublist isspace).length_le
  generalize cur.dropWhile isspace = c0 at h hle
  cases c0 with
  | nil =>
    simp only [Outcome.done.injEq, Prod.mk.injEq] at h
    rw [← h.1] at ht
    exact absurd rfl ht
  | cons c r =>
    dsimp only at h
    split at h
    · simp only [Outcome.done.injEq, Prod.mk.injEq] at h
      rw [← h.2]
      simp at hle ⊢
      omega
    · split at h
      · split at h
        · cases h
        · simp only [Outcome.done.injEq, Prod.mk.injEq] at h
          rw [← h.2]
          simp at hle ⊢
          omega
      · split at h
        · split at h
          · cases h
          · simp only [Outcome.done.injEq, Prod.mk.injEq] at h
            rw [← h.2]
            simp at hle ⊢
            omega
        · split at h
          · split at h
            · cases h
            · simp only [Outcome.done.injEq, Prod.mk.injEq] at h
              rw [← h.2]
              simp at hle ⊢
              omega
          · split at h
            · simp only [Outcome.done.injEq, Prod.mk.injEq] at h
              rw [← h.2]
              have hi := scan_string_index (c :: r).length ((c :: r).drop 1) [] 1
              simp only [i3ipc__json_scan_string, List.length_drop]
              simp only [List.length_cons] at hle hi ⊢
              omega
            · split at h
              · rename_i hnum
                split at h
                · rename_i d n rest2 heq
                  simp only [Outcome.done.injEq, Prod.mk.injEq] at h
                  have hr := scan_number_rest _ _ _ _ heq
                  have hc : isnumchar c = true := by
                    simp only [isnumchar, Bool.or_eq_true] at hnum ⊢
                    rcases hnum with h1 | h1
                    · exact Or.inl (Or.inl (Or.inl (Or.inl (Or.inr h1))))
                    · exact Or.inl (Or.inl (Or.inl (Or.inl (Or.inl h1))))
                  rw [← h.2, hr]
                  simp only [List.takeWhile_cons, hc, ↓reduceIte, List.length_cons,
                    List.drop_succ_cons, List.length_drop]
                  simp only [List.length_cons] at hle
                  omega
                · cases h
              · cases h

/-- The scan has stored `k` tokens when it arrives at `cur`, so `cur` is at least `k` bytes
shorter than the payload. -/
theorem after_tokens_length : ∀ (k : Nat) (payload cur : List Nat),
    after_tokens k payload = some cur → k + cur.length ≤ payload.length := by
  intro k
  induction k with
  | zero =>
    intro payload cur h
    simp only [after_tokens, Option.some.injEq] at h
    rw [h]
    omega
  | succ k ih =>
    intro payload cur h
    simp only [after_tokens] at h
    split at h
    · rename_i tok rest heq
      split at h
      · cases h
      · rename_i ht
        have h1 := ih rest cur h
        have h2 := scan_token_consumes payload rest tok heq (by simpa using ht)
        omega
    · cases h

/-- The loop of `i3ipc__json_scan` fails when it arrives, with a round left, at an input on
which `i3ipc__json_scan_token` fails. -/
theorem scan_loop_fails : ∀ (k : Nat) (payload cur : List Nat) (code : Nat),
    after_tokens k payload = some cur → i3ipc__json_scan_token cur = Outcome.fail code →
    ∀ (fuel : Nat) (tokens : List I3ipc_json_token),
      json_scan_loop (k + (fuel + 1)) payload tokens = Outcome.fail 1 := by
  intro k
  induction k with
  | zero =>
    intro payload cur code h hf fuel tokens
    simp only [after_tokens, Option.some.injEq] at h
    subst h
    simp only [Nat.zero_add, json_scan_loop, hf]
  | succ k ih =>
    intro payload cur code h hf fuel tokens
    simp only [after_tokens] at h
    split at h
    · rename_i tok rest heq
      split at h
      · cases h
      · rename_i ht
        have e : k + 1 + (fuel + 1) = (k + (fuel + 1)) + 1 := by omega
        rw [e]
        simp only [json_scan_loop, heq]
        rw [if_neg ht]
        exact ih rest cur code h hf fuel _
    · cases h

/-- `i3ipc__json_scan` fails when the scan arrives at an input on which
`i3ipc__json_scan_token` fails. -/
theorem scan_fails (k : Nat) (payload cur : List Nat) (code : Nat)
    (h : after_tokens k payload = some cur)
    (hf : i3ipc__json_scan_token cur = Outcome.fail code) :
    i3ipc__json_scan payload = Outcome.fail 1 := by
  have hl := after_tokens_length k payload cur h
  unfold i3ipc__json_scan
  have e : payload.length + 1 = k + ((payload.length - k) + 1) := by omega
  rw [e]
  exact scan_loop_fails k payload cur code h hf _ _

/-- `i3ipc_parse_try` fails with `I3IPC_ERROR_MALFORMED` when `i3ipc__json_scan` fails. -/
theorem parse_try_scan_fails (staticalloc : Bool) (msg_type message_type : Int)
    (payload : List Nat) (type_id code : Nat)
    (h : i3ipc__json_scan payload = Outcome.fail code) :
    i3ipc_parse_try staticalloc msg_type payload message_type type_id =
      Outcome.fail I3IPC_ERROR_MALFORMED := by
  unfold i3ipc_parse_try parse_first_pass
  by_cases hm : (msg_type != message_type) = true
  · simp only [hm, ↓reduceIte]
  · simp only [hm, h, Bool.false_eq_true, ↓reduceIte]

/-- `i3ipc__json_scan_token` fails on a number token with a rejected run. -/
theorem scan_token_rejects (cur : List Nat) (c : Nat)
    (hc : (cur.dropWhile isspace).head? = some c) (hstart : c = 45 ∨ isdigit c = true)
    (h : run_rejected ((cur.dropWhile isspace).takeWhile isnumchar) = true) :
    i3ipc__json_scan_token cur = Outcome.fail 1 := by
  have hn := scan_number_rejects _ h
  unfold i3ipc__json_scan_token
  generalize cur.dropWhile isspace = c0 at hc hn
  cases c0 with
  | nil => cases hc
  | cons x r =>
    simp only [List.head?_cons, Option.some.injEq] at hc
    subst hc
    have hd : isdigit x = true → 48 ≤ x ∧ x ≤ 57 := by
      intro hx
      simpa [isdigit] using hx
    have n1 : (x == 91 || x == 93 || x == 123 || x == 125 || x == 58 || x == 44) = false := by
      rcases hstart with h1 | h1
      · subst h1; rfl
      · have := hd h1
        simp only [Bool.or_eq_false_iff, beq_eq_false_iff_ne, ne_eq]
        omega
    have n2 : (x == 116) = false := by
      rcases hstart with h1 | h1
      · subst h1; rfl
      · have := hd h1
        simp only [beq_eq_false_iff_ne, ne_eq]
        omega
    have n3 : (x == 102) = false := by
      rcases hstart with h1 | h1
      · subst h1; rfl
      · have := hd h1
        simp only [beq_eq_false_iff_ne, ne_eq]
        omega
    have n4 : (x == 110) = false := by
      rcases hstart with h1 | h1
      · subst h1; rfl
      · have := hd h1
        simp only [beq_eq_false_iff_ne, ne_eq]
        omega
    have n5 : (x == 34) = false := by
      rcases hstart with h1 | h1
      · subst h1; rfl
      · have := hd h1
        simp only [beq_eq_false_iff_ne, ne_eq]
        omega
    have n6 : (x == 45 || isdigit x) = true := by
      rcases hstart with h1 | h1
      · subst h1; rfl
      · simp [h1]
    simp only [n1, n2, n3, n4, n5, n6, hn, Bool.false_eq_true, ↓reduceIte]

/-- The value loop of `i3ipc__json_scan_number` computes the decimal value of the digits. -/
theorem digits_exact_eq (ds : List Nat) : digits_exact ds = decimal_value ds := by
  have key : ∀ (l : List Nat) (a : Nat),
      l.foldl (fun v c => 10 * v + (c - 48)) a =
        a * 10 ^ l.length + Nat.ofDigits 10 ((l.map (fun c => c - 48)).reverse) := by
    intro l
    induction l with
    | nil => intro a; simp
    | cons c l ih =>
      intro a
      simp only [List.foldl_cons, ih, List.length_cons, List.map_cons, List.reverse_cons,
        Nat.ofDigits_append, List.length_reverse, List.length_map, Nat.ofDigits_singleton]
      ring
  unfold digits_exact decimal_value
  rw [key]
  simp

/-- The `size_t` value loop is the decimal value modulo `2 ^ 64`. -/
theorem digits_sizet_eq (ds : List Nat) : digits_sizet ds = decimal_value ds % 2 ^ 64 := by
  have key : ∀ (l : List Nat) (a b : Nat), a = b % 2 ^ 64 →
      l.foldl (fun v c => (10 * v + (c - 48)) % 2 ^ 64) a =
        l.foldl (fun v c => 10 * v + (c - 48)) b % 2 ^ 64 := by
    intro l
    induction l with
    | nil => intro a b h; simpa using h
    | cons c l ih =>
      intro a b h
      simp only [List.foldl_cons]
      apply ih
      rw [h]
      omega
  rw [← digits_exact_eq]
  unfold digits_sizet digits_exact
  exact key ds 0 0 rfl

/-- `takeWhile` over a prefix that passes, in front of a rest whose head does not. -/
theorem takeWhile_prefix (p : Nat → Bool) (pre rest : List Nat)
    (hpre : ∀ c ∈ pre, p c = true) (hrest : ∀ c, rest.head? = some c → p c = false) :
    (pre ++ rest).takeWhile p = pre ∧ (pre ++ rest).dropWhile p = rest := by
  induction pre with
  | nil =>
    cases rest with
    | nil => exact ⟨rfl, rfl⟩
    | cons c r =>
      have := hrest c rfl
      simp [List.takeWhile_cons, List.dropWhile_cons, this]
  | cons x pre ih =>
    have hx := hpre x (List.mem_cons_self _ _)
    have ih2 := ih (fun c hc => hpre c (List.mem_cons_of_mem _ hc))
    simp [List.takeWhile_cons, List.dropWhile_cons, hx, ih2.1, ih2.2]

/-- A digit is a number character. -/
theorem isdigit_isnumchar (c : Nat) (h : isdigit c = true) : isnumchar c = true := by
  simp [isnumchar, h]

/-- Two results of `i3ipc__json_scan_number` agree up to the double. -/
theorem done_triple (x : I3ipc_double) (v n : Nat) (r rest : List Nat) (hv : v = n)
    (hr : r = rest) :
    ∃ d, (Outcome.done (x, v, r) : Outcome (I3ipc_double × Nat × List Nat)) =
      Outcome.done (d, n, rest) := ⟨x, by rw [hv, hr]⟩

/-- `i3ipc__json_scan_number` on the text of a number: the `size_t` value is the integer part
modulo `2 ^ 64`. -/
theorem scan_number_value (neg frac : Bool) (ds fs rest : List Nat)
    (hds : ∀ d ∈ ds, isdigit d = true) (hfs : ∀ d ∈ fs, isdigit d = true)
    (hrest : ∀ c, rest.head? = some c → isnumchar c = false)
    (hlen : (number_text neg frac ds fs).length < 256)
    (hne : ds ≠ []) :
    ∃ d, i3ipc__json_scan_number (number_text neg frac ds fs ++ rest) =
      Outcome.done (d, (integer_part neg ds % 2 ^ 64).toNat, rest) := by
  have hall : ∀ c ∈ number_text neg frac ds fs, isnumchar c = true := by
    intro c hc
    unfold number_text at hc
    simp only [List.mem_append] at hc
    rcases hc with (hc | hc) | hc
    · cases neg
      · simp at hc
      · simp at hc
        subst hc
        rfl
    · exact isdigit_isnumchar c (hds c hc)
    · cases frac
      · simp at hc
      · simp at hc
        rcases hc with hc | hc
        · subst hc; rfl
        · exact isdigit_isnumchar c (hfs c hc)
  have hrun := takeWhile_prefix isnumchar _ rest hall hrest
  have hd0 : ∃ x r, ds = x :: r := by
    cases ds with
    | nil => exact absurd rfl hne
    | cons x r => exact ⟨x, r, rfl⟩
  obtain ⟨x, r, hxr⟩ := hd0
  have hx : isdigit x = true := hds x (by rw [hxr]; exact List.mem_cons_self _ _)
  have hx45 : x ≠ 45 := by
    intro h
    rw [h] at hx
    cases hx
  have hfrac : ∀ c, (if frac = true then 46 :: fs else []).head? = some c → isdigit c = false := by
    intro c hc
    cases frac
    · simp at hc
    · simp at hc
      subst hc
      rfl
  have hidig := takeWhile_prefix isdigit ds (if frac = true then 46 :: fs else []) hds hfrac
  have hc0 : (if ((number_text neg frac ds fs).head? == some 45) = true
      then (number_text neg frac ds fs).drop 1 else number_text neg frac ds fs) =
      ds ++ (if frac = true then 46 :: fs else []) := by
    unfold number_text
    cases neg
    · simp [hxr, hx45]
    · simp
  have hflip : ((number_text neg frac ds fs).head? == some 45) = neg := by
    unfold number_text
    cases neg
    · simp [hxr, hx45]
    · simp
  have hend : (if ((if frac = true then 46 :: fs else []).head? == some 46) = true
      then ((if frac = true then 46 :: fs else []).drop 1).dropWhile isdigit
      else (if frac = true then 46 :: fs else [])) = [] := by
    cases frac
    · simp
    · simp only [↓reduceIte, List.head?_cons, beq_self_eq_true, List.drop_succ_cons,
        List.drop_zero]
      rw [List.dropWhile_eq_nil_iff]
      exact hfs
  have hl : ¬ (number_text neg frac ds fs).length ≥ 256 := by omega
  unfold i3ipc__json_scan_number
  dsimp only
  rw [hrun.1, if_neg hl, hc0, hidig.1, hidig.2, hflip]
  by_cases h46 : ((if frac = true then 46 :: fs else []).head? == some 46) = true
  · rw [if_pos h46] at hend
    simp only [h46, ↓reduceIte, hend, bne_self_eq_false, Bool.false_eq_true]
    apply done_triple
    · rw [digits_sizet_eq]
      unfold integer_part
      cases neg
      · simp only [Bool.false_eq_true, ↓reduceIte]
        omega
      · simp only [↓reduceIte]
        omega
    · simp
  · rw [if_neg h46] at hend
    simp only [h46, Bool.false_eq_true, ↓reduceIte, hend, bne_self_eq_false]
    apply done_triple
    · rw [digits_sizet_eq]
      unfold integer_part
      cases neg
      · simp only [Bool.false_eq_true, ↓reduceIte]
        omega
      · simp only [↓reduceIte]
        omega
    · simp

/-- `i3ipc__json_scan_token` on an input that starts with `-` or a digit hands over to
`i3ipc__json_scan_number`. -/
theorem scan_token_number (x : Nat) (r rest : List Nat) (d : I3ipc_double) (n : Nat)
    (hstart : x = 45 ∨ isdigit x = true)
    (hnum : i3ipc__json_scan_number (x :: r) = Outcome.done (d, n, rest)) :
    i3ipc__json_scan_token (x :: r) = Outcome.done (tok_number d n, rest) := by
  have hd : isdigit x = true → 48 ≤ x ∧ x ≤ 57 := by
    intro hx
    simpa [isdigit] using hx
  have n0 : isspace x = false := by
    rcases hstart with h1 | h1
    · subst h1; rfl
    · have := hd h1
      simp only [isspace, Bool.or_eq_false_iff, beq_eq_false_iff_ne, ne_eq]
      omega
  have n1 : (x == 91 || x == 93 || x == 123 || x == 125 || x == 58 || x == 44) = false := by
    rcases hstart with h1 | h1
    · subst h1; rfl
    · have := hd h1
      simp only [Bool.or_eq_false_iff, beq_eq_false_iff_ne, ne_eq]
      omega
  have n2 : (x == 116) = false := by
    rcases hstart with h1 | h1
    · subst h1; rfl
    · have := hd h1
      simp only [beq_eq_false_iff_ne, ne_eq]
      omega
  have n3 : (x == 102) = false := by
    rcases hstart with h1 | h1
    · subst h1; rfl
    · have := hd h1
      simp only [beq_eq_false_iff_ne, ne_eq]
      omega
  have n4 : (x == 110) = false := by
    rcases hstart with h1 | h1
    · subst h1; rfl
    · have := hd h1
      simp only [beq_eq_false_iff_ne, ne_eq]
      omega
  have n5 : (x == 34) = false := by
    rcases hstart with h1 | h1
    · subst h1; rfl
    · have := hd h1
      simp only [beq_eq_false_iff_ne, ne_eq]
      omega
  have n6 : (x == 45 || isdigit x) = true := by
    rcases hstart with h1 | h1
    · subst h1; rfl
    · simp [h1]
  have hdw : (x :: r).dropWhile isspace = x :: r := by
    simp [List.dropWhile_cons, n0]
  unfold i3ipc__json_scan_token
  rw [hdw]
  simp only [n1, n2, n3, n4, n5, n6, hnum, Bool.false_eq_true, ↓reduceIte]

/-- The primitive branch of `i3ipc__parse_helper` stores `tok.number_long` in a `size_t` field
and `(int)tok.number_long` in an `int` field. -/
theorem parse_primitive_number (p : I3ipc_parse_state) (base : Val) (d : I3ipc_double)
    (n : Nat) (more : List I3ipc_json_token) (h : p.state.tokens = tok_number d n :: more) :
    parse_primitive p I3IPC_TYPE_SIZET (some base) =
      Outcome.done (primitive_done p more, some (Val.sizet n)) ∧
    parse_primitive p I3IPC_TYPE_INT (some base) =
      Outcome.done (primitive_done p more, some (Val.int (sizet_to_int n))) := by
  have hm : i3ipc__json_match p.state I3IPC_JSON_NUMBER =
      (true, tok_number d n, { p.state with tokens := more }) := by
    simp [i3ipc__json_match, i3ipc__json_matchany, i3ipc__json_trymatchany, i3ipc__json_peek,
      i3ipc__json_pop, h, tok_number, tok_zero]
  constructor
  · unfold parse_primitive
    have e1 : (I3IPC_TYPE_SIZET == I3IPC_TYPE_BOOL) = false := by decide
    simp only [e1, Bool.false_eq_true, ↓reduceIte, hm, Bool.not_true, beq_self_eq_true]
    rfl
  · unfold parse_primitive
    have e1 : (I3IPC_TYPE_INT == I3IPC_TYPE_BOOL) = false := by decide
    have e2 : (I3IPC_TYPE_INT == I3IPC_TYPE_SIZET) = false := by decide
    simp only [e1, e2, Bool.false_eq_true, ↓reduceIte, hm, Bool.not_true, beq_self_eq_true]
    rfl

/-- A value in the range of `int` comes back from its 64-bit form. -/
theorem sizet_to_int_mod (n : Int) (h1 : -2 ^ 31 ≤ n) (h2 : n < 2 ^ 31) :
    sizet_to_int (n % 2 ^ 64).toNat = n := by
  unfold sizet_to_int
  dsimp only
  split <;> omega

/-- The decimal value of `k` digits is below `10 ^ k`. -/
theorem decimal_value_lt (fs : List Nat) (hfs : ∀ d ∈ fs, isdigit d = true) :
    decimal_value fs < 10 ^ fs.length := by
  unfold decimal_value
  have h := Nat.ofDigits_lt_base_pow_length (b := 10) (l := (fs.map (fun c => c - 48)).reverse)
    (by decide) (by
      intro x hx
      simp only [List.mem_reverse, List.mem_map] at hx
      obtain ⟨c, hc, rfl⟩ := hx
      have := hfs c hc
      simp only [isdigit, Bool.and_eq_true, decide_eq_true_eq] at this
      omega)
  simpa using h

/-- The integer part of a number token is its value rounded toward zero. -/
theorem truncate_number_value (neg : Bool) (ds fs : List Nat)
    (hfs : ∀ d ∈ fs, isdigit d = true) :
    truncate (number_value neg ds fs) = integer_part neg ds := by
  have hlt := decimal_value_lt fs hfs
  have hpos : (0 : ℚ) < 10 ^ fs.length := by positivity
  have hf0 : (0 : ℚ) ≤ (decimal_value fs : ℚ) / 10 ^ fs.length := by positivity
  have hf1 : (decimal_value fs : ℚ) / 10 ^ fs.length < 1 := by
    rw [div_lt_one hpos]
    exact_mod_cast hlt
  have hD : (0 : ℚ) ≤ (decimal_value ds : ℚ) := by positivity
  unfold truncate number_value integer_part
  cases neg
  · simp only [Bool.false_eq_true, ↓reduceIte, one_mul]
    rw [if_pos (by linarith)]
    rw [Int.floor_eq_iff]
    constructor
    · push_cast
      linarith
    · push_cast
      linarith
  · simp only [↓reduceIte]
    by_cases h0 : (0 : ℚ) ≤ -1 * ((decimal_value ds : ℚ) + (decimal_value fs : ℚ) / 10 ^ fs.length)
    · rw [if_pos h0]
      have hz : (decimal_value ds : ℚ) = 0 := by linarith
      have hz2 : (decimal_value fs : ℚ) / 10 ^ fs.length = 0 := by linarith
      rw [hz, hz2]
      have hz3 : decimal_value ds = 0 := by exact_mod_cast hz
      rw [hz3]
      simp
    · rw [if_neg h0]
      rw [Int.ceil_eq_iff]
      constructor
      · push_cast
        linarith
      · push_cast
        linarith

/-- C23. One round of the loop of `i3ipc__json_scan_string`, at any position `i` of a literal
and with any bytes `out` decoded so far. A backslash with one of `" \ / b f n r t` behind it
appends the single byte of that escape and goes on two bytes later. A backslash with `u` and
four hexadecimal digits behind it (digits of either case have the values 0 to 15) that name a
code point outside D800..DFFF appends the UTF-8 encoding of the code point, one to three bytes,
and goes on six bytes later. A byte that is neither a quote nor a backslash is appended
unchanged. A backslash in front of a character `x` that starts no escape is appended itself,
and the loop goes on at `x`. The loop of `i3ipc__json_scan_string` is started with more rounds
than the literal has bytes, which is as good as any larger number. -/
theorem escape_decoding (fuel : Nat) (rest out : List Nat)
    (i e lit h1 h2 h3 h4 v1 v2 v3 v4 c x : Nat)
    (he : (e, lit) ∈ simple_escapes)
    (e1 : hexval h1 = some v1) (e2 : hexval h2 = some v2) (e3 : hexval h3 = some v3)
    (e4 : hexval h4 = some v4) (hns : is_surrogate (code_point v1 v2 v3 v4) = false)
    (hc : c ≠ 34 ∧ c ≠ 92) (hx : x ∉ [34, 92, 47, 98, 102, 110, 114, 116, 117]) :
    scan_string_loop (fuel + 1) (92 :: e :: rest) out i =
      scan_string_loop fuel rest (out ++ [lit]) (i + 2) ∧
    (∃ enc, utf8_of_code_point (code_point v1 v2 v3 v4) = some enc ∧
      1 ≤ enc.length ∧ enc.length ≤ 3 ∧
      scan_string_loop (fuel + 1) (92 :: 117 :: h1 :: h2 :: h3 :: h4 :: rest) out i =
        scan_string_loop fuel rest (out ++ enc) (i + 6)) ∧
    (∀ k, k < 16 → hexval ((bytes "0123456789abcdef").getD k 0) = some k ∧
      hexval ((bytes "0123456789ABCDEF").getD k 0) = some k) ∧
    scan_string_loop (fuel + 1) (c :: rest) out i =
      scan_string_loop fuel rest (out ++ [c]) (i + 1) ∧
    scan_string_loop (fuel + 1) (92 :: x :: rest) out i =
      scan_string_loop fuel (x :: rest) (out ++ [92]) (i + 1) ∧
    (∀ cur : List Nat, ∀ n, (cur.drop 1).length ≤ n →
      i3ipc__json_scan_string cur =
        ((scan_string_loop n (cur.drop 1) [] 1).1,
         cur.drop (scan_string_loop n (cur.drop 1) [] 1).2)) := by
  have hlt : code_point v1 v2 v3 v4 < 0x10000 := by
    have a1 := hexval_lt _ _ e1
    have a2 := hexval_lt _ _ e2
    have a3 := hexval_lt _ _ e3
    have a4 := hexval_lt _ _ e4
    unfold code_point
    omega
  refine ⟨scan_string_simple fuel rest out i e lit he, ⟨utf8_bytes (code_point v1 v2 v3 v4),
    ?_, ?_, ?_, ?_⟩, by decide,
    scan_string_plain fuel rest out i c hc.1 hc.2, scan_string_unknown fuel rest out i x hx, ?_⟩
  · unfold utf8_of_code_point
    rw [hns]
    rfl
  · unfold utf8_bytes
    split
    · simp
    · split <;> simp
  · unfold utf8_bytes
    split
    · simp
    · split <;> simp
  · rw [scan_string_unicode fuel rest out i h1 h2 h3 h4 v1 v2 v3 v4 e1 e2 e3 e4,
      utf8_encode_eq _ hlt]
  · intro cur n hn
    unfold i3ipc__json_scan_string
    dsimp only
    rw [scan_string_fuel cur.length (cur.drop 1) (by simp) [] 1,
      scan_string_fuel n (cur.drop 1) hn [] 1]

/-- C23 at the escapes `\n`, `\u00e9` and `\q` and the byte `a`, and at the literal
`"a\n\u00E9\q\/"` followed by `xyz`. -/
theorem escape_decoding_witness :
    (scan_string_loop 1 (92 :: 110 :: [34]) [] 1 = scan_string_loop 0 [34] ([] ++ [10]) (1 + 2) ∧
     (∃ enc, utf8_of_code_point (code_point 0 0 14 9) = some enc ∧
       1 ≤ enc.length ∧ enc.length ≤ 3 ∧
       scan_string_loop 1 (92 :: 117 :: 48 :: 48 :: 101 :: 57 :: [34]) [] 1 =
         scan_string_loop 0 [34] ([] ++ enc) (1 + 6)) ∧
     (∀ k, k < 16 → hexval ((bytes "0123456789abcdef").getD k 0) = some k ∧
       hexval ((bytes "0123456789ABCDEF").getD k 0) = some k) ∧
     scan_string_loop 1 (97 :: [34]) [] 1 = scan_string_loop 0 [34] ([] ++ [97]) (1 + 1) ∧
     scan_string_loop 1 (92 :: 113 :: [34]) [] 1 =
       scan_string_loop 0 (113 :: [34]) ([] ++ [92]) (1 + 1) ∧
     (∀ cur : List Nat, ∀ n, (cur.drop 1).length ≤ n →
       i3ipc__json_scan_string cur =
         ((scan_string_loop n (cur.drop 1) [] 1).1,
          cur.drop (scan_string_loop n (cur.drop 1) [] 1).2))) ∧
    utf8_of_code_point (code_point 0 0 14 9) = some [195, 169] ∧
    i3ipc__json_scan_string (bytes "\"a\\n\\u00E9\\q\\/\"xyz") =
      ([97, 10, 195, 169, 92, 113, 47], bytes "xyz") :=
  ⟨escape_decoding 0 [34] [] 1 110 10 48 48 101 57 0 0 14 9 97 113 (by decide) (by decide)
    (by decide) (by decide) (by decide) (by decide) (by decide) (by decide),
   by decide, by decide!⟩

/-- C24 as stated fails: the two halves of the surrogate pair D83D DE00 are decoded to the three
bytes ED A0 BD and ED B8 80, not to two replacement characters EF BF BD. -/
theorem surrogate_counterexample :
    i3ipc__json_scan_string (bytes "\"\\ud83d\\ude00\"") =
      ([0xed, 0xa0, 0xbd, 0xed, 0xb8, 0x80], []) ∧
    i3ipc__json_scan_string (bytes "\"\\ud83d\\ude00\"") ≠
      ([0xef, 0xbf, 0xbd, 0xef, 0xbf, 0xbd], []) := by
  decide!

/-- C24, amended. One round of the loop of `i3ipc__json_scan_string` on a `\u` escape whose
four hexadecimal digits name a code point `cp` in D800..DFFF: the three bytes ED,
`0x80 + cp / 64 % 64` (A0 to BF) and `0x80 + cp % 64` are appended, which are not the bytes
EF BF BD of the replacement character, and the loop goes on behind the escape, so that the
second half of a pair is decoded by itself in the same way. -/
theorem surrogate_is_encoded (fuel : Nat) (rest out : List Nat)
    (i h1 h2 h3 h4 v1 v2 v3 v4 : Nat)
    (e1 : hexval h1 = some v1) (e2 : hexval h2 = some v2) (e3 : hexval h3 = some v3)
    (e4 : hexval h4 = some v4) (hs : is_surrogate (code_point v1 v2 v3 v4) = true) :
    scan_string_loop (fuel + 1) (92 :: 117 :: h1 :: h2 :: h3 :: h4 :: rest) out i =
      scan_string_loop fuel rest
        (out ++ [0xed, 0x80 + code_point v1 v2 v3 v4 / 64 % 64, 0x80 + code_point v1 v2 v3 v4 % 64])
        (i + 6) ∧
    0xa0 ≤ 0x80 + code_point v1 v2 v3 v4 / 64 % 64 ∧
    0x80 + code_point v1 v2 v3 v4 / 64 % 64 ≤ 0xbf ∧
    [0xed, 0x80 + code_point v1 v2 v3 v4 / 64 % 64, 0x80 + code_point v1 v2 v3 v4 % 64] ≠
      [0xef, 0xbf, 0xbd] := by
  have hr : 0xd800 ≤ code_point v1 v2 v3 v4 ∧ code_point v1 v2 v3 v4 ≤ 0xdfff := by
    simpa [is_surrogate] using hs
  have henc := utf8_encode_eq (code_point v1 v2 v3 v4) (by omega)
  have h13 : code_point v1 v2 v3 v4 / 4096 = 13 := by omega
  have hu : utf8_bytes (code_point v1 v2 v3 v4) =
      [0xed, 0x80 + code_point v1 v2 v3 v4 / 64 % 64, 0x80 + code_point v1 v2 v3 v4 % 64] := by
    unfold utf8_bytes
    rw [if_neg (by omega), if_neg (by omega), h13]
  refine ⟨?_, by omega, by omega, by simp⟩
  rw [scan_string_unicode fuel rest out i h1 h2 h3 h4 v1 v2 v3 v4 e1 e2 e3 e4, henc, hu]

/-- C24, amended, at the escape `\ud83d`. -/
theorem surrogate_is_encoded_witness :
    scan_string_loop 1 (92 :: 117 :: 100 :: 56 :: 51 :: 100 :: [34]) [] 1 =
      scan_string_loop 0 [34]
        ([] ++ [0xed, 0x80 + code_point 13 8 3 13 / 64 % 64, 0x80 + code_point 13 8 3 13 % 64])
        (1 + 6) ∧
    0xa0 ≤ 0x80 + code_point 13 8 3 13 / 64 % 64 ∧
    0x80 + code_point 13 8 3 13 / 64 % 64 ≤ 0xbf ∧
    [0xed, 0x80 + code_point 13 8 3 13 / 64 % 64, 0x80 + code_point 13 8 3 13 % 64] ≠
      [0xef, 0xbf, 0xbd] :=
  surrogate_is_encoded 0 [34] [] 1 100 56 51 100 13 8 3 13 (by decide) (by decide) (by decide)
    (by decide) (by decide)

/-- C25. When the scan of a payload arrives, after `k` tokens, at a number token (the next
byte that is no whitespace is `-` or a digit) whose maximal run of number characters holds
`e`, `E` or `+`, a second `.`, or a `-` behind its first character, then
`i3ipc__json_scan_number` returns its error on that token, `i3ipc__json_scan_token` and
`i3ipc__json_scan` fail, and `i3ipc_parse_try` fails with `I3IPC_ERROR_MALFORMED` for every
type. -/
theorem exponents_rejected (staticalloc : Bool) (msg_type message_type : Int) (type_id k c : Nat)
    (payload cur : List Nat)
    (hreach : after_tokens k payload = some cur)
    (hc : (cur.dropWhile isspace).head? = some c) (hstart : c = 45 ∨ isdigit c = true)
    (hbad : run_rejected ((cur.dropWhile isspace).takeWhile isnumchar) = true) :
    i3ipc__json_scan_number (cur.dropWhile isspace) = Outcome.fail 1 ∧
    i3ipc__json_scan_token cur = Outcome.fail 1 ∧
    i3ipc__json_scan payload = Outcome.fail 1 ∧
    i3ipc_parse_try staticalloc msg_type payload message_type type_id =
      Outcome.fail I3IPC_ERROR_MALFORMED := by
  have h1 := scan_number_rejects _ hbad
  have h2 := scan_token_rejects cur c hc hstart hbad
  have h3 := scan_fails k payload cur 1 hreach h2
  exact ⟨h1, h2, h3, parse_try_scan_fails staticalloc msg_type message_type payload type_id 1 h3⟩

/-- C25 at the version reply `{"major":4,"minor":1e1}`, whose second number is the fifth
token. -/
theorem exponents_rejected_witness :
    after_tokens 7 (bytes "\x7b\"major\":4,\"minor\":1e1\x7d") = some (bytes "1e1\x7d") ∧
    run_rejected (((bytes "1e1\x7d").dropWhile isspace).takeWhile isnumchar) = true ∧
    (i3ipc__json_scan_number ((bytes "1e1\x7d").dropWhile isspace) = Outcome.fail 1 ∧
     i3ipc__json_scan_token (bytes "1e1\x7d") = Outcome.fail 1 ∧
     i3ipc__json_scan (bytes "\x7b\"major\":4,\"minor\":1e1\x7d") = Outcome.fail 1 ∧
     i3ipc_parse_try false 7 (bytes "\x7b\"major\":4,\"minor\":1e1\x7d") 7 I3IPC_TYPE_REPLY_VERSION =
       Outcome.fail I3IPC_ERROR_MALFORMED) :=
  ⟨by decide!, by decide!,
   exponents_rejected false 7 7 I3IPC_TYPE_REPLY_VERSION 7 49 (bytes "\x7b\"major\":4,\"minor\":1e1\x7d")
     (bytes "1e1\x7d") (by decide!) (by decide!) (by decide) (by decide!)⟩

/-- C26. A number token made of an optional `-`, the digits `ds`, and optionally a `.` with
the digits `fs`, of fewer than 256 characters in all and followed by input `rest` that does
not go on with a number character. Let `n` be the integer that the sign and `ds` denote, which
is the value of the token rounded toward zero. `i3ipc__json_scan_number` and
`i3ipc__json_scan_token` succeed, leave `rest`, and the 64-bit integer form of the token is
`n` modulo `2 ^ 64`; `i3ipc__parse_helper` stores that form in a `size_t` field, which is `n`
for `0 ≤ n < 2 ^ 64`, and its conversion to `int` in an `int` field, which is `n` for
`-2 ^ 31 ≤ n < 2 ^ 31`. -/
theorem integer_value (neg frac : Bool) (ds fs rest : List Nat) (hne : ds ≠ [])
    (hds : ∀ d ∈ ds, isdigit d = true) (hfs : ∀ d ∈ fs, isdigit d = true)
    (hrest : ∀ c, rest.head? = some c → isnumchar c = false)
    (hlen : (number_text neg frac ds fs).length < 256) :
    ∃ d, i3ipc__json_scan_number (number_text neg frac ds fs ++ rest) =
        Outcome.done (d, (integer_part neg ds % 2 ^ 64).toNat, rest) ∧
      i3ipc__json_scan_token (number_text neg frac ds fs ++ rest) =
        Outcome.done (tok_number d (integer_part neg ds % 2 ^ 64).toNat, rest) ∧
      (∀ (p : I3ipc_parse_state) (base : Val) (more : List I3ipc_json_token),
        p.state.tokens = tok_number d (integer_part neg ds % 2 ^ 64).toNat :: more →
        parse_primitive p I3IPC_TYPE_SIZET (some base) =
          Outcome.done (primitive_done p more,
            some (Val.sizet (integer_part neg ds % 2 ^ 64).toNat)) ∧
        parse_primitive p I3IPC_TYPE_INT (some base) =
          Outcome.done (primitive_done p more,
            some (Val.int (sizet_to_int (integer_part neg ds % 2 ^ 64).toNat)))) ∧
      (0 ≤ integer_part neg ds → integer_part neg ds < 2 ^ 64 →
        ((integer_part neg ds % 2 ^ 64).toNat : Int) = integer_part neg ds) ∧
      (-2 ^ 31 ≤ integer_part neg ds → integer_part neg ds < 2 ^ 31 →
        sizet_to_int (integer_part neg ds % 2 ^ 64).toNat = integer_part neg ds) ∧
      truncate (number_value neg ds (if frac then fs else [])) = integer_part neg ds := by
  obtain ⟨d, hd⟩ := scan_number_value neg frac ds fs rest hds hfs hrest hlen hne
  have hstart : ∃ x r, number_text neg frac ds fs ++ rest = x :: r ∧
      (x = 45 ∨ isdigit x = true) := by
    unfold number_text
    cases neg
    · cases ds with
      | nil => exact absurd rfl hne
      | cons x r =>
        exact ⟨x, r ++ (if frac = true then 46 :: fs else []) ++ rest, by simp,
          Or.inr (hds x (List.mem_cons_self _ _))⟩
    · exact ⟨45, ds ++ (if frac = true then 46 :: fs else []) ++ rest, by simp, Or.inl rfl⟩
  obtain ⟨x, r, hxr, hx⟩ := hstart
  refine ⟨d, hd, ?_, ?_, ?_, ?_, ?_⟩
  · rw [hxr] at hd ⊢
    exact scan_token_number x r rest d _ hx hd
  · intro p base more hp
    exact parse_primitive_number p base d _ more hp
  · intro h1 h2
    omega
  · intro h1 h2
    exact sizet_to_int_mod _ h1 h2
  · apply truncate_number_value
    cases frac
    · intro d hd
      simp at hd
    · simpa using hfs

/-- C26 at the token `-12.75` in front of a comma, whose integer form is -12, that is
`2 ^ 64 - 12`. -/
theorem integer_value_witness :
    (∃ d, i3ipc__json_scan_number (number_text true true (bytes "12") (bytes "75") ++ [44]) =
        Outcome.done (d, (integer_part true (bytes "12") % 2 ^ 64).toNat, [44]) ∧
      i3ipc__json_scan_token (number_text true true (bytes "12") (bytes "75") ++ [44]) =
        Outcome.done (tok_number d (integer_part true (bytes "12") % 2 ^ 64).toNat, [44]) ∧
      (∀ (p : I3ipc_parse_state) (base : Val) (more : List I3ipc_json_token),
        p.state.tokens = tok_number d (integer_part true (bytes "12") % 2 ^ 64).toNat :: more →
        parse_primitive p I3IPC_TYPE_SIZET (some base) =
          Outcome.done (primitive_done p more,
            some (Val.sizet (integer_part true (bytes "12") % 2 ^ 64).toNat)) ∧
        parse_primitive p I3IPC_TYPE_INT (some base) =
          Outcome.done (primitive_done p more,
            some (Val.int (sizet_to_int (integer_part true (bytes "12") % 2 ^ 64).toNat)))) ∧
      (0 ≤ integer_part true (bytes "12") → integer_part true (bytes "12") < 2 ^ 64 →
        ((integer_part true (bytes "12") % 2 ^ 64).toNat : Int) = integer_part true (bytes "12")) ∧
      (-2 ^ 31 ≤ integer_part true (bytes "12") → integer_part true (bytes "12") < 2 ^ 31 →
        sizet_to_int (integer_part true (bytes "12") % 2 ^ 64).toNat =
          integer_part true (bytes "12")) ∧
      truncate (number_value true (bytes "12") (if true then bytes "75" else [])) =
        integer_part true (bytes "12")) ∧
    number_text true true (bytes "12") (bytes "75") = bytes "-12.75" ∧
    integer_part true (bytes "12") = -12 ∧
    (integer_part true (bytes "12") % 2 ^ 64).toNat = 18446744073709551604 ∧
    sizet_to_int 18446744073709551604 = -12 ∧
    (i3ipc_parse_try false 7 (bytes "\x7b\"major\":-12.75,\"minor\":4294967297\x7d") 7
        I3IPC_TYPE_REPLY_VERSION).get?.map
        (fun v => (v.member I3IPC_TYPE_REPLY_VERSION "major",
          v.member I3IPC_TYPE_REPLY_VERSION "minor")) =
      some (Val.int (-12), Val.int 1) :=
  ⟨integer_value true true (bytes "12") (bytes "75") [44] (by decide) (by decide) (by decide)
    (by decide) (by decide), by decide, by decide!, by decide!, by decide!,
    by with_unfolding_all rfl⟩

/-- What `i3ipc__printjson_string` writes for a byte is its canonical escape. -/
theorem printjson_char_eq (c : Nat) : printjson_char c = canonical_escape c := by
  unfold printjson_char canonical_escape
  by_cases h1 : c = 92 ∨ c = 34
  · have : (c == 92 || c == 34) = true := by simpa using h1
    rw [if_pos this, if_pos h1]
  · have : ¬ (c == 92 || c == 34) = true := by simpa using h1
    rw [if_neg this, if_neg h1]
    by_cases h2 : c = 10
    · subst h2
      rfl
    · have h2b : ¬ (c == 10) = true := by simpa using h2
      rw [if_neg h2b, if_neg h2]
      by_cases h3 : c < 32
      · rw [if_pos h3, if_pos h3]
        have key : ∀ k : Fin 32, [92, 117, 48, 48, hexdigit (k.val / 16), hexdigit (k.val % 16)] =
            bytes "\\u00" ++ [(bytes "0123456789abcdef").getD (k.val / 16) 0,
              (bytes "0123456789abcdef").getD (k.val % 16) 0] := by
          decide
        exact key ⟨c, h3⟩
      · rw [if_neg h3, if_neg h3]

/-- The bytes of a C string are the first `strlen` bytes at the pointer. -/
theorem cstr_take (str : List Nat) : cstr str = str.take (cstr str).length := by
  unfold cstr
  induction str with
  | nil => rfl
  | cons a l ih =>
    simp only [List.takeWhile_cons]
    split
    · simp only [List.length_cons, List.take_succ_cons]
      rw [← ih]
    · rfl

/-- C27 as stated fails: the line feed is written as the two characters `\n`, not as `\u000a`. -/
theorem emitter_escaping_counterexample :
    i3ipc__printjson_string [10] 1 false = bytes "\"\\n\"" ∧
    i3ipc__printjson_string [10] 1 false ≠ bytes "\"\\u000a\"" := by
  decide!

/-- C27, amended. In canonical mode (`for_human` false) `i3ipc__printjson_string` writes for
the first `n` bytes of a string, and with the size -1 for the bytes up to the first 0 byte:
a double quote, the canonical escape of each of these bytes in turn, and a double quote. The
canonical escape is a backslash in front of a backslash or a double quote, `\n` for the line
feed, `\u00` with two lower-case hexadecimal digits for any other byte below 0x20, and the
byte itself otherwise; no byte is left out, whatever the length. -/
theorem emitter_string_escaping (str : List Nat) (n : Nat) (hn : n ≤ str.length) :
    i3ipc__printjson_string str n false =
      [34] ++ ((str.take n).map canonical_escape).flatten ++ [34] ∧
    i3ipc__printjson_string str (-1) false =
      [34] ++ ((cstr str).map canonical_escape).flatten ++ [34] ∧
    ((str.take n).map canonical_escape).length = n := by
  have hf : (fun c => printjson_char c) = canonical_escape := funext printjson_char_eq
  have hc := cstr_take str
  refine ⟨?_, ?_, ?_⟩
  · unfold i3ipc__printjson_string
    have h1 : ((n : Int) == -1) = false := by
      simp only [beq_eq_false_iff_ne, ne_eq]
      omega
    simp only [h1, Bool.and_false, Bool.false_eq_true, ↓reduceIte, Int.toNat_ofNat,
      List.append_nil]
    rw [← hf]
  · unfold i3ipc__printjson_string
    simp only [beq_self_eq_true, ↓reduceIte, Bool.and_false, Bool.false_eq_true,
      Int.toNat_ofNat, List.append_nil]
    rw [← hc, ← hf]
  · simp [hn]

/-- C27, amended, at the bytes line feed, 0x01, double quote, `A`, 0xff. -/
theorem emitter_string_escaping_witness :
    i3ipc__printjson_string [10, 1, 34, 65, 255] (5 : Nat) false =
      [34] ++ ((([10, 1, 34, 65, 255] : List Nat).take 5).map canonical_escape).flatten ++ [34] ∧
    i3ipc__printjson_string [10, 1, 34, 65, 255] (-1) false =
      [34] ++ ((cstr [10, 1, 34, 65, 255]).map canonical_escape).flatten ++ [34] ∧
    ((([10, 1, 34, 65, 255] : List Nat).take 5).map canonical_escape).length = 5 :=
  emitter_string_escaping [10, 1, 34, 65, 255] 5 (by decide)

/-- C28. One round of the record loop of `i3ipc__printjson_helper` at a non-derived member
`field` with index `i`, where the member counts as set when its `_set` sibling, if it has
one, is true and `i3ipc__field_is_set` finds no null pointer. A member that is not set is
skipped when its descriptor has `I3IPC_TYPE_ISOMIT`, is written as the key, a colon and
`null` when it has `I3IPC_TYPE_ISOPT` and not `I3IPC_TYPE_ISOMIT`, and is skipped when it has
neither; a member that is set is written as the key, a colon and its value. Whatever is
written stands in front of the output for the members behind it in the table. -/
theorem emitter_absent_field_rule (fmt_f : I3ipc_double → List Nat) (fuel : Nat)
    (type : I3ipc_type) (field : I3ipc_field) (fs : List I3ipc_field) (i : Nat) (base : Val)
    (hnd : hasflag field.flags I3IPC_TYPE_GROUP_DERIVED = false) :
    (member_set type field i base = false → hasflag field.flags I3IPC_TYPE_ISOMIT = true →
      printjson_fields fmt_f (fuel + 1) type (field :: fs) i base =
        printjson_fields fmt_f fuel type fs (i + 1) base) ∧
    (member_set type field i base = false → hasflag field.flags I3IPC_TYPE_ISOMIT = false →
      hasflag field.flags I3IPC_TYPE_ISOPT = true →
      printjson_fields fmt_f (fuel + 1) type (field :: fs) i base =
        (printjson_fields fmt_f fuel type fs (i + 1) base).bind (fun rest =>
          Outcome.done (member_head field i ++ bytes "null" ++ rest))) ∧
    (member_set type field i base = false → hasflag field.flags I3IPC_TYPE_ISOMIT = false →
      hasflag field.flags I3IPC_TYPE_ISOPT = false →
      printjson_fields fmt_f (fuel + 1) type (field :: fs) i base =
        printjson_fields fmt_f fuel type fs (i + 1) base) ∧
    (member_set type field i base = true →
      printjson_fields fmt_f (fuel + 1) type (field :: fs) i base =
        (i3ipc__printjson_helper fmt_f fuel field.type.toNat
          (clearflag field.flags I3IPC_TYPE_ISOPT) (base.field i)
          (i3ipc__type_readderived type i base).2.1).bind (fun value =>
            (printjson_fields fmt_f fuel type fs (i + 1) base).bind (fun rest =>
              Outcome.done (member_head field i ++ value ++ rest)))) := by
  refine ⟨?_, ?_, ?_, ?_⟩
  · intro hs ho
    unfold member_set at hs
    simp only [printjson_fields, hnd, hs, ho, Bool.false_eq_true, ↓reduceIte, Bool.not_false,
      Bool.and_self]
  · intro hs ho hp
    unfold member_set at hs
    simp only [printjson_fields, hnd, hs, ho, hp, Bool.false_eq_true, ↓reduceIte,
      Bool.not_false, Bool.and_false, Bool.and_self, Bool.not_true, Bool.false_and,
      Bool.true_and, Outcome.bind, member_head]
  · intro hs ho hp
    unfold member_set at hs
    simp only [printjson_fields, hnd, hs, ho, hp, Bool.false_eq_true, ↓reduceIte,
      Bool.not_false, Bool.and_false, Bool.and_self, Bool.not_true, Bool.false_and,
      Bool.true_and]
  · intro hs
    unfold member_set at hs
    simp only [printjson_fields, hnd, hs, Bool.false_eq_true, ↓reduceIte,
      Bool.not_false, Bool.and_false, Bool.and_self, Bool.not_true, Bool.false_and, member_head]

/-- C28 at the window properties record with no member set, whose first member `title` has
`I3IPC_TYPE_ISOPT` and not `I3IPC_TYPE_ISOMIT`, at the command reply `{"success":true}`,
whose first member is set and whose member `error` has `I3IPC_TYPE_ISOMIT`, and at an output
without a name, which has neither flag. -/
theorem emitter_absent_field_rule_witness :
    printjson_fields (fun _ => []) (5 + 1) (type_of I3IPC_TYPE_NODE_WINDOW_PROPERTIES)
        (field_of I3IPC_TYPE_NODE_WINDOW_PROPERTIES 0 ::
          (type_of I3IPC_TYPE_NODE_WINDOW_PROPERTIES).fields.drop 1) 0
        (zero_of I3IPC_TYPE_NODE_WINDOW_PROPERTIES 0) =
      (printjson_fields (fun _ => []) 5 (type_of I3IPC_TYPE_NODE_WINDOW_PROPERTIES)
        ((type_of I3IPC_TYPE_NODE_WINDOW_PROPERTIES).fields.drop 1) (0 + 1)
        (zero_of I3IPC_TYPE_NODE_WINDOW_PROPERTIES 0)).bind (fun rest =>
          Outcome.done (member_head (field_of I3IPC_TYPE_NODE_WINDOW_PROPERTIES 0) 0 ++
            bytes "null" ++ rest)) ∧
    i3ipc_printjson (fun _ => []) I3IPC_TYPE_NODE_WINDOW_PROPERTIES
        (zero_of I3IPC_TYPE_NODE_WINDOW_PROPERTIES 0) =
      Outcome.done (bytes "\x7b\"title\":null,\"instance\":null,\"class\":null,\"window_role\":null,\"transient_for\":null\x7d") ∧
    (i3ipc_parse_try false 0 (bytes "\x7b\"success\":true\x7d") 0 I3IPC_TYPE_REPLY_COMMAND_EL).bind
        (i3ipc_printjson (fun _ => []) I3IPC_TYPE_REPLY_COMMAND_EL) =
      Outcome.done (bytes "\x7b\"success\":true\x7d") ∧
    (i3ipc_parse_try false 0 (bytes "\x7b\"active\":true\x7d") 0 I3IPC_TYPE_REPLY_OUTPUTS_EL).bind
        (i3ipc_printjson (fun _ => []) I3IPC_TYPE_REPLY_OUTPUTS_EL) =
      Outcome.done (bytes "\x7b,\"active\":true,\"primary\":false,\"current_workspace\":null,\"rect\":\x7b\"x\":0,\"y\":0,\"width\":0,\"height\":0\x7d\x7d") :=
  ⟨(emitter_absent_field_rule (fun _ => []) 5 (type_of I3IPC_TYPE_NODE_WINDOW_PROPERTIES)
      (field_of I3IPC_TYPE_NODE_WINDOW_PROPERTIES 0)
      ((type_of I3IPC_TYPE_NODE_WINDOW_PROPERTIES).fields.drop 1) 0
      (zero_of I3IPC_TYPE_NODE_WINDOW_PROPERTIES 0) (by decide!)).2.1
      (by decide!) (by decide!) (by decide!),
   by with_unfolding_all rfl, by with_unfolding_all rfl, by with_unfolding_all rfl⟩

/-- `i3ipc_message_send_try` in an initialised context whose write succeeds: the message is
the header with the length and the type, and the payload if the type carries one. -/
theorem send_try_writes (w : I3ipc_world) (t : Int) (p extra : List Nat) (events : Bool)
    (ht : 0 ≤ t ∧ t < 12)
    (hs : w.context.state = I3IPC_STATE_READY)
    (hdbg : w.context.debug_do_not_write_messages = false)
    (hwr : w.writes.headD 0 = 0)
    (hsock : i3ipc__message_type_to_socket t = some events) :
    i3ipc_message_send_try w t (some (p ++ extra))
        ((message_payload t p).length : Int) =
      Outcome.done (sent w events (frame t (message_payload t p)), 0) := by
  have hr : (0 ≤ t && t < I3IPC_MESSAGE_TYPE_COUNT) = true := by
    simp only [I3IPC_MESSAGE_TYPE_COUNT, Bool.and_eq_true, decide_eq_true_eq]
    exact ht
  have hsz : (-1 ≤ ((message_payload t p).length : Int)) := by omega
  have hne : (((message_payload t p).length : Int) == -1) = false := by
    simp only [beq_eq_false_iff_ne, ne_eq]
    omega
  unfold i3ipc_message_send_try
  simp only [hr, hsz, hne, init_try_ready w hs, hsock, Bool.not_true, Bool.false_eq_true,
    ↓reduceIte, decide_True, bne_self_eq_false]
  by_cases hc : t ∈ [I3IPC_RUN_COMMAND, I3IPC_SUBSCRIBE, I3IPC_GET_BAR_CONFIG, I3IPC_SEND_TICK,
      I3IPC_SYNC]
  · have hcar : (t == I3IPC_RUN_COMMAND || t == I3IPC_SUBSCRIBE || t == I3IPC_SEND_TICK ||
        t == I3IPC_SYNC || t == I3IPC_GET_BAR_CONFIG) = true := by
      simp only [List.mem_cons, List.mem_singleton, List.not_mem_nil, or_false] at hc
      simp only [Bool.or_eq_true, beq_iff_eq]
      tauto
    have hmp : message_payload t p = p := by
      unfold message_payload
      rw [if_pos hc]
    have hw : (w.set_msg (message_header (p.length : Int) t ++ p)).context.debug_do_not_write_messages
        = false := hdbg
    have hwr2 : (w.set_msg (message_header (p.length : Int) t ++ p)).writes.headD 0 = 0 := hwr
    simp only [hcar, hmp, Bool.not_true, Bool.false_and, Bool.false_eq_true, ↓reduceIte,
      Option.getD_some, Int.toNat_ofNat, List.take_left', hw, hwr2]
    rfl
  · have hcar : (t == I3IPC_RUN_COMMAND || t == I3IPC_SUBSCRIBE || t == I3IPC_SEND_TICK ||
        t == I3IPC_SYNC || t == I3IPC_GET_BAR_CONFIG) = false := by
      simp only [List.mem_cons, List.mem_singleton, List.not_mem_nil, or_false, not_or] at hc
      simp only [Bool.or_eq_false_iff, beq_eq_false_iff_ne, ne_eq]
      tauto
    have hmp : message_payload t p = [] := by
      unfold message_payload
      rw [if_neg hc]
    have hw : (w.set_msg (message_header 0 t ++ [])).context.debug_do_not_write_messages
        = false := hdbg
    have hwr2 : (w.set_msg (message_header 0 t ++ [])).writes.headD 0 = 0 := hwr
    simp only [hcar, hmp, Bool.not_false, Bool.true_and, Bool.false_eq_true, ↓reduceIte,
      List.length_nil, Nat.cast_zero, bne_self_eq_false, hw, hwr2]
    rfl

/-- The payload loop of `i3ipc_subscribe` from an index above 0 on: a comma and the quoted
name for each event type. -/
theorem subscribe_payload_tail : ∀ (evs : List Int) (i : Nat),
    (∀ ev ∈ evs, ev ∈ I3ipc_event_type) →
    subscribe_payload evs (i + 1) = some ((evs.map (fun ev => [44] ++ ([34] ++
      bytes (i3ipc__global_event_type_name.getD (ev - I3IPC_EVENT_TYPE_BEGIN).toNat "") ++
      [34]))).flatten) := by
  intro evs
  induction evs with
  | nil => intro i _; rfl
  | cons ev evs ih =>
    intro i hev
    have hin := hev ev (List.mem_cons_self _ _)
    have hr : (I3IPC_EVENT_TYPE_BEGIN ≤ ev && ev < I3IPC_EVENT_TYPE_END) = true := by
      simp only [I3ipc_event_type, List.mem_cons, List.mem_singleton, List.not_mem_nil,
        or_false] at hin
      simp only [I3IPC_EVENT_TYPE_BEGIN, I3IPC_EVENT_TYPE_END, Bool.and_eq_true,
        decide_eq_true_eq]
      omega
    have hname : (bytes (i3ipc__global_event_type_name.getD
        (ev - I3IPC_EVENT_TYPE_BEGIN).toNat "")).take 256 =
        bytes (i3ipc__global_event_type_name.getD (ev - I3IPC_EVENT_TYPE_BEGIN).toNat "") := by
      simp only [I3ipc_event_type, List.mem_cons, List.mem_singleton, List.not_mem_nil,
        or_false] at hin
      rcases hin with h | h | h | h | h | h | h | h <;> subst h <;> decide
    simp only [subscribe_payload, hr, Bool.not_true, Bool.false_eq_true, ↓reduceIte,
      ih (i + 1) (fun e he => hev e (List.mem_cons_of_mem _ he)), Option.map_some', hname,
      List.map_cons, List.flatten_cons]
    simp

/-- Joining with a separator puts the separator in front of every element but the first. -/
theorem intercalate_cons (sep a : List Nat) (l : List (List Nat)) :
    List.intercalate sep (a :: l) = a ++ (l.map (fun x => sep ++ x)).flatten := by
  induction l generalizing a with
  | nil => simp [List.intercalate]
  | cons b l ih =>
    have h := ih b
    simp only [List.intercalate, List.intersperse_cons_cons, List.flatten_cons, List.map_cons]
      at h ⊢
    rw [h]
    simp only [List.append_assoc]

/-- The buffer that `i3ipc_subscribe` fills is the array of the quoted names. -/
theorem subscribe_payload_eq (evs : List Int) (hev : ∀ ev ∈ evs, ev ∈ I3ipc_event_type) :
    ∃ body, subscribe_payload evs 0 = some body ∧ [91] ++ body ++ [93] = event_names_json evs := by
  cases evs with
  | nil => exact ⟨[], rfl, rfl⟩
  | cons ev evs =>
    have hin := hev ev (List.mem_cons_self _ _)
    have hr : (I3IPC_EVENT_TYPE_BEGIN ≤ ev && ev < I3IPC_EVENT_TYPE_END) = true := by
      simp only [I3ipc_event_type, List.mem_cons, List.mem_singleton, List.not_mem_nil,
        or_false] at hin
      simp only [I3IPC_EVENT_TYPE_BEGIN, I3IPC_EVENT_TYPE_END, Bool.and_eq_true,
        decide_eq_true_eq]
      omega
    have hname : (bytes (i3ipc__global_event_type_name.getD
        (ev - I3IPC_EVENT_TYPE_BEGIN).toNat "")).take 256 =
        bytes (i3ipc__global_event_type_name.getD (ev - I3IPC_EVENT_TYPE_BEGIN).toNat "") := by
      simp only [I3ipc_event_type, List.mem_cons, List.mem_singleton, List.not_mem_nil,
        or_false] at hin
      rcases hin with h | h | h | h | h | h | h | h <;> subst h <;> decide
    have ht := subscribe_payload_tail evs 0 (fun e he => hev e (List.mem_cons_of_mem _ he))
    refine ⟨[34] ++ bytes (i3ipc__global_event_type_name.getD
        (ev - I3IPC_EVENT_TYPE_BEGIN).toNat "") ++ [34] ++
      (evs.map (fun ev => [44] ++ ([34] ++
        bytes (i3ipc__global_event_type_name.getD (ev - I3IPC_EVENT_TYPE_BEGIN).toNat "") ++
        [34]))).flatten, ?_, ?_⟩
    · simp only [subscribe_payload, hr, Bool.not_true, Bool.false_eq_true, ↓reduceIte, ht,
        Option.map_some', hname, bne_self_eq_false, Nat.zero_add, List.nil_append]
    · unfold event_names_json
      rw [List.map_cons, intercalate_cons]
      simp [List.map_map, Function.comp_def]

/-- The names in `i3ipc__global_event_type_name` are made of lower-case letters and `_`. -/
theorem event_names_lower_case :
    ∀ name ∈ i3ipc__global_event_type_name, ∀ c ∈ bytes name, (97 ≤ c ∧ c ≤ 122) ∨ c = 95 := by
  decide

/-- C30. For every list of event types, each one of the eight event ids: the buffer that
`i3ipc_subscribe` fills is the JSON array of the names registered for them in
`i3ipc__global_event_type_name`, in the order of the list, each in double quotes, with single
commas between them and no whitespace; the names are made of lower-case letters and `_`; the
size computed in advance is the number of bytes written, so that `assert(pos == size)` holds;
and the buffer goes with that size to `i3ipc_message_send_try` as an `I3IPC_SUBSCRIBE`
message, which in an initialised context whose write succeeds puts the header and the array
on the event socket. -/
theorem subscribe_payload_is_name_array (w : I3ipc_world) (evs : List Int)
    (hev : ∀ ev ∈ evs, ev ∈ I3ipc_event_type) :
    (∃ body, subscribe_payload evs 0 = some body ∧
      [91] ++ body ++ [93] = event_names_json evs ∧
      subscribe_size evs 0 = some body.length ∧
      ([91] ++ body ++ [93]).length = 2 + body.length) ∧
    (∀ name ∈ i3ipc__global_event_type_name, ∀ c ∈ bytes name, (97 ≤ c ∧ c ≤ 122) ∨ c = 95) ∧
    i3ipc_subscribe w evs =
      (i3ipc_message_send_try w I3IPC_SUBSCRIBE (some (event_names_json evs ++ [0]))
        ((event_names_json evs).length : Int)).bind subscribe_finish ∧
    (w.context.state = I3IPC_STATE_READY → w.context.debug_do_not_write_messages = false →
      w.writes.headD 0 = 0 →
      i3ipc_message_send_try w I3IPC_SUBSCRIBE (some (event_names_json evs ++ [0]))
        ((event_names_json evs).length : Int) =
      Outcome.done (sent w true (frame I3IPC_SUBSCRIBE (event_names_json evs)), 0)) := by
  obtain ⟨body, hb, hj⟩ := subscribe_payload_eq evs hev
  have hsz := subscribe_size_eq evs 0 body hb
  have hl : ([91] ++ body ++ [93]).length = 2 + body.length := by
    simp
    omega
  refine ⟨⟨body, hb, hj, hsz, hl⟩, event_names_lower_case, ?_, ?_⟩
  · unfold i3ipc_subscribe
    have hne : (([91] ++ body ++ [93]).length != 2 + body.length) = false := by
      rw [hl]
      simp
    simp only [hsz, hb, hne, Bool.false_eq_true, ↓reduceIte]
    rw [← hj, hl]
  · intro hs hdbg hwr
    have h := send_try_writes w I3IPC_SUBSCRIBE (event_names_json evs) [0] true
      (by decide) hs hdbg hwr (by decide)
    have hmp : message_payload I3IPC_SUBSCRIBE (event_names_json evs) = event_names_json evs := by
      unfold message_payload
      rw [if_pos (by decide)]
    rw [hmp] at h
    exact h

/-- C30 at the list of the workspace event and the tick event. -/
theorem subscribe_payload_is_name_array_witness :
    ((∃ body, subscribe_payload [I3IPC_EVENT_WORKSPACE, I3IPC_EVENT_WORKSPACE + 7] 0 = some body ∧
      [91] ++ body ++ [93] = event_names_json [I3IPC_EVENT_WORKSPACE, I3IPC_EVENT_WORKSPACE + 7] ∧
      subscribe_size [I3IPC_EVENT_WORKSPACE, I3IPC_EVENT_WORKSPACE + 7] 0 = some body.length ∧
      ([91] ++ body ++ [93]).length = 2 + body.length) ∧
    (∀ name ∈ i3ipc__global_event_type_name, ∀ c ∈ bytes name, (97 ≤ c ∧ c ≤ 122) ∨ c = 95) ∧
    i3ipc_subscribe (ready_world [] [] []) [I3IPC_EVENT_WORKSPACE, I3IPC_EVENT_WORKSPACE + 7] =
      (i3ipc_message_send_try (ready_world [] [] []) I3IPC_SUBSCRIBE
        (some (event_names_json [I3IPC_EVENT_WORKSPACE, I3IPC_EVENT_WORKSPACE + 7] ++ [0]))
        ((event_names_json [I3IPC_EVENT_WORKSPACE, I3IPC_EVENT_WORKSPACE + 7]).length : Int)).bind
        subscribe_finish ∧
    ((ready_world [] [] []).context.state = I3IPC_STATE_READY →
      (ready_world [] [] []).context.debug_do_not_write_messages = false →
      (ready_world [] [] []).writes.headD 0 = 0 →
      i3ipc_message_send_try (ready_world [] [] []) I3IPC_SUBSCRIBE
        (some (event_names_json [I3IPC_EVENT_WORKSPACE, I3IPC_EVENT_WORKSPACE + 7] ++ [0]))
        ((event_names_json [I3IPC_EVENT_WORKSPACE, I3IPC_EVENT_WORKSPACE + 7]).length : Int) =
      Outcome.done (sent (ready_world [] [] []) true (frame I3IPC_SUBSCRIBE
        (event_names_json [I3IPC_EVENT_WORKSPACE, I3IPC_EVENT_WORKSPACE + 7])), 0))) ∧
    event_names_json [I3IPC_EVENT_WORKSPACE, I3IPC_EVENT_WORKSPACE + 7] =
      bytes "[\"workspace\",\"tick\"]" ∧
    event_names_json [] = bytes "[]" ∧
    (i3ipc_subscribe (ready_world [] [] [])
        [I3IPC_EVENT_WORKSPACE, I3IPC_EVENT_WORKSPACE + 7]).get?.map (fun w => w.written) =
      some [(true, frame I3IPC_SUBSCRIBE (bytes "[\"workspace\",\"tick\"]"))] :=
  ⟨subscribe_payload_is_name_array (ready_world [] [] [])
    [I3IPC_EVENT_WORKSPACE, I3IPC_EVENT_WORKSPACE + 7] (by decide), by decide!, by decide!,
    by decide!⟩

/-- C29 as stated fails: for `i3ipc_sync(17, 34)` the payload is `{"rnd":`, the bytes 3 and 4, and
`,"window":#}`. Both digit loops store the values of the digits, not the characters, and both
store them at the position of `@`, so the digits of `window` overwrite those of
`random_value` and the `#` stays. This payload is what goes to the transport. -/
theorem sync_payload_holds_raw_digits :
    sync_payload 17 34 = some (bytes "\x7b\"rnd\":" ++ [3, 4] ++ bytes ",\"window\":#\x7d") ∧
    sync_payload 17 34 ≠ some (bytes "\x7b\"rnd\":17,\"window\":34\x7d") ∧
    (i3ipc_sync (ready_world [] [] []) 17 34).get?.map (fun w => w.written) =
      some [(false, frame I3IPC_SYNC (bytes "\x7b\"rnd\":" ++ [3, 4] ++ bytes ",\"window\":#\x7d"))] := by
  decide!

/-- An `int32_t` comes back from its four bytes. -/
theorem int32_round_trip (n : Int) (x : List Nat) (h1 : -2 ^ 31 ≤ n) (h2 : n < 2 ^ 31) :
    int32_of_bytes (bytes_of_int32 n ++ x) = n := by
  unfold int32_of_bytes bytes_of_int32
  simp only [List.cons_append, List.nil_append, List.getD_cons_zero, List.getD_cons_succ]
  generalize hu : (n % 2 ^ 32).toNat = u
  have hu2 : (u : Int) = n % 2 ^ 32 := by
    rw [← hu]
    omega
  have hsum : u % 256 % 256 + 256 * (u / 256 % 256 % 256) + 65536 * (u / 65536 % 256 % 256) +
      16777216 * (u / 16777216 % 256 % 256) = u := by
    have : u < 2 ^ 32 := by omega
    omega
  rw [hsum]
  split <;> omega

/-- An `int32_t` read from a buffer is in the range of `int32_t`. -/
theorem int32_of_bytes_range (b : List Nat) :
    -2 ^ 31 ≤ int32_of_bytes b ∧ int32_of_bytes b < 2 ^ 31 := by
  unfold int32_of_bytes
  dsimp only
  split <;> omega

/-- The message at the start of a frame with magic `i3-ipc`. -/
theorem message_at_frame (len t : Int) (x : List Nat)
    (hl : -2 ^ 31 ≤ len ∧ len < 2 ^ 31) (ht : -2 ^ 31 ≤ t ∧ t < 2 ^ 31) :
    message_at (message_header len t ++ x) =
      { magic := bytes "i3-ipc", message_length := len, message_type := t, data := x } := by
  have hlen4 : ∀ n : Int, (bytes_of_int32 n).length = 4 := by
    intro n
    rfl
  have hm : (bytes "i3-ipc").length = 6 := by decide
  unfold message_at message_header
  have e1 : (bytes "i3-ipc" ++ bytes_of_int32 len ++ bytes_of_int32 t ++ x).take 6 =
      bytes "i3-ipc" := by
    rw [List.append_assoc, List.append_assoc]
    exact List.take_left' hm
  have e2 : (bytes "i3-ipc" ++ bytes_of_int32 len ++ bytes_of_int32 t ++ x).drop 6 =
      bytes_of_int32 len ++ (bytes_of_int32 t ++ x) := by
    rw [List.append_assoc, List.append_assoc]
    exact List.drop_left' hm
  have e3 : (bytes "i3-ipc" ++ bytes_of_int32 len ++ bytes_of_int32 t ++ x).drop 10 =
      bytes_of_int32 t ++ x := by
    rw [List.append_assoc]
    exact List.drop_left' (by rw [List.length_append, hm, hlen4])
  have e4 : (bytes "i3-ipc" ++ bytes_of_int32 len ++ bytes_of_int32 t ++ x).drop sizeof_message =
      x := by
    exact List.drop_left' (by rw [List.length_append, List.length_append, hm, hlen4, hlen4]; rfl)
  rw [e1, e2, e3, e4, int32_round_trip len _ hl.1 hl.2, int32_round_trip t _ ht.1 ht.2]

/-- What `i3ipc__error_handle` returns is the code it was given. -/
theorem error_handle_code (w : I3ipc_world) (code : Int) (x : I3ipc_world × Int)
    (h : i3ipc__error_handle w code = Outcome.done x) : x.2 = code := by
  unfold i3ipc__error_handle at h
  by_cases hc : (code != 0) = true
  · rw [if_pos hc] at h
    by_cases hb : (code != I3IPC_ERROR_BADSTATE) = true
    · simp only [hb, ↓reduceIte] at h
      cases hnp : w.context.nopanic
      · simp [hnp] at h
      · simp [hnp] at h
        rw [← h]
    · simp only [hb, ↓reduceIte] at h
      cases hnp : w.context.nopanic
      · simp [hnp] at h
      · simp [hnp] at h
        rw [← h]
  · rw [if_neg hc] at h
    simp only [Outcome.done.injEq] at h
    rw [← h]

/-- Reading `n` bytes with return code 0 stores exactly `n` bytes. -/
theorem read_all_zero (s : I3ipc_sock) (n : Nat) (h : (i3ipc__read_all_try s n).1 = 0) :
    (i3ipc__read_all_try s n).2.1.length = n := by
  obtain ⟨data, at_end⟩ := s
  unfold i3ipc__read_all_try at h ⊢
  by_cases hn : n ≤ data.length
  · rw [if_pos hn]
    simp only [List.length_take]
    omega
  · rw [if_neg hn] at h
    exfalso
    cases at_end <;>
      simp [I3IPC_READ_ALL_EOF, I3IPC_READ_ALL_ERROR, I3IPC_READ_ALL_WOULDBLOCK] at h

/-- When the second part of `i3ipc_message_receive_try` returns 0, the reads have returned 0
and the message buffer holds the header, the payload and a 0 byte. -/
theorem receive_finish_zero (w w' : I3ipc_world) (e : Int) (code : Nat)
    (h : receive_finish w e code = Outcome.done (w', 0)) :
    code = 0 ∧ w'.context.msg = w.context.msg.take
      (sizeof_message + (message_at w.context.msg).message_length.toNat) ++ [0] := by
  unfold receive_finish at h
  by_cases h1 : (code == I3IPC_READ_ALL_EOF) = true
  · rw [if_pos h1] at h
    have := error_handle_code _ _ _ h
    cases this
  · rw [if_neg h1] at h
    by_cases h2 : (code == I3IPC_READ_ALL_WOULDBLOCK && w.context.debug_nodata_is_error) = true
    · rw [if_pos h2] at h
      have := error_handle_code _ _ _ h
      cases this
    · rw [if_neg h2] at h
      by_cases h3 : (code != 0) = true
      · rw [if_pos h3] at h
        have := error_handle_code _ _ _ h
        cases this
      · rw [if_neg h3] at h
        dsimp only at h
        have hc0 : code = 0 := by simpa using h3
        refine ⟨hc0, ?_⟩
        by_cases h4 : (!receive_matches e (message_at w.context.msg).message_type) = true
        · rw [if_pos h4] at h
          have := error_handle_code _ _ _ h
          cases this
        · rw [if_neg h4] at h
          simp only [Outcome.done.injEq, Prod.mk.injEq, and_true] at h
          rw [← h]
          rfl

/-- C21 as stated fails: a frame with the magic bytes `XXXXXX`, the length 0 and the type 0 is returned
by `i3ipc_message_receive_try` with the return code 0; the magic bytes are not examined. -/
theorem frame_magic_counterexample :
    (i3ipc_message_receive_try
        (ready_world (bytes "XXXXXX" ++ bytes_of_int32 0 ++ bytes_of_int32 0) [] [])
        I3IPC_REPLY_COMMAND).get?.map (fun x => (x.2, (message_at x.1.context.msg).magic)) =
      some (0, bytes "XXXXXX") ∧
    bytes "XXXXXX" ≠ bytes "i3-ipc" := by
  decide!

/-- C21, amended. Every message that `i3ipc_message_receive_try` returns with the return code
0 has a length that is not negative and with which the 14 bytes of the header, the payload and
a 0 byte fit into `256 * 1024 * 1024` bytes; the message buffer holds exactly the header, that
many bytes of payload, and the 0 byte. -/
theorem frame_invariants (w w' : I3ipc_world) (e : Int)
    (h : i3ipc_message_receive_try w e = Outcome.done (w', 0)) :
    0 ≤ (message_at w'.context.msg).message_length ∧
    14 + (message_at w'.context.msg).message_length + 1 ≤ 256 * 1024 * 1024 ∧
    w'.context.msg.length = 14 + (message_at w'.context.msg).message_length.toNat + 1 ∧
    w'.context.msg.getLast? = some 0 := by
  unfold i3ipc_message_receive_try at h
  dsimp only at h
  by_cases h1 : ((i3ipc_init_try w).2 != 0) = true
  · rw [if_pos h1] at h
    simp only [Outcome.done.injEq] at h
    rw [h] at h1
    simp at h1
  · rw [if_neg h1] at h
    cases hsock : i3ipc__message_type_to_socket e with
    | none =>
      rw [hsock] at h
      cases h
    | some events =>
      rw [hsock] at h
      dsimp only at h
      have hmsg : ∀ (x : I3ipc_world) (b : List Nat), (x.set_msg b).context.msg = b := by
        intro x b; rfl
      have hinc : ∀ (x : I3ipc_world) (s : I3ipc_sock) (b : List Nat),
          ((x.set_incoming events s).set_msg b).incoming events = s := by
        intro x s b
        cases events <;> rfl
      by_cases h2 : ((i3ipc__read_all_try ((i3ipc_init_try w).1.incoming events)
          sizeof_message).1 == 0) = true
      · rw [if_pos h2] at h
        have hlen := read_all_zero _ _ (by simpa using h2)
        simp only [hmsg, hinc] at h
        generalize (i3ipc__read_all_try ((i3ipc_init_try w).1.incoming events)
          sizeof_message) = hd at h hlen
        by_cases h3 : (message_at hd.2.1).message_length < 0
        · rw [if_pos h3] at h
          have := error_handle_code _ _ _ h
          cases this
        · rw [if_neg h3] at h
          by_cases h4 : (sizeof_message + (message_at hd.2.1).message_length.toNat + 1) % 2 ^ 64 >
              256 * 1024 * 1024
          · rw [if_pos h4] at h
            have := error_handle_code _ _ _ h
            cases this
          · rw [if_neg h4] at h
            have hf := receive_finish_zero _ _ _ _ h
            simp only [hmsg] at hf
            have hb := read_all_zero _ _ hf.1
            generalize (i3ipc__read_all_try hd.2.2 (message_at hd.2.1).message_length.toNat) = bd
              at hf hb
            have h14 : hd.2.1.length = 14 := hlen
            have hma := message_at_append hd.2.1 bd.2.1 h14
            have hrange := int32_of_bytes_range (hd.2.1.drop 6)
            have hml : (message_at hd.2.1).message_length = int32_of_bytes (hd.2.1.drop 6) := rfl
            have htake : (hd.2.1 ++ bd.2.1).take (sizeof_message +
                (message_at (hd.2.1 ++ bd.2.1)).message_length.toNat) = hd.2.1 ++ bd.2.1 := by
              apply List.take_of_length_le
              rw [hma.1, List.length_append, h14, hb]
              exact Nat.le_refl _
            rw [htake] at hf
            have hma2 := message_at_append hd.2.1 (bd.2.1 ++ [0]) h14
            rw [hf.2, List.append_assoc, hma2.1]
            refine ⟨by omega, ?_, ?_, ?_⟩
            · simp only [sizeof_message] at h4
              omega
            · simp only [List.length_append, h14, hb, List.length_cons, List.length_nil]
              omega
            · simp
      · rw [if_neg h2] at h
        have hf := receive_finish_zero _ _ _ _ h
        exact absurd hf.1 (by simpa using h2)

/-- C21, amended, at the frame of an event with the payload `{}`. -/
theorem frame_invariants_witness :
    0 ≤ (message_at (received (ready_world [] (frame I3IPC_EVENT_WINDOW (bytes "\x7b\x7d")) []) true
      (message_header 2 I3IPC_EVENT_WINDOW) (bytes "\x7b\x7d") []).context.msg).message_length ∧
    14 + (message_at (received (ready_world [] (frame I3IPC_EVENT_WINDOW (bytes "\x7b\x7d")) []) true
      (message_header 2 I3IPC_EVENT_WINDOW) (bytes "\x7b\x7d") []).context.msg).message_length + 1 ≤
      256 * 1024 * 1024 ∧
    (received (ready_world [] (frame I3IPC_EVENT_WINDOW (bytes "\x7b\x7d")) []) true
      (message_header 2 I3IPC_EVENT_WINDOW) (bytes "\x7b\x7d") []).context.msg.length =
      14 + (message_at (received (ready_world [] (frame I3IPC_EVENT_WINDOW (bytes "\x7b\x7d")) []) true
        (message_header 2 I3IPC_EVENT_WINDOW) (bytes "\x7b\x7d") []).context.msg).message_length.toNat
        + 1 ∧
    (received (ready_world [] (frame I3IPC_EVENT_WINDOW (bytes "\x7b\x7d")) []) true
      (message_header 2 I3IPC_EVENT_WINDOW) (bytes "\x7b\x7d") []).context.msg.getLast? = some 0 :=
  frame_invariants (ready_world [] (frame I3IPC_EVENT_WINDOW (bytes "\x7b\x7d")) [])
    (received (ready_world [] (frame I3IPC_EVENT_WINDOW (bytes "\x7b\x7d")) []) true
      (message_header 2 I3IPC_EVENT_WINDOW) (bytes "\x7b\x7d") []) I3IPC_EVENT_ANY
    (by with_unfolding_all rfl)

/-- C22, amended. For every message type `t` in 0..11 and payload `p` with which the header,
the payload and a 0 byte fit into `256 * 1024 * 1024` bytes: in an initialised context whose
write succeeds, `i3ipc_message_send_try` writes to the socket of the type the bytes `i3-ipc`,
the four bytes of the length of the payload and the four bytes of `t`, both least significant
byte first, and the payload, which is `p` for `I3IPC_RUN_COMMAND`, `I3IPC_SUBSCRIBE`,
`I3IPC_GET_BAR_CONFIG`, `I3IPC_SEND_TICK` and `I3IPC_SYNC` and empty for the other types.
When these bytes arrive on the socket of the type in an initialised context `r`,
`i3ipc_message_receive_try` with the expected type `t` returns 0 and the message has the
magic bytes `i3-ipc`, the same length, the type `t`, and the payload followed by a 0 byte. -/
theorem frame_round_trip (w r : I3ipc_world) (t : Int) (p extra rest : List Nat)
    (events : Bool) (ht : 0 ≤ t ∧ t < 12)
    (hs : w.context.state = I3IPC_STATE_READY)
    (hdbg : w.context.debug_do_not_write_messages = false)
    (hwr : w.writes.headD 0 = 0)
    (hsock : i3ipc__message_type_to_socket t = some events)
    (hcap : 14 + (message_payload t p).length + 1 ≤ 256 * 1024 * 1024)
    (hr : r.context.state = I3IPC_STATE_READY)
    (hdata : (r.incoming events).data = frame t (message_payload t p) ++ rest) :
    i3ipc_message_send_try w t (some (p ++ extra)) ((message_payload t p).length : Int) =
      Outcome.done (sent w events (frame t (message_payload t p)), 0) ∧
    (sent w events (frame t (message_payload t p))).written =
      w.written ++ [(events, frame t (message_payload t p))] ∧
    frame t (message_payload t p) =
      bytes "i3-ipc" ++
      [(message_payload t p).length % 256, (message_payload t p).length / 256 % 256,
       (message_payload t p).length / 65536 % 256,
       (message_payload t p).length / 16777216 % 256] ++
      [t.toNat % 256, t.toNat / 256 % 256, t.toNat / 65536 % 256, t.toNat / 16777216 % 256] ++
      message_payload t p ∧
    i3ipc_message_receive_try r t =
      Outcome.done (received r events (message_header (message_payload t p).length t)
        (message_payload t p) rest, 0) ∧
    message_at (received r events (message_header (message_payload t p).length t)
        (message_payload t p) rest).context.msg =
      { magic := bytes "i3-ipc", message_length := (message_payload t p).length,
        message_type := t, data := message_payload t p ++ [0] } := by
  have hlr : -2 ^ 31 ≤ ((message_payload t p).length : Int) ∧
      ((message_payload t p).length : Int) < 2 ^ 31 := by omega
  have htr : -2 ^ 31 ≤ t ∧ t < 2 ^ 31 := by omega
  have hh : (message_header ((message_payload t p).length : Int) t).length = 14 := rfl
  have hma := message_at_frame ((message_payload t p).length : Int) t [] hlr htr
  rw [List.append_nil] at hma
  refine ⟨send_try_writes w t p extra events ht hs hdbg hwr hsock, rfl, ?_, ?_, ?_⟩
  · unfold frame message_header bytes_of_int32
    have e1 : (((message_payload t p).length : Int) % 2 ^ 32).toNat =
        (message_payload t p).length := by omega
    have e2 : (t % 2 ^ 32).toNat = t.toNat := by omega
    simp only [e1, e2]
  · have h := receive_frame r t events (message_header (message_payload t p).length t)
      (message_payload t p) rest hr hsock (by rw [hdata]; rfl) hh (by rw [hma]) hcap
    rw [hma] at h
    have hm : receive_matches t t = true := by
      simp [receive_matches]
    rw [if_pos hm] at h
    exact h
  · have hmsg : (received r events (message_header (message_payload t p).length t)
        (message_payload t p) rest).context.msg =
        message_header (message_payload t p).length t ++ (message_payload t p ++ [0]) := by
      unfold received
      cases events <;> simp [I3ipc_world.set_msg]
    rw [hmsg]
    exact message_at_frame _ _ _ hlr htr

/-- C22, amended, at the command `nop` and at a tree request with a payload that is not
sent. -/
theorem frame_round_trip_witness :
    (i3ipc_message_send_try (ready_world [] [] []) I3IPC_RUN_COMMAND (some (bytes "nop" ++ [0]))
        ((message_payload I3IPC_RUN_COMMAND (bytes "nop")).length : Int) =
      Outcome.done (sent (ready_world [] [] []) false
        (frame I3IPC_RUN_COMMAND (message_payload I3IPC_RUN_COMMAND (bytes "nop"))), 0) ∧
    (sent (ready_world [] [] []) false
        (frame I3IPC_RUN_COMMAND (message_payload I3IPC_RUN_COMMAND (bytes "nop")))).written =
      (ready_world [] [] []).written ++
        [(false, frame I3IPC_RUN_COMMAND (message_payload I3IPC_RUN_COMMAND (bytes "nop")))] ∧
    frame I3IPC_RUN_COMMAND (message_payload I3IPC_RUN_COMMAND (bytes "nop")) =
      bytes "i3-ipc" ++
      [(message_payload I3IPC_RUN_COMMAND (bytes "nop")).length % 256,
       (message_payload I3IPC_RUN_COMMAND (bytes "nop")).length / 256 % 256,
       (message_payload I3IPC_RUN_COMMAND (bytes "nop")).length / 65536 % 256,
       (message_payload I3IPC_RUN_COMMAND (bytes "nop")).length / 16777216 % 256] ++
      [I3IPC_RUN_COMMAND.toNat % 256, I3IPC_RUN_COMMAND.toNat / 256 % 256,
       I3IPC_RUN_COMMAND.toNat / 65536 % 256, I3IPC_RUN_COMMAND.toNat / 16777216 % 256] ++
      message_payload I3IPC_RUN_COMMAND (bytes "nop") ∧
    i3ipc_message_receive_try (ready_world (frame I3IPC_RUN_COMMAND (bytes "nop")) [] [])
        I3IPC_RUN_COMMAND =
      Outcome.done (received (ready_world (frame I3IPC_RUN_COMMAND (bytes "nop")) [] []) false
        (message_header (message_payload I3IPC_RUN_COMMAND (bytes "nop")).length
          I3IPC_RUN_COMMAND)
        (message_payload I3IPC_RUN_COMMAND (bytes "nop")) [], 0) ∧
    message_at (received (ready_world (frame I3IPC_RUN_COMMAND (bytes "nop")) [] []) false
        (message_header (message_payload I3IPC_RUN_COMMAND (bytes "nop")).length
          I3IPC_RUN_COMMAND)
        (message_payload I3IPC_RUN_COMMAND (bytes "nop")) []).context.msg =
      { magic := bytes "i3-ipc",
        message_length := (message_payload I3IPC_RUN_COMMAND (bytes "nop")).length,
        message_type := I3IPC_RUN_COMMAND,
        data := message_payload I3IPC_RUN_COMMAND (bytes "nop") ++ [0] }) ∧
    frame I3IPC_RUN_COMMAND (message_payload I3IPC_RUN_COMMAND (bytes "nop")) =
      bytes "i3-ipc" ++ [3, 0, 0, 0] ++ [0, 0, 0, 0] ++ bytes "nop" ∧
    frame 4 (message_payload 4 (bytes "nop")) = bytes "i3-ipc" ++ [0, 0, 0, 0] ++ [4, 0, 0, 0] :=
  ⟨frame_round_trip (ready_world [] [] [])
    (ready_world (frame I3IPC_RUN_COMMAND (bytes "nop")) [] []) I3IPC_RUN_COMMAND (bytes "nop")
    [0] [] false (by decide) rfl rfl rfl (by decide) (by decide) rfl (by decide!),
   by decide!, by decide!⟩

/-- `i3ipc_message_receive_try` rejects the frame of a payload with which header, payload and
0 byte do not fit into `256 * 1024 * 1024` bytes, and `i3ipc_message_send_try` writes it. -/
theorem oversize_frame (p : List Nat) (hbig : 14 + p.length + 1 > 256 * 1024 * 1024)
    (hlt : p.length < 2 ^ 31) :
    i3ipc_message_send_try (ready_world [] [] []) I3IPC_RUN_COMMAND (some (p ++ [0]))
        (p.length : Int) =
      Outcome.done (sent (ready_world [] [] []) false (frame I3IPC_RUN_COMMAND p), 0) ∧
    (i3ipc_message_receive_try (ready_world (frame I3IPC_RUN_COMMAND p) [] [])
        I3IPC_RUN_COMMAND).get?.map (fun x => x.2) = some I3IPC_ERROR_MALFORMED_code := by
  have hmp : message_payload I3IPC_RUN_COMMAND p = p := by
    unfold message_payload
    rw [if_pos (by decide)]
  constructor
  · have h := send_try_writes (ready_world [] [] []) I3IPC_RUN_COMMAND p [0] false (by decide)
      rfl rfl rfl (by decide)
    rw [hmp] at h
    exact h
  · have hma := message_at_frame (p.length : Int) I3IPC_RUN_COMMAND []
      (by omega) (by decide)
    rw [List.append_nil] at hma
    have h := (receive_length_validation (ready_world (frame I3IPC_RUN_COMMAND p) [] [])
      I3IPC_RUN_COMMAND false (message_header (p.length : Int) I3IPC_RUN_COMMAND) p rfl rfl
      (by decide) rfl rfl).1 (Or.inr (by rw [hma]; show 14 + (p.length : Int) + 1 > 256 * 1024 * 1024; omega))
    rw [h]
    rfl

/-- C22 as stated fails: the frame that `i3ipc_message_send_try` writes for a command of 268435442
bytes is rejected by `i3ipc_message_receive_try` with `I3IPC_ERROR_MALFORMED`, since with the
header and the 0 byte it is one byte longer than `256 * 1024 * 1024`. -/
theorem frame_round_trip_counterexample :
    i3ipc_message_send_try (ready_world [] [] []) I3IPC_RUN_COMMAND
        (some (List.replicate 268435442 120 ++ [0]))
        ((List.replicate 268435442 120).length : Int) =
      Outcome.done (sent (ready_world [] [] []) false
        (frame I3IPC_RUN_COMMAND (List.replicate 268435442 120)), 0) ∧
    (i3ipc_message_receive_try
        (ready_world (frame I3IPC_RUN_COMMAND (List.replicate 268435442 120)) [] [])
        I3IPC_RUN_COMMAND).get?.map (fun x => x.2) = some I3IPC_ERROR_MALFORMED_code :=
  oversize_frame (List.replicate 268435442 120)
    (by rw [List.length_replicate]; decide) (by rw [List.length_replicate]; decide)


/-! ## Expected type, fixed points, emitted objects, type names, scanner strictness -/

/-- C31 as stated fails in its second part: `i3ipc_parse_try` compares the type of the message
with `message_type` whatever its value, so with `message_type` -1 a version reply (type 7) is
not parsed but rejected with `I3IPC_ERROR_MALFORMED`, as is every message whose type is not
-1; with the expected type 7 the same reply is parsed. -/
theorem expected_type_any_is_rejected :
    i3ipc_parse_try false 7 (bytes "\x7b\"major\":4,\"minor\":18\x7d") (-1) I3IPC_TYPE_REPLY_VERSION =
      Outcome.fail I3IPC_ERROR_MALFORMED ∧
    ((i3ipc_parse_try false 7 (bytes "\x7b\"major\":4,\"minor\":18\x7d") 7
        I3IPC_TYPE_REPLY_VERSION).get?.map
        (fun v => (v.member I3IPC_TYPE_REPLY_VERSION "major",
          v.member I3IPC_TYPE_REPLY_VERSION "minor"))) = some (Val.int 4, Val.int 18) ∧
    (∀ (staticalloc : Bool) (msg_type message_type : Int) (payload : List Nat) (type_id : Nat),
      msg_type ≠ message_type →
      i3ipc_parse_try staticalloc msg_type payload message_type type_id =
        Outcome.fail I3IPC_ERROR_MALFORMED) := by
  refine ⟨by with_unfolding_all rfl, by with_unfolding_all rfl, ?_⟩
  intro sa mt et payload ty hne
  have hm : (mt != et) = true := by simpa using hne
  unfold i3ipc_parse_try parse_first_pass
  simp only [hm, ↓reduceIte]

/-- C32. Parsing and emitting again gives back the text, in both allocation modes: for `""`
as `I3IPC_TYPE_STRING`; for `[]` as each of the reply types that are an inline array, where
the array member is not NULL and the size is 0; and for `[{"success":true}]` as the command
reply, where `commands_size` is 1, `success` is true and `error` is NULL. -/
theorem fixed_point_on_canonical_text (fmt_f : I3ipc_double → List Nat) (staticalloc : Bool) :
    (i3ipc_parse_try staticalloc 0 (bytes "\"\"") 0 I3IPC_TYPE_STRING).bind
        (i3ipc_printjson fmt_f I3IPC_TYPE_STRING) = Outcome.done (bytes "\"\"") ∧
    (∀ type_id ∈ [I3IPC_TYPE_REPLY_COMMAND, I3IPC_TYPE_REPLY_WORKSPACES,
        I3IPC_TYPE_REPLY_OUTPUTS, I3IPC_TYPE_REPLY_MARKS, I3IPC_TYPE_REPLY_BAR_CONFIG_IDS,
        I3IPC_TYPE_REPLY_BINDING_MODES],
      i3ipc_parse_try staticalloc 0 (bytes "[]") 0 type_id =
        Outcome.done (Val.struct [Val.block (some []), Val.int 0]) ∧
      (i3ipc_parse_try staticalloc 0 (bytes "[]") 0 type_id).bind
        (i3ipc_printjson fmt_f type_id) = Outcome.done (bytes "[]")) ∧
    i3ipc_parse_try staticalloc 0 (bytes "[\x7b\"success\":true\x7d]") 0 I3IPC_TYPE_REPLY_COMMAND =
      Outcome.done (Val.struct [Val.block (some [Val.struct
        [Val.bool true, Val.chars none, Val.int 0]]), Val.int 1]) ∧
    (i3ipc_parse_try staticalloc 0 (bytes "[\x7b\"success\":true\x7d]") 0
        I3IPC_TYPE_REPLY_COMMAND).bind (i3ipc_printjson fmt_f I3IPC_TYPE_REPLY_COMMAND) =
      Outcome.done (bytes "[\x7b\"success\":true\x7d]") := by
  cases staticalloc
  · refine ⟨by with_unfolding_all rfl, ?_, by with_unfolding_all rfl, by with_unfolding_all rfl⟩
    intro t ht
    simp only [List.mem_cons, List.mem_singleton, List.not_mem_nil, or_false] at ht
    rcases ht with h | h | h | h | h | h <;> subst h <;>
      exact ⟨by with_unfolding_all rfl, by with_unfolding_all rfl⟩
  · refine ⟨by with_unfolding_all rfl, ?_, by with_unfolding_all rfl, by with_unfolding_all rfl⟩
    intro t ht
    simp only [List.mem_cons, List.mem_singleton, List.not_mem_nil, or_false] at ht
    rcases ht with h | h | h | h | h | h <;> subst h <;>
      exact ⟨by with_unfolding_all rfl, by with_unfolding_all rfl⟩

/-- C36 as stated fails: the colours of a bar configuration with only `statusline` set are
written as `{,"statusline":"#ffffff"}`, with a comma directly behind the brace, because the
comma is written whenever the index of the member in the table is not 0; that text is
rejected by `i3ipc_parse_try` for the same type. -/
theorem emitted_object_with_leading_comma (fmt_f : I3ipc_double → List Nat) :
    (i3ipc_parse_try false 0 (bytes "\x7b\"statusline\":\"#ffffff\"\x7d") 0
        I3IPC_TYPE_BAR_CONFIG_COLORS).bind
        (i3ipc_printjson fmt_f I3IPC_TYPE_BAR_CONFIG_COLORS) =
      Outcome.done (bytes "\x7b,\"statusline\":\"#ffffff\"\x7d") ∧
    i3ipc_parse_try false 0 (bytes "\x7b,\"statusline\":\"#ffffff\"\x7d") 0
        I3IPC_TYPE_BAR_CONFIG_COLORS = Outcome.fail I3IPC_ERROR_MALFORMED := by
  exact ⟨by with_unfolding_all rfl, by with_unfolding_all rfl⟩

/-- C37 as stated fails: for the message type `I3IPC_EVENT_TYPE_END` (0x80000008)
`i3ipc__message_type_str` reads `i3ipc__global_event_type_name` at index 8, which is behind
its 8 entries, because the test is `message_type <= I3IPC_EVENT_TYPE_END`. For every other
32-bit message type the index is inside the table that is read. -/
theorem type_name_lookup_out_of_bounds :
    (∀ is_reply, i3ipc__message_type_str I3IPC_EVENT_TYPE_END is_reply =
      some (i3ipc__global_event_type_name, 8)) ∧
    i3ipc__global_event_type_name.length = 8 ∧
    I3IPC_EVENT_TYPE_END = -2147483640 ∧
    (∀ (message_type : Int) (is_reply : Bool) (table : List String) (index : Int),
      -2 ^ 31 ≤ message_type → message_type < 2 ^ 31 → message_type ≠ I3IPC_EVENT_TYPE_END →
      i3ipc__message_type_str message_type is_reply = some (table, index) →
      0 ≤ index ∧ index < table.length) := by
  refine ⟨by decide, by decide, by decide, ?_⟩
  intro mt r table index h1 h2 hne h
  unfold i3ipc__message_type_str at h
  by_cases ha : (0 ≤ mt && mt < I3IPC_MESSAGE_TYPE_COUNT) = true
  · rw [if_pos ha] at h
    simp only [Option.some.injEq, Prod.mk.injEq] at h
    simp only [I3IPC_MESSAGE_TYPE_COUNT, Bool.and_eq_true, decide_eq_true_eq] at ha
    rw [← h.1, ← h.2]
    cases r
    · simp [i3ipc__global_reply_type_name]
      omega
    · simp [i3ipc__global_message_type_name]
      omega
  · rw [if_neg ha] at h
    by_cases hb : (-2 ^ 31 ≤ mt && mt ≤ I3IPC_EVENT_TYPE_END) = true
    · rw [if_pos hb] at h
      simp only [Option.some.injEq, Prod.mk.injEq] at h
      simp only [I3IPC_EVENT_TYPE_END, I3IPC_EVENT_WORKSPACE, Bool.and_eq_true,
        decide_eq_true_eq] at hb hne
      rw [← h.1, ← h.2]
      simp [i3ipc__global_event_type_name]
      omega
    · rw [if_neg hb] at h
      cases h

/-- C39 as stated fails: `i3ipc__json_scan` succeeds on `falsX`, which it takes for `false`
because only four bytes are compared; on `-`, a number token without a digit; and on `"abc`,
a string token without a closing double quote. -/
theorem scanner_accepts_invalid_tokens :
    i3ipc__json_scan (bytes "falsX") = Outcome.done [tok_bool false, tok_zero] ∧
    i3ipc__json_scan (bytes "-") = Outcome.done [tok_number ⟨true, 0, 0, 1⟩ 0, tok_zero] ∧
    i3ipc__json_scan (bytes "\"abc") = Outcome.done [tok_string (bytes "abc"), tok_zero] ∧
    (i3ipc_parse_try false 0 (bytes "[\x7b\"success\":falsX\x7d]") 0 I3IPC_TYPE_REPLY_COMMAND).get?.map
        (fun v => v.member I3IPC_TYPE_REPLY_COMMAND "commands") =
      some (Val.block (some [Val.struct [Val.bool false, Val.chars none, Val.int 0]])) := by
  exact ⟨by with_unfolding_all rfl, by with_unfolding_all rfl, by with_unfolding_all rfl,
    by with_unfolding_all rfl⟩

/-- The stores of the loop of `i3ipc__json_scan_string`, started with `p < i`: every store
goes to an index below the value of `i` at its time, `i` does not pass the end of the input,
and `p` stays below `i`. -/
theorem scan_string_stores_below : ∀ (fuel : Nat) (rest : List Nat) (p i : Nat), p < i →
    (∀ x ∈ (scan_string_stores fuel rest p i).1, x.1 < x.2 ∧ x.2 ≤ i + rest.length) ∧
    (scan_string_stores fuel rest p i).2.1 < (scan_string_stores fuel rest p i).2.2 ∧
    (scan_string_stores fuel rest p i).2.2 ≤ i + rest.length := by
  intro fuel
  induction fuel with
  | zero =>
    intro rest p i h
    rw [scan_string_stores]
    exact ⟨fun x hx => (by cases hx), h, (by show i ≤ i + rest.length; omega)⟩
  | succ n ih =>
    intro rest p i h
    cases rest with
    | nil =>
      rw [scan_string_stores]
      exact ⟨fun x hx => (by cases hx), h, (by show i ≤ i + 0; omega)⟩
    | cons c rest =>
      have step : ∀ (sub : List Nat) (j : Nat) (w : List (Nat × Nat)), p + w.length < j →
          j + sub.length ≤ i + (c :: rest).length → (∀ x ∈ w, x.1 < x.2 ∧ x.2 ≤ j) →
          (∀ x ∈ (w ++ (scan_string_stores n sub (p + w.length) j).1,
                (scan_string_stores n sub (p + w.length) j).2).1,
              x.1 < x.2 ∧ x.2 ≤ i + (c :: rest).length) ∧
          (w ++ (scan_string_stores n sub (p + w.length) j).1,
            (scan_string_stores n sub (p + w.length) j).2).2.1 <
          (w ++ (scan_string_stores n sub (p + w.length) j).1,
            (scan_string_stores n sub (p + w.length) j).2).2.2 ∧
          (w ++ (scan_string_stores n sub (p + w.length) j).1,
            (scan_string_stores n sub (p + w.length) j).2).2.2 ≤ i + (c :: rest).length := by
        intro sub j w hpj hj hw
        have h2 := ih sub (p + w.length) j hpj
        refine ⟨?_, h2.2.1, Nat.le_trans h2.2.2 hj⟩
        intro x hx
        rcases List.mem_append.mp hx with hx | hx
        · have := hw x hx
          have hj2 : j ≤ i + (c :: rest).length := by omega
          exact ⟨this.1, Nat.le_trans this.2 hj2⟩
        · have := h2.1 x hx
          exact ⟨this.1, Nat.le_trans this.2 hj⟩
      have copy := step rest (i + 1) [(p, i)] (by simp; omega) (by simp; omega)
        (by intro x hx; simp at hx; subst hx; exact ⟨h, by omega⟩)
      by_cases h34 : (c == 34) = true
      · simp only [scan_string_stores, h34, ↓reduceIte, List.length_cons]
        exact ⟨fun x hx => (by cases hx), (by omega), (by omega)⟩
      · by_cases h92 : (c == 92) = true
        · by_cases hu : (escape_char (rest.headD 0) == 117) = true
          · rcases rest with _ | ⟨x0, _ | ⟨h1, _ | ⟨h2, _ | ⟨h3, _ | ⟨h4, rest5⟩⟩⟩⟩⟩
            · simp only [scan_string_stores, h34, h92, hu, ↓reduceIte]
              exact copy
            · simp only [scan_string_stores, h34, h92, hu, ↓reduceIte]
              exact copy
            · simp only [scan_string_stores, h34, h92, hu, ↓reduceIte]
              exact copy
            · simp only [scan_string_stores, h34, h92, hu, ↓reduceIte]
              exact copy
            · simp only [scan_string_stores, h34, h92, hu, ↓reduceIte]
              exact copy
            · have hlen : ∀ cp, (utf8_encode cp).length ≤ 4 := by
                intro cp
                unfold utf8_encode
                repeat' split
                all_goals simp
              cases e1 : hexval h1 <;> cases e2 : hexval h2 <;> cases e3 : hexval h3 <;>
                cases e4 : hexval h4 <;>
                simp only [scan_string_stores, h34, h92, hu, ↓reduceIte, e1, e2, e3, e4] <;>
                first
                | exact copy
                | (rename_i v1 v2 v3 v4
                   have hl4 := hlen (((v1 * 16 + v2) * 16 + v3) * 16 + v4)
                   have := step rest5 (i + 6)
                     ((List.range (utf8_encode
                       (((v1 * 16 + v2) * 16 + v3) * 16 + v4)).length).map
                       (fun k => (p + k, i + 6)))
                     (by simp; omega) (by simp; omega)
                     (by
                       intro x hx
                       simp only [List.mem_map, List.mem_range] at hx
                       obtain ⟨k, hk, rfl⟩ := hx
                       exact ⟨by show p + k < i + 6; omega, Nat.le_refl _⟩)
                   simp only [List.length_map, List.length_range] at this
                   exact this)
          · by_cases h0 : (escape_char (rest.headD 0) != 0) = true
            · have hne : rest ≠ [] := by
                intro he
                subst he
                simp [escape_char] at h0
              have hl : (rest.drop 1).length + 1 = rest.length := by
                cases rest with
                | nil => exact absurd rfl hne
                | cons a r => simp
              simp only [scan_string_stores, h34, h92, hu, h0, ↓reduceIte]
              exact step (rest.drop 1) (i + 2) [(p, i + 2)] (by simp; omega)
                (by simp; omega)
                (by intro x hx; simp at hx; subst hx; exact ⟨by show p < i + 2; omega,
                  Nat.le_refl _⟩)
            · simp only [scan_string_stores, h34, h92, hu, h0, ↓reduceIte]
              exact copy
        · simp only [scan_string_stores, h34, h92, ↓reduceIte]
          exact copy

/-- The instrumented loop follows the loop of `i3ipc__json_scan_string`: `p` is the number of
bytes decoded, and `i` is the same. -/
theorem scan_string_stores_eq : ∀ (fuel : Nat) (rest out : List Nat) (i : Nat),
    ((scan_string_stores fuel rest out.length i).2.1,
     (scan_string_stores fuel rest out.length i).2.2) =
    ((scan_string_loop fuel rest out i).1.length, (scan_string_loop fuel rest out i).2) := by
  intro fuel
  induction fuel with
  | zero => intro rest out i; rfl
  | succ n ih =>
    intro rest out i
    cases rest with
    | nil => rfl
    | cons c rest =>
      have key : ∀ (sub add : List Nat) (j : Nat),
          ((scan_string_stores n sub (out.length + add.length) j).2.1,
           (scan_string_stores n sub (out.length + add.length) j).2.2) =
          ((scan_string_loop n sub (out ++ add) j).1.length,
           (scan_string_loop n sub (out ++ add) j).2) := by
        intro sub add j
        have := ih sub (out ++ add) j
        rw [List.length_append] at this
        exact this
      have k1 := key rest [c] (i + 1)
      by_cases h34 : (c == 34) = true
      · simp only [scan_string_stores, scan_string_loop, h34, ↓reduceIte]
      · by_cases h92 : (c == 92) = true
        · by_cases hu : (escape_char (rest.headD 0) == 117) = true
          · rcases rest with _ | ⟨x0, _ | ⟨h1, _ | ⟨h2, _ | ⟨h3, _ | ⟨h4, rest5⟩⟩⟩⟩⟩
            · simp only [scan_string_stores, scan_string_loop, h34, h92, hu, ↓reduceIte]
              exact k1
            · simp only [scan_string_stores, scan_string_loop, h34, h92, hu, ↓reduceIte]
              exact k1
            · simp only [scan_string_stores, scan_string_loop, h34, h92, hu, ↓reduceIte]
              exact k1
            · simp only [scan_string_stores, scan_string_loop, h34, h92, hu, ↓reduceIte]
              exact k1
            · simp only [scan_string_stores, scan_string_loop, h34, h92, hu, ↓reduceIte]
              exact k1
            · cases e1 : hexval h1 <;> cases e2 : hexval h2 <;> cases e3 : hexval h3 <;>
                cases e4 : hexval h4 <;>
                simp only [scan_string_stores, scan_string_loop, h34, h92, hu, ↓reduceIte,
                  e1, e2, e3, e4] <;>
                first | exact k1 | exact key _ _ _
          · by_cases h0 : (escape_char (rest.headD 0) != 0) = true
            · simp only [scan_string_stores, scan_string_loop, h34, h92, hu, h0, ↓reduceIte]
              exact key _ [_] _
            · simp only [scan_string_stores, scan_string_loop, h34, h92, hu, h0, ↓reduceIte]
              exact k1
        · simp only [scan_string_stores, scan_string_loop, h34, h92, ↓reduceIte]
          exact k1

/-- C33. In `i3ipc__json_scan_string` on a buffer of at least one byte (the opening double
quote), every store, the store of the terminating 0 byte included, goes to an index below the
value that the read index `i` has at that time, and `i` never passes the end of the buffer.
So the decoded length, which is the index of the 0 byte, is at most the number of bytes
consumed minus one, and the 0 byte is stored inside the consumed bytes, which lie inside the
buffer. -/
theorem in_place_decoding_is_safe (cur : List Nat) (h : cur ≠ []) :
    (∀ x ∈ json_scan_string_stores cur, x.1 < x.2 ∧ x.2 ≤ cur.length) ∧
    (json_scan_string_stores cur).getLast? =
      some ((i3ipc__json_scan_string cur).1.length,
        cur.length - (i3ipc__json_scan_string cur).2.length) ∧
    (i3ipc__json_scan_string cur).1.length + 1 ≤
      cur.length - (i3ipc__json_scan_string cur).2.length ∧
    (i3ipc__json_scan_string cur).1.length < cur.length := by
  have hb := scan_string_stores_below cur.length (cur.drop 1) 0 1 (by omega)
  have he := scan_string_stores_eq cur.length (cur.drop 1) [] 1
  simp only [List.length_nil, Prod.mk.injEq] at he
  have hl : 1 + (cur.drop 1).length = cur.length := by
    cases cur with
    | nil => exact absurd rfl h
    | cons a r => simp; omega
  rw [hl] at hb
  have hcons : cur.length - (i3ipc__json_scan_string cur).2.length =
      (scan_string_loop cur.length (cur.drop 1) [] 1).2 := by
    simp only [i3ipc__json_scan_string, List.length_drop]
    rw [← he.2]
    omega
  have hdec : (i3ipc__json_scan_string cur).1.length =
      (scan_string_loop cur.length (cur.drop 1) [] 1).1.length := rfl
  refine ⟨?_, ?_, ?_, ?_⟩
  · intro x hx
    unfold json_scan_string_stores at hx
    rcases List.mem_append.mp hx with hx | hx
    · exact hb.1 x hx
    · simp only [List.mem_singleton] at hx
      subst hx
      exact ⟨hb.2.1, hb.2.2⟩
  · unfold json_scan_string_stores
    rw [List.getLast?_concat]
    rw [hcons, hdec, ← he.1, ← he.2]
  · rw [hcons, hdec, ← he.1, ← he.2]
    omega
  · rw [hdec, ← he.1]
    omega

/-- C33 at the literal `"a\né"` followed by `:1`. -/
theorem in_place_decoding_is_safe_witness :
    ((∀ x ∈ json_scan_string_stores (bytes "\"a\\n\\u00e9\":1"),
        x.1 < x.2 ∧ x.2 ≤ (bytes "\"a\\n\\u00e9\":1").length) ∧
     (json_scan_string_stores (bytes "\"a\\n\\u00e9\":1")).getLast? =
       some ((i3ipc__json_scan_string (bytes "\"a\\n\\u00e9\":1")).1.length,
         (bytes "\"a\\n\\u00e9\":1").length -
           (i3ipc__json_scan_string (bytes "\"a\\n\\u00e9\":1")).2.length) ∧
     (i3ipc__json_scan_string (bytes "\"a\\n\\u00e9\":1")).1.length + 1 ≤
       (bytes "\"a\\n\\u00e9\":1").length -
         (i3ipc__json_scan_string (bytes "\"a\\n\\u00e9\":1")).2.length ∧
     (i3ipc__json_scan_string (bytes "\"a\\n\\u00e9\":1")).1.length <
       (bytes "\"a\\n\\u00e9\":1").length) ∧
    json_scan_string_stores (bytes "\"a\\n\\u00e9\":1") =
      [(0, 1), (1, 4), (2, 10), (3, 10), (4, 11)] :=
  ⟨in_place_decoding_is_safe (bytes "\"a\\n\\u00e9\":1") (by decide), by decide!⟩

/-- The loop of `i3ipc__json_scan_string` on what `i3ipc__printjson_string` writes for one
byte. -/
theorem scan_printed_char (fuel : Nat) (c : Nat) (tail out : List Nat) (i : Nat) :
    scan_string_loop (fuel + 1) (printjson_char c ++ tail) out i =
      scan_string_loop fuel tail (out ++ [c]) (i + (printjson_char c).length) := by
  unfold printjson_char
  by_cases h1 : (c == 92 || c == 34) = true
  · rw [if_pos h1]
    have hm : (c, c) ∈ simple_escapes := by
      simp only [Bool.or_eq_true, beq_iff_eq] at h1
      rcases h1 with h | h <;> subst h <;> decide
    exact scan_string_simple fuel tail out i c c hm
  · rw [if_neg h1]
    by_cases h2 : (c == 10) = true
    · rw [if_pos h2]
      have : c = 10 := by simpa using h2
      subst this
      exact scan_string_simple fuel tail out i 110 10 (by decide)
    · rw [if_neg h2]
      by_cases h3 : c < 32
      · rw [if_pos h3]
        have hh : ∀ k : Fin 16, hexval (hexdigit k.val) = some k.val := by decide
        have e3 : hexval (hexdigit (c / 16)) = some (c / 16) := hh ⟨c / 16, by omega⟩
        have e4 : hexval (hexdigit (c % 16)) = some (c % 16) := hh ⟨c % 16, by omega⟩
        have hs := scan_string_unicode fuel tail out i 48 48 (hexdigit (c / 16))
          (hexdigit (c % 16)) 0 0 (c / 16) (c % 16) (by decide) (by decide) e3 e4
        have hcp : code_point 0 0 (c / 16) (c % 16) = c := by
          unfold code_point
          omega
        have henc : utf8_encode c = [c] := by
          unfold utf8_encode
          rw [if_pos (by omega), Nat.mod_eq_of_lt (by omega)]
        rw [hcp, henc] at hs
        exact hs
      · rw [if_neg h3]
        simp only [Bool.or_eq_true, beq_iff_eq, not_or] at h1
        exact scan_string_plain fuel tail out i c h1.2 h1.1

/-- The loop of `i3ipc__json_scan_string` on the escaped bytes of a string and the closing
double quote. -/
theorem scan_printed_string : ∀ (s : List Nat) (fuel : Nat) (rest out : List Nat) (i : Nat),
    s.length + 1 ≤ fuel →
    scan_string_loop fuel ((s.map printjson_char).flatten ++ 34 :: rest) out i =
      (out ++ s, i + (s.map printjson_char).flatten.length + 1) := by
  intro s
  induction s with
  | nil =>
    intro fuel rest out i hf
    cases fuel with
    | zero => omega
    | succ n => simp [scan_string_loop]
  | cons c s ih =>
    intro fuel rest out i hf
    cases fuel with
    | zero => omega
    | succ n =>
      simp only [List.map_cons, List.flatten_cons, List.append_assoc]
      rw [scan_printed_char, ih n rest (out ++ [c]) _ (by simp at hf; omega)]
      simp only [List.append_assoc, List.singleton_append, List.length_append, Prod.mk.injEq,
        true_and]
      omega

/-- C34. For every byte string `s`: `i3ipc__json_scan_string`, run on the text that
`i3ipc__printjson_string` writes for `s` in canonical mode and on whatever follows it, decodes
exactly `s` (so the length is that of `s`) and stops directly behind the text. -/
theorem string_escape_round_trip (s rest : List Nat) :
    i3ipc__json_scan_string (i3ipc__printjson_string s (s.length : Int) false ++ rest) =
      (s, rest) ∧
    (i3ipc__json_scan_string (i3ipc__printjson_string s (s.length : Int) false ++ rest)).1.length
      = s.length := by
  have hp : i3ipc__printjson_string s (s.length : Int) false =
      34 :: ((s.map printjson_char).flatten ++ [34]) := by
    unfold i3ipc__printjson_string
    have h1 : ((s.length : Int) == -1) = false := by
      simp only [beq_eq_false_iff_ne, ne_eq]
      omega
    simp only [h1, Bool.and_false, Bool.false_eq_true, ↓reduceIte, Int.toNat_ofNat,
      List.append_nil, List.take_length, List.singleton_append, List.cons_append,
      List.nil_append]
  have hl : (s.map printjson_char).flatten.length ≥ s.length := by
    clear hp
    induction s with
    | nil => simp
    | cons c s ih =>
      have hc : 1 ≤ (printjson_char c).length := by
        unfold printjson_char
        repeat' split
        all_goals simp
      simp only [List.map_cons, List.flatten_cons, List.length_append, List.length_cons]
      omega
  have key : i3ipc__json_scan_string (i3ipc__printjson_string s (s.length : Int) false ++ rest)
      = (s, rest) := by
    rw [hp]
    unfold i3ipc__json_scan_string
    simp only [List.cons_append, List.append_assoc, List.singleton_append, List.drop_succ_cons,
      List.drop_zero, List.length_cons, List.length_append, List.nil_append, List.length_nil]
    rw [scan_printed_string s _ rest [] 1 (by omega)]
    simp only [List.nil_append, Prod.mk.injEq, true_and]
    have e : 1 + (s.map printjson_char).flatten.length + 1 =
        ((s.map printjson_char).flatten ++ 34 :: ([] : List Nat)).length + 1 := by
      simp
      omega
    rw [e]
    have := @List.drop_left' Nat (34 :: ((s.map printjson_char).flatten ++ [34])) rest
      (((s.map printjson_char).flatten ++ [34]).length + 1) (by simp)
    simpa using this
  exact ⟨key, by rw [key]⟩


/-! ## Allocation modes -/

/-- `i3ipc__parse_doderived` reads only the view of the parse state. -/
theorem doderived_view (pA pB : I3ipc_parse_state) (h : parse_view pA = parse_view pB)
    (type : I3ipc_type) (field : Nat) (base : Val) :
    i3ipc__parse_doderived pA type field base = i3ipc__parse_doderived pB type field base := by
  simp only [parse_view, Prod.mk.injEq] at h
  obtain ⟨_, _, h1, h2, h3⟩ := h
  have key : ∀ (f0 : I3ipc_field) (fs : List I3ipc_field) (i : Nat) (b : Val),
      doderived_loop pA f0 fs i b = doderived_loop pB f0 fs i b := by
    intro f0 fs
    induction fs with
    | nil => intro i b; rfl
    | cons f fs ih =>
      intro i b
      simp only [doderived_loop, h1, h2, h3, ih]
  unfold i3ipc__parse_doderived
  split
  · exact key _ _ _ _
  · rfl

/-- `i3ipc__parse_alloc` keeps the view, and hands out memory exactly in the second pass. -/
theorem parse_alloc_view (p : I3ipc_parse_state) (size al : Nat) :
    parse_view (i3ipc__parse_alloc p size al).1 = parse_view p ∧
    (i3ipc__parse_alloc p size al).2.2.isSome = p.memory ∧
    (i3ipc__parse_alloc p size al).1.memory = p.memory := by
  unfold i3ipc__parse_alloc
  cases hm : p.memory <;> simp [parse_view, hm]

/-- The view with another token state. -/
theorem parse_view_state (pA pB : I3ipc_parse_state) (h : parse_view pA = parse_view pB)
    (s : I3ipc_json_state) :
    parse_view { pA with state := s } = parse_view { pB with state := s } := by
  simp only [parse_view, Prod.mk.injEq] at h ⊢
  exact ⟨trivial, h.2⟩

/-- The string branch does not depend on the allocation mode. -/
theorem parse_string_modes (pA pB : I3ipc_parse_state) (t : Nat) (b : Option Val)
    (rA : I3ipc_parse_state × Option Val)
    (h : parse_string pA t b = Outcome.done rA)
    (hv : parse_view pA = parse_view pB) (hb : b.isSome = true → pA.memory = true) :
    ∃ rB, parse_string pB t b = Outcome.done rB ∧ modes_result pA rA rB := by
  obtain ⟨sA, aA, nA, mA, cA, zA, eA, tA⟩ := pA
  obtain ⟨sB, aB, nB, mB, cB, zB, eB, tB⟩ := pB
  simp only [parse_view, Prod.mk.injEq] at hv
  obtain ⟨rfl, rfl, rfl, rfl, rfl⟩ := hv
  unfold parse_string at h ⊢
  dsimp only at h ⊢
  split
  · rename_i hc
    rw [if_pos hc] at h
    cases h
  · rename_i hc
    rw [if_neg hc] at h
    cases b with
    | none =>
      dsimp only at h ⊢
      simp only [parse_finish, Outcome.done.injEq] at h ⊢
      subst h
      refine ⟨_, rfl, ?_⟩
      cases cA <;> cases cB <;> cases mA <;>
        simp [modes_result, parse_view, i3ipc__parse_alloc]
    | some v =>
      have hm : mA = true := hb rfl
      subst hm
      dsimp only at h ⊢
      split
      · rename_i ht
        rw [if_pos ht] at h
        simp only [parse_finish, Outcome.done.injEq] at h ⊢
        subst h
        refine ⟨_, rfl, ?_⟩
        cases cA <;> cases cB <;>
          simp [modes_result, parse_view, i3ipc__parse_alloc]
      · rename_i ht
        rw [if_neg ht] at h
        simp only [parse_finish, Outcome.done.injEq] at h ⊢
        subst h
        refine ⟨_, rfl, ?_⟩
        cases cA <;> cases cB <;>
          simp [modes_result, parse_view, i3ipc__parse_alloc]

/-- The primitive branch does not depend on the allocation mode. -/
theorem parse_primitive_modes (pA pB : I3ipc_parse_state) (t : Nat) (b : Option Val)
    (rA : I3ipc_parse_state × Option Val)
    (h : parse_primitive pA t b = Outcome.done rA)
    (hv : parse_view pA = parse_view pB) :
    ∃ rB, parse_primitive pB t b = Outcome.done rB ∧ modes_result pA rA rB := by
  obtain ⟨sA, aA, nA, mA, cA, zA, eA, tA⟩ := pA
  obtain ⟨sB, aB, nB, mB, cB, zB, eB, tB⟩ := pB
  simp only [parse_view, Prod.mk.injEq] at hv
  obtain ⟨rfl, rfl, rfl, rfl, rfl⟩ := hv
  unfold parse_primitive at h ⊢
  dsimp only at h ⊢
  generalize (if (t == I3IPC_TYPE_BOOL) = true then I3IPC_JSON_BOOL else I3IPC_JSON_NUMBER)
    = tt at h ⊢
  by_cases hc : (!(i3ipc__json_match sA tt).1) = true
  · rw [if_pos hc] at h
    cases h
  · rw [if_neg hc] at h ⊢
    cases b with
    | none =>
      dsimp only at h ⊢
      simp only [parse_finish, Outcome.done.injEq] at h ⊢
      subst h
      exact ⟨_, rfl, by simp [modes_result, parse_view]⟩
    | some v =>
      dsimp only at h ⊢
      by_cases h1 : (t == I3IPC_TYPE_BOOL) = true
      · rw [if_pos h1] at h ⊢
        simp only [parse_finish, Outcome.done.injEq] at h ⊢
        subst h
        exact ⟨_, rfl, by simp [modes_result, parse_view]⟩
      · rw [if_neg h1] at h ⊢
        by_cases h2 : (t == I3IPC_TYPE_SIZET) = true
        · rw [if_pos h2] at h ⊢
          simp only [parse_finish, Outcome.done.injEq] at h ⊢
          subst h
          exact ⟨_, rfl, by simp [modes_result, parse_view]⟩
        · rw [if_neg h2] at h ⊢
          by_cases h3 : (t == I3IPC_TYPE_INT) = true
          · rw [if_pos h3] at h ⊢
            simp only [parse_finish, Outcome.done.injEq] at h ⊢
            subst h
            exact ⟨_, rfl, by simp [modes_result, parse_view]⟩
          · rw [if_neg h3] at h ⊢
            by_cases h4 : (t == I3IPC_TYPE_FLOAT) = true
            · rw [if_pos h4] at h ⊢
              simp only [parse_finish, Outcome.done.injEq] at h ⊢
              subst h
              exact ⟨_, rfl, by simp [modes_result, parse_view]⟩
            · rw [if_neg h4] at h
              cases h

/-- The branch for `MAYBE` does not depend on the allocation mode. -/
theorem parse_maybe_modes
    (helper : I3ipc_parse_state → Nat → Nat → Option Val →
      Outcome (I3ipc_parse_state × Option Val))
    (hh : ∀ pA pB t fl b rA, helper pA t fl b = Outcome.done rA →
      parse_view pA = parse_view pB → (b.isSome = true → pA.memory = true) →
      ∃ rB, helper pB t fl b = Outcome.done rB ∧ modes_result pA rA rB)
    (pA pB : I3ipc_parse_state) (type : I3ipc_type) (t fl : Nat) (b : Option Val)
    (rA : I3ipc_parse_state × Option Val)
    (h : parse_maybe helper pA type t fl b = Outcome.done rA)
    (hv : parse_view pA = parse_view pB) (hb : b.isSome = true → pA.memory = true) :
    ∃ rB, parse_maybe helper pB type t fl b = Outcome.done rB ∧ modes_result pA rA rB := by
  obtain ⟨sA, aA, nA, mA, cA, zA, eA, tA⟩ := pA
  obtain ⟨sB, aB, nB, mB, cB, zB, eB, tB⟩ := pB
  simp only [parse_view, Prod.mk.injEq] at hv
  obtain ⟨rfl, rfl, rfl, rfl, rfl⟩ := hv
  unfold parse_maybe at h ⊢
  dsimp only at h ⊢
  by_cases hc : (!(i3ipc__json_trymatch sA I3IPC_JSON_NULL).1) = true
  · rw [if_pos hc] at h ⊢
    by_cases hp : hasflag fl I3IPC_TYPE_ISPTR = true
    · rw [if_pos hp] at h ⊢
      have hA := parse_alloc_view
        ⟨(i3ipc__json_trymatch sA I3IPC_JSON_NULL).2.2, aA, nA, mA, cA, zA, eA, tA⟩
        type.size type.alignment
      have hB := parse_alloc_view
        ⟨(i3ipc__json_trymatch sA I3IPC_JSON_NULL).2.2, aB, nB, mA, cB, zA, eA, tA⟩
        type.size type.alignment
      rw [hA.2.1] at h
      rw [hB.2.1]
      dsimp only at h ⊢
      cases hs : helper (i3ipc__parse_alloc
          ⟨(i3ipc__json_trymatch sA I3IPC_JSON_NULL).2.2, aA, nA, mA, cA, zA, eA, tA⟩
          type.size type.alignment).1 t (clearflag fl I3IPC_TYPE_GROUP_MAYBE)
          (if mA = true then some (zero_of t (clearflag fl I3IPC_TYPE_GROUP_MAYBE))
            else none) with
      | done x =>
        rw [hs] at h
        obtain ⟨rB, hB2, hrel⟩ := hh _ _ _ _ _ _ hs (hA.1.trans hB.1.symm)
          (by intro hi; rw [hA.2.2]; dsimp only; cases mA
              · simp at hi
              · rfl)
        rw [hB2]
        obtain ⟨x1, x2⟩ := x
        obtain ⟨y1, y2⟩ := rB
        dsimp only at h ⊢
        simp only [parse_finish, Outcome.done.injEq] at h ⊢
        subst h
        refine ⟨_, rfl, ?_⟩
        simp only [modes_result, parse_view, Prod.mk.injEq] at hrel ⊢
        obtain ⟨⟨h1, h2, h3, h4, h5⟩, h6, h7⟩ := hrel
        rw [hA.2.2] at h7
        dsimp only at h7
        exact ⟨⟨h1, h2, h3, h4, trivial⟩, by rw [h6], h7⟩
      | fail c => rw [hs] at h; simp at h
      | aborted => rw [hs] at h; simp at h
      | starved => rw [hs] at h; simp at h
    · rw [if_neg hp] at h ⊢
      cases hs : helper ⟨(i3ipc__json_trymatch sA I3IPC_JSON_NULL).2.2, aA, nA, mA, cA, zA, eA, tA⟩
          t (clearflag fl I3IPC_TYPE_GROUP_MAYBE) b with
      | done x =>
        rw [hs] at h
        obtain ⟨rB, hB2, hrel⟩ := hh _
          ⟨(i3ipc__json_trymatch sA I3IPC_JSON_NULL).2.2, aB, nB, mA, cB, zA, eA, tA⟩
          _ _ _ _ hs rfl hb
        rw [hB2]
        obtain ⟨x1, x2⟩ := x
        obtain ⟨y1, y2⟩ := rB
        dsimp only at h ⊢
        simp only [parse_finish, Outcome.done.injEq] at h ⊢
        subst h
        refine ⟨_, rfl, ?_⟩
        simp only [modes_result, parse_view, Prod.mk.injEq] at hrel ⊢
        obtain ⟨⟨h1, h2, h3, h4, h5⟩, h6, h7⟩ := hrel
        exact ⟨⟨h1, h2, h3, h4, trivial⟩, h6, h7⟩
      | fail c => rw [hs] at h; simp at h
      | aborted => rw [hs] at h; simp at h
      | starved => rw [hs] at h; simp at h
  · rw [if_neg hc] at h ⊢
    simp only [parse_finish, Outcome.done.injEq] at h ⊢
    subst h
    refine ⟨_, rfl, ?_⟩
    simp [modes_result, parse_view]

/-- Setting the size of a request keeps the view. -/
theorem set_alloc_size_view (p : I3ipc_parse_state) (i n : Nat) :
    parse_view (set_alloc_size p i n) = parse_view p := rfl

/-- The branch for arrays does not depend on the allocation mode. -/
theorem parse_array_modes
    (loop : I3ipc_parse_state → Nat → Bool → Nat → List Val →
      Outcome (I3ipc_parse_state × Nat × List Val))
    (hh : ∀ pA pB t s i e rA, loop pA t s i e = Outcome.done rA →
      parse_view pA = parse_view pB → (s = true → pA.memory = true) →
      ∃ rB, loop pB t s i e = Outcome.done rB ∧ modes_result pA rA rB)
    (pA pB : I3ipc_parse_state) (type : I3ipc_type) (t : Nat) (b : Option Val)
    (rA : I3ipc_parse_state × Option Val)
    (h : parse_array loop pA type t b = Outcome.done rA)
    (hv : parse_view pA = parse_view pB) :
    ∃ rB, parse_array loop pB type t b = Outcome.done rB ∧ modes_result pA rA rB := by
  have hA := parse_alloc_view pA (2 ^ 64 - 1) type.alignment
  have hB := parse_alloc_view pB (2 ^ 64 - 1) type.alignment
  have hm : pB.memory = pA.memory := by
    simp only [parse_view, Prod.mk.injEq] at hv
    exact hv.2.1.symm
  unfold parse_array at h ⊢
  dsimp only at h ⊢
  rw [hA.2.1] at h
  rw [hB.2.1, hm]
  cases hs : loop (i3ipc__parse_alloc pA (2 ^ 64 - 1) type.alignment).1 t
      (b.isSome && pA.memory) 0 [] with
  | done x =>
    rw [hs] at h
    obtain ⟨rB, hB2, hrel⟩ := hh _ _ _ _ _ _ _ hs (hA.1.trans (hv.trans hB.1.symm))
      (by intro hi; rw [hA.2.2]; simp at hi; exact hi.2)
    rw [hB2]
    obtain ⟨x1, x2, x3⟩ := x
    obtain ⟨y1, y2, y3⟩ := rB
    simp only [modes_result, parse_view, Prod.mk.injEq] at hrel
    obtain ⟨⟨h1, h2, h3, h4, h5⟩, ⟨h6, h6b⟩, h7⟩ := hrel
    subst h6 h6b
    rw [hA.2.2] at h7
    dsimp only at h ⊢
    rw [← h1]
    by_cases he : x1.state.err_flag = true
    · rw [if_pos he] at h
      cases h
    · rw [if_neg he] at h ⊢
      simp only [parse_finish, Outcome.done.injEq] at h ⊢
      subst h
      refine ⟨_, rfl, ?_⟩
      simp only [modes_result, parse_view, Prod.mk.injEq]
      cases b <;> simp [set_alloc_size, h1, ← h2, h7]
  | fail c => rw [hs] at h; simp at h
  | aborted => rw [hs] at h; simp at h
  | starved => rw [hs] at h; simp at h

/-- The inline branch does not depend on the allocation mode. -/
theorem parse_inline_modes
    (helper : I3ipc_parse_state → Nat → Nat → Option Val →
      Outcome (I3ipc_parse_state × Option Val))
    (hh : ∀ pA pB t fl b rA, helper pA t fl b = Outcome.done rA →
      parse_view pA = parse_view pB → (b.isSome = true → pA.memory = true) →
      ∃ rB, helper pB t fl b = Outcome.done rB ∧ modes_result pA rA rB)
    (pA pB : I3ipc_parse_state) (type : I3ipc_type) (b : Option Val)
    (rA : I3ipc_parse_state × Option Val)
    (h : parse_inline helper pA type b = Outcome.done rA)
    (hv : parse_view pA = parse_view pB) (hb : b.isSome = true → pA.memory = true) :
    ∃ rB, parse_inline helper pB type b = Outcome.done rB ∧ modes_result pA rA rB := by
  unfold parse_inline at h ⊢
  cases hf : type.fields with
  | nil => rw [hf] at h; cases h
  | cons field others =>
    rw [hf] at h
    dsimp only at h ⊢
    by_cases hc : (others.any (fun f => !hasflag f.flags I3IPC_TYPE_GROUP_DERIVED)) = true
    · rw [if_pos hc] at h
      cases h
    · rw [if_neg hc] at h ⊢
      cases hs : helper pA field.type.toNat field.flags (b.map (fun b => b.field 0)) with
      | done x =>
        rw [hs] at h
        obtain ⟨rB, hB2, hrel⟩ := hh _ pB _ _ _ _ hs hv
          (by intro hi; apply hb; cases b <;> simp at hi ⊢)
        rw [hB2]
        obtain ⟨x1, x2⟩ := x
        obtain ⟨y1, y2⟩ := rB
        obtain ⟨h1, h6, h7⟩ := hrel
        dsimp only at h1 h6 h7
        subst h6
        dsimp only at h ⊢
        simp only [parse_finish, Outcome.done.injEq] at h ⊢
        subst h
        refine ⟨_, rfl, ?_⟩
        have hd := doderived_view x1 y1 h1 type 0
        simp only [parse_view, Prod.mk.injEq] at h1
        simp only [modes_result, parse_view, Prod.mk.injEq]
        refine ⟨⟨h1.1, h1.2.1, h1.2.2.1, trivial⟩, ?_, h7⟩
        cases b <;> cases x2 <;> simp [hd]
      | fail c => rw [hs] at h; simp at h
      | aborted => rw [hs] at h; simp at h
      | starved => rw [hs] at h; simp at h

/-- The record branch does not depend on the allocation mode. -/
theorem parse_record_modes
    (loop : I3ipc_parse_state → I3ipc_type → Option Nat → Option Val →
      Outcome (I3ipc_parse_state × Option Val))
    (hh : ∀ pA pB ty f b rA, loop pA ty f b = Outcome.done rA →
      parse_view pA = parse_view pB → (b.isSome = true → pA.memory = true) →
      ∃ rB, loop pB ty f b = Outcome.done rB ∧ modes_result pA rA rB)
    (pA pB : I3ipc_parse_state) (type : I3ipc_type) (b : Option Val)
    (rA : I3ipc_parse_state × Option Val)
    (h : parse_record loop pA type b = Outcome.done rA)
    (hv : parse_view pA = parse_view pB) (hb : b.isSome = true → pA.memory = true) :
    ∃ rB, parse_record loop pB type b = Outcome.done rB ∧ modes_result pA rA rB := by
  unfold parse_record at h ⊢
  cases hs : loop pA type none b with
  | done x =>
    rw [hs] at h
    obtain ⟨rB, hB2, hrel⟩ := hh _ pB _ _ _ _ hs hv hb
    rw [hB2]
    obtain ⟨x1, x2⟩ := x
    obtain ⟨y1, y2⟩ := rB
    obtain ⟨h1, h6, h7⟩ := hrel
    dsimp only at h1 h6 h7
    subst h6
    simp only [parse_view, Prod.mk.injEq] at h1
    dsimp only at h ⊢
    rw [← h1.1]
    by_cases he : x1.state.err_flag = true
    · rw [if_pos he] at h
      cases h
    · rw [if_neg he] at h ⊢
      simp only [parse_finish, Outcome.done.injEq] at h ⊢
      subst h
      refine ⟨_, rfl, ?_⟩
      simp only [modes_result, parse_view, Prod.mk.injEq]
      exact ⟨⟨h1.1, h1.2.1, h1.2.2.1, trivial⟩, trivial, h7⟩
  | fail c => rw [hs] at h; simp at h
  | aborted => rw [hs] at h; simp at h
  | starved => rw [hs] at h; simp at h

/-- The body of the array loop does not depend on the allocation mode. -/
theorem array_loop_step_modes
    (helper : I3ipc_parse_state → Nat → Nat → Option Val →
      Outcome (I3ipc_parse_state × Option Val))
    (again : I3ipc_parse_state → Nat → Bool → Nat → List Val →
      Outcome (I3ipc_parse_state × Nat × List Val))
    (hh : ∀ pA pB t fl b rA, helper pA t fl b = Outcome.done rA →
      parse_view pA = parse_view pB → (b.isSome = true → pA.memory = true) →
      ∃ rB, helper pB t fl b = Outcome.done rB ∧ modes_result pA rA rB)
    (ha : ∀ pA pB t s i e rA, again pA t s i e = Outcome.done rA →
      parse_view pA = parse_view pB → (s = true → pA.memory = true) →
      ∃ rB, again pB t s i e = Outcome.done rB ∧ modes_result pA rA rB)
    (pA pB : I3ipc_parse_state) (t : Nat) (s : Bool) (i : Nat) (e : List Val)
    (rA : I3ipc_parse_state × Nat × List Val)
    (h : array_loop_step helper again pA t s i e = Outcome.done rA)
    (hv : parse_view pA = parse_view pB) (hb : s = true → pA.memory = true) :
    ∃ rB, array_loop_step helper again pB t s i e = Outcome.done rB ∧
      modes_result pA rA rB := by
  obtain ⟨sA, aA, nA, mA, cA, zA, eA, tA⟩ := pA
  obtain ⟨sB, aB, nB, mB, cB, zB, eB, tB⟩ := pB
  simp only [parse_view, Prod.mk.injEq] at hv
  obtain ⟨rfl, rfl, rfl, rfl, rfl⟩ := hv
  unfold array_loop_step at h ⊢
  dsimp only at h ⊢
  by_cases hc : (!(i3ipc__json_looparr sA i).1) = true
  · rw [if_pos hc] at h ⊢
    simp only [Outcome.done.injEq] at h ⊢
    subst h
    exact ⟨_, rfl, by simp [modes_result, parse_view]⟩
  · rw [if_neg hc] at h ⊢
    cases hs : helper ⟨(i3ipc__json_looparr sA i).2, aA, nA, mA, cA, zA, eA, tA⟩ t 0
        (if s = true then some (zero_of t 0) else none) with
    | done x =>
      rw [hs] at h
      obtain ⟨rB, hB2, hrel⟩ := hh _ ⟨(i3ipc__json_looparr sA i).2, aB, nB, mA, cB, zA, eA, tA⟩
        _ _ _ _ hs rfl (by intro hi; apply hb; cases s
                           · simp at hi
                           · rfl)
      rw [hB2]
      obtain ⟨x1, x2⟩ := x
      obtain ⟨y1, y2⟩ := rB
      obtain ⟨h1, h6, h7⟩ := hrel
      dsimp only at h1 h6 h7
      subst h6
      dsimp only at h ⊢
      obtain ⟨rB, hB3, hrel3⟩ := ha _ y1 _ _ _ _ _ h h1 (by intro hi; rw [h7]; exact hb hi)
      refine ⟨rB, hB3, ?_⟩
      obtain ⟨k1, k2, k3⟩ := hrel3
      exact ⟨k1, k2, k3.trans h7⟩
    | fail c => rw [hs] at h; simp at h
    | aborted => rw [hs] at h; simp at h
    | starved => rw [hs] at h; simp at h

/-- One round of the record loop does not depend on the allocation mode. -/
theorem fields_loop_step_modes
    (loopfields : I3ipc_json_state → I3ipc_type → Option Nat →
      Outcome (Bool × Nat × I3ipc_json_state))
    (helper : I3ipc_parse_state → Nat → Nat → Option Val →
      Outcome (I3ipc_parse_state × Option Val))
    (again : I3ipc_parse_state → I3ipc_type → Option Nat → Option Val →
      Outcome (I3ipc_parse_state × Option Val))
    (hh : ∀ pA pB t fl b rA, helper pA t fl b = Outcome.done rA →
      parse_view pA = parse_view pB → (b.isSome = true → pA.memory = true) →
      ∃ rB, helper pB t fl b = Outcome.done rB ∧ modes_result pA rA rB)
    (ha : ∀ pA pB ty f b rA, again pA ty f b = Outcome.done rA →
      parse_view pA = parse_view pB → (b.isSome = true → pA.memory = true) →
      ∃ rB, again pB ty f b = Outcome.done rB ∧ modes_result pA rA rB)
    (pA pB : I3ipc_parse_state) (type : I3ipc_type) (f : Option Nat) (b : Option Val)
    (rA : I3ipc_parse_state × Option Val)
    (h : fields_loop_step loopfields helper again pA type f b = Outcome.done rA)
    (hv : parse_view pA = parse_view pB) (hb : b.isSome = true → pA.memory = true) :
    ∃ rB, fields_loop_step loopfields helper again pB type f b = Outcome.done rB ∧
      modes_result pA rA rB := by
  obtain ⟨sA, aA, nA, mA, cA, zA, eA, tA⟩ := pA
  obtain ⟨sB, aB, nB, mB, cB, zB, eB, tB⟩ := pB
  simp only [parse_view, Prod.mk.injEq] at hv
  obtain ⟨rfl, rfl, rfl, rfl, rfl⟩ := hv
  unfold fields_loop_step at h ⊢
  dsimp only at h ⊢
  cases hl : loopfields sA type f with
  | done x =>
    obtain ⟨more, field, st⟩ := x
    rw [hl] at h
    dsimp only at h ⊢
    by_cases hc : (!more) = true
    · rw [if_pos hc] at h ⊢
      simp only [Outcome.done.injEq] at h ⊢
      subst h
      exact ⟨_, rfl, by simp [modes_result, parse_view]⟩
    · rw [if_neg hc] at h ⊢
      cases hg : type.fields.get? field with
      | none => rw [hg] at h; cases h
      | some fd =>
        rw [hg] at h
        dsimp only at h ⊢
        cases hs : helper ⟨st, aA, nA, mA, cA, zA, eA, tA⟩ fd.type.toNat fd.flags
            (b.map (fun b => b.field field)) with
        | done x =>
          rw [hs] at h
          obtain ⟨rB, hB2, hrel⟩ := hh _ ⟨st, aB, nB, mA, cB, zA, eA, tA⟩ _ _ _ _ hs rfl
            (by intro hi; apply hb; cases b <;> simp at hi ⊢)
          rw [hB2]
          obtain ⟨x1, x2⟩ := x
          obtain ⟨y1, y2⟩ := rB
          obtain ⟨h1, h6, h7⟩ := hrel
          dsimp only at h1 h6 h7
          subst h6
          dsimp only at h ⊢
          have hd := doderived_view x1 y1 h1 type field
          have fin : ∀ (v : Option Val), again x1 type (some field) v = Outcome.done rA →
              (v.isSome = true → b.isSome = true) →
              ∃ rB, again y1 type (some field) v = Outcome.done rB ∧
                modes_result ⟨sA, aA, nA, mA, cA, zA, eA, tA⟩ rA rB := by
            intro v hv hi
            obtain ⟨rB, hB3, k1, k2, k3⟩ := ha _ y1 _ _ _ _ hv h1
              (by intro hj; rw [h7]; exact hb (hi hj))
            exact ⟨rB, hB3, k1, k2, k3.trans h7⟩
          rcases b with _ | bv
          · exact fin _ h (fun hj => hj)
          · rcases x2 with _ | xv
            · exact fin _ h (fun hj => hj)
            · dsimp only at h ⊢
              rw [← hd]
              exact fin _ h (fun _ => rfl)
        | fail c => rw [hs] at h; simp at h
        | aborted => rw [hs] at h; simp at h
        | starved => rw [hs] at h; simp at h
  | fail c => rw [hl] at h; simp at h
  | aborted => rw [hl] at h; simp at h
  | starved => rw [hl] at h; simp at h

/-- `i3ipc__parse_helper` and its two loops do not depend on the allocation mode: from two
states with the same view, a result of one run is matched by a result of the other, with the
same view and the same value. -/
theorem parse_helper_modes : ∀ (fuel : Nat),
    (∀ pA pB t fl b rA, i3ipc__parse_helper fuel pA t fl b = Outcome.done rA →
      parse_view pA = parse_view pB → (b.isSome = true → pA.memory = true) →
      ∃ rB, i3ipc__parse_helper fuel pB t fl b = Outcome.done rB ∧ modes_result pA rA rB) ∧
    (∀ pA pB t s i e rA, parse_array_loop fuel pA t s i e = Outcome.done rA →
      parse_view pA = parse_view pB → (s = true → pA.memory = true) →
      ∃ rB, parse_array_loop fuel pB t s i e = Outcome.done rB ∧ modes_result pA rA rB) ∧
    (∀ pA pB ty f b rA, parse_fields_loop fuel pA ty f b = Outcome.done rA →
      parse_view pA = parse_view pB → (b.isSome = true → pA.memory = true) →
      ∃ rB, parse_fields_loop fuel pB ty f b = Outcome.done rB ∧ modes_result pA rA rB) := by
  intro fuel
  induction fuel with
  | zero =>
    refine ⟨?_, ?_, ?_⟩ <;> intro _ _ _ _ _ <;> intros <;>
      simp_all [i3ipc__parse_helper, parse_array_loop, parse_fields_loop]
  | succ fuel ih =>
    obtain ⟨ih1, ih2, ih3⟩ := ih
    refine ⟨?_, ?_, ?_⟩
    · intro pA pB t fl b rA h hv hb
      unfold i3ipc__parse_helper at h ⊢
      by_cases c0 : (t == I3IPC_TYPE_EVENT) = true
      · rw [if_pos c0] at h
        cases h
      · rw [if_neg c0] at h ⊢
        cases hty : i3ipc__type_get t with
        | none => rw [hty] at h; cases h
        | some type =>
          rw [hty] at h
          dsimp only at h ⊢
          by_cases c1 : hasflag fl I3IPC_TYPE_GROUP_MAYBE = true
          · rw [if_pos c1] at h ⊢
            exact parse_maybe_modes _ ih1 _ _ _ _ _ _ _ h hv hb
          · rw [if_neg c1] at h ⊢
            by_cases c2 : ((t == I3IPC_TYPE_STRING && fl == 0)
                || (t == I3IPC_TYPE_CHAR && hasflag fl I3IPC_TYPE_ISARRAY)) = true
            · rw [if_pos c2] at h ⊢
              exact parse_string_modes _ _ _ _ _ h hv hb
            · rw [if_neg c2] at h ⊢
              by_cases c3 : hasflag fl I3IPC_TYPE_ISARRAY = true
              · rw [if_pos c3] at h ⊢
                exact parse_array_modes _ ih2 _ _ _ _ _ _ h hv
              · rw [if_neg c3] at h ⊢
                by_cases c4 : type.is_inline = true
                · rw [if_pos c4] at h ⊢
                  exact parse_inline_modes _ ih1 _ _ _ _ _ h hv hb
                · rw [if_neg c4] at h ⊢
                  by_cases c5 : (fl == 0 && type.is_primitive) = true
                  · rw [if_pos c5] at h ⊢
                    exact parse_primitive_modes _ _ _ _ _ h hv
                  · rw [if_neg c5] at h ⊢
                    by_cases c6 : (fl == 0) = true
                    · rw [if_pos c6] at h ⊢
                      exact parse_record_modes _ ih3 _ _ _ _ _ h hv hb
                    · rw [if_neg c6] at h
                      cases h
    · intro pA pB t s i e rA h hv hb
      unfold parse_array_loop at h ⊢
      exact array_loop_step_modes _ _ ih1 ih2 _ _ _ _ _ _ _ h hv hb
    · intro pA pB ty f b rA h hv hb
      unfold parse_fields_loop at h ⊢
      exact fields_loop_step_modes _ _ _ ih1 ih3 _ _ _ _ _ _ h hv hb

/-- The first pass does not depend on the allocation mode, up to the requests. -/
theorem first_pass_modes (sA sB : Bool) (msg_type : Int) (payload : List Nat)
    (message_type : Int) (type_id : Nat) (tokens : List I3ipc_json_token) (type : I3ipc_type)
    (pA : I3ipc_parse_state)
    (h : parse_first_pass sA msg_type payload message_type type_id
      = Outcome.done (tokens, type, pA)) :
    ∃ pB, parse_first_pass sB msg_type payload message_type type_id
        = Outcome.done (tokens, type, pB) ∧ parse_view pA = parse_view pB := by
  unfold parse_first_pass at h ⊢
  by_cases c0 : (msg_type != message_type) = true
  · rw [if_pos c0] at h
    cases h
  · rw [if_neg c0] at h ⊢
    cases hsc : i3ipc__json_scan payload with
    | done toks =>
      rw [hsc] at h
      dsimp only at h ⊢
      cases hty : i3ipc__type_get type_id with
      | none => rw [hty] at h; cases h
      | some ty =>
        rw [hty] at h
        dsimp only at h ⊢
        cases hs : i3ipc__parse_helper (parse_fuel toks.length)
            (i3ipc__parse_alloc ⟨⟨toks, false⟩, [], 0, false, !sA, 0, none, false⟩
              ty.size ty.alignment).1 type_id 0 none with
        | done x =>
          rw [hs] at h
          have hvA := parse_alloc_view ⟨⟨toks, false⟩, [], 0, false, !sA, 0, none, false⟩
            ty.size ty.alignment
          have hvB := parse_alloc_view ⟨⟨toks, false⟩, [], 0, false, !sB, 0, none, false⟩
            ty.size ty.alignment
          obtain ⟨rB, hB, h1, h2, h3⟩ := (parse_helper_modes _).1 _
            (i3ipc__parse_alloc ⟨⟨toks, false⟩, [], 0, false, !sB, 0, none, false⟩
              ty.size ty.alignment).1 _ _ _ _ hs
            (hvA.1.trans (Eq.trans rfl hvB.1.symm))
            (by intro hi; cases hi)
          rw [hB]
          obtain ⟨x1, x2⟩ := x
          obtain ⟨y1, y2⟩ := rB
          dsimp only at h h1 ⊢
          simp only [parse_view, Prod.mk.injEq] at h1
          rw [← h1.1]
          by_cases c1 : (!(i3ipc__json_match x1.state 0).1) = true
          · rw [if_pos c1] at h
            cases h
          · rw [if_neg c1] at h ⊢
            simp only [Outcome.done.injEq, Prod.mk.injEq] at h ⊢
            obtain ⟨k1, k2, k3⟩ := h
            subst k3
            refine ⟨_, ⟨k1, k2, rfl⟩, ?_⟩
            simp only [parse_view, Prod.mk.injEq]
            exact ⟨trivial, h1.2⟩
        | fail c => rw [hs] at h; simp at h
        | aborted => rw [hs] at h; simp at h
        | starved => rw [hs] at h; simp at h
    | fail c => rw [hsc] at h; simp at h
    | aborted => rw [hsc] at h; simp at h
    | starved => rw [hsc] at h; simp at h

/-- A record parsed in one allocation mode is parsed in the other. -/
theorem parse_try_modes (sA sB : Bool) (msg_type : Int) (payload : List Nat)
    (message_type : Int) (type_id : Nat) (data : Val)
    (h : i3ipc_parse_try sA msg_type payload message_type type_id = Outcome.done data) :
    i3ipc_parse_try sB msg_type payload message_type type_id = Outcome.done data := by
  unfold i3ipc_parse_try at h ⊢
  cases hf : parse_first_pass sA msg_type payload message_type type_id with
  | done x =>
    obtain ⟨tokens, type, pA⟩ := x
    rw [hf] at h
    obtain ⟨pB, hB, hv⟩ := first_pass_modes sA sB _ _ _ _ _ _ _ hf
    rw [hB]
    dsimp only at h ⊢
    simp only [parse_view, Prod.mk.injEq] at hv
    cases hs : i3ipc__parse_helper (parse_fuel tokens.length)
        (i3ipc__parse_alloc
          { pA with
            state := { pA.state with tokens := tokens },
            allocs := (layout_allocs pA.requests 0).1, allocs_size := 0, memory := true }
          type.size type.alignment).1 type_id 0 (some (zero_of type_id 0)) with
    | done x =>
      rw [hs] at h
      have hvA := parse_alloc_view
          { pA with
            state := { pA.state with tokens := tokens },
            allocs := (layout_allocs pA.requests 0).1, allocs_size := 0, memory := true }
          type.size type.alignment
      have hvB := parse_alloc_view
          { pB with
            state := { pB.state with tokens := tokens },
            allocs := (layout_allocs pB.requests 0).1, allocs_size := 0, memory := true }
          type.size type.alignment
      obtain ⟨rB, hB2, h1, h2, h3⟩ := (parse_helper_modes _).1 _
        (i3ipc__parse_alloc
          { pB with
            state := { pB.state with tokens := tokens },
            allocs := (layout_allocs pB.requests 0).1, allocs_size := 0, memory := true }
          type.size type.alignment).1 _ _ _ _ hs
        (hvA.1.trans (Eq.trans
          (by simp only [parse_view, Prod.mk.injEq]
              exact ⟨by rw [hv.1], trivial, hv.2.2⟩)
          hvB.1.symm))
        (by intro _; rw [hvA.2.2])
      rw [hB2]
      obtain ⟨x1, x2⟩ := x
      obtain ⟨y1, y2⟩ := rB
      dsimp only at h2
      subst h2
      cases x2 with
      | none => exact h
      | some v => exact h
    | fail c => rw [hs] at h; simp at h
    | aborted => rw [hs] at h; simp at h
    | starved => rw [hs] at h; simp at h
  | fail c => rw [hf] at h; simp at h
  | aborted => rw [hf] at h; simp at h
  | starved => rw [hf] at h; simp at h

/-- C38 Allocation mode does not change the result: for every message, expected type and
type id, `i3ipc_parse_try` succeeds with static allocation exactly when it succeeds with
owning allocation, and the two parsed records are equal. -/
theorem allocation_mode_is_transparent (msg_type : Int) (payload : List Nat)
    (message_type : Int) (type_id : Nat) :
    (i3ipc_parse_try true msg_type payload message_type type_id).isDone
      = (i3ipc_parse_try false msg_type payload message_type type_id).isDone ∧
    (i3ipc_parse_try true msg_type payload message_type type_id).get?
      = (i3ipc_parse_try false msg_type payload message_type type_id).get? := by
  cases hA : i3ipc_parse_try true msg_type payload message_type type_id with
  | done a =>
    rw [parse_try_modes true false _ _ _ _ _ hA]
    exact ⟨rfl, rfl⟩
  | fail c =>
    cases hB : i3ipc_parse_try false msg_type payload message_type type_id with
    | done a =>
      rw [parse_try_modes false true _ _ _ _ _ hB] at hA
      cases hA
    | fail c => exact ⟨rfl, rfl⟩
    | aborted => exact ⟨rfl, rfl⟩
    | starved => exact ⟨rfl, rfl⟩
  | aborted =>
    cases hB : i3ipc_parse_try false msg_type payload message_type type_id with
    | done a =>
      rw [parse_try_modes false true _ _ _ _ _ hB] at hA
      cases hA
    | fail c => exact ⟨rfl, rfl⟩
    | aborted => exact ⟨rfl, rfl⟩
    | starved => exact ⟨rfl, rfl⟩
  | starved =>
    cases hB : i3ipc_parse_try false msg_type payload message_type type_id with
    | done a =>
      rw [parse_try_modes false true _ _ _ _ _ hB] at hA
      cases hA
    | fail c => exact ⟨rfl, rfl⟩
    | aborted => exact ⟨rfl, rfl⟩
    | starved => exact ⟨rfl, rfl⟩


/-! ## The two passes -/

/-- A type of the registry is an entry of the table, stored at its own id. -/
theorem type_get_mem (type_id : Nat) (type : I3ipc_type)
    (h : i3ipc__type_get type_id = some type) :
    type ∈ i3ipc__global_types ∧ type.type = (type_id : Int) := by
  unfold i3ipc__type_get at h
  split at h
  · split at h
    · rename_i t heq
      split at h
      · rename_i ht
        cases h
        exact ⟨List.get?_mem heq, by simpa using ht⟩
      · cases h
    · cases h
  · cases h

/-- The primitive types of the registry are `bool`, `char`, `int`, `float` and `size_t`. -/
theorem primitive_types (type_id : Nat) (type : I3ipc_type)
    (h : i3ipc__type_get type_id = some type) (hp : type.is_primitive = true) :
    type_id = I3IPC_TYPE_BOOL ∨ type_id = I3IPC_TYPE_CHAR ∨ type_id = I3IPC_TYPE_INT ∨
    type_id = I3IPC_TYPE_FLOAT ∨ type_id = I3IPC_TYPE_SIZET := by
  have hall : i3ipc__global_types.all (fun t =>
      !t.is_primitive || decide (t.type ∈ [(0 : Int), 1, 2, 3, 4])) = true := by
    decide!
  obtain ⟨hmem, ht⟩ := type_get_mem type_id type h
  have := List.all_eq_true.mp hall type hmem
  simp only [hp, Bool.not_true, Bool.false_or, decide_eq_true_eq, ht] at this
  simp only [I3IPC_TYPE_BOOL, I3IPC_TYPE_CHAR, I3IPC_TYPE_INT, I3IPC_TYPE_FLOAT,
    I3IPC_TYPE_SIZET]
  simp only [List.mem_cons, List.mem_singleton, List.not_mem_nil, or_false] at this
  omega

/-- In the registry a member of type `char` is always an array. -/
theorem fields_no_single_char (type_id : Nat) (type : I3ipc_type)
    (h : i3ipc__type_get type_id = some type) (f : I3ipc_field) (hf : f ∈ type.fields) :
    no_single_char f.type.toNat f.flags := by
  have hall : i3ipc__global_types.all (fun t => t.fields.all (fun f =>
      !(f.type.toNat == I3IPC_TYPE_CHAR) || hasflag f.flags I3IPC_TYPE_ISARRAY)) = true := by
    decide!
  obtain ⟨hmem, _⟩ := type_get_mem type_id type h
  have := List.all_eq_true.mp (List.all_eq_true.mp hall type hmem) f hf
  intro hc
  simpa [hc] using this

/-- Two stretches of a pass that each keep the plan. -/
theorem plan_kept_trans {a b c : I3ipc_parse_state} (h1 : plan_kept a b)
    (h2 : plan_kept b c) : plan_kept a c :=
  ⟨h2.1.trans h1.1, h2.2.trans h1.2⟩

/-- The string branch: the second pass follows the first. -/
theorem parse_string_step (p1 p2 : I3ipc_parse_state) (t : Nat) (b : Val)
    (r1 : I3ipc_parse_state × Option Val)
    (h : parse_string p1 t none = Outcome.done r1) (hl : passes_in_step p1 p2) :
    ∃ q2 v, parse_string p2 t (some b) = Outcome.done (q2, some v) ∧
      passes_in_step r1.1 q2 ∧ plan_kept p2 q2 := by
  obtain ⟨s1, a1, n1, m1, c1, z1, e1, t1⟩ := p1
  obtain ⟨s2, a2, n2, m2, c2, z2, e2, t2⟩ := p2
  simp only [passes_in_step] at hl
  obtain ⟨rfl, rfl, rfl, rfl, rfl⟩ := hl
  unfold parse_string at h ⊢
  dsimp only at h ⊢
  by_cases hc : (!(i3ipc__json_match s1 I3IPC_JSON_STRING).1) = true
  · rw [if_pos hc] at h
    cases h
  · rw [if_neg hc] at h ⊢
    simp only [parse_finish, Outcome.done.injEq] at h
    subst h
    by_cases ht : (t == I3IPC_TYPE_STRING) = true
    · rw [if_pos ht]
      refine ⟨_, _, rfl, ?_⟩
      cases c1 <;> simp [passes_in_step, plan_kept, i3ipc__parse_alloc]
    · rw [if_neg ht]
      refine ⟨_, _, rfl, ?_⟩
      cases c1 <;> simp [passes_in_step, plan_kept, i3ipc__parse_alloc]

/-- The primitive branch: the second pass follows the first. -/
theorem parse_primitive_step (p1 p2 : I3ipc_parse_state) (t : Nat) (b : Val)
    (r1 : I3ipc_parse_state × Option Val)
    (h : parse_primitive p1 t none = Outcome.done r1) (hl : passes_in_step p1 p2)
    (ht : t = I3IPC_TYPE_BOOL ∨ t = I3IPC_TYPE_INT ∨ t = I3IPC_TYPE_FLOAT ∨
      t = I3IPC_TYPE_SIZET) :
    ∃ q2 v, parse_primitive p2 t (some b) = Outcome.done (q2, some v) ∧
      passes_in_step r1.1 q2 ∧ plan_kept p2 q2 := by
  obtain ⟨s1, a1, n1, m1, c1, z1, e1, t1⟩ := p1
  obtain ⟨s2, a2, n2, m2, c2, z2, e2, t2⟩ := p2
  simp only [passes_in_step] at hl
  obtain ⟨rfl, rfl, rfl, rfl, rfl⟩ := hl
  unfold parse_primitive at h ⊢
  dsimp only at h ⊢
  generalize (if (t == I3IPC_TYPE_BOOL) = true then I3IPC_JSON_BOOL else I3IPC_JSON_NUMBER)
    = tt at h ⊢
  by_cases hc : (!(i3ipc__json_match s1 tt).1) = true
  · rw [if_pos hc] at h
    cases h
  · rw [if_neg hc] at h ⊢
    simp only [parse_finish, Outcome.done.injEq] at h
    subst h
    rcases ht with rfl | rfl | rfl | rfl
    · exact ⟨_, _, rfl, by simp [passes_in_step, plan_kept]⟩
    · exact ⟨_, _, rfl, by simp [passes_in_step, plan_kept]⟩
    · exact ⟨_, _, rfl, by simp [passes_in_step, plan_kept]⟩
    · exact ⟨_, _, rfl, by simp [passes_in_step, plan_kept]⟩

/-- Clearing the `MAYBE` flags keeps the array flag. -/
theorem clearflag_maybe_isarray (fl : Nat) (h : hasflag fl I3IPC_TYPE_ISARRAY = true) :
    hasflag (clearflag fl I3IPC_TYPE_GROUP_MAYBE) I3IPC_TYPE_ISARRAY = true := by
  simp only [hasflag, clearflag, I3IPC_TYPE_ISARRAY, I3IPC_TYPE_GROUP_MAYBE, bne_iff_ne] at h ⊢
  have e : (511 ^^^ 24 : Nat) = 487 := by decide
  rw [e]
  intro h0
  apply h
  apply Nat.eq_of_testBit_eq
  intro i
  have := congrArg (fun n => n.testBit i) h0
  simp only [Nat.testBit_and, Nat.zero_testBit] at this ⊢
  cases i with
  | zero => simpa using this
  | succ i =>
    have h1 : Nat.testBit 1 (i + 1) = false := by
      rw [Nat.testBit_succ]
      simp
    rw [h1]
    simp

/-- The branch for `MAYBE`: the second pass follows the first. -/
theorem parse_maybe_step
    (helper : I3ipc_parse_state → Nat → Nat → Option Val →
      Outcome (I3ipc_parse_state × Option Val))
    (hh : ∀ p1 p2 t fl r1 b, helper p1 t fl none = Outcome.done r1 →
      passes_in_step p1 p2 → no_single_char t fl →
      ∃ q2 v, helper p2 t fl (some b) = Outcome.done (q2, some v) ∧
        passes_in_step r1.1 q2 ∧ plan_kept p2 q2)
    (p1 p2 : I3ipc_parse_state) (type : I3ipc_type) (t fl : Nat) (b : Val)
    (r1 : I3ipc_parse_state × Option Val)
    (h : parse_maybe helper p1 type t fl none = Outcome.done r1)
    (hl : passes_in_step p1 p2) (hc : no_single_char t fl) :
    ∃ q2 v, parse_maybe helper p2 type t fl (some b) = Outcome.done (q2, some v) ∧
      passes_in_step r1.1 q2 ∧ plan_kept p2 q2 := by
  obtain ⟨s1, a1, n1, m1, c1, z1, e1, t1⟩ := p1
  obtain ⟨s2, a2, n2, m2, c2, z2, e2, t2⟩ := p2
  simp only [passes_in_step] at hl
  obtain ⟨rfl, rfl, rfl, rfl, rfl⟩ := hl
  have hc2 : no_single_char t (clearflag fl I3IPC_TYPE_GROUP_MAYBE) :=
    fun ht => clearflag_maybe_isarray fl (hc ht)
  unfold parse_maybe at h ⊢
  dsimp only at h ⊢
  by_cases hm : (!(i3ipc__json_trymatch s1 I3IPC_JSON_NULL).1) = true
  · rw [if_pos hm] at h ⊢
    by_cases hp : hasflag fl I3IPC_TYPE_ISPTR = true
    · rw [if_pos hp] at h ⊢
      simp only [i3ipc__parse_alloc, Bool.not_false, Bool.not_true, ↓reduceIte,
        Option.isSome_none, Option.isSome_some, Bool.false_eq_true] at h ⊢
      cases hs : helper ⟨(i3ipc__json_trymatch s1 I3IPC_JSON_NULL).2.2,
          (if n1 < a1.length then a1.set n1 ⟨type.size, type.alignment⟩
            else a1 ++ [⟨type.size, type.alignment⟩]), n1 + 1, false, c1, z1, e1, t1⟩
          t (clearflag fl I3IPC_TYPE_GROUP_MAYBE) none with
      | done x =>
        rw [hs] at h
        obtain ⟨q2, v, hB, hl2, ha2⟩ := hh _
          ⟨(i3ipc__json_trymatch s1 I3IPC_JSON_NULL).2.2, a2, n1 + 1, true, c1, z2, e2, t2⟩
          _ _ _ (zero_of t (clearflag fl I3IPC_TYPE_GROUP_MAYBE)) hs
          ⟨rfl, rfl, rfl, rfl, rfl⟩ hc2
        rw [hB]
        obtain ⟨x1, x2⟩ := x
        dsimp only at h ⊢
        simp only [parse_finish, Outcome.done.injEq] at h ⊢
        subst h
        refine ⟨_, _, rfl, ?_, ha2⟩
        simpa [passes_in_step] using hl2
      | fail c => rw [hs] at h; simp at h
      | aborted => rw [hs] at h; simp at h
      | starved => rw [hs] at h; simp at h
    · rw [if_neg hp] at h ⊢
      cases hs : helper ⟨(i3ipc__json_trymatch s1 I3IPC_JSON_NULL).2.2, a1, n1, false, c1,
          z1, e1, t1⟩ t (clearflag fl I3IPC_TYPE_GROUP_MAYBE) none with
      | done x =>
        rw [hs] at h
        obtain ⟨q2, v, hB, hl2, ha2⟩ := hh _
          ⟨(i3ipc__json_trymatch s1 I3IPC_JSON_NULL).2.2, a2, n1, true, c1, z2, e2, t2⟩
          _ _ _ b hs ⟨rfl, rfl, rfl, rfl, rfl⟩ hc2
        rw [hB]
        obtain ⟨x1, x2⟩ := x
        dsimp only at h ⊢
        simp only [parse_finish, Outcome.done.injEq] at h ⊢
        subst h
        refine ⟨_, _, rfl, ?_, ha2⟩
        simpa [passes_in_step] using hl2
      | fail c => rw [hs] at h; simp at h
      | aborted => rw [hs] at h; simp at h
      | starved => rw [hs] at h; simp at h
  · rw [if_neg hm] at h ⊢
    simp only [parse_finish, Outcome.done.injEq] at h ⊢
    subst h
    exact ⟨_, _, rfl, by simp [passes_in_step, plan_kept]⟩

/-- The body of the array loop: the second pass follows the first, counts the same number
of elements, and stores one value for each element. -/
theorem array_loop_step_step
    (helper : I3ipc_parse_state → Nat → Nat → Option Val →
      Outcome (I3ipc_parse_state × Option Val))
    (again : I3ipc_parse_state → Nat → Bool → Nat → List Val →
      Outcome (I3ipc_parse_state × Nat × List Val))
    (hh : ∀ p1 p2 t fl r1 b, helper p1 t fl none = Outcome.done r1 →
      passes_in_step p1 p2 → no_single_char t fl →
      ∃ q2 v, helper p2 t fl (some b) = Outcome.done (q2, some v) ∧
        passes_in_step r1.1 q2 ∧ plan_kept p2 q2)
    (ha : ∀ p1 p2 t i w1 w2 r1, again p1 t false i w1 = Outcome.done r1 →
      passes_in_step p1 p2 → t ≠ I3IPC_TYPE_CHAR →
      ∃ q2 w, again p2 t true i w2 = Outcome.done (q2, r1.2.1, w) ∧
        passes_in_step r1.1 q2 ∧ plan_kept p2 q2 ∧
        w.length + i = w2.length + r1.2.1)
    (p1 p2 : I3ipc_parse_state) (t i : Nat) (w1 w2 : List Val)
    (r1 : I3ipc_parse_state × Nat × List Val)
    (h : array_loop_step helper again p1 t false i w1 = Outcome.done r1)
    (hl : passes_in_step p1 p2) (hc : t ≠ I3IPC_TYPE_CHAR) :
    ∃ q2 w, array_loop_step helper again p2 t true i w2 = Outcome.done (q2, r1.2.1, w) ∧
      passes_in_step r1.1 q2 ∧ plan_kept p2 q2 ∧
      w.length + i = w2.length + r1.2.1 := by
  obtain ⟨s1, a1, n1, m1, c1, z1, e1, t1⟩ := p1
  obtain ⟨s2, a2, n2, m2, c2, z2, e2, t2⟩ := p2
  simp only [passes_in_step] at hl
  obtain ⟨rfl, rfl, rfl, rfl, rfl⟩ := hl
  unfold array_loop_step at h ⊢
  dsimp only at h ⊢
  by_cases hm : (!(i3ipc__json_looparr s1 i).1) = true
  · rw [if_pos hm] at h ⊢
    simp only [Outcome.done.injEq] at h
    subst h
    exact ⟨_, _, rfl, by simp [passes_in_step, plan_kept]⟩
  · rw [if_neg hm] at h ⊢
    simp only [Bool.false_eq_true, ↓reduceIte] at h ⊢
    cases hs : helper ⟨(i3ipc__json_looparr s1 i).2, a1, n1, false, c1, z1, e1, t1⟩ t 0
        none with
    | done x =>
      rw [hs] at h
      obtain ⟨q2, v, hB, hl2, ha2⟩ := hh _
        ⟨(i3ipc__json_looparr s1 i).2, a2, n1, true, c1, z2, e2, t2⟩
        _ _ _ (zero_of t 0) hs ⟨rfl, rfl, rfl, rfl, rfl⟩ (fun ht => absurd ht hc)
      rw [hB]
      obtain ⟨x1, x2⟩ := x
      dsimp only at h ⊢
      obtain ⟨q3, w, hB3, hl3, ha3, hn3⟩ := ha _ q2 _ _ _ (w2 ++ (some v).toList) _ h hl2 hc
      refine ⟨q3, w, hB3, hl3, plan_kept_trans ha2 ha3, ?_⟩
      simp only [Option.toList_some, List.length_append, List.length_singleton] at hn3
      omega
    | fail c => rw [hs] at h; simp at h
    | aborted => rw [hs] at h; simp at h
    | starved => rw [hs] at h; simp at h

/-- The branch for arrays: the second pass follows the first, and the block it stores has
as many elements as the first pass has counted. -/
theorem parse_array_step
    (loop : I3ipc_parse_state → Nat → Bool → Nat → List Val →
      Outcome (I3ipc_parse_state × Nat × List Val))
    (ha : ∀ p1 p2 t i w1 w2 r1, loop p1 t false i w1 = Outcome.done r1 →
      passes_in_step p1 p2 → t ≠ I3IPC_TYPE_CHAR →
      ∃ q2 w, loop p2 t true i w2 = Outcome.done (q2, r1.2.1, w) ∧
        passes_in_step r1.1 q2 ∧ plan_kept p2 q2 ∧
        w.length + i = w2.length + r1.2.1)
    (p1 p2 : I3ipc_parse_state) (type : I3ipc_type) (t : Nat) (b : Val)
    (r1 : I3ipc_parse_state × Option Val)
    (h : parse_array loop p1 type t none = Outcome.done r1)
    (hl : passes_in_step p1 p2) (hc : t ≠ I3IPC_TYPE_CHAR) :
    ∃ q2 v, parse_array loop p2 type t (some b) = Outcome.done (q2, some v) ∧
      passes_in_step r1.1 q2 ∧ plan_kept p2 q2 ∧
      ∃ w : List Val, v = Val.block (some w) ∧ (w.length : Int) = r1.1.next_size := by
  obtain ⟨s1, a1, n1, m1, c1, z1, e1, t1⟩ := p1
  obtain ⟨s2, a2, n2, m2, c2, z2, e2, t2⟩ := p2
  simp only [passes_in_step] at hl
  obtain ⟨rfl, rfl, rfl, rfl, rfl⟩ := hl
  unfold parse_array at h ⊢
  simp only [i3ipc__parse_alloc, Bool.not_false, Bool.not_true, ↓reduceIte,
    Option.isSome_none, Option.isSome_some, Bool.false_eq_true, Bool.and_self,
    Bool.and_false, Bool.false_and] at h ⊢
  cases hs : loop ⟨s1, (if n1 < a1.length then a1.set n1 ⟨2 ^ 64 - 1, type.alignment⟩
      else a1 ++ [⟨2 ^ 64 - 1, type.alignment⟩]), n1 + 1, false, c1, z1, e1, t1⟩
      t false 0 [] with
  | done x =>
    rw [hs] at h
    obtain ⟨q2, w, hB, hl2, ha2, hn⟩ := ha _ ⟨s1, a2, n1 + 1, true, c1, z2, e2, t2⟩
      _ _ _ [] _ hs ⟨rfl, rfl, rfl, rfl, rfl⟩ hc
    rw [hB]
    obtain ⟨x1, x2, x3⟩ := x
    dsimp only at h hl2 hn ⊢
    obtain ⟨k1, k2, k3, k4, k5⟩ := hl2
    rw [← k1]
    by_cases he : x1.state.err_flag = true
    · rw [if_pos he] at h
      cases h
    · rw [if_neg he] at h ⊢
      simp only [parse_finish, Option.isNone_none, Option.isNone_some, ↓reduceIte,
        Bool.false_eq_true, Outcome.done.injEq, Option.map_some'] at h ⊢
      subst h
      refine ⟨_, _, rfl, ?_, ha2, w, rfl, ?_⟩
      · simp only [passes_in_step, set_alloc_size]
        exact ⟨k1, k2, k3, k4, k5⟩
      · simp only [set_alloc_size, List.length_nil] at hn ⊢
        omega
  | fail c => rw [hs] at h; simp at h
  | aborted => rw [hs] at h; simp at h
  | starved => rw [hs] at h; simp at h

/-- The inline branch: the second pass follows the first. -/
theorem parse_inline_step
    (helper : I3ipc_parse_state → Nat → Nat → Option Val →
      Outcome (I3ipc_parse_state × Option Val))
    (hh : ∀ p1 p2 t fl r1 b, helper p1 t fl none = Outcome.done r1 →
      passes_in_step p1 p2 → no_single_char t fl →
      ∃ q2 v, helper p2 t fl (some b) = Outcome.done (q2, some v) ∧
        passes_in_step r1.1 q2 ∧ plan_kept p2 q2)
    (p1 p2 : I3ipc_parse_state) (type : I3ipc_type) (b : Val)
    (r1 : I3ipc_parse_state × Option Val)
    (h : parse_inline helper p1 type none = Outcome.done r1)
    (hl : passes_in_step p1 p2)
    (hc : ∀ f ∈ type.fields, no_single_char f.type.toNat f.flags) :
    ∃ q2 v, parse_inline helper p2 type (some b) = Outcome.done (q2, some v) ∧
      passes_in_step r1.1 q2 ∧ plan_kept p2 q2 := by
  unfold parse_inline at h ⊢
  cases hf : type.fields with
  | nil => rw [hf] at h; cases h
  | cons field others =>
    rw [hf] at h
    dsimp only at h ⊢
    by_cases hd : (others.any (fun f => !hasflag f.flags I3IPC_TYPE_GROUP_DERIVED)) = true
    · rw [if_pos hd] at h
      cases h
    · rw [if_neg hd] at h ⊢
      simp only [Option.map_none', Option.map_some'] at h ⊢
      cases hs : helper p1 field.type.toNat field.flags none with
      | done x =>
        rw [hs] at h
        obtain ⟨q2, v, hB, hl2, ha2⟩ := hh _ p2 _ _ _ (b.field 0) hs hl
          (hc field (by rw [hf]; exact List.mem_cons_self _ _))
        rw [hB]
        obtain ⟨x1, x2⟩ := x
        dsimp only at h ⊢
        simp only [parse_finish, Outcome.done.injEq] at h ⊢
        subst h
        refine ⟨_, _, rfl, ?_, ha2⟩
        simpa [passes_in_step] using hl2
      | fail c => rw [hs] at h; simp at h
      | aborted => rw [hs] at h; simp at h
      | starved => rw [hs] at h; simp at h

/-- The record branch: the second pass follows the first. -/
theorem parse_record_step
    (loop : I3ipc_parse_state → I3ipc_type → Option Nat → Option Val →
      Outcome (I3ipc_parse_state × Option Val))
    (ha : ∀ p1 p2 ty f r1 b, loop p1 ty f none = Outcome.done r1 →
      passes_in_step p1 p2 → (∀ g ∈ ty.fields, no_single_char g.type.toNat g.flags) →
      ∃ q2 v, loop p2 ty f (some b) = Outcome.done (q2, some v) ∧
        passes_in_step r1.1 q2 ∧ plan_kept p2 q2)
    (p1 p2 : I3ipc_parse_state) (type : I3ipc_type) (b : Val)
    (r1 : I3ipc_parse_state × Option Val)
    (h : parse_record loop p1 type none = Outcome.done r1)
    (hl : passes_in_step p1 p2)
    (hc : ∀ f ∈ type.fields, no_single_char f.type.toNat f.flags) :
    ∃ q2 v, parse_record loop p2 type (some b) = Outcome.done (q2, some v) ∧
      passes_in_step r1.1 q2 ∧ plan_kept p2 q2 := by
  unfold parse_record at h ⊢
  cases hs : loop p1 type none none with
  | done x =>
    rw [hs] at h
    obtain ⟨q2, v, hB, hl2, ha2⟩ := ha _ p2 _ _ _ b hs hl hc
    rw [hB]
    obtain ⟨x1, x2⟩ := x
    dsimp only at h hl2 ⊢
    rw [← hl2.1]
    by_cases he : x1.state.err_flag = true
    · rw [if_pos he] at h
      cases h
    · rw [if_neg he] at h ⊢
      simp only [parse_finish, Outcome.done.injEq] at h ⊢
      subst h
      refine ⟨_, _, rfl, ?_, ha2⟩
      simpa [passes_in_step] using hl2
  | fail c => rw [hs] at h; simp at h
  | aborted => rw [hs] at h; simp at h
  | starved => rw [hs] at h; simp at h

/-- One round of the record loop: the second pass follows the first. -/
theorem fields_loop_step_step
    (loopfields : I3ipc_json_state → I3ipc_type → Option Nat →
      Outcome (Bool × Nat × I3ipc_json_state))
    (helper : I3ipc_parse_state → Nat → Nat → Option Val →
      Outcome (I3ipc_parse_state × Option Val))
    (again : I3ipc_parse_state → I3ipc_type → Option Nat → Option Val →
      Outcome (I3ipc_parse_state × Option Val))
    (hh : ∀ p1 p2 t fl r1 b, helper p1 t fl none = Outcome.done r1 →
      passes_in_step p1 p2 → no_single_char t fl →
      ∃ q2 v, helper p2 t fl (some b) = Outcome.done (q2, some v) ∧
        passes_in_step r1.1 q2 ∧ plan_kept p2 q2)
    (ha : ∀ p1 p2 ty f r1 b, again p1 ty f none = Outcome.done r1 →
      passes_in_step p1 p2 → (∀ g ∈ ty.fields, no_single_char g.type.toNat g.flags) →
      ∃ q2 v, again p2 ty f (some b) = Outcome.done (q2, some v) ∧
        passes_in_step r1.1 q2 ∧ plan_kept p2 q2)
    (p1 p2 : I3ipc_parse_state) (type : I3ipc_type) (f : Option Nat) (b : Val)
    (r1 : I3ipc_parse_state × Option Val)
    (h : fields_loop_step loopfields helper again p1 type f none = Outcome.done r1)
    (hl : passes_in_step p1 p2)
    (hc : ∀ g ∈ type.fields, no_single_char g.type.toNat g.flags) :
    ∃ q2 v, fields_loop_step loopfields helper again p2 type f (some b)
        = Outcome.done (q2, some v) ∧
      passes_in_step r1.1 q2 ∧ plan_kept p2 q2 := by
  obtain ⟨s1, a1, n1, m1, c1, z1, e1, t1⟩ := p1
  obtain ⟨s2, a2, n2, m2, c2, z2, e2, t2⟩ := p2
  simp only [passes_in_step] at hl
  obtain ⟨rfl, rfl, rfl, rfl, rfl⟩ := hl
  unfold fields_loop_step at h ⊢
  dsimp only at h ⊢
  cases hlf : loopfields s1 type f with
  | done x =>
    obtain ⟨more, field, st⟩ := x
    rw [hlf] at h
    dsimp only at h ⊢
    by_cases hm : (!more) = true
    · rw [if_pos hm] at h ⊢
      simp only [Outcome.done.injEq] at h
      subst h
      exact ⟨_, _, rfl, by simp [passes_in_step, plan_kept]⟩
    · rw [if_neg hm] at h ⊢
      cases hg : type.fields.get? field with
      | none => rw [hg] at h; cases h
      | some fd =>
        rw [hg] at h
        simp only [Option.map_none', Option.map_some'] at h ⊢
        cases hs : helper ⟨st, a1, n1, false, c1, z1, e1, t1⟩ fd.type.toNat fd.flags
            none with
        | done x =>
          rw [hs] at h
          obtain ⟨q2, v, hB, hl2, ha2⟩ := hh _ ⟨st, a2, n1, true, c1, z2, e2, t2⟩ _ _ _
            (b.field field) hs ⟨rfl, rfl, rfl, rfl, rfl⟩ (hc fd (List.get?_mem hg))
          rw [hB]
          obtain ⟨x1, x2⟩ := x
          dsimp only at h ⊢
          have h' : again x1 type (some field) none = Outcome.done r1 := by
            cases x2 <;> exact h
          obtain ⟨q3, v3, hB3, hl3, ha3⟩ := ha _ q2 _ _ _
            (i3ipc__parse_doderived q2 type field (b.set_field field v)) h' hl2 hc
          exact ⟨q3, v3, hB3, hl3, plan_kept_trans ha2 ha3⟩
        | fail c => rw [hs] at h; simp at h
        | aborted => rw [hs] at h; simp at h
        | starved => rw [hs] at h; simp at h
  | fail c => rw [hlf] at h; simp at h
  | aborted => rw [hlf] at h; simp at h
  | starved => rw [hlf] at h; simp at h

/-- The second pass follows the first: when `i3ipc__parse_helper` or one of its loops
succeeds without memory, it succeeds with memory from a state that is in step, the two
results are in step again, and the planned offsets are untouched. The array loop counts the
same number of elements in both passes and stores one value for each. -/
theorem parse_helper_step : ∀ (fuel : Nat),
    (∀ p1 p2 t fl r1 b, i3ipc__parse_helper fuel p1 t fl none = Outcome.done r1 →
      passes_in_step p1 p2 → no_single_char t fl →
      ∃ q2 v, i3ipc__parse_helper fuel p2 t fl (some b) = Outcome.done (q2, some v) ∧
        passes_in_step r1.1 q2 ∧ plan_kept p2 q2) ∧
    (∀ p1 p2 t i w1 w2 r1, parse_array_loop fuel p1 t false i w1 = Outcome.done r1 →
      passes_in_step p1 p2 → t ≠ I3IPC_TYPE_CHAR →
      ∃ q2 w, parse_array_loop fuel p2 t true i w2 = Outcome.done (q2, r1.2.1, w) ∧
        passes_in_step r1.1 q2 ∧ plan_kept p2 q2 ∧
        w.length + i = w2.length + r1.2.1) ∧
    (∀ p1 p2 ty f r1 b, parse_fields_loop fuel p1 ty f none = Outcome.done r1 →
      passes_in_step p1 p2 → (∀ g ∈ ty.fields, no_single_char g.type.toNat g.flags) →
      ∃ q2 v, parse_fields_loop fuel p2 ty f (some b) = Outcome.done (q2, some v) ∧
        passes_in_step r1.1 q2 ∧ plan_kept p2 q2) := by
  intro fuel
  induction fuel with
  | zero =>
    refine ⟨?_, ?_, ?_⟩ <;> intro _ _ _ _ _ <;> intros <;>
      simp_all [i3ipc__parse_helper, parse_array_loop, parse_fields_loop]
  | succ fuel ih =>
    obtain ⟨ih1, ih2, ih3⟩ := ih
    refine ⟨?_, ?_, ?_⟩
    · intro p1 p2 t fl r1 b h hl hc
      unfold i3ipc__parse_helper at h ⊢
      by_cases c0 : (t == I3IPC_TYPE_EVENT) = true
      · rw [if_pos c0] at h
        cases h
      · rw [if_neg c0] at h ⊢
        cases hty : i3ipc__type_get t with
        | none => rw [hty] at h; cases h
        | some type =>
          rw [hty] at h
          dsimp only at h ⊢
          have hfs := fields_no_single_char t type hty
          by_cases c1 : hasflag fl I3IPC_TYPE_GROUP_MAYBE = true
          · rw [if_pos c1] at h ⊢
            exact parse_maybe_step _ ih1 _ _ _ _ _ _ _ h hl hc
          · rw [if_neg c1] at h ⊢
            by_cases c2 : ((t == I3IPC_TYPE_STRING && fl == 0)
                || (t == I3IPC_TYPE_CHAR && hasflag fl I3IPC_TYPE_ISARRAY)) = true
            · rw [if_pos c2] at h ⊢
              exact parse_string_step _ _ _ _ _ h hl
            · rw [if_neg c2] at h ⊢
              have hnc : t ≠ I3IPC_TYPE_CHAR := by
                intro ht
                apply c2
                simp [ht, hc ht]
              by_cases c3 : hasflag fl I3IPC_TYPE_ISARRAY = true
              · rw [if_pos c3] at h ⊢
                obtain ⟨q2, v, k1, k2, k3, _⟩ := parse_array_step _ ih2 _ _ _ _ b _ h hl hnc
                exact ⟨q2, v, k1, k2, k3⟩
              · rw [if_neg c3] at h ⊢
                by_cases c4 : type.is_inline = true
                · rw [if_pos c4] at h ⊢
                  exact parse_inline_step _ ih1 _ _ _ _ _ h hl hfs
                · rw [if_neg c4] at h ⊢
                  by_cases c5 : (fl == 0 && type.is_primitive) = true
                  · rw [if_pos c5] at h ⊢
                    simp only [Bool.and_eq_true] at c5
                    have := primitive_types t type hty c5.2
                    exact parse_primitive_step _ _ _ _ _ h hl (by
                      rcases this with k | k | k | k | k
                      · exact Or.inl k
                      · exact absurd k hnc
                      · exact Or.inr (Or.inl k)
                      · exact Or.inr (Or.inr (Or.inl k))
                      · exact Or.inr (Or.inr (Or.inr k)))
                  · rw [if_neg c5] at h ⊢
                    by_cases c6 : (fl == 0) = true
                    · rw [if_pos c6] at h ⊢
                      exact parse_record_step _ ih3 _ _ _ _ _ h hl hfs
                    · rw [if_neg c6] at h
                      cases h
    · intro p1 p2 t i w1 w2 r1 h hl hc
      unfold parse_array_loop at h ⊢
      exact array_loop_step_step _ _ ih1 ih2 _ _ _ _ _ _ _ h hl hc
    · intro p1 p2 ty f r1 b h hl hc
      unfold parse_fields_loop at h ⊢
      exact fields_loop_step_step _ _ _ ih1 ih3 _ _ _ _ _ _ h hl hc

/-- `i3ipc__json_trymatch` leaves the error flag alone. -/
theorem trymatch_err_flag (s : I3ipc_json_state) (ty : Nat) :
    (i3ipc__json_trymatch s ty).2.2.err_flag = s.err_flag := by
  unfold i3ipc__json_trymatch i3ipc__json_trymatchany
  dsimp only
  split <;> rfl

/-- A successful `i3ipc__json_match` leaves the error flag alone. -/
theorem match_err_flag (s : I3ipc_json_state) (ty : Nat)
    (h : (i3ipc__json_match s ty).1 = true) :
    (i3ipc__json_match s ty).2.2.err_flag = s.err_flag := by
  simp only [i3ipc__json_match, i3ipc__json_matchany, i3ipc__json_trymatchany] at h ⊢
  generalize ([ty].contains (i3ipc__json_peek s).type) = c at h ⊢
  cases c
  · simp at h
  · simp [i3ipc__json_pop]

/-- `i3ipc__parse_alloc` leaves the token state alone. -/
theorem parse_alloc_state (p : I3ipc_parse_state) (size al : Nat) :
    (i3ipc__parse_alloc p size al).1.state = p.state := by
  unfold i3ipc__parse_alloc
  cases p.memory <;> rfl

/-- A successful `i3ipc__parse_helper` that starts without an error ends without one: the
loops end with a test of the flag, and a failed match is returned as an error. -/
theorem parse_helper_err_clear : ∀ (fuel : Nat) (p : I3ipc_parse_state) (t fl : Nat)
    (b : Option Val) (r : I3ipc_parse_state × Option Val),
    p.state.err_flag = false → i3ipc__parse_helper fuel p t fl b = Outcome.done r →
    r.1.state.err_flag = false := by
  intro fuel
  induction fuel with
  | zero => intro p t fl b r _ h; simp [i3ipc__parse_helper] at h
  | succ fuel ih =>
    intro p t fl b r he h
    unfold i3ipc__parse_helper at h
    by_cases c0 : (t == I3IPC_TYPE_EVENT) = true
    · rw [if_pos c0] at h
      cases h
    · rw [if_neg c0] at h
      cases hty : i3ipc__type_get t with
      | none => rw [hty] at h; cases h
      | some type =>
        rw [hty] at h
        dsimp only at h
        by_cases c1 : hasflag fl I3IPC_TYPE_GROUP_MAYBE = true
        · rw [if_pos c1] at h
          unfold parse_maybe at h
          dsimp only at h
          have hs := trymatch_err_flag p.state I3IPC_JSON_NULL
          by_cases hm : (!(i3ipc__json_trymatch p.state I3IPC_JSON_NULL).1) = true
          · rw [if_pos hm] at h
            by_cases hp : hasflag fl I3IPC_TYPE_ISPTR = true
            · rw [if_pos hp] at h
              split at h
              · rename_i q v heq
                have := ih _ _ _ _ _ (by rw [parse_alloc_state, ← he, ← hs]) heq
                simp only [parse_finish, Outcome.done.injEq] at h
                subst h
                exact this
              · cases h
              · cases h
              · cases h
            · rw [if_neg hp] at h
              split at h
              · rename_i q v heq
                have := ih _ _ _ _ _ (by rw [← he, ← hs]) heq
                simp only [parse_finish, Outcome.done.injEq] at h
                subst h
                exact this
              · cases h
              · cases h
              · cases h
          · rw [if_neg hm] at h
            simp only [parse_finish, Outcome.done.injEq] at h
            subst h
            rw [← he, ← hs]
        · rw [if_neg c1] at h
          by_cases c2 : ((t == I3IPC_TYPE_STRING && fl == 0)
              || (t == I3IPC_TYPE_CHAR && hasflag fl I3IPC_TYPE_ISARRAY)) = true
          · rw [if_pos c2] at h
            unfold parse_string at h
            dsimp only at h
            by_cases hm : (!(i3ipc__json_match p.state I3IPC_JSON_STRING).1) = true
            · rw [if_pos hm] at h
              cases h
            · rw [if_neg hm] at h
              have hs := match_err_flag p.state I3IPC_JSON_STRING (by simpa using hm)
              have key : ∀ (n : Nat), (if p.copy_strings = true
                  then (i3ipc__parse_alloc
                    { p with state := (i3ipc__json_match p.state I3IPC_JSON_STRING).2.2 }
                    n 1).1
                  else { p with state := (i3ipc__json_match p.state I3IPC_JSON_STRING).2.2 }
                  ).state.err_flag = false := by
                intro n
                rw [← he, ← hs]
                cases p.copy_strings
                · rfl
                · simp only [↓reduceIte]
                  rw [parse_alloc_state]
              cases b with
              | none =>
                dsimp only at h
                simp only [parse_finish, Outcome.done.injEq] at h
                subst h
                exact key _
              | some v =>
                dsimp only at h
                by_cases ht : (t == I3IPC_TYPE_STRING) = true
                · rw [if_pos ht] at h
                  simp only [parse_finish, Outcome.done.injEq] at h
                  subst h
                  exact key _
                · rw [if_neg ht] at h
                  simp only [parse_finish, Outcome.done.injEq] at h
                  subst h
                  exact key _
          · rw [if_neg c2] at h
            by_cases c3 : hasflag fl I3IPC_TYPE_ISARRAY = true
            · rw [if_pos c3] at h
              unfold parse_array at h
              dsimp only at h
              split at h
              · rename_i q i elems heq
                by_cases hx : q.state.err_flag = true
                · rw [if_pos hx] at h
                  cases h
                · rw [if_neg hx] at h
                  simp only [parse_finish, Outcome.done.injEq] at h
                  subst h
                  dsimp only
                  split
                  · simpa [set_alloc_size] using hx
                  · simpa using hx
              · cases h
              · cases h
              · cases h
            · rw [if_neg c3] at h
              by_cases c4 : type.is_inline = true
              · rw [if_pos c4] at h
                unfold parse_inline at h
                split at h
                · cases h
                · split at h
                  · cases h
                  · split at h
                    · rename_i q v heq
                      have := ih _ _ _ _ _ he heq
                      simp only [parse_finish, Outcome.done.injEq] at h
                      subst h
                      exact this
                    · cases h
                    · cases h
                    · cases h
              · rw [if_neg c4] at h
                by_cases c5 : (fl == 0 && type.is_primitive) = true
                · rw [if_pos c5] at h
                  unfold parse_primitive at h
                  dsimp only at h
                  generalize (if (t == I3IPC_TYPE_BOOL) = true then I3IPC_JSON_BOOL
                    else I3IPC_JSON_NUMBER) = tt at h
                  by_cases hm : (!(i3ipc__json_match p.state tt).1) = true
                  · rw [if_pos hm] at h
                    cases h
                  · rw [if_neg hm] at h
                    have hs := match_err_flag p.state tt (by simpa using hm)
                    split at h
                    · simp only [parse_finish, Outcome.done.injEq] at h
                      subst h
                      rw [← he, ← hs]
                    · split at h
                      · simp only [parse_finish, Outcome.done.injEq] at h
                        subst h
                        rw [← he, ← hs]
                      · split at h
                        · simp only [parse_finish, Outcome.done.injEq] at h
                          subst h
                          rw [← he, ← hs]
                        · split at h
                          · simp only [parse_finish, Outcome.done.injEq] at h
                            subst h
                            rw [← he, ← hs]
                          · split at h
                            · simp only [parse_finish, Outcome.done.injEq] at h
                              subst h
                              rw [← he, ← hs]
                            · cases h
                · rw [if_neg c5] at h
                  by_cases c6 : (fl == 0) = true
                  · rw [if_pos c6] at h
                    unfold parse_record at h
                    split at h
                    · rename_i q v heq
                      by_cases hx : q.state.err_flag = true
                      · rw [if_pos hx] at h
                        cases h
                      · rw [if_neg hx] at h
                        simp only [parse_finish, Outcome.done.injEq] at h
                        subst h
                        simpa using hx
                    · cases h
                    · cases h
                    · cases h
                  · rw [if_neg c6] at h
                    cases h

/-- The first pass of `i3ipc_parse_try`, taken apart: the call of `i3ipc__parse_helper` and
the match of the end token. -/
theorem first_pass_parts (staticalloc : Bool) (msg_type : Int) (payload : List Nat)
    (message_type : Int) (type_id : Nat) (tokens : List I3ipc_json_token) (type : I3ipc_type)
    (p1 : I3ipc_parse_state)
    (h : parse_first_pass staticalloc msg_type payload message_type type_id
      = Outcome.done (tokens, type, p1)) :
    i3ipc__type_get type_id = some type ∧
    ∃ q v, i3ipc__parse_helper (parse_fuel tokens.length)
        ⟨⟨tokens, false⟩, [⟨type.size, type.alignment⟩], 1, false, !staticalloc, 0, none,
          false⟩ type_id 0 none = Outcome.done (q, v) ∧
      (i3ipc__json_match q.state 0).1 = true ∧
      p1 = { q with state := (i3ipc__json_match q.state 0).2.2 } := by
  unfold parse_first_pass at h
  by_cases c0 : (msg_type != message_type) = true
  · rw [if_pos c0] at h
    cases h
  · rw [if_neg c0] at h
    cases hsc : i3ipc__json_scan payload with
    | done toks =>
      rw [hsc] at h
      dsimp only at h
      cases hty : i3ipc__type_get type_id with
      | none => rw [hty] at h; cases h
      | some ty =>
        rw [hty] at h
        dsimp only at h
        cases hs : i3ipc__parse_helper (parse_fuel toks.length)
            (i3ipc__parse_alloc ⟨⟨toks, false⟩, [], 0, false, !staticalloc, 0, none, false⟩
              ty.size ty.alignment).1 type_id 0 none with
        | done x =>
          rw [hs] at h
          obtain ⟨x1, x2⟩ := x
          dsimp only at h
          by_cases c1 : (!(i3ipc__json_match x1.state 0).1) = true
          · rw [if_pos c1] at h
            cases h
          · rw [if_neg c1] at h
            simp only [Outcome.done.injEq, Prod.mk.injEq] at h
            obtain ⟨k1, k2, k3⟩ := h
            subst k1 k2 k3
            refine ⟨rfl, x1, x2, hs, by simpa using c1, rfl⟩
        | fail c => rw [hs] at h; simp at h
        | aborted => rw [hs] at h; simp at h
        | starved => rw [hs] at h; simp at h
    | fail c => rw [hsc] at h; simp at h
    | aborted => rw [hsc] at h; simp at h
    | starved => rw [hsc] at h; simp at h

/-- The emit pass of `i3ipc_parse_try` follows a successful sizing pass. -/
theorem second_pass_follows (staticalloc : Bool) (msg_type : Int) (payload : List Nat)
    (message_type : Int) (type_id : Nat) (tokens : List I3ipc_json_token) (type : I3ipc_type)
    (p1 : I3ipc_parse_state)
    (hfirst : parse_first_pass staticalloc msg_type payload message_type type_id
      = Outcome.done (tokens, type, p1))
    (hc : type_id ≠ I3IPC_TYPE_CHAR) :
    ∃ p2 data,
      i3ipc__parse_helper (parse_fuel tokens.length) (second_pass_start tokens type p1)
        type_id 0 (some (zero_of type_id 0)) = Outcome.done (p2, some data) ∧
      i3ipc_parse_try staticalloc msg_type payload message_type type_id
        = Outcome.done data ∧
      p2.allocs_size = p1.allocs_size ∧
      p2.allocs = (layout_allocs p1.requests 0).1 ∧
      (i3ipc__json_match p2.state 0).2.2 = p1.state := by
  obtain ⟨hty, q, v0, hq, hm, hp1⟩ := first_pass_parts _ _ _ _ _ _ _ _ hfirst
  have hnc : no_single_char type_id 0 := fun ht => absurd ht hc
  have herr : q.state.err_flag = false := parse_helper_err_clear _ _ _ _ _ _ rfl hq
  have hcopy : q.copy_strings = !staticalloc := by
    obtain ⟨q2, v, _, hl, hk⟩ := (parse_helper_step _).1 _
      ⟨⟨tokens, false⟩, [⟨type.size, type.alignment⟩], 1, true, !staticalloc, 0, none, false⟩
      _ _ _ (zero_of type_id 0) hq ⟨rfl, rfl, rfl, rfl, rfl⟩ hnc
    exact hl.2.2.1.trans hk.2
  have hstart : second_pass_start tokens type p1 =
      ⟨⟨tokens, false⟩, (layout_allocs p1.requests 0).1, 1, true, !staticalloc,
        p1.next_size, p1.next_enum, p1.next_set⟩ := by
    have e1 : p1.state.err_flag = false := by
      rw [hp1]
      dsimp only
      rw [match_err_flag _ _ hm, herr]
    have e2 : p1.copy_strings = !staticalloc := by
      rw [hp1]
      exact hcopy
    simp only [second_pass_start, i3ipc__parse_alloc, Bool.not_true, Bool.false_eq_true,
      ↓reduceIte, e1, e2]
  obtain ⟨p2, data, h2, hl, hk⟩ := (parse_helper_step _).1 _
    (second_pass_start tokens type p1) _ _ _ (zero_of type_id 0) hq
    (by rw [hstart]; exact ⟨rfl, rfl, rfl, rfl, rfl⟩) hnc
  refine ⟨p2, data, h2, ?_, ?_, ?_, ?_⟩
  · unfold i3ipc_parse_try
    rw [hfirst]
    dsimp only
    have h3 := h2
    unfold second_pass_start at h3
    rw [h3]
  · rw [← hl.2.1, hp1]
  · rw [hk.1, hstart]
  · rw [← hl.1, hp1]

/-- C35 counterexample. With type id `I3IPC_TYPE_CHAR` and the payload `5` the sizing pass
succeeds, and the emit pass runs into the `assert(false)` of the primitive branch. -/
theorem emit_pass_fails_for_char :
    (parse_first_pass false 0 (bytes "5") 0 I3IPC_TYPE_CHAR).isDone = true ∧
    (i3ipc_parse_try false 0 (bytes "5") 0 I3IPC_TYPE_CHAR).isDone = false ∧
    i3ipc_parse_try false 0 (bytes "5") 0 I3IPC_TYPE_CHAR = Outcome.aborted :=
  ⟨by decide!, by decide!, by with_unfolding_all rfl⟩

/-- C35 (amended). Two-pass agreement for every type id other than `I3IPC_TYPE_CHAR`:
when the sizing pass of `i3ipc_parse_try` succeeds, the emit pass over the same tokens
succeeds as well, `i3ipc_parse_try` returns its record, both passes make the same number of
requests and end at the same token, and the planned offsets are not changed. This rests on
the two passes being in step at every call: a call of `i3ipc__parse_helper` that succeeds in
the sizing pass succeeds in the emit pass from a state with the same tokens ahead and the
same request index, and ends with the same tokens ahead and the same request index, so the
requests come in the same order; and an array loop counts the same number of elements in
both passes and stores exactly that many. -/
theorem two_pass_agreement (staticalloc : Bool) (msg_type : Int) (payload : List Nat)
    (message_type : Int) (type_id : Nat) (tokens : List I3ipc_json_token) (type : I3ipc_type)
    (p1 : I3ipc_parse_state)
    (hfirst : parse_first_pass staticalloc msg_type payload message_type type_id
      = Outcome.done (tokens, type, p1))
    (hc : type_id ≠ I3IPC_TYPE_CHAR) :
    (∃ p2 data,
      i3ipc__parse_helper (parse_fuel tokens.length) (second_pass_start tokens type p1)
        type_id 0 (some (zero_of type_id 0)) = Outcome.done (p2, some data) ∧
      i3ipc_parse_try staticalloc msg_type payload message_type type_id
        = Outcome.done data ∧
      p2.allocs_size = p1.allocs_size ∧
      p2.allocs = (layout_allocs p1.requests 0).1 ∧
      (i3ipc__json_match p2.state 0).2.2 = p1.state) ∧
    (∀ fuel q1 q2 t fl r1 b, i3ipc__parse_helper fuel q1 t fl none = Outcome.done r1 →
      passes_in_step q1 q2 → no_single_char t fl →
      ∃ r2 v, i3ipc__parse_helper fuel q2 t fl (some b) = Outcome.done (r2, some v) ∧
        passes_in_step r1.1 r2 ∧ plan_kept q2 r2) ∧
    (∀ fuel q1 q2 t r1, parse_array_loop fuel q1 t false 0 [] = Outcome.done r1 →
      passes_in_step q1 q2 → t ≠ I3IPC_TYPE_CHAR →
      ∃ r2 w, parse_array_loop fuel q2 t true 0 [] = Outcome.done (r2, r1.2.1, w) ∧
        w.length = r1.2.1 ∧ passes_in_step r1.1 r2) := by
  refine ⟨second_pass_follows _ _ _ _ _ _ _ _ hfirst hc, ?_, ?_⟩
  · intro fuel
    exact (parse_helper_step fuel).1
  · intro fuel q1 q2 t r1 h hl ht
    obtain ⟨r2, w, k1, k2, _, k4⟩ := (parse_helper_step fuel).2.1 _ _ _ _ _ [] _ h hl ht
    exact ⟨r2, w, k1, by simpa using k4, k2⟩

/-- C35 (amended) at the command reply `[{"success":true}]` in owning mode: the sizing pass
succeeds, and so does `i3ipc_parse_try`. -/
theorem two_pass_agreement_witness :
    I3IPC_TYPE_REPLY_COMMAND ≠ I3IPC_TYPE_CHAR ∧
    (parse_first_pass false 0 (bytes "[\x7b\"success\":true\x7d]") 0
      I3IPC_TYPE_REPLY_COMMAND).isDone = true ∧
    (i3ipc_parse_try false 0 (bytes "[\x7b\"success\":true\x7d]") 0
      I3IPC_TYPE_REPLY_COMMAND).isDone = true := by
  refine ⟨by decide, by decide!, ?_⟩
  obtain ⟨_, _, _, h, _⟩ := (two_pass_agreement false 0 (bytes "[\x7b\"success\":true\x7d]") 0
    I3IPC_TYPE_REPLY_COMMAND _ _ _
    (outcome_done_getD _ ([], type_of 0, second_pass_static []) (by decide!))
    (by decide)).1
  rw [h]
  rfl


/-! ## Termination -/

/-- `i3ipc__json_trymatchany` pops at most one token, and pops one when it matches a type
other than the end token. -/
theorem trymatchany_length (st : I3ipc_json_state) (ty : List Nat) :
    (i3ipc__json_trymatchany st ty).2.2.tokens.length ≤ st.tokens.length ∧
    ((i3ipc__json_trymatchany st ty).1 = true → ty.contains 0 = false →
      (i3ipc__json_trymatchany st ty).2.2.tokens.length + 1 ≤ st.tokens.length) := by
  unfold i3ipc__json_trymatchany i3ipc__json_peek i3ipc__json_pop
  dsimp only
  cases hts : st.tokens with
  | nil =>
    simp only [List.headD_nil, List.drop_nil, List.length_nil]
    by_cases hc : ty.contains tok_zero.type = true
    · rw [if_pos hc]
      refine ⟨Nat.le_refl _, ?_⟩
      intro _ h0
      have : tok_zero.type = 0 := rfl
      rw [this, h0] at hc
      cases hc
    · rw [if_neg hc]
      refine ⟨by rw [hts]; exact Nat.le_refl _, ?_⟩
      intro h
      cases h
  | cons x xs =>
    simp only [List.headD_cons, List.drop_one, List.tail_cons, List.length_cons]
    by_cases hc : ty.contains x.type = true
    · rw [if_pos hc]
      exact ⟨Nat.le_succ _, fun _ _ => Nat.le_refl _⟩
    · rw [if_neg hc]
      refine ⟨by rw [hts]; exact Nat.le_refl _, ?_⟩
      intro h
      cases h

/-- `i3ipc__json_matchany` pops at most one token, and pops one when it matches a type other
than the end token. -/
theorem matchany_length (st : I3ipc_json_state) (ty : List Nat) :
    (i3ipc__json_matchany st ty).2.2.tokens.length ≤ st.tokens.length ∧
    ((i3ipc__json_matchany st ty).1 = true → ty.contains 0 = false →
      (i3ipc__json_matchany st ty).2.2.tokens.length + 1 ≤ st.tokens.length) := by
  have h := trymatchany_length st ty
  unfold i3ipc__json_matchany
  dsimp only
  by_cases hc : (i3ipc__json_trymatchany st ty).1 = true
  · rw [if_pos hc]
    exact h
  · rw [if_neg hc]
    refine ⟨Nat.le_refl _, ?_⟩
    intro h2
    cases h2

/-- `i3ipc__json_looparr` pops no more than it has, and pops a token when it returns true. -/
theorem looparr_length (st : I3ipc_json_state) (i : Nat) :
    (i3ipc__json_looparr st i).2.tokens.length ≤ st.tokens.length ∧
    ((i3ipc__json_looparr st i).1 = true →
      (i3ipc__json_looparr st i).2.tokens.length + 1 ≤ st.tokens.length) := by
  unfold i3ipc__json_looparr
  by_cases h0 : (i == 0) = true
  · rw [if_pos h0]
    dsimp only
    have h1 := matchany_length st [91]
    have h2 := trymatchany_length (i3ipc__json_match st 91).2.2 [93]
    unfold i3ipc__json_match i3ipc__json_trymatch at *
    by_cases c1 : (!(i3ipc__json_matchany st [91]).1) = true
    · rw [if_pos c1]
      refine ⟨h1.1, ?_⟩
      intro h
      cases h
    · rw [if_neg c1]
      have c1' : (i3ipc__json_matchany st [91]).1 = true := by simpa using c1
      have h3 := h1.2 c1' (by decide)
      by_cases c2 : (i3ipc__json_trymatchany (i3ipc__json_matchany st [91]).2.2 [93]).1 = true
      · rw [if_pos c2]
        refine ⟨Nat.le_trans h2.1 h1.1, ?_⟩
        intro h
        cases h
      · rw [if_neg c2]
        exact ⟨Nat.le_trans h2.1 h1.1, fun _ => Nat.le_trans (Nat.succ_le_succ h2.1) h3⟩
  · rw [if_neg h0]
    dsimp only
    have h1 := matchany_length st [44, 93]
    by_cases c1 : (!(i3ipc__json_matchany st [44, 93]).1) = true
    · rw [if_pos c1]
      refine ⟨h1.1, ?_⟩
      intro h
      cases h
    · rw [if_neg c1]
      have c1' : (i3ipc__json_matchany st [44, 93]).1 = true := by simpa using c1
      have h3 := h1.2 c1' (by decide)
      by_cases c2 : ((i3ipc__json_matchany st [44, 93]).2.1.type != 44) = true
      · rw [if_pos c2]
        refine ⟨h1.1, ?_⟩
        intro h
        cases h
      · rw [if_neg c2]
        exact ⟨h1.1, fun _ => h3⟩

/-- The tail of `i3ipc__json_loopobj` pops no more than it has, and pops two tokens when it
returns true. -/
theorem loopobj_key_length (st : I3ipc_json_state) :
    (loopobj_key st).2.2.tokens.length ≤ st.tokens.length ∧
    ((loopobj_key st).1 = true → (loopobj_key st).2.2.tokens.length + 2 ≤ st.tokens.length) := by
  unfold loopobj_key
  dsimp only
  have h1 := matchany_length st [I3IPC_JSON_STRING]
  have h2 := matchany_length (i3ipc__json_match st I3IPC_JSON_STRING).2.2 [58]
  unfold i3ipc__json_match at *
  by_cases c1 : (!(i3ipc__json_matchany st [I3IPC_JSON_STRING]).1) = true
  · rw [if_pos c1]
    refine ⟨h1.1, ?_⟩
    intro h
    cases h
  · rw [if_neg c1]
    have c1' : (i3ipc__json_matchany st [I3IPC_JSON_STRING]).1 = true := by simpa using c1
    have h3 := h1.2 c1' (by decide)
    by_cases c2 : (!(i3ipc__json_matchany
        (i3ipc__json_matchany st [I3IPC_JSON_STRING]).2.2 [58]).1) = true
    · rw [if_pos c2]
      refine ⟨Nat.le_trans h2.1 h1.1, ?_⟩
      intro h
      cases h
    · rw [if_neg c2]
      have c2' : (i3ipc__json_matchany
        (i3ipc__json_matchany st [I3IPC_JSON_STRING]).2.2 [58]).1 = true := by simpa using c2
      have h4 := h2.2 c2' (by decide)
      refine ⟨Nat.le_trans h2.1 h1.1, fun _ => ?_⟩
      show (i3ipc__json_matchany
        (i3ipc__json_matchany st [I3IPC_JSON_STRING]).2.2 [58]).2.2.tokens.length + 2
          ≤ st.tokens.length
      omega

/-- `i3ipc__json_loopobj` pops no more than it has, and pops three tokens when it returns
true. -/
theorem loopobj_length (st : I3ipc_json_state) (i : Nat) :
    (i3ipc__json_loopobj st i).2.2.tokens.length ≤ st.tokens.length ∧
    ((i3ipc__json_loopobj st i).1 = true →
      (i3ipc__json_loopobj st i).2.2.tokens.length + 3 ≤ st.tokens.length) := by
  unfold i3ipc__json_loopobj
  by_cases h0 : (i == 0) = true
  · rw [if_pos h0]
    dsimp only
    have h1 := matchany_length st [123]
    have h2 := trymatchany_length (i3ipc__json_match st 123).2.2 [125]
    have h5 := loopobj_key_length (i3ipc__json_trymatch (i3ipc__json_match st 123).2.2 125).2.2
    unfold i3ipc__json_match i3ipc__json_trymatch at *
    by_cases c1 : (!(i3ipc__json_matchany st [123]).1) = true
    · rw [if_pos c1]
      refine ⟨h1.1, ?_⟩
      intro h
      cases h
    · rw [if_neg c1]
      have c1' : (i3ipc__json_matchany st [123]).1 = true := by simpa using c1
      have h3 := h1.2 c1' (by decide)
      by_cases c2 : (i3ipc__json_trymatchany (i3ipc__json_matchany st [123]).2.2 [125]).1 = true
      · rw [if_pos c2]
        refine ⟨Nat.le_trans h2.1 h1.1, ?_⟩
        intro h
        cases h
      · rw [if_neg c2]
        refine ⟨by omega, fun hk => ?_⟩
        have := h5.2 hk
        omega
  · rw [if_neg h0]
    dsimp only
    have h1 := matchany_length st [44, 125]
    have h5 := loopobj_key_length (i3ipc__json_matchany st [44, 125]).2.2
    by_cases c1 : (!(i3ipc__json_matchany st [44, 125]).1) = true
    · rw [if_pos c1]
      refine ⟨h1.1, ?_⟩
      intro h
      cases h
    · rw [if_neg c1]
      have c1' : (i3ipc__json_matchany st [44, 125]).1 = true := by simpa using c1
      have h3 := h1.2 c1' (by decide)
      by_cases c2 : ((i3ipc__json_matchany st [44, 125]).2.1.type != 44) = true
      · rw [if_pos c2]
        refine ⟨h1.1, ?_⟩
        intro h
        cases h
      · rw [if_neg c2]
        refine ⟨by omega, fun hk => ?_⟩
        have := h5.2 hk
        omega

/-- `i3ipc__json_skip` and its loops pop no more tokens than there are, and with two units of
fuel for every token, and two more, they do not run out of fuel. -/
theorem json_skip_terminates : ∀ (fuel : Nat),
    (∀ st, (∀ r, i3ipc__json_skip fuel st = Outcome.done r →
        r.2.tokens.length ≤ st.tokens.length) ∧
      (2 * st.tokens.length + 2 ≤ fuel → i3ipc__json_skip fuel st ≠ Outcome.starved)) ∧
    (∀ st i, (∀ r, json_skip_obj fuel st i = Outcome.done r →
        r.2.tokens.length ≤ st.tokens.length) ∧
      (2 * st.tokens.length + 1 ≤ fuel → json_skip_obj fuel st i ≠ Outcome.starved)) ∧
    (∀ st i, (∀ r, json_skip_arr fuel st i = Outcome.done r →
        r.2.tokens.length ≤ st.tokens.length) ∧
      (2 * st.tokens.length + 1 ≤ fuel → json_skip_arr fuel st i ≠ Outcome.starved)) := by
  intro fuel
  induction fuel with
  | zero =>
    refine ⟨?_, ?_, ?_⟩
    · intro st
      exact ⟨fun r h => by simp [i3ipc__json_skip] at h, fun h => by omega⟩
    · intro st i
      exact ⟨fun r h => by simp [json_skip_obj] at h, fun h => by omega⟩
    · intro st i
      exact ⟨fun r h => by simp [json_skip_arr] at h, fun h => by omega⟩
  | succ fuel ih =>
    obtain ⟨ih1, ih2, ih3⟩ := ih
    refine ⟨?_, ?_, ?_⟩
    · intro st
      have hm := matchany_length st
        [123, 91, I3IPC_JSON_STRING, I3IPC_JSON_NUMBER, I3IPC_JSON_BOOL, I3IPC_JSON_NULL]
      unfold i3ipc__json_skip
      dsimp only
      by_cases c1 : (!(i3ipc__json_matchany st
          [123, 91, I3IPC_JSON_STRING, I3IPC_JSON_NUMBER, I3IPC_JSON_BOOL,
            I3IPC_JSON_NULL]).1) = true
      · rw [if_pos c1]
        refine ⟨fun r h => ?_, fun _ h => by cases h⟩
        simp only [Outcome.done.injEq] at h
        subst h
        exact hm.1
      · rw [if_neg c1]
        by_cases c2 : ((i3ipc__json_matchany st
          [123, 91, I3IPC_JSON_STRING, I3IPC_JSON_NUMBER, I3IPC_JSON_BOOL,
            I3IPC_JSON_NULL]).2.1.type == 123) = true
        · rw [if_pos c2]
          exact ⟨(ih2 st 0).1, fun h => (ih2 st 0).2 (by omega)⟩
        · rw [if_neg c2]
          by_cases c3 : ((i3ipc__json_matchany st
            [123, 91, I3IPC_JSON_STRING, I3IPC_JSON_NUMBER, I3IPC_JSON_BOOL,
              I3IPC_JSON_NULL]).2.1.type == 91) = true
          · rw [if_pos c3]
            exact ⟨(ih3 st 0).1, fun h => (ih3 st 0).2 (by omega)⟩
          · rw [if_neg c3]
            refine ⟨fun r h => ?_, fun _ h => by cases h⟩
            simp only [Outcome.done.injEq] at h
            subst h
            exact hm.1
    · intro st i
      have hl := loopobj_length st i
      unfold json_skip_obj
      dsimp only
      by_cases c1 : (i3ipc__json_loopobj st i).1 = true
      · rw [if_pos c1]
        have hl2 := hl.2 c1
        cases hs : i3ipc__json_skip fuel (i3ipc__json_loopobj st i).2.2 with
        | done x =>
          obtain ⟨c, st2⟩ := x
          have h2 := (ih1 _).1 _ hs
          dsimp only at h2 ⊢
          by_cases c2 : (c != 0) = true
          · rw [if_pos c2]
            refine ⟨fun r h => ?_, fun _ h => by cases h⟩
            simp only [Outcome.done.injEq] at h
            subst h
            dsimp only
            omega
          · rw [if_neg c2]
            refine ⟨fun r h => ?_, fun h => (ih2 st2 (i + 1)).2 (by omega)⟩
            have := (ih2 st2 (i + 1)).1 r h
            omega
        | fail c => exact ⟨fun r h => (by cases h), fun _ h => by cases h⟩
        | aborted => exact ⟨fun r h => (by cases h), fun _ h => by cases h⟩
        | starved =>
          refine ⟨fun r h => (by cases h), fun h _ => ?_⟩
          exact (ih1 _).2 (by omega) hs
      · rw [if_neg c1]
        by_cases c2 : (i3ipc__json_loopobj st i).2.2.err_flag = true
        · rw [if_pos c2]
          refine ⟨fun r h => ?_, fun _ h => by cases h⟩
          simp only [Outcome.done.injEq] at h
          subst h
          exact hl.1
        · rw [if_neg c2]
          refine ⟨fun r h => ?_, fun _ h => by cases h⟩
          simp only [Outcome.done.injEq] at h
          subst h
          exact hl.1
    · intro st i
      have hl := looparr_length st i
      unfold json_skip_arr
      dsimp only
      by_cases c1 : (i3ipc__json_looparr st i).1 = true
      · rw [if_pos c1]
        have hl2 := hl.2 c1
        cases hs : i3ipc__json_skip fuel (i3ipc__json_looparr st i).2 with
        | done x =>
          obtain ⟨c, st2⟩ := x
          have h2 := (ih1 _).1 _ hs
          dsimp only at h2 ⊢
          by_cases c2 : (c != 0) = true
          · rw [if_pos c2]
            refine ⟨fun r h => ?_, fun _ h => by cases h⟩
            simp only [Outcome.done.injEq] at h
            subst h
            dsimp only
            omega
          · rw [if_neg c2]
            refine ⟨fun r h => ?_, fun h => (ih3 st2 (i + 1)).2 (by omega)⟩
            have := (ih3 st2 (i + 1)).1 r h
            omega
        | fail c => exact ⟨fun r h => (by cases h), fun _ h => by cases h⟩
        | aborted => exact ⟨fun r h => (by cases h), fun _ h => by cases h⟩
        | starved =>
          refine ⟨fun r h => (by cases h), fun h _ => ?_⟩
          exact (ih1 _).2 (by omega) hs
      · rw [if_neg c1]
        by_cases c2 : (i3ipc__json_looparr st i).2.err_flag = true
        · rw [if_pos c2]
          refine ⟨fun r h => ?_, fun _ h => by cases h⟩
          simp only [Outcome.done.injEq] at h
          subst h
          exact hl.1
        · rw [if_neg c2]
          refine ⟨fun r h => ?_, fun _ h => by cases h⟩
          simp only [Outcome.done.injEq] at h
          subst h
          exact hl.1

/-- The loop of `i3ipc__parse_loopfields` pops no more tokens than there are, pops three
when it finds a member, and does not run out of fuel with two units for every token, and two
more. -/
theorem loopfields_terminates (type : I3ipc_type) : ∀ (fuel : Nat) (st : I3ipc_json_state)
    (j : Nat),
    (∀ r, parse_loopfields_loop fuel st type j = Outcome.done r →
      r.2.2.tokens.length ≤ st.tokens.length ∧
      (r.1 = true → r.2.2.tokens.length + 3 ≤ st.tokens.length)) ∧
    (2 * st.tokens.length + 2 ≤ fuel →
      parse_loopfields_loop fuel st type j ≠ Outcome.starved) := by
  intro fuel
  induction fuel with
  | zero =>
    intro st j
    exact ⟨fun r h => by simp [parse_loopfields_loop] at h, fun h => by omega⟩
  | succ fuel ih =>
    intro st j
    have hl := loopobj_length st j
    unfold parse_loopfields_loop
    dsimp only
    by_cases c1 : (!(i3ipc__json_loopobj st j).1) = true
    · rw [if_pos c1]
      refine ⟨fun r h => ?_, fun _ h => by cases h⟩
      simp only [Outcome.done.injEq] at h
      subst h
      refine ⟨hl.1, fun h => ?_⟩
      cases h
    · rw [if_neg c1]
      have c1' : (i3ipc__json_loopobj st j).1 = true := by simpa using c1
      have hl2 := hl.2 c1'
      cases hf : find_field type (i3ipc__json_loopobj st j).2.1 with
      | some field =>
        dsimp only
        refine ⟨fun r h => ?_, fun _ h => by cases h⟩
        simp only [Outcome.done.injEq] at h
        subst h
        exact ⟨hl.1, fun _ => hl2⟩
      | none =>
        dsimp only
        cases hs : i3ipc__json_skip fuel (i3ipc__json_loopobj st j).2.2 with
        | done x =>
          obtain ⟨c, st2⟩ := x
          have h2 := ((json_skip_terminates fuel).1 _).1 _ hs
          dsimp only at h2 ⊢
          by_cases c2 : (c != 0) = true
          · rw [if_pos c2]
            refine ⟨fun r h => ?_, fun _ h => by cases h⟩
            simp only [Outcome.done.injEq] at h
            subst h
            refine ⟨by dsimp only; omega, fun h => ?_⟩
            cases h
          · rw [if_neg c2]
            refine ⟨fun r h => ?_, fun h => (ih st2 1).2 (by omega)⟩
            have := (ih st2 1).1 r h
            exact ⟨by omega, fun hk => by have := this.2 hk; omega⟩
        | fail c => exact ⟨fun r h => (by cases h), fun _ h => by cases h⟩
        | aborted => exact ⟨fun r h => (by cases h), fun _ h => by cases h⟩
        | starved =>
          refine ⟨fun r h => (by cases h), fun h _ => ?_⟩
          exact ((json_skip_terminates fuel).1 _).2 (by omega) hs

/-- The flags of the `MAYBE` group are gone after they have been cleared. -/
theorem clearflag_maybe (fl : Nat) :
    hasflag (clearflag fl I3IPC_TYPE_GROUP_MAYBE) I3IPC_TYPE_GROUP_MAYBE = false := by
  simp only [hasflag, clearflag, I3IPC_TYPE_GROUP_MAYBE]
  rw [Nat.and_assoc]
  have e : ((511 ^^^ 24) &&& 24 : Nat) = 0 := by decide
  rw [e]
  simp

/-- The recursive call of the branch for `MAYBE` works on a lighter descriptor. -/
theorem weight_maybe (t fl : Nat) (h : hasflag fl I3IPC_TYPE_GROUP_MAYBE = true) :
    descriptor_weight t (clearflag fl I3IPC_TYPE_GROUP_MAYBE) + 1 = descriptor_weight t fl := by
  simp only [descriptor_weight, clearflag_maybe, h, Bool.false_eq_true, ↓reduceIte]
  omega

/-- The recursive call of the inline branch works on a lighter descriptor: the member of an
inline type is not of an inline type. -/
theorem weight_inline (t fl : Nat) (type : I3ipc_type) (f : I3ipc_field)
    (others : List I3ipc_field)
    (h : i3ipc__type_get t = some type) (hi : type.is_inline = true)
    (hf : type.fields = f :: others) :
    descriptor_weight f.type.toNat f.flags + 1 ≤ descriptor_weight t fl := by
  have hall : i3ipc__global_types.all (fun ty => !ty.is_inline ||
      (match ty.fields.head? with
       | some g => !(type_of g.type.toNat).is_inline
       | none => true)) = true := by
    decide!
  obtain ⟨hmem, _⟩ := type_get_mem t type h
  have := List.all_eq_true.mp hall type hmem
  simp only [hi, Bool.not_true, Bool.false_or, hf, List.head?_cons] at this
  have h1 : (type_of f.type.toNat).is_inline = false := by simpa using this
  have h2 : (type_of t).is_inline = true := by
    simp only [type_of, h, Option.getD_some]
    exact hi
  simp only [descriptor_weight, h1, h2, Bool.false_eq_true, ↓reduceIte]
  split <;> omega

/-- A descriptor without flags weighs at most 2. -/
theorem weight_plain (t : Nat) : descriptor_weight t 0 ≤ 2 := by
  have : hasflag 0 I3IPC_TYPE_GROUP_MAYBE = false := by decide
  simp only [descriptor_weight, this, Bool.false_eq_true, ↓reduceIte]
  split <;> omega

/-- No descriptor weighs more than 3. -/
theorem weight_le (t fl : Nat) : descriptor_weight t fl ≤ 3 := by
  simp only [descriptor_weight]
  split <;> split <;> omega

/-- The branch for `MAYBE` pops no more tokens than there are, and does not run out of fuel
when the recursive call does not. -/
theorem parse_maybe_terminates (fuel : Nat)
    (helper : I3ipc_parse_state → Nat → Nat → Option Val →
      Outcome (I3ipc_parse_state × Option Val))
    (hh : ∀ p t fl b, (∀ r, helper p t fl b = Outcome.done r →
        r.1.state.tokens.length ≤ p.state.tokens.length) ∧
      (4 * p.state.tokens.length + 4 + descriptor_weight t fl ≤ fuel →
        helper p t fl b ≠ Outcome.starved))
    (p : I3ipc_parse_state) (type : I3ipc_type) (t fl : Nat) (b : Option Val)
    (hm : hasflag fl I3IPC_TYPE_GROUP_MAYBE = true) :
    (∀ r, parse_maybe helper p type t fl b = Outcome.done r →
      r.1.state.tokens.length ≤ p.state.tokens.length) ∧
    (4 * p.state.tokens.length + 4 + descriptor_weight t fl ≤ fuel + 1 →
      parse_maybe helper p type t fl b ≠ Outcome.starved) := by
  have hl := (trymatchany_length p.state [I3IPC_JSON_NULL]).1
  have hw := weight_maybe t fl hm
  unfold parse_maybe
  unfold i3ipc__json_trymatch at *
  dsimp only
  by_cases c1 : (!(i3ipc__json_trymatchany p.state [I3IPC_JSON_NULL]).1) = true
  · rw [if_pos c1]
    by_cases c2 : hasflag fl I3IPC_TYPE_ISPTR = true
    · rw [if_pos c2]
      have hs := parse_alloc_state
        { p with state := (i3ipc__json_trymatchany p.state [I3IPC_JSON_NULL]).2.2 }
        type.size type.alignment
      cases hr : helper (i3ipc__parse_alloc
          { p with state := (i3ipc__json_trymatchany p.state [I3IPC_JSON_NULL]).2.2 }
          type.size type.alignment).1 t (clearflag fl I3IPC_TYPE_GROUP_MAYBE)
          (if (i3ipc__parse_alloc
            { p with state := (i3ipc__json_trymatchany p.state [I3IPC_JSON_NULL]).2.2 }
            type.size type.alignment).2.2.isSome = true
            then some (zero_of t (clearflag fl I3IPC_TYPE_GROUP_MAYBE)) else none) with
      | done x =>
        obtain ⟨x1, x2⟩ := x
        have h2 := (hh _ _ _ _).1 _ hr
        rw [hs] at h2
        dsimp only at h2 ⊢
        refine ⟨fun r h => ?_, fun _ h => (by cases h)⟩
        simp only [parse_finish, Outcome.done.injEq] at h
        subst h
        exact Nat.le_trans h2 hl
      | fail c => exact ⟨fun r h => (by cases h), fun _ h => (by cases h)⟩
      | aborted => exact ⟨fun r h => (by cases h), fun _ h => (by cases h)⟩
      | starved =>
        refine ⟨fun r h => (by cases h), fun h _ => ?_⟩
        refine (hh _ _ _ _).2 ?_ hr
        rw [hs]
        dsimp only
        omega
    · rw [if_neg c2]
      cases hr : helper { p with state := (i3ipc__json_trymatchany p.state
          [I3IPC_JSON_NULL]).2.2 } t (clearflag fl I3IPC_TYPE_GROUP_MAYBE) b with
      | done x =>
        obtain ⟨x1, x2⟩ := x
        have h2 := (hh _ _ _ _).1 _ hr
        dsimp only at h2 ⊢
        refine ⟨fun r h => ?_, fun _ h => (by cases h)⟩
        simp only [parse_finish, Outcome.done.injEq] at h
        subst h
        exact Nat.le_trans h2 hl
      | fail c => exact ⟨fun r h => (by cases h), fun _ h => (by cases h)⟩
      | aborted => exact ⟨fun r h => (by cases h), fun _ h => (by cases h)⟩
      | starved =>
        refine ⟨fun r h => (by cases h), fun h _ => ?_⟩
        refine (hh _ _ _ _).2 ?_ hr
        dsimp only
        omega
  · rw [if_neg c1]
    refine ⟨fun r h => ?_, fun _ h => (by cases h)⟩
    simp only [parse_finish, Outcome.done.injEq] at h
    subst h
    exact hl

/-- The string branch pops at most one token and does not run out of fuel. -/
theorem parse_string_terminates (p : I3ipc_parse_state) (t : Nat) (b : Option Val) :
    (∀ r, parse_string p t b = Outcome.done r →
      r.1.state.tokens.length ≤ p.state.tokens.length) ∧
    parse_string p t b ≠ Outcome.starved := by
  have hl := (matchany_length p.state [I3IPC_JSON_STRING]).1
  have key : ∀ (n : Nat), (if p.copy_strings = true
      then (i3ipc__parse_alloc
        { p with state := (i3ipc__json_matchany p.state [I3IPC_JSON_STRING]).2.2 } n 1).1
      else { p with state := (i3ipc__json_matchany p.state [I3IPC_JSON_STRING]).2.2 }
      ).state.tokens.length ≤ p.state.tokens.length := by
    intro n
    cases p.copy_strings
    · exact hl
    · simp only [↓reduceIte]
      rw [parse_alloc_state]
      exact hl
  unfold parse_string
  unfold i3ipc__json_match at *
  dsimp only
  by_cases c1 : (!(i3ipc__json_matchany p.state [I3IPC_JSON_STRING]).1) = true
  · rw [if_pos c1]
    exact ⟨fun r h => (by cases h), fun h => (by cases h)⟩
  · rw [if_neg c1]
    cases b with
    | none =>
      dsimp only
      refine ⟨fun r h => ?_, fun h => (by cases h)⟩
      simp only [parse_finish, Outcome.done.injEq] at h
      subst h
      exact key _
    | some v =>
      dsimp only
      by_cases ht : (t == I3IPC_TYPE_STRING) = true
      · rw [if_pos ht]
        refine ⟨fun r h => ?_, fun h => (by cases h)⟩
        simp only [parse_finish, Outcome.done.injEq] at h
        subst h
        exact key _
      · rw [if_neg ht]
        refine ⟨fun r h => ?_, fun h => (by cases h)⟩
        simp only [parse_finish, Outcome.done.injEq] at h
        subst h
        exact key _

/-- The primitive branch pops at most one token and does not run out of fuel. -/
theorem parse_primitive_terminates (p : I3ipc_parse_state) (t : Nat) (b : Option Val) :
    (∀ r, parse_primitive p t b = Outcome.done r →
      r.1.state.tokens.length ≤ p.state.tokens.length) ∧
    parse_primitive p t b ≠ Outcome.starved := by
  unfold parse_primitive
  dsimp only
  generalize (if (t == I3IPC_TYPE_BOOL) = true then I3IPC_JSON_BOOL else I3IPC_JSON_NUMBER)
    = tt
  have hl := (matchany_length p.state [tt]).1
  unfold i3ipc__json_match at *
  by_cases c1 : (!(i3ipc__json_matchany p.state [tt]).1) = true
  · rw [if_pos c1]
    exact ⟨fun r h => (by cases h), fun h => (by cases h)⟩
  · rw [if_neg c1]
    cases b with
    | none =>
      dsimp only
      refine ⟨fun r h => ?_, fun h => (by cases h)⟩
      simp only [parse_finish, Outcome.done.injEq] at h
      subst h
      exact hl
    | some v =>
      dsimp only
      by_cases h1 : (t == I3IPC_TYPE_BOOL) = true
      · rw [if_pos h1]
        refine ⟨fun r h => ?_, fun h => (by cases h)⟩
        simp only [parse_finish, Outcome.done.injEq] at h
        subst h
        exact hl
      · rw [if_neg h1]
        by_cases h2 : (t == I3IPC_TYPE_SIZET) = true
        · rw [if_pos h2]
          refine ⟨fun r h => ?_, fun h => (by cases h)⟩
          simp only [parse_finish, Outcome.done.injEq] at h
          subst h
          exact hl
        · rw [if_neg h2]
          by_cases h3 : (t == I3IPC_TYPE_INT) = true
          · rw [if_pos h3]
            refine ⟨fun r h => ?_, fun h => (by cases h)⟩
            simp only [parse_finish, Outcome.done.injEq] at h
            subst h
            exact hl
          · rw [if_neg h3]
            by_cases h4 : (t == I3IPC_TYPE_FLOAT) = true
            · rw [if_pos h4]
              refine ⟨fun r h => ?_, fun h => (by cases h)⟩
              simp only [parse_finish, Outcome.done.injEq] at h
              subst h
              exact hl
            · rw [if_neg h4]
              exact ⟨fun r h => (by cases h), fun h => (by cases h)⟩

/-- The branch for arrays pops no more tokens than there are, and does not run out of fuel
when the loop does not. -/
theorem parse_array_terminates (fuel : Nat)
    (loop : I3ipc_parse_state → Nat → Bool → Nat → List Val →
      Outcome (I3ipc_parse_state × Nat × List Val))
    (ha : ∀ p t s i e, (∀ r, loop p t s i e = Outcome.done r →
        r.1.state.tokens.length ≤ p.state.tokens.length) ∧
      (4 * p.state.tokens.length + 3 ≤ fuel → loop p t s i e ≠ Outcome.starved))
    (p : I3ipc_parse_state) (type : I3ipc_type) (t : Nat) (b : Option Val) :
    (∀ r, parse_array loop p type t b = Outcome.done r →
      r.1.state.tokens.length ≤ p.state.tokens.length) ∧
    (4 * p.state.tokens.length + 4 ≤ fuel + 1 →
      parse_array loop p type t b ≠ Outcome.starved) := by
  have hs := parse_alloc_state p (2 ^ 64 - 1) type.alignment
  unfold parse_array
  dsimp only
  cases hr : loop (i3ipc__parse_alloc p (2 ^ 64 - 1) type.alignment).1 t
      (b.isSome && (i3ipc__parse_alloc p (2 ^ 64 - 1) type.alignment).2.2.isSome) 0 [] with
  | done x =>
    obtain ⟨x1, x2, x3⟩ := x
    have h2 := (ha _ _ _ _ _).1 _ hr
    rw [hs] at h2
    dsimp only at h2 ⊢
    by_cases c1 : x1.state.err_flag = true
    · rw [if_pos c1]
      exact ⟨fun r h => (by cases h), fun _ h => (by cases h)⟩
    · rw [if_neg c1]
      refine ⟨fun r h => ?_, fun _ h => (by cases h)⟩
      simp only [parse_finish, Outcome.done.injEq] at h
      subst h
      dsimp only
      split
      · exact h2
      · exact h2
  | fail c => exact ⟨fun r h => (by cases h), fun _ h => (by cases h)⟩
  | aborted => exact ⟨fun r h => (by cases h), fun _ h => (by cases h)⟩
  | starved =>
    refine ⟨fun r h => (by cases h), fun h _ => ?_⟩
    refine (ha _ _ _ _ _).2 ?_ hr
    rw [hs]
    omega

/-- The inline branch pops no more tokens than there are, and does not run out of fuel when
the recursive call does not. -/
theorem parse_inline_terminates (fuel : Nat)
    (helper : I3ipc_parse_state → Nat → Nat → Option Val →
      Outcome (I3ipc_parse_state × Option Val))
    (hh : ∀ p t fl b, (∀ r, helper p t fl b = Outcome.done r →
        r.1.state.tokens.length ≤ p.state.tokens.length) ∧
      (4 * p.state.tokens.length + 4 + descriptor_weight t fl ≤ fuel →
        helper p t fl b ≠ Outcome.starved))
    (p : I3ipc_parse_state) (type : I3ipc_type) (t fl : Nat) (b : Option Val)
    (hty : i3ipc__type_get t = some type) (hi : type.is_inline = true) :
    (∀ r, parse_inline helper p type b = Outcome.done r →
      r.1.state.tokens.length ≤ p.state.tokens.length) ∧
    (4 * p.state.tokens.length + 4 + descriptor_weight t fl ≤ fuel + 1 →
      parse_inline helper p type b ≠ Outcome.starved) := by
  unfold parse_inline
  cases hf : type.fields with
  | nil => exact ⟨fun r h => (by cases h), fun _ h => (by cases h)⟩
  | cons field others =>
    have hw := weight_inline t fl type field others hty hi hf
    dsimp only
    by_cases c1 : (others.any (fun f => !hasflag f.flags I3IPC_TYPE_GROUP_DERIVED)) = true
    · rw [if_pos c1]
      exact ⟨fun r h => (by cases h), fun _ h => (by cases h)⟩
    · rw [if_neg c1]
      cases hr : helper p field.type.toNat field.flags (b.map (fun b => b.field 0)) with
      | done x =>
        obtain ⟨x1, x2⟩ := x
        have h2 := (hh _ _ _ _).1 _ hr
        dsimp only at h2 ⊢
        refine ⟨fun r h => ?_, fun _ h => (by cases h)⟩
        simp only [parse_finish, Outcome.done.injEq] at h
        subst h
        exact h2
      | fail c => exact ⟨fun r h => (by cases h), fun _ h => (by cases h)⟩
      | aborted => exact ⟨fun r h => (by cases h), fun _ h => (by cases h)⟩
      | starved =>
        refine ⟨fun r h => (by cases h), fun h _ => ?_⟩
        exact (hh _ _ _ _).2 (by omega) hr

/-- The record branch pops no more tokens than there are, and does not run out of fuel when
the loop does not. -/
theorem parse_record_terminates (fuel : Nat)
    (loop : I3ipc_parse_state → I3ipc_type → Option Nat → Option Val →
      Outcome (I3ipc_parse_state × Option Val))
    (ha : ∀ p ty f b, (∀ r, loop p ty f b = Outcome.done r →
        r.1.state.tokens.length ≤ p.state.tokens.length) ∧
      (4 * p.state.tokens.length + 3 ≤ fuel → loop p ty f b ≠ Outcome.starved))
    (p : I3ipc_parse_state) (type : I3ipc_type) (b : Option Val) :
    (∀ r, parse_record loop p type b = Outcome.done r →
      r.1.state.tokens.length ≤ p.state.tokens.length) ∧
    (4 * p.state.tokens.length + 4 ≤ fuel + 1 →
      parse_record loop p type b ≠ Outcome.starved) := by
  unfold parse_record
  cases hr : loop p type none b with
  | done x =>
    obtain ⟨x1, x2⟩ := x
    have h2 := (ha _ _ _ _).1 _ hr
    dsimp only at h2 ⊢
    by_cases c1 : x1.state.err_flag = true
    · rw [if_pos c1]
      exact ⟨fun r h => (by cases h), fun _ h => (by cases h)⟩
    · rw [if_neg c1]
      refine ⟨fun r h => ?_, fun _ h => (by cases h)⟩
      simp only [parse_finish, Outcome.done.injEq] at h
      subst h
      exact h2
  | fail c => exact ⟨fun r h => (by cases h), fun _ h => (by cases h)⟩
  | aborted => exact ⟨fun r h => (by cases h), fun _ h => (by cases h)⟩
  | starved =>
    refine ⟨fun r h => (by cases h), fun h _ => ?_⟩
    exact (ha _ _ _ _).2 (by omega) hr

/-- The body of the array loop pops no more tokens than there are, and does not run out of
fuel when the element and the rest of the loop do not: an element is parsed only after
`i3ipc__json_looparr` has popped a token. -/
theorem array_loop_step_terminates (fuel : Nat)
    (helper : I3ipc_parse_state → Nat → Nat → Option Val →
      Outcome (I3ipc_parse_state × Option Val))
    (again : I3ipc_parse_state → Nat → Bool → Nat → List Val →
      Outcome (I3ipc_parse_state × Nat × List Val))
    (hh : ∀ p t fl b, (∀ r, helper p t fl b = Outcome.done r →
        r.1.state.tokens.length ≤ p.state.tokens.length) ∧
      (4 * p.state.tokens.length + 4 + descriptor_weight t fl ≤ fuel →
        helper p t fl b ≠ Outcome.starved))
    (ha : ∀ p t s i e, (∀ r, again p t s i e = Outcome.done r →
        r.1.state.tokens.length ≤ p.state.tokens.length) ∧
      (4 * p.state.tokens.length + 3 ≤ fuel → again p t s i e ≠ Outcome.starved))
    (p : I3ipc_parse_state) (t : Nat) (s : Bool) (i : Nat) (e : List Val) :
    (∀ r, array_loop_step helper again p t s i e = Outcome.done r →
      r.1.state.tokens.length ≤ p.state.tokens.length) ∧
    (4 * p.state.tokens.length + 3 ≤ fuel + 1 →
      array_loop_step helper again p t s i e ≠ Outcome.starved) := by
  have hl := looparr_length p.state i
  have hw := weight_plain t
  unfold array_loop_step
  dsimp only
  by_cases c1 : (!(i3ipc__json_looparr p.state i).1) = true
  · rw [if_pos c1]
    refine ⟨fun r h => ?_, fun _ h => (by cases h)⟩
    simp only [Outcome.done.injEq] at h
    subst h
    exact hl.1
  · rw [if_neg c1]
    have hl2 := hl.2 (by simpa using c1)
    cases hr : helper { p with state := (i3ipc__json_looparr p.state i).2 } t 0
        (if s = true then some (zero_of t 0) else none) with
    | done x =>
      obtain ⟨x1, x2⟩ := x
      have h2 := (hh _ _ _ _).1 _ hr
      dsimp only at h2 ⊢
      refine ⟨fun r h => ?_, fun h => (ha _ _ _ _ _).2 (by omega)⟩
      have := (ha _ _ _ _ _).1 r h
      omega
    | fail c => exact ⟨fun r h => (by cases h), fun _ h => (by cases h)⟩
    | aborted => exact ⟨fun r h => (by cases h), fun _ h => (by cases h)⟩
    | starved =>
      refine ⟨fun r h => (by cases h), fun h _ => ?_⟩
      refine (hh _ _ _ _).2 ?_ hr
      dsimp only
      omega

/-- One round of the record loop pops no more tokens than there are, and does not run out
of fuel when its parts do not: a member is parsed only after `i3ipc__parse_loopfields` has
popped its key. -/
theorem fields_loop_step_terminates (fuel : Nat)
    (helper : I3ipc_parse_state → Nat → Nat → Option Val →
      Outcome (I3ipc_parse_state × Option Val))
    (again : I3ipc_parse_state → I3ipc_type → Option Nat → Option Val →
      Outcome (I3ipc_parse_state × Option Val))
    (hh : ∀ p t fl b, (∀ r, helper p t fl b = Outcome.done r →
        r.1.state.tokens.length ≤ p.state.tokens.length) ∧
      (4 * p.state.tokens.length + 4 + descriptor_weight t fl ≤ fuel →
        helper p t fl b ≠ Outcome.starved))
    (ha : ∀ p ty f b, (∀ r, again p ty f b = Outcome.done r →
        r.1.state.tokens.length ≤ p.state.tokens.length) ∧
      (4 * p.state.tokens.length + 3 ≤ fuel → again p ty f b ≠ Outcome.starved))
    (p : I3ipc_parse_state) (type : I3ipc_type) (f : Option Nat) (b : Option Val) :
    (∀ r, fields_loop_step (i3ipc__parse_loopfields fuel) helper again p type f b
        = Outcome.done r →
      r.1.state.tokens.length ≤ p.state.tokens.length) ∧
    (4 * p.state.tokens.length + 3 ≤ fuel + 1 →
      fields_loop_step (i3ipc__parse_loopfields fuel) helper again p type f b
        ≠ Outcome.starved) := by
  have hlf := loopfields_terminates type fuel p.state (if f.isNone = true then 0 else 1)
  unfold fields_loop_step
  unfold i3ipc__parse_loopfields
  cases hl : parse_loopfields_loop fuel p.state type (if f.isNone = true then 0 else 1) with
  | done x =>
    obtain ⟨more, field, st⟩ := x
    have hl1 := hlf.1 _ hl
    dsimp only at hl1 ⊢
    by_cases c1 : (!more) = true
    · rw [if_pos c1]
      refine ⟨fun r h => ?_, fun _ h => (by cases h)⟩
      simp only [Outcome.done.injEq] at h
      subst h
      exact hl1.1
    · rw [if_neg c1]
      have hl2 := hl1.2 (by simpa using c1)
      cases hg : type.fields.get? field with
      | none => exact ⟨fun r h => (by cases h), fun _ h => (by cases h)⟩
      | some fd =>
        dsimp only
        have hw := weight_le fd.type.toNat fd.flags
        cases hr : helper { p with state := st } fd.type.toNat fd.flags
            (b.map (fun b => b.field field)) with
        | done x =>
          obtain ⟨x1, x2⟩ := x
          have h2 := (hh _ _ _ _).1 _ hr
          dsimp only at h2 ⊢
          refine ⟨fun r h => ?_, fun h => (ha _ _ _ _).2 (by omega)⟩
          have := (ha _ _ _ _).1 r h
          omega
        | fail c => exact ⟨fun r h => (by cases h), fun _ h => (by cases h)⟩
        | aborted => exact ⟨fun r h => (by cases h), fun _ h => (by cases h)⟩
        | starved =>
          refine ⟨fun r h => (by cases h), fun h _ => ?_⟩
          refine (hh _ _ _ _).2 ?_ hr
          dsimp only
          omega
  | fail c => exact ⟨fun r h => (by cases h), fun _ h => (by cases h)⟩
  | aborted => exact ⟨fun r h => (by cases h), fun _ h => (by cases h)⟩
  | starved =>
    refine ⟨fun r h => (by cases h), fun h _ => ?_⟩
    exact hlf.2 (by omega) hl

/-- `i3ipc__parse_helper` and its loops pop no more tokens than there are, and do not run
out of fuel with four units for every token that is left, four more, and the weight of the
descriptor. -/
theorem parse_helper_terminates : ∀ (fuel : Nat),
    (∀ p t fl b, (∀ r, i3ipc__parse_helper fuel p t fl b = Outcome.done r →
        r.1.state.tokens.length ≤ p.state.tokens.length) ∧
      (4 * p.state.tokens.length + 4 + descriptor_weight t fl ≤ fuel →
        i3ipc__parse_helper fuel p t fl b ≠ Outcome.starved)) ∧
    (∀ p t s i e, (∀ r, parse_array_loop fuel p t s i e = Outcome.done r →
        r.1.state.tokens.length ≤ p.state.tokens.length) ∧
      (4 * p.state.tokens.length + 3 ≤ fuel →
        parse_array_loop fuel p t s i e ≠ Outcome.starved)) ∧
    (∀ p ty f b, (∀ r, parse_fields_loop fuel p ty f b = Outcome.done r →
        r.1.state.tokens.length ≤ p.state.tokens.length) ∧
      (4 * p.state.tokens.length + 3 ≤ fuel →
        parse_fields_loop fuel p ty f b ≠ Outcome.starved)) := by
  intro fuel
  induction fuel with
  | zero =>
    refine ⟨?_, ?_, ?_⟩
    · intro p t fl b
      exact ⟨fun r h => (by simp [i3ipc__parse_helper] at h), fun h => (by omega)⟩
    · intro p t s i e
      exact ⟨fun r h => (by simp [parse_array_loop] at h), fun h => (by omega)⟩
    · intro p ty f b
      exact ⟨fun r h => (by simp [parse_fields_loop] at h), fun h => (by omega)⟩
  | succ fuel ih =>
    obtain ⟨ih1, ih2, ih3⟩ := ih
    refine ⟨?_, ?_, ?_⟩
    · intro p t fl b
      unfold i3ipc__parse_helper
      by_cases c0 : (t == I3IPC_TYPE_EVENT) = true
      · rw [if_pos c0]
        exact ⟨fun r h => (by cases h), fun _ h => (by cases h)⟩
      · rw [if_neg c0]
        cases hty : i3ipc__type_get t with
        | none => exact ⟨fun r h => (by cases h), fun _ h => (by cases h)⟩
        | some type =>
          dsimp only
          by_cases c1 : hasflag fl I3IPC_TYPE_GROUP_MAYBE = true
          · rw [if_pos c1]
            exact parse_maybe_terminates fuel _ ih1 p type t fl b c1
          · rw [if_neg c1]
            by_cases c2 : ((t == I3IPC_TYPE_STRING && fl == 0)
                || (t == I3IPC_TYPE_CHAR && hasflag fl I3IPC_TYPE_ISARRAY)) = true
            · rw [if_pos c2]
              exact ⟨(parse_string_terminates p t b).1, fun _ => (parse_string_terminates p t b).2⟩
            · rw [if_neg c2]
              by_cases c3 : hasflag fl I3IPC_TYPE_ISARRAY = true
              · rw [if_pos c3]
                have := parse_array_terminates fuel _ ih2 p type t b
                exact ⟨this.1, fun h => this.2 (by omega)⟩
              · rw [if_neg c3]
                by_cases c4 : type.is_inline = true
                · rw [if_pos c4]
                  exact parse_inline_terminates fuel _ ih1 p type t fl b hty c4
                · rw [if_neg c4]
                  by_cases c5 : (fl == 0 && type.is_primitive) = true
                  · rw [if_pos c5]
                    exact ⟨(parse_primitive_terminates p t b).1,
                      fun _ => (parse_primitive_terminates p t b).2⟩
                  · rw [if_neg c5]
                    by_cases c6 : (fl == 0) = true
                    · rw [if_pos c6]
                      have := parse_record_terminates fuel _ ih3 p type b
                      exact ⟨this.1, fun h => this.2 (by omega)⟩
                    · rw [if_neg c6]
                      exact ⟨fun r h => (by cases h), fun _ h => (by cases h)⟩
    · intro p t s i e
      unfold parse_array_loop
      exact array_loop_step_terminates fuel _ _ ih1 ih2 p t s i e
    · intro p ty f b
      unfold parse_fields_loop
      exact fields_loop_step_terminates fuel _ _ ih1 ih3 p ty f b

/-- The loop of `i3ipc__json_scan` does not run out of fuel with one round for every byte,
and one more: every token but the end token consumes a byte. -/
theorem scan_loop_terminates : ∀ (fuel : Nat) (cur : List Nat)
    (tokens : List I3ipc_json_token), cur.length + 1 ≤ fuel →
    json_scan_loop fuel cur tokens ≠ Outcome.starved := by
  intro fuel
  induction fuel with
  | zero => intro cur tokens h; omega
  | succ fuel ih =>
    intro cur tokens h
    unfold json_scan_loop
    cases hs : i3ipc__json_scan_token cur with
    | done x =>
      obtain ⟨tok, rest⟩ := x
      dsimp only
      by_cases c1 : (tok.type == 0) = true
      · rw [if_pos c1]
        intro h2
        cases h2
      · rw [if_neg c1]
        have := scan_token_consumes cur rest tok hs (by simpa using c1)
        exact ih _ _ (by omega)
    | fail c => intro h2; cases h2
    | aborted => intro h2; cases h2
    | starved => intro h2; cases h2

/-- With the fuel of `i3ipc_parse_try`, `i3ipc__parse_helper` does not run out of fuel. -/
theorem parse_helper_fuel (p : I3ipc_parse_state) (t fl : Nat) (b : Option Val) (n : Nat)
    (h : p.state.tokens.length ≤ n) :
    i3ipc__parse_helper (parse_fuel n) p t fl b ≠ Outcome.starved := by
  have hw := weight_le t fl
  refine ((parse_helper_terminates (parse_fuel n)).1 p t fl b).2 ?_
  unfold parse_fuel
  omega

/-- The first pass of `i3ipc_parse_try` does not run out of fuel. -/
theorem first_pass_terminates (staticalloc : Bool) (msg_type : Int) (payload : List Nat)
    (message_type : Int) (type_id : Nat) :
    parse_first_pass staticalloc msg_type payload message_type type_id
      ≠ Outcome.starved := by
  unfold parse_first_pass
  by_cases c0 : (msg_type != message_type) = true
  · rw [if_pos c0]
    intro h
    cases h
  · rw [if_neg c0]
    cases hsc : i3ipc__json_scan payload with
    | done toks =>
      dsimp only
      cases hty : i3ipc__type_get type_id with
      | none => intro h; cases h
      | some ty =>
        dsimp only
        cases hs : i3ipc__parse_helper (parse_fuel toks.length)
            (i3ipc__parse_alloc ⟨⟨toks, false⟩, [], 0, false, !staticalloc, 0, none, false⟩
              ty.size ty.alignment).1 type_id 0 none with
        | done x =>
          obtain ⟨x1, x2⟩ := x
          dsimp only
          split <;> (intro h; cases h)
        | fail c => intro h; cases h
        | aborted => intro h; cases h
        | starved =>
          exact absurd hs (parse_helper_fuel _ _ _ _ _ (by rw [parse_alloc_state]))
    | fail c => intro h; cases h
    | aborted => intro h; cases h
    | starved =>
      exact absurd hsc (scan_loop_terminates _ _ _ (Nat.le_refl _))

/-- Neither pass of `i3ipc_parse_try` runs out of fuel. -/
theorem parse_try_terminates (staticalloc : Bool) (msg_type : Int) (payload : List Nat)
    (message_type : Int) (type_id : Nat) :
    i3ipc_parse_try staticalloc msg_type payload message_type type_id
      ≠ Outcome.starved := by
  unfold i3ipc_parse_try
  cases hf : parse_first_pass staticalloc msg_type payload message_type type_id with
  | done x =>
    obtain ⟨tokens, type, p⟩ := x
    dsimp only
    cases hs : i3ipc__parse_helper (parse_fuel tokens.length)
        (i3ipc__parse_alloc
          { p with
            state := { p.state with tokens := tokens },
            allocs := (layout_allocs p.requests 0).1, allocs_size := 0, memory := true }
          type.size type.alignment).1 type_id 0 (some (zero_of type_id 0)) with
    | done x =>
      obtain ⟨x1, x2⟩ := x
      cases x2 <;> (intro h; cases h)
    | fail c => intro h; cases h
    | aborted => intro h; cases h
    | starved =>
      exact absurd hs (parse_helper_fuel _ _ _ _ _ (by rw [parse_alloc_state]))
  | fail c => intro h; cases h
  | aborted => intro h; cases h
  | starved => exact absurd hf (first_pass_terminates _ _ _ _ _)

/-- C40 Termination. For every payload and every type id the model of `i3ipc__json_scan`
and of both passes of `i3ipc_parse_try` ends before its fuel does: `i3ipc__json_scan` with
one round for every byte and one more, the passes with `parse_fuel`. Every token but the end
token consumes at least one byte; `i3ipc__json_looparr` and `i3ipc__json_loopobj` pop a
token whenever they return true; `i3ipc__json_skip` and `i3ipc__parse_loopfields` end with
two units of fuel for every token, and two more; `i3ipc__parse_helper` ends from every state
with the fuel of `i3ipc_parse_try` for the tokens that are left; and the two recursive calls
of `i3ipc__parse_helper` that pop no token, in the branch for `MAYBE` and in the inline
branch, work on a descriptor of smaller weight. -/
theorem parsing_terminates (staticalloc : Bool) (msg_type : Int) (payload : List Nat)
    (message_type : Int) (type_id : Nat) :
    i3ipc__json_scan payload ≠ Outcome.starved ∧
    parse_first_pass staticalloc msg_type payload message_type type_id ≠ Outcome.starved ∧
    i3ipc_parse_try staticalloc msg_type payload message_type type_id ≠ Outcome.starved ∧
    (∀ cur tok rest, i3ipc__json_scan_token cur = Outcome.done (tok, rest) → tok.type ≠ 0 →
      rest.length < cur.length) ∧
    (∀ st i, (i3ipc__json_looparr st i).1 = true →
      (i3ipc__json_looparr st i).2.tokens.length < st.tokens.length) ∧
    (∀ st i, (i3ipc__json_loopobj st i).1 = true →
      (i3ipc__json_loopobj st i).2.2.tokens.length < st.tokens.length) ∧
    (∀ st, i3ipc__json_skip (2 * st.tokens.length + 2) st ≠ Outcome.starved) ∧
    (∀ st type field,
      i3ipc__parse_loopfields (2 * st.tokens.length + 2) st type field ≠ Outcome.starved) ∧
    (∀ p t fl b,
      i3ipc__parse_helper (parse_fuel p.state.tokens.length) p t fl b ≠ Outcome.starved) ∧
    (∀ t fl, hasflag fl I3IPC_TYPE_GROUP_MAYBE = true →
      descriptor_weight t (clearflag fl I3IPC_TYPE_GROUP_MAYBE) < descriptor_weight t fl) ∧
    (∀ t fl type f others, i3ipc__type_get t = some type → type.is_inline = true →
      type.fields = f :: others →
      descriptor_weight f.type.toNat f.flags < descriptor_weight t fl) := by
  refine ⟨scan_loop_terminates _ _ _ (Nat.le_refl _), first_pass_terminates _ _ _ _ _,
    parse_try_terminates _ _ _ _ _, ?_, ?_, ?_, ?_, ?_, ?_, ?_, ?_⟩
  · intro cur tok rest h ht
    exact scan_token_consumes cur rest tok h ht
  · intro st i h
    have := (looparr_length st i).2 h
    omega
  · intro st i h
    have := (loopobj_length st i).2 h
    omega
  · intro st
    exact ((json_skip_terminates _).1 st).2 (Nat.le_refl _)
  · intro st type field
    unfold i3ipc__parse_loopfields
    exact (loopfields_terminates type _ st _).2 (Nat.le_refl _)
  · intro p t fl b
    exact parse_helper_fuel p t fl b _ (Nat.le_refl _)
  · intro t fl h
    have := weight_maybe t fl h
    omega
  · intro t fl type f others h hi hf
    have := weight_inline t fl type f others h hi hf
    omega

/-- C40 at the command reply `[{"success":true}]`: the scan of the 18 bytes and both passes
end, and `i3ipc_parse_try` returns a record. -/
theorem parsing_terminates_witness :
    i3ipc__json_scan (bytes "[\x7b\"success\":true\x7d]") ≠ Outcome.starved ∧
    i3ipc_parse_try false 0 (bytes "[\x7b\"success\":true\x7d]") 0 I3IPC_TYPE_REPLY_COMMAND
      ≠ Outcome.starved ∧
    (i3ipc_parse_try false 0 (bytes "[\x7b\"success\":true\x7d]") 0
      I3IPC_TYPE_REPLY_COMMAND).isDone = true :=
  ⟨(parsing_terminates false 0 (bytes "[\x7b\"success\":true\x7d]") 0 I3IPC_TYPE_REPLY_COMMAND).1,
   (parsing_terminates false 0 (bytes "[\x7b\"success\":true\x7d]") 0
     I3IPC_TYPE_REPLY_COMMAND).2.2.1, by decide!⟩


/-! ## Type matching of received frames -/

/-- C17. `i3ipc_message_receive_try(e)` in an initialised context, for an expected type `e`
that the function accepts (a message type, an event type or `I3IPC_EVENT_ANY`), when the
socket delivers a frame with a 14 byte header, a length within the limit and the whole
payload. For a frame whose type is not `I3IPC_EVENT_TYPE_END`: the call returns 0, with the
frame and a 0 byte in the message buffer, if and only if the type of the frame equals `e`, or
`e` is `I3IPC_EVENT_ANY` and the type of the frame is `I3IPC_REPLY_SUBSCRIBE` or one of the
eight event types; in every other case the call hands `I3IPC_ERROR_MALFORMED` to
`i3ipc__error_handle` (with `nopanic` the code is latched and returned, without it the
program aborts), and the two names that the diagnostic of that branch prints are read inside
their tables. A frame of type `I3IPC_EVENT_TYPE_END` matches no accepted `e`, and the
diagnostic of the mismatch reads `i3ipc__global_event_type_name` at index 8, behind its 8
entries: for that frame the behaviour of the call is not defined. -/
theorem receive_type_matching (w : I3ipc_world) (e : Int) (events : Bool)
    (hdr body rest : List Nat)
    (hs : w.context.state = I3IPC_STATE_READY)
    (hsock : i3ipc__message_type_to_socket e = some events)
    (hdata : (w.incoming events).data = hdr ++ body ++ rest) (hh : hdr.length = 14)
    (hlen : (message_at hdr).message_length = body.length)
    (hcap : 14 + body.length + 1 ≤ 256 * 1024 * 1024) :
    ((message_at hdr).message_type ≠ I3IPC_EVENT_TYPE_END →
      (i3ipc_message_receive_try w e = Outcome.done (received w events hdr body rest, 0) ↔
        ((message_at hdr).message_type = e ∨
          (e = I3IPC_EVENT_ANY ∧ ((message_at hdr).message_type = I3IPC_REPLY_SUBSCRIBE ∨
            (message_at hdr).message_type ∈ I3ipc_event_type)))) ∧
      (¬ ((message_at hdr).message_type = e ∨
          (e = I3IPC_EVENT_ANY ∧ ((message_at hdr).message_type = I3IPC_REPLY_SUBSCRIBE ∨
            (message_at hdr).message_type ∈ I3ipc_event_type))) →
        i3ipc_message_receive_try w e =
          if w.context.nopanic
          then Outcome.done
            (latched (received w events hdr body rest) I3IPC_ERROR_MALFORMED_code,
              I3IPC_ERROR_MALFORMED_code)
          else Outcome.aborted) ∧
      (∀ table index,
        i3ipc__message_type_str (message_at hdr).message_type true = some (table, index) →
        0 ≤ index ∧ index < table.length) ∧
      (∀ table index, i3ipc__message_type_str e true = some (table, index) →
        0 ≤ index ∧ index < table.length)) ∧
    ((message_at hdr).message_type = I3IPC_EVENT_TYPE_END →
      receive_matches e (message_at hdr).message_type = false ∧
      i3ipc__message_type_str (message_at hdr).message_type true =
        some (i3ipc__global_event_type_name, 8) ∧
      i3ipc__global_event_type_name.length = 8) := by
  have hr := receive_frame w e events hdr body rest hs hsock hdata hh hlen hcap
  have hiff := receive_matches_iff e (message_at hdr).message_type
  have heh := error_handle_latches (received w events hdr body rest) I3IPC_ERROR_MALFORMED_code
    (by decide) (by decide)
  have hnp : (received w events hdr body rest).context.nopanic = w.context.nopanic := by
    cases events <;> rfl
  rw [hnp] at heh
  have hrange : -2 ^ 31 ≤ (message_at hdr).message_type ∧
      (message_at hdr).message_type < 2 ^ 31 := by
    simp only [message_at]
    exact int32_of_bytes_range _
  have hbound : ∀ (mt : Int), -2 ^ 31 ≤ mt → mt < 2 ^ 31 → mt ≠ I3IPC_EVENT_TYPE_END →
      ∀ table index, i3ipc__message_type_str mt true = some (table, index) →
      0 ≤ index ∧ index < table.length := by
    intro mt h1 h2 hne table index h
    unfold i3ipc__message_type_str at h
    by_cases ha : (0 ≤ mt && mt < I3IPC_MESSAGE_TYPE_COUNT) = true
    · rw [if_pos ha] at h
      simp only [Option.some.injEq, Prod.mk.injEq] at h
      simp only [I3IPC_MESSAGE_TYPE_COUNT, Bool.and_eq_true, decide_eq_true_eq] at ha
      rw [← h.1, ← h.2]
      simp [i3ipc__global_message_type_name]
      omega
    · rw [if_neg ha] at h
      by_cases hb : (-2 ^ 31 ≤ mt && mt ≤ I3IPC_EVENT_TYPE_END) = true
      · rw [if_pos hb] at h
        simp only [Option.some.injEq, Prod.mk.injEq] at h
        simp only [I3IPC_EVENT_TYPE_END, I3IPC_EVENT_WORKSPACE, Bool.and_eq_true,
          decide_eq_true_eq] at hb hne
        rw [← h.1, ← h.2]
        simp [i3ipc__global_event_type_name]
        omega
      · rw [if_neg hb] at h
        cases h
  have he : -2 ^ 31 ≤ e ∧ e < 2 ^ 31 ∧ e ≠ I3IPC_EVENT_TYPE_END := by
    unfold i3ipc__message_type_to_socket at hsock
    simp only [I3IPC_SUBSCRIBE, I3IPC_MESSAGE_TYPE_COUNT, I3IPC_EVENT_TYPE_BEGIN,
      I3IPC_EVENT_TYPE_END, I3IPC_EVENT_WORKSPACE, I3IPC_EVENT_ANY] at hsock ⊢
    split at hsock
    · rename_i h1
      simp only [beq_iff_eq] at h1
      omega
    · split at hsock
      · rename_i h1 h2
        simp only [Bool.and_eq_true, decide_eq_true_eq] at h2
        omega
      · split at hsock
        · rename_i h1 h2 h3
          simp only [Bool.and_eq_true, decide_eq_true_eq] at h3
          omega
        · split at hsock
          · rename_i h1 h2 h3 h4
            simp only [beq_iff_eq] at h4
            omega
          · cases hsock
  constructor
  · intro hend
    refine ⟨⟨?_, ?_⟩, ?_, hbound _ hrange.1 hrange.2 hend, hbound e he.1 he.2.1 he.2.2⟩
    · intro h
      by_cases hm : receive_matches e (message_at hdr).message_type = true
      · exact hiff.mp hm
      · rw [hr, if_neg hm, heh] at h
        cases hn : w.context.nopanic
        · simp [hn] at h
        · simp only [hn, ↓reduceIte, Outcome.done.injEq, Prod.mk.injEq] at h
          exact absurd h.2 (by decide)
    · intro h
      rw [hr, if_pos (hiff.mpr h)]
    · intro h
      have hm : ¬ receive_matches e (message_at hdr).message_type = true :=
        fun x => h (hiff.mp x)
      rw [hr, if_neg hm, heh]
  · intro hend
    rw [hend]
    refine ⟨?_, by decide, by decide⟩
    cases hm : receive_matches e I3IPC_EVENT_TYPE_END
    · rfl
    · exfalso
      have := (receive_matches_iff e I3IPC_EVENT_TYPE_END).mp hm
      rcases this with h | ⟨h1, h2 | h2⟩
      · exact he.2.2 h.symm
      · revert h2
        decide
      · revert h2
        decide

/-- C17 at a window event that arrives while any event is expected. -/
theorem receive_type_matching_witness :
    i3ipc_message_receive_try
        (ready_world [] (frame I3IPC_EVENT_WINDOW (bytes "\x7b\"change\":\"focus\"\x7d")) [])
        I3IPC_EVENT_ANY =
      Outcome.done (received
        (ready_world [] (frame I3IPC_EVENT_WINDOW (bytes "\x7b\"change\":\"focus\"\x7d")) []) true
        (message_header 18 I3IPC_EVENT_WINDOW) (bytes "\x7b\"change\":\"focus\"\x7d") [], 0) :=
  ((receive_type_matching
    (ready_world [] (frame I3IPC_EVENT_WINDOW (bytes "\x7b\"change\":\"focus\"\x7d")) [])
    I3IPC_EVENT_ANY true (message_header 18 I3IPC_EVENT_WINDOW) (bytes "\x7b\"change\":\"focus\"\x7d") []
    rfl (by decide) (by decide!) (by decide!) (by decide!) (by decide!)).1
      (by decide!)).1.mpr
    (Or.inr ⟨rfl, Or.inr (by decide!)⟩)


/-! ## JSON values in the token stream -/

/-- `i3ipc__json_trymatchany` at a token. -/
theorem trymatchany_cons (t : I3ipc_json_token) (rest : List I3ipc_json_token) (e : Bool)
    (ty : List Nat) :
    i3ipc__json_trymatchany ⟨t :: rest, e⟩ ty =
      if ty.contains t.type then (true, t, ⟨rest, e⟩) else (false, t, ⟨t :: rest, e⟩) := by
  simp [i3ipc__json_trymatchany, i3ipc__json_peek, i3ipc__json_pop]

/-- `i3ipc__json_matchany` at a token of one of the types. -/
theorem matchany_cons (t : I3ipc_json_token) (rest : List I3ipc_json_token) (e : Bool)
    (ty : List Nat) (h : ty.contains t.type = true) :
    i3ipc__json_matchany ⟨t :: rest, e⟩ ty = (true, t, ⟨rest, e⟩) := by
  simp only [i3ipc__json_matchany, trymatchany_cons, h, ↓reduceIte]

/-- A JSON value starts with a token that is a value by itself, with `[` or with `{`; a
value that starts with a token that is a value by itself is that token. -/
theorem json_value_head (v : List I3ipc_json_token) (h : json_value v) :
    ∃ t rest, v = t :: rest ∧
      ((json_prim t = true ∧ rest = []) ∨
       (t = tok_punct 91 ∧ ∃ vs, v = array_tokens vs ∧ ∀ x ∈ vs, json_value x) ∨
       (t = tok_punct 123 ∧ ∃ ms, v = object_tokens ms ∧
          (∀ m ∈ ms, m.1.type = I3IPC_JSON_STRING) ∧ ∀ m ∈ ms, json_value m.2)) := by
  cases h with
  | prim t h => exact ⟨t, [], rfl, Or.inl ⟨h, rfl⟩⟩
  | array vs h =>
    cases vs with
    | nil => exact ⟨_, _, rfl, Or.inr (Or.inl ⟨rfl, [], rfl, h⟩)⟩
    | cons x xs => exact ⟨_, _, rfl, Or.inr (Or.inl ⟨rfl, x :: xs, rfl, h⟩)⟩
  | object ms hk hv =>
    cases ms with
    | nil => exact ⟨_, _, rfl, Or.inr (Or.inr ⟨rfl, [], rfl, hk, hv⟩)⟩
    | cons x xs => exact ⟨_, _, rfl, Or.inr (Or.inr ⟨rfl, x :: xs, rfl, hk, hv⟩)⟩

/-- The type of the first token of a JSON value is that of a value token, `[` or `{`. -/
theorem json_value_head_type (v : List I3ipc_json_token) (h : json_value v) :
    ∃ t rest, v = t :: rest ∧
      (t.type = I3IPC_JSON_BOOL ∨ t.type = I3IPC_JSON_NULL ∨ t.type = I3IPC_JSON_STRING ∨
        t.type = I3IPC_JSON_NUMBER ∨ t.type = 91 ∨ t.type = 123) := by
  obtain ⟨t, rest, hv, h1 | h1 | h1⟩ := json_value_head v h
  · refine ⟨t, rest, hv, ?_⟩
    have := h1.1
    simp only [json_prim, Bool.or_eq_true, beq_iff_eq] at this
    rcases this with ((h | h) | h) | h
    · exact Or.inl h
    · exact Or.inr (Or.inl h)
    · exact Or.inr (Or.inr (Or.inl h))
    · exact Or.inr (Or.inr (Or.inr (Or.inl h)))
  · refine ⟨t, rest, hv, ?_⟩
    rw [h1.1]
    exact Or.inr (Or.inr (Or.inr (Or.inr (Or.inl rfl))))
  · refine ⟨t, rest, hv, ?_⟩
    rw [h1.1]
    exact Or.inr (Or.inr (Or.inr (Or.inr (Or.inr rfl))))

/-- `i3ipc__json_looparr` before the first element. -/
theorem looparr_first (vs : List (List I3ipc_json_token)) (h : ∀ v ∈ vs, json_value v)
    (Z : List I3ipc_json_token) (e : Bool) :
    i3ipc__json_looparr ⟨array_tokens vs ++ Z, e⟩ 0 = looparr_answer vs Z e := by
  cases vs with
  | nil =>
    simp [looparr_answer, i3ipc__json_looparr, i3ipc__json_match, i3ipc__json_trymatch, array_tokens,
      matchany_cons, trymatchany_cons, tok_punct]
  | cons v vs' =>
    obtain ⟨t, rest, hv, ht⟩ := json_value_head_type v (h v (List.mem_cons_self _ _))
    subst hv
    have h93 : ¬ t.type = 93 := by
      simp only [I3IPC_JSON_BOOL, I3IPC_JSON_NULL, I3IPC_JSON_STRING, I3IPC_JSON_NUMBER] at ht
      omega
    simp [looparr_answer, i3ipc__json_looparr, i3ipc__json_match, i3ipc__json_trymatch,
      array_tokens, matchany_cons, trymatchany_cons, tok_punct, h93]

/-- `i3ipc__json_looparr` behind an element. -/
theorem looparr_next (vs : List (List I3ipc_json_token)) (Z : List I3ipc_json_token)
    (e : Bool) (i : Nat) (hi : i ≠ 0) :
    i3ipc__json_looparr ⟨elems_tail vs ++ Z, e⟩ i = looparr_answer vs Z e := by
  have h0 : (i == 0) = false := by simpa using hi
  cases vs with
  | nil => simp [looparr_answer, i3ipc__json_looparr, h0, elems_tail, matchany_cons, tok_punct]
  | cons v vs' =>
    simp [looparr_answer, i3ipc__json_looparr, h0, elems_tail, matchany_cons, tok_punct]

/-- `i3ipc__json_loopobj` at the members of an object: before the first member for `first`,
behind a member otherwise. -/
theorem loopobj_members (first : Bool) (ms : List (I3ipc_json_token × List I3ipc_json_token))
    (hk : ∀ m ∈ ms, m.1.type = I3IPC_JSON_STRING) (Z : List I3ipc_json_token) (e : Bool)
    (i : Nat) (hi : (i == 0) = first) :
    i3ipc__json_loopobj ⟨members_from first ms ++ Z, e⟩ i = loopobj_answer ms Z e := by
  cases first with
  | true =>
    cases ms with
    | nil =>
      simp [loopobj_answer, i3ipc__json_loopobj, hi, members_from, object_tokens, i3ipc__json_match,
        i3ipc__json_trymatch, matchany_cons, trymatchany_cons, tok_punct]
    | cons m ms' =>
      have hm := hk m (List.mem_cons_self _ _)
      simp [loopobj_answer, i3ipc__json_loopobj, hi, members_from, object_tokens, i3ipc__json_match,
        i3ipc__json_trymatch, matchany_cons, trymatchany_cons, tok_punct, hm,
        I3IPC_JSON_STRING, loopobj_key]
  | false =>
    cases ms with
    | nil =>
      simp [loopobj_answer, i3ipc__json_loopobj, hi, members_from, members_tail, matchany_cons, tok_punct]
    | cons m ms' =>
      have hm := hk m (List.mem_cons_self _ _)
      simp [loopobj_answer, i3ipc__json_loopobj, hi, members_from, members_tail, i3ipc__json_match,
        matchany_cons, trymatchany_cons, tok_punct, hm, I3IPC_JSON_STRING, loopobj_key]

/-- `i3ipc__json_looparr` at the elements of an array: before the first element for `first`,
behind an element otherwise. -/
theorem looparr_elems (first : Bool) (vs : List (List I3ipc_json_token))
    (h : ∀ v ∈ vs, json_value v) (Z : List I3ipc_json_token) (e : Bool)
    (i : Nat) (hi : (i == 0) = first) :
    i3ipc__json_looparr ⟨elems_from first vs ++ Z, e⟩ i = looparr_answer vs Z e := by
  cases first with
  | true =>
    have h0 : i = 0 := by simpa using hi
    subst h0
    simp only [elems_from, ↓reduceIte]
    exact looparr_first vs h Z e
  | false =>
    simp only [elems_from, Bool.false_eq_true, ↓reduceIte]
    exact looparr_next vs Z e i (by simpa using hi)

/-- `i3ipc__json_skip` passes over a JSON value, and its loops over the rest of an object or
an array: unless the fuel of the model runs out, the return code is 0 and the tokens behind
the value are left. -/
theorem json_skip_value : ∀ (fuel : Nat),
    (∀ v Z, json_value v →
      i3ipc__json_skip fuel ⟨v ++ Z, false⟩ = Outcome.starved ∨
      i3ipc__json_skip fuel ⟨v ++ Z, false⟩ = Outcome.done (0, ⟨Z, false⟩)) ∧
    (∀ first ms Z i, (i == 0) = first → (∀ m ∈ ms, m.1.type = I3IPC_JSON_STRING) →
      (∀ m ∈ ms, json_value m.2) →
      json_skip_obj fuel ⟨members_from first ms ++ Z, false⟩ i = Outcome.starved ∨
      json_skip_obj fuel ⟨members_from first ms ++ Z, false⟩ i
        = Outcome.done (0, ⟨Z, false⟩)) ∧
    (∀ first vs Z i, (i == 0) = first → (∀ v ∈ vs, json_value v) →
      json_skip_arr fuel ⟨elems_from first vs ++ Z, false⟩ i = Outcome.starved ∨
      json_skip_arr fuel ⟨elems_from first vs ++ Z, false⟩ i
        = Outcome.done (0, ⟨Z, false⟩)) := by
  intro fuel
  induction fuel with
  | zero =>
    refine ⟨?_, ?_, ?_⟩
    · intro v Z _
      exact Or.inl rfl
    · intro first ms Z i _ _ _
      exact Or.inl rfl
    · intro first vs Z i _ _
      exact Or.inl rfl
  | succ fuel ih =>
    obtain ⟨ih1, ih2, ih3⟩ := ih
    refine ⟨?_, ?_, ?_⟩
    · intro v Z hv
      obtain ⟨t, rest, hvt, h1 | h1 | h1⟩ := json_value_head v hv
      · obtain ⟨hp, hr⟩ := h1
        subst hr
        subst hvt
        right
        have hc : ([123, 91, I3IPC_JSON_STRING, I3IPC_JSON_NUMBER, I3IPC_JSON_BOOL,
            I3IPC_JSON_NULL].contains t.type) = true := by
          simp only [json_prim, Bool.or_eq_true, beq_iff_eq] at hp
          simp only [List.contains_cons, List.contains_nil, Bool.or_false, Bool.or_eq_true,
            beq_iff_eq]
          rcases hp with ((h | h) | h) | h <;> simp [h]
        have h123 : (t.type == 123) = false := by
          simp only [json_prim, Bool.or_eq_true, beq_iff_eq, I3IPC_JSON_BOOL, I3IPC_JSON_NULL,
            I3IPC_JSON_STRING, I3IPC_JSON_NUMBER] at hp
          simp only [beq_eq_false_iff_ne, ne_eq]
          omega
        have h91 : (t.type == 91) = false := by
          simp only [json_prim, Bool.or_eq_true, beq_iff_eq, I3IPC_JSON_BOOL, I3IPC_JSON_NULL,
            I3IPC_JSON_STRING, I3IPC_JSON_NUMBER] at hp
          simp only [beq_eq_false_iff_ne, ne_eq]
          omega
        unfold i3ipc__json_skip
        simp only [List.singleton_append, matchany_cons _ _ _ _ hc, Bool.not_true,
          Bool.false_eq_true, ↓reduceIte, h123, h91]
      · obtain ⟨ht, vs, hvs, hall⟩ := h1
        have := ih3 true vs Z 0 rfl hall
        simp only [elems_from, ↓reduceIte] at this
        rw [hvs]
        unfold i3ipc__json_skip
        have hm : i3ipc__json_matchany ⟨array_tokens vs ++ Z, false⟩
            [123, 91, I3IPC_JSON_STRING, I3IPC_JSON_NUMBER, I3IPC_JSON_BOOL, I3IPC_JSON_NULL]
            = (true, tok_punct 91, ⟨(array_tokens vs ++ Z).drop 1, false⟩) := by
          cases vs <;> simp [array_tokens, matchany_cons, tok_punct]
        simp only [hm, Bool.not_true, Bool.false_eq_true, ↓reduceIte]
        have e1 : ((tok_punct 91).type == 123) = false := by decide
        have e2 : ((tok_punct 91).type == 91) = true := by decide
        simp only [e1, e2, Bool.false_eq_true, ↓reduceIte]
        exact this
      · obtain ⟨ht, ms, hms, hk, hall⟩ := h1
        have := ih2 true ms Z 0 rfl hk hall
        simp only [members_from, ↓reduceIte] at this
        rw [hms]
        unfold i3ipc__json_skip
        have hm : i3ipc__json_matchany ⟨object_tokens ms ++ Z, false⟩
            [123, 91, I3IPC_JSON_STRING, I3IPC_JSON_NUMBER, I3IPC_JSON_BOOL, I3IPC_JSON_NULL]
            = (true, tok_punct 123, ⟨(object_tokens ms ++ Z).drop 1, false⟩) := by
          cases ms <;> simp [object_tokens, matchany_cons, tok_punct]
        simp only [hm, Bool.not_true, Bool.false_eq_true, ↓reduceIte]
        have e1 : ((tok_punct 123).type == 123) = true := by decide
        simp only [e1, ↓reduceIte]
        exact this
    · intro first ms Z i hi hk hall
      unfold json_skip_obj
      rw [loopobj_members first ms hk Z false i hi]
      cases ms with
      | nil =>
        right
        simp [loopobj_answer]
      | cons m ms' =>
        simp only [loopobj_answer]
        simp only [↓reduceIte]
        have hm := ih1 m.2 (members_tail ms' ++ Z) (hall m (List.mem_cons_self _ _))
        rw [List.append_assoc]
        rcases hm with hm | hm
        · left
          rw [hm]
        · rw [hm]
          dsimp only
          have e0 : ((0 : Nat) != 0) = false := by decide
          simp only [e0, Bool.false_eq_true, ↓reduceIte]
          have := ih2 false ms' Z (i + 1) (by simp)
            (fun x hx => hk x (List.mem_cons_of_mem _ hx))
            (fun x hx => hall x (List.mem_cons_of_mem _ hx))
          simp only [members_from, Bool.false_eq_true, ↓reduceIte] at this
          exact this
    · intro first vs Z i hi hall
      unfold json_skip_arr
      rw [looparr_elems first vs hall Z false i hi]
      cases vs with
      | nil =>
        right
        simp [looparr_answer]
      | cons v vs' =>
        simp only [looparr_answer]
        simp only [↓reduceIte]
        have hm := ih1 v (elems_tail vs' ++ Z) (hall v (List.mem_cons_self _ _))
        rw [List.append_assoc]
        rcases hm with hm | hm
        · left
          rw [hm]
        · rw [hm]
          dsimp only
          have e0 : ((0 : Nat) != 0) = false := by decide
          simp only [e0, Bool.false_eq_true, ↓reduceIte]
          have := ih3 false vs' Z (i + 1) (by simp)
            (fun x hx => hall x (List.mem_cons_of_mem _ hx))
          simp only [elems_from, Bool.false_eq_true, ↓reduceIte] at this
          exact this

/-- The loop of `i3ipc__parse_loopfields` at the members of an object: members with a key of
no entry are passed over, and unless the fuel of the model runs out the answer is that of
`loopfields_answer`. -/
theorem loopfields_members (type : I3ipc_type) : ∀ (fuel : Nat) (first : Bool)
    (ms : List (I3ipc_json_token × List I3ipc_json_token)) (Z : List I3ipc_json_token)
    (j : Nat), (j == 0) = first → (∀ m ∈ ms, m.1.type = I3IPC_JSON_STRING) →
    (∀ m ∈ ms, json_value m.2) →
    parse_loopfields_loop fuel ⟨members_from first ms ++ Z, false⟩ type j = Outcome.starved ∨
    parse_loopfields_loop fuel ⟨members_from first ms ++ Z, false⟩ type j
      = Outcome.done (loopfields_answer type ms Z) := by
  intro fuel
  induction fuel with
  | zero =>
    intro first ms Z j _ _ _
    exact Or.inl rfl
  | succ fuel ih =>
    intro first ms Z j hj hk hv
    unfold parse_loopfields_loop
    rw [loopobj_members first ms hk Z false j hj]
    cases ms with
    | nil =>
      right
      simp [loopobj_answer, loopfields_answer, next_member]
    | cons m ms' =>
      simp only [loopobj_answer, Bool.not_true, Bool.false_eq_true, ↓reduceIte]
      cases hf : find_field type m.1 with
      | some fld =>
        right
        simp [loopfields_answer, next_member, hf]
      | none =>
        dsimp only
        have hm := (json_skip_value fuel).1 m.2 (members_tail ms' ++ Z)
          (hv m (List.mem_cons_self _ _))
        rw [List.append_assoc]
        rcases hm with hm | hm
        · left
          rw [hm]
        · rw [hm]
          dsimp only
          have e0 : ((0 : Nat) != 0) = false := by decide
          simp only [e0, Bool.false_eq_true, ↓reduceIte]
          have := ih false ms' Z 1 (by decide)
            (fun x hx => hk x (List.mem_cons_of_mem _ hx))
            (fun x hx => hv x (List.mem_cons_of_mem _ hx))
          simp only [members_from, Bool.false_eq_true, ↓reduceIte] at this
          simp only [loopfields_answer, next_member, hf]
          exact this

/-- Members put in between with keys of no entry keep the object without a further known
member. -/
theorem next_member_extra_none (type : I3ipc_type)
    (ms ms2 : List (I3ipc_json_token × List I3ipc_json_token))
    (h : extra_members type ms ms2) (hn : next_member type ms = none) :
    next_member type ms2 = none := by
  induction h with
  | nil => rfl
  | same m ms ms' h ih =>
    simp only [next_member] at hn ⊢
    cases hf : find_field type m.1 with
    | some fld => rw [hf] at hn; cases hn
    | none =>
      rw [hf] at hn
      exact ih hn
  | extra m ms ms' hk hv hf h ih =>
    simp only [next_member, hf]
    exact ih hn

/-- Members put in between with keys of no entry keep the next known member of the object,
and what follows it differs by such members again. -/
theorem next_member_extra_some (type : I3ipc_type)
    (ms ms2 : List (I3ipc_json_token × List I3ipc_json_token))
    (h : extra_members type ms ms2) (fld : Nat) (v : List I3ipc_json_token)
    (r : List (I3ipc_json_token × List I3ipc_json_token))
    (hn : next_member type ms = some (fld, v, r)) :
    ∃ r2, next_member type ms2 = some (fld, v, r2) ∧ extra_members type r r2 := by
  induction h with
  | nil => simp [next_member] at hn
  | same m ms ms' h ih =>
    simp only [next_member] at hn ⊢
    cases hf : find_field type m.1 with
    | some fld' =>
      rw [hf] at hn
      simp only [Option.some.injEq, Prod.mk.injEq] at hn
      obtain ⟨rfl, rfl, rfl⟩ := hn
      exact ⟨ms', rfl, h⟩
    | none =>
      rw [hf] at hn
      exact ih hn
  | extra m ms ms' hk hv hf h ih =>
    simp only [next_member, hf]
    exact ih hn

/-- The keys of an object with members put in between are strings when those of the object
are. -/
theorem extra_members_keys (type : I3ipc_type)
    (ms ms2 : List (I3ipc_json_token × List I3ipc_json_token))
    (h : extra_members type ms ms2) (hk : ∀ m ∈ ms, m.1.type = I3IPC_JSON_STRING) :
    ∀ m ∈ ms2, m.1.type = I3IPC_JSON_STRING := by
  induction h with
  | nil => exact hk
  | same m ms ms' h ih =>
    intro x hx
    rcases List.mem_cons.mp hx with rfl | hx
    · exact hk _ (List.mem_cons_self _ _)
    · exact ih (fun y hy => hk y (List.mem_cons_of_mem _ hy)) x hx
  | extra m ms ms' hk' hv hf h ih =>
    intro x hx
    rcases List.mem_cons.mp hx with rfl | hx
    · exact hk'
    · exact ih hk x hx

/-- The members of an object with members put in between are JSON values when those of the
object are. -/
theorem extra_members_values (type : I3ipc_type)
    (ms ms2 : List (I3ipc_json_token × List I3ipc_json_token))
    (h : extra_members type ms ms2) (hv : ∀ m ∈ ms, json_value m.2) :
    ∀ m ∈ ms2, json_value m.2 := by
  induction h with
  | nil => exact hv
  | same m ms ms' h ih =>
    intro x hx
    rcases List.mem_cons.mp hx with rfl | hx
    · exact hv _ (List.mem_cons_self _ _)
    · exact ih (fun y hy => hv y (List.mem_cons_of_mem _ hy)) x hx
  | extra m ms ms' hk hv' hf h ih =>
    intro x hx
    rcases List.mem_cons.mp hx with rfl | hx
    · exact hv'
    · exact ih hv x hx

/-- Every object differs from itself by no member. -/
theorem extra_members_refl (type : I3ipc_type) :
    ∀ (ms : List (I3ipc_json_token × List I3ipc_json_token)), extra_members type ms ms := by
  intro ms
  induction ms with
  | nil => exact extra_members.nil
  | cons m ms ih => exact extra_members.same m ms ms ih

/-- A member with the key of no entry, put in at position `k` of an object. -/
theorem extra_members_insert (type : I3ipc_type) (K : I3ipc_json_token)
    (V : List I3ipc_json_token) (hk : K.type = I3IPC_JSON_STRING) (hv : json_value V)
    (hf : find_field type K = none) :
    ∀ (k : Nat) (ms : List (I3ipc_json_token × List I3ipc_json_token)),
      extra_members type ms (ms.take k ++ (K, V) :: ms.drop k) := by
  intro k
  induction k with
  | zero =>
    intro ms
    simpa using extra_members.extra (K, V) ms ms hk hv hf (extra_members_refl type ms)
  | succ k ih =>
    intro ms
    cases ms with
    | nil =>
      simpa using extra_members.extra (K, V) [] [] hk hv hf extra_members.nil
    | cons m ms =>
      simpa using extra_members.same m ms _ (ih ms)

/-- `i3ipc__json_trymatchany` at a list of tokens that is not empty. -/
theorem trymatchany_value (v : List I3ipc_json_token) (t : I3ipc_json_token)
    (rest : List I3ipc_json_token) (hv : v = t :: rest) (Z : List I3ipc_json_token)
    (e : Bool) (ty : List Nat) :
    i3ipc__json_trymatchany ⟨v ++ Z, e⟩ ty =
      if ty.contains t.type then (true, t, ⟨rest ++ Z, e⟩) else (false, t, ⟨v ++ Z, e⟩) := by
  subst hv
  simp [i3ipc__json_trymatchany, i3ipc__json_peek, i3ipc__json_pop]

/-- `i3ipc__json_matchany` at a list of tokens that is not empty. -/
theorem matchany_value (v : List I3ipc_json_token) (t : I3ipc_json_token)
    (rest : List I3ipc_json_token) (hv : v = t :: rest) (Z : List I3ipc_json_token)
    (e : Bool) (ty : List Nat) :
    i3ipc__json_matchany ⟨v ++ Z, e⟩ ty =
      if ty.contains t.type then (true, t, ⟨rest ++ Z, e⟩) else (false, t, ⟨v ++ Z, true⟩) := by
  subst hv
  by_cases h : t.type ∈ ty
  · simp [i3ipc__json_matchany, i3ipc__json_trymatchany, i3ipc__json_peek, i3ipc__json_pop, h]
  · simp [i3ipc__json_matchany, i3ipc__json_trymatchany, i3ipc__json_peek, i3ipc__json_pop, h]

/-- `i3ipc__parse_alloc` with the tokens of the state made explicit. -/
theorem parse_alloc_tokens (T : List I3ipc_json_token) (a : List I3ipc_parse_state_allocs)
    (n : Nat) (m c : Bool) (z : Int) (e : Option (List Nat)) (s : Bool) (size al : Nat) :
    i3ipc__parse_alloc ⟨⟨T, false⟩, a, n, m, c, z, e, s⟩ size al =
      (⟨⟨T, false⟩,
        if m then a
        else if n < a.length then a.set n ⟨size, al⟩ else a ++ [⟨size, al⟩],
        n + 1, m, c, z, e, s⟩, n,
        if m then some ((a.getD n ⟨0, 0⟩).size) else none) := by
  cases m <;> rfl

/-- `i3ipc__parse_doderived` does not read the tokens. -/
theorem doderived_state (st st' : I3ipc_json_state) (a : List I3ipc_parse_state_allocs)
    (n : Nat) (m c : Bool) (z : Int) (e : Option (List Nat)) (s : Bool)
    (type : I3ipc_type) (field : Nat) (base : Val) :
    i3ipc__parse_doderived ⟨st, a, n, m, c, z, e, s⟩ type field base =
      i3ipc__parse_doderived ⟨st', a, n, m, c, z, e, s⟩ type field base := by
  have key : ∀ (f0 : I3ipc_field) (fs : List I3ipc_field) (i : Nat) (b : Val),
      doderived_loop ⟨st, a, n, m, c, z, e, s⟩ f0 fs i b =
        doderived_loop ⟨st', a, n, m, c, z, e, s⟩ f0 fs i b := by
    intro f0 fs
    induction fs with
    | nil => intro i b; rfl
    | cons f fs ih =>
      intro i b
      simp only [doderived_loop, ih]
  unfold i3ipc__parse_doderived
  cases type.fields.get? field with
  | none => rfl
  | some f0 => exact key _ _ _ _

/-- A JSON value that starts with `null`, a string, a number, `true` or `false` is that
token. -/
theorem json_value_prim (v : List I3ipc_json_token) (h : json_value v)
    (t : I3ipc_json_token) (rest : List I3ipc_json_token) (hv : v = t :: rest)
    (ht : t.type ≠ 91 ∧ t.type ≠ 123) : rest = [] := by
  obtain ⟨t', rest', hv', h1 | h1 | h1⟩ := json_value_head v h
  · rw [hv] at hv'
    cases hv'
    exact h1.2
  · rw [hv] at hv'
    cases hv'
    rw [h1.1] at ht
    exact absurd rfl ht.1
  · rw [hv] at hv'
    cases hv'
    rw [h1.1] at ht
    exact absurd rfl ht.2

/-- The branch for `MAYBE` on a JSON value. -/
theorem parse_maybe_agree
    (h1 h2 : I3ipc_parse_state → Nat → Nat → Option Val →
      Outcome (I3ipc_parse_state × Option Val))
    (H : helpers_agree h1 h2)
    (v Z Z2 : List I3ipc_json_token) (a : List I3ipc_parse_state_allocs) (n : Nat)
    (m c : Bool) (z : Int) (e : Option (List Nat)) (s : Bool) (type : I3ipc_type)
    (t fl : Nat) (b : Option Val)
    (r : I3ipc_parse_state × Option Val) (hv : json_value v)
    (h : parse_maybe h1 ⟨⟨v ++ Z, false⟩, a, n, m, c, z, e, s⟩ type t fl b = Outcome.done r) :
    ∃ a' n' m' c' z' e' s' b', r = (⟨⟨Z, false⟩, a', n', m', c', z', e', s'⟩, b') ∧
      (parse_maybe h2 ⟨⟨v ++ Z2, false⟩, a, n, m, c, z, e, s⟩ type t fl b = Outcome.starved ∨
       parse_maybe h2 ⟨⟨v ++ Z2, false⟩, a, n, m, c, z, e, s⟩ type t fl b =
         Outcome.done (⟨⟨Z2, false⟩, a', n', m', c', z', e', s'⟩, b')) := by
  obtain ⟨t0, rest, hv0, _⟩ := json_value_head v hv
  unfold parse_maybe at h ⊢
  simp only [i3ipc__json_trymatch, trymatchany_value v t0 rest hv0] at h ⊢
  by_cases hn : ([I3IPC_JSON_NULL].contains t0.type) = true
  · have hrest : rest = [] := by
      refine json_value_prim v hv t0 rest hv0 ?_
      simp only [List.contains_cons, List.contains_nil, Bool.or_false, beq_iff_eq,
        I3IPC_JSON_NULL] at hn
      omega
    subst hrest
    simp only [hn, ↓reduceIte, Bool.not_true, Bool.false_eq_true, parse_finish,
      List.nil_append, Outcome.done.injEq] at h ⊢
    subst h
    exact ⟨_, _, _, _, _, _, _, _, rfl, Or.inr rfl⟩
  · simp only [hn, ↓reduceIte, Bool.not_false, Bool.false_eq_true, parse_alloc_tokens] at h ⊢
    by_cases hp : hasflag fl I3IPC_TYPE_ISPTR = true
    · simp only [hp, ↓reduceIte] at h ⊢
      split at h
      · rename_i q pb heq
        obtain ⟨a', n', m', c', z', e', s', b', hr, h2⟩ :=
          H v Z Z2 _ _ _ _ _ _ _ _ _ _ _ hv heq
        cases hr
        simp only [parse_finish, Outcome.done.injEq] at h
        subst h
        refine ⟨_, _, _, _, _, _, _, _, rfl, ?_⟩
        rcases h2 with h2 | h2
        · left
          rw [h2]
        · right
          rw [h2]
          rfl
      · cases h
      · cases h
      · cases h
    · simp only [hp, Bool.false_eq_true, ↓reduceIte] at h ⊢
      split at h
      · rename_i q pb heq
        obtain ⟨a', n', m', c', z', e', s', b', hr, h2⟩ :=
          H v Z Z2 _ _ _ _ _ _ _ _ _ _ _ hv heq
        cases hr
        simp only [parse_finish, Outcome.done.injEq] at h
        subst h
        refine ⟨_, _, _, _, _, _, _, _, rfl, ?_⟩
        rcases h2 with h2 | h2
        · left
          rw [h2]
        · right
          rw [h2]
          rfl
      · cases h
      · cases h
      · cases h

/-- The branch for a string on a JSON value. -/
theorem parse_string_agree
    (v Z Z2 : List I3ipc_json_token) (a : List I3ipc_parse_state_allocs) (n : Nat)
    (m c : Bool) (z : Int) (e : Option (List Nat)) (s : Bool)
    (t : Nat) (b : Option Val)
    (r : I3ipc_parse_state × Option Val) (hv : json_value v)
    (h : parse_string ⟨⟨v ++ Z, false⟩, a, n, m, c, z, e, s⟩ t b = Outcome.done r) :
    ∃ a' n' m' c' z' e' s' b', r = (⟨⟨Z, false⟩, a', n', m', c', z', e', s'⟩, b') ∧
      (parse_string ⟨⟨v ++ Z2, false⟩, a, n, m, c, z, e, s⟩ t b = Outcome.starved ∨
       parse_string ⟨⟨v ++ Z2, false⟩, a, n, m, c, z, e, s⟩ t b =
         Outcome.done (⟨⟨Z2, false⟩, a', n', m', c', z', e', s'⟩, b')) := by
  obtain ⟨t0, rest, hv0, _⟩ := json_value_head v hv
  unfold parse_string at h ⊢
  simp only [i3ipc__json_match, matchany_value v t0 rest hv0] at h ⊢
  by_cases hn : ([I3IPC_JSON_STRING].contains t0.type) = true
  · have hrest : rest = [] := by
      refine json_value_prim v hv t0 rest hv0 ?_
      simp only [List.contains_cons, List.contains_nil, Bool.or_false, beq_iff_eq,
        I3IPC_JSON_STRING] at hn
      omega
    subst hrest
    simp only [hn, ↓reduceIte, Bool.not_true, Bool.false_eq_true, parse_finish,
      List.nil_append, parse_alloc_tokens] at h ⊢
    cases b with
    | none =>
      cases c <;>
      · simp only [Outcome.done.injEq, Bool.false_eq_true, ↓reduceIte] at h ⊢
        subst h
        exact ⟨_, _, _, _, _, _, _, _, rfl, Or.inr rfl⟩
    | some b =>
      by_cases ht : (t == I3IPC_TYPE_STRING) = true
      · cases c <;>
        · simp only [ht, Outcome.done.injEq, Bool.false_eq_true, ↓reduceIte] at h ⊢
          subst h
          exact ⟨_, _, _, _, _, _, _, _, rfl, Or.inr rfl⟩
      · cases c <;>
        · simp only [ht, Outcome.done.injEq, Bool.false_eq_true, ↓reduceIte] at h ⊢
          subst h
          exact ⟨_, _, _, _, _, _, _, _, rfl, Or.inr rfl⟩
  · simp only [hn, ↓reduceIte, Bool.not_false, Bool.false_eq_true] at h
    cases h

/-- The branch for a primitive type on a JSON value. -/
theorem parse_primitive_agree
    (v Z Z2 : List I3ipc_json_token) (a : List I3ipc_parse_state_allocs) (n : Nat)
    (m c : Bool) (z : Int) (e : Option (List Nat)) (s : Bool)
    (t : Nat) (b : Option Val)
    (r : I3ipc_parse_state × Option Val) (hv : json_value v)
    (h : parse_primitive ⟨⟨v ++ Z, false⟩, a, n, m, c, z, e, s⟩ t b = Outcome.done r) :
    ∃ a' n' m' c' z' e' s' b', r = (⟨⟨Z, false⟩, a', n', m', c', z', e', s'⟩, b') ∧
      (parse_primitive ⟨⟨v ++ Z2, false⟩, a, n, m, c, z, e, s⟩ t b = Outcome.starved ∨
       parse_primitive ⟨⟨v ++ Z2, false⟩, a, n, m, c, z, e, s⟩ t b =
         Outcome.done (⟨⟨Z2, false⟩, a', n', m', c', z', e', s'⟩, b')) := by
  obtain ⟨t0, rest, hv0, _⟩ := json_value_head v hv
  unfold parse_primitive at h ⊢
  simp only [i3ipc__json_match, matchany_value v t0 rest hv0] at h ⊢
  by_cases hn : ([if (t == I3IPC_TYPE_BOOL) = true then I3IPC_JSON_BOOL
      else I3IPC_JSON_NUMBER].contains t0.type) = true
  · have hrest : rest = [] := by
      refine json_value_prim v hv t0 rest hv0 ?_
      simp only [List.contains_cons, List.contains_nil, Bool.or_false, beq_iff_eq,
        I3IPC_JSON_BOOL, I3IPC_JSON_NUMBER] at hn
      split at hn <;> omega
    subst hrest
    simp only [hn, ↓reduceIte, Bool.not_true, Bool.false_eq_true, parse_finish,
      List.nil_append] at h ⊢
    cases b with
    | none =>
      simp only [Outcome.done.injEq] at h ⊢
      subst h
      exact ⟨_, _, _, _, _, _, _, _, rfl, Or.inr rfl⟩
    | some b =>
      dsimp only at h ⊢
      by_cases c1 : (t == I3IPC_TYPE_BOOL) = true
      · simp only [c1, ↓reduceIte, Outcome.done.injEq] at h ⊢
        subst h
        exact ⟨_, _, _, _, _, _, _, _, rfl, Or.inr rfl⟩
      · by_cases c2 : (t == I3IPC_TYPE_SIZET) = true
        · simp only [c1, c2, ↓reduceIte, Outcome.done.injEq, Bool.false_eq_true] at h ⊢
          subst h
          exact ⟨_, _, _, _, _, _, _, _, rfl, Or.inr rfl⟩
        · by_cases c3 : (t == I3IPC_TYPE_INT) = true
          · simp only [c1, c2, c3, ↓reduceIte, Outcome.done.injEq, Bool.false_eq_true] at h ⊢
            subst h
            exact ⟨_, _, _, _, _, _, _, _, rfl, Or.inr rfl⟩
          · by_cases c4 : (t == I3IPC_TYPE_FLOAT) = true
            · simp only [c1, c2, c3, c4, ↓reduceIte, Outcome.done.injEq,
                Bool.false_eq_true] at h ⊢
              subst h
              exact ⟨_, _, _, _, _, _, _, _, rfl, Or.inr rfl⟩
            · simp only [c1, c2, c3, c4, ↓reduceIte, Bool.false_eq_true] at h
              cases h
  · simp only [hn, ↓reduceIte, Bool.not_false, Bool.false_eq_true] at h
    cases h

/-- The inline branch on a JSON value. -/
theorem parse_inline_agree
    (h1 h2 : I3ipc_parse_state → Nat → Nat → Option Val →
      Outcome (I3ipc_parse_state × Option Val))
    (H : helpers_agree h1 h2)
    (v Z Z2 : List I3ipc_json_token) (a : List I3ipc_parse_state_allocs) (n : Nat)
    (m c : Bool) (z : Int) (e : Option (List Nat)) (s : Bool) (type : I3ipc_type)
    (b : Option Val)
    (r : I3ipc_parse_state × Option Val) (hv : json_value v)
    (h : parse_inline h1 ⟨⟨v ++ Z, false⟩, a, n, m, c, z, e, s⟩ type b = Outcome.done r) :
    ∃ a' n' m' c' z' e' s' b', r = (⟨⟨Z, false⟩, a', n', m', c', z', e', s'⟩, b') ∧
      (parse_inline h2 ⟨⟨v ++ Z2, false⟩, a, n, m, c, z, e, s⟩ type b = Outcome.starved ∨
       parse_inline h2 ⟨⟨v ++ Z2, false⟩, a, n, m, c, z, e, s⟩ type b =
         Outcome.done (⟨⟨Z2, false⟩, a', n', m', c', z', e', s'⟩, b')) := by
  unfold parse_inline at h ⊢
  cases hfs : type.fields with
  | nil =>
    rw [hfs] at h
    cases h
  | cons field others =>
    rw [hfs] at h
    dsimp only at h ⊢
    by_cases hany : (others.any (fun f => !hasflag f.flags I3IPC_TYPE_GROUP_DERIVED)) = true
    · rw [if_pos hany] at h
      cases h
    · rw [if_neg hany] at h ⊢
      split at h
      · rename_i q ib heq
        obtain ⟨a', n', m', c', z', e', s', b', hr, h2⟩ :=
          H v Z Z2 _ _ _ _ _ _ _ _ _ _ _ hv heq
        cases hr
        simp only [parse_finish, Outcome.done.injEq] at h
        subst h
        refine ⟨_, _, _, _, _, _, _, _, rfl, ?_⟩
        rcases h2 with h2 | h2
        · left
          rw [h2]
        · right
          rw [h2]
          simp only [parse_finish, Outcome.done.injEq, Prod.mk.injEq, true_and]
          cases b with
          | none => rfl
          | some b0 =>
            cases ib with
            | none => rfl
            | some v0 =>
              dsimp only
              rw [doderived_state ⟨Z2, false⟩ ⟨Z, false⟩]
      · cases h
      · cases h
      · cases h

/-- The array loop at a token that is not `[` ends with the error flag set. -/
theorem array_loop_not_array (f : Nat) (v : List I3ipc_json_token) (t0 : I3ipc_json_token)
    (rest : List I3ipc_json_token) (hv0 : v = t0 :: rest) (ht : t0.type ≠ 91)
    (Z : List I3ipc_json_token) (a : List I3ipc_parse_state_allocs) (n : Nat)
    (m c : Bool) (z : Int) (e : Option (List Nat)) (s : Bool) (t : Nat) (store : Bool)
    (el : List Val) (r : I3ipc_parse_state × Nat × List Val)
    (h : parse_array_loop f ⟨⟨v ++ Z, false⟩, a, n, m, c, z, e, s⟩ t store 0 el
      = Outcome.done r) :
    r.1.state.err_flag = true := by
  cases f with
  | zero => simp [parse_array_loop] at h
  | succ f =>
    unfold parse_array_loop array_loop_step at h
    have hc : ([91].contains t0.type) = false := by simpa using ht
    simp only [i3ipc__json_looparr, i3ipc__json_match, matchany_value v t0 rest hv0, hc,
      beq_self_eq_true, ↓reduceIte, Bool.not_false, Bool.false_eq_true,
      Outcome.done.injEq] at h
    subst h
    rfl

/-- The record loop at a token that is not `{` ends with the error flag set. -/
theorem fields_loop_not_object (f : Nat) (v : List I3ipc_json_token) (t0 : I3ipc_json_token)
    (rest : List I3ipc_json_token) (hv0 : v = t0 :: rest) (ht : t0.type ≠ 123)
    (Z : List I3ipc_json_token) (a : List I3ipc_parse_state_allocs) (n : Nat)
    (m c : Bool) (z : Int) (e : Option (List Nat)) (s : Bool) (type : I3ipc_type)
    (b : Option Val) (r : I3ipc_parse_state × Option Val)
    (h : parse_fields_loop f ⟨⟨v ++ Z, false⟩, a, n, m, c, z, e, s⟩ type none b
      = Outcome.done r) :
    r.1.state.err_flag = true := by
  cases f with
  | zero => simp [parse_fields_loop] at h
  | succ f =>
    unfold parse_fields_loop fields_loop_step i3ipc__parse_loopfields at h
    cases f with
    | zero => simp [parse_loopfields_loop] at h
    | succ f =>
      unfold parse_loopfields_loop at h
      have hc : ([123].contains t0.type) = false := by simpa using ht
      simp only [i3ipc__json_loopobj, i3ipc__json_match, matchany_value v t0 rest hv0, hc,
        beq_self_eq_true, ↓reduceIte, Bool.not_false, Bool.false_eq_true,
        Outcome.done.injEq, Option.isNone_none] at h
      subst h
      rfl

/-- The member that `next_member` finds, in its object. -/
theorem next_member_some (type : I3ipc_type) :
    ∀ (ms : List (I3ipc_json_token × List I3ipc_json_token)) (fld : Nat)
      (v : List I3ipc_json_token) (ms' : List (I3ipc_json_token × List I3ipc_json_token)),
      next_member type ms = some (fld, v, ms') →
      ∃ pre K, ms = pre ++ (K, v) :: ms' ∧ find_field type K = some fld ∧
        ∀ x ∈ pre, find_field type x.1 = none := by
  intro ms
  induction ms with
  | nil => intro fld v ms' h; simp [next_member] at h
  | cons x xs ih =>
    intro fld v ms' h
    simp only [next_member] at h
    cases hf : find_field type x.1 with
    | some g =>
      rw [hf] at h
      simp only [Option.some.injEq, Prod.mk.injEq] at h
      obtain ⟨rfl, rfl, rfl⟩ := h
      exact ⟨[], x.1, rfl, hf, by simp⟩
    | none =>
      rw [hf] at h
      obtain ⟨pre, K, hms, hK, hpre⟩ := ih fld v ms' h
      refine ⟨x :: pre, K, by rw [hms]; rfl, hK, ?_⟩
      intro y hy
      rcases List.mem_cons.mp hy with rfl | hy
      · exact hf
      · exact hpre y hy

/-- The branch for an array on a JSON value. -/
theorem parse_array_agree (f1 f2 : Nat)
    (HL : array_loops_agree (parse_array_loop f1) (parse_array_loop f2))
    (v Z Z2 : List I3ipc_json_token) (a : List I3ipc_parse_state_allocs) (n : Nat)
    (m c : Bool) (z : Int) (e : Option (List Nat)) (s : Bool) (type : I3ipc_type)
    (t : Nat) (b : Option Val)
    (r : I3ipc_parse_state × Option Val) (hv : json_value v)
    (h : parse_array (parse_array_loop f1) ⟨⟨v ++ Z, false⟩, a, n, m, c, z, e, s⟩ type t b
      = Outcome.done r) :
    ∃ a' n' m' c' z' e' s' b', r = (⟨⟨Z, false⟩, a', n', m', c', z', e', s'⟩, b') ∧
      (parse_array (parse_array_loop f2) ⟨⟨v ++ Z2, false⟩, a, n, m, c, z, e, s⟩ type t b
          = Outcome.starved ∨
       parse_array (parse_array_loop f2) ⟨⟨v ++ Z2, false⟩, a, n, m, c, z, e, s⟩ type t b =
         Outcome.done (⟨⟨Z2, false⟩, a', n', m', c', z', e', s'⟩, b')) := by
  unfold parse_array at h ⊢
  simp only [parse_alloc_tokens] at h ⊢
  have hnot : ∀ t0 rest, v = t0 :: rest → t0.type ≠ 91 → False := by
    intro t0 rest hv0 ht
    split at h
    · rename_i q i el heq
      have := array_loop_not_array f1 v t0 rest hv0 ht Z _ _ _ _ _ _ _ _ _ _ _ heq
      dsimp only at this
      rw [if_pos this] at h
      cases h
    · cases h
    · cases h
    · cases h
  obtain ⟨t0, rest, hv0, h1 | h1 | h1⟩ := json_value_head v hv
  · exfalso
    refine hnot t0 rest hv0 ?_
    have := h1.1
    simp only [json_prim, Bool.or_eq_true, beq_iff_eq, I3IPC_JSON_BOOL, I3IPC_JSON_NULL,
      I3IPC_JSON_STRING, I3IPC_JSON_NUMBER] at this
    omega
  · obtain ⟨_, vs, hvs, hall⟩ := h1
    subst hvs
    split at h
    · rename_i q i el heq
      obtain ⟨a', n', m', c', z', e', s', i', el', hr, h2⟩ :=
        HL true vs Z Z2 _ _ _ _ _ _ _ _ _ 0 _ _ rfl hall heq
      cases hr
      simp only [Bool.false_eq_true, ↓reduceIte, parse_finish, Outcome.done.injEq] at h
      cases b with
      | none =>
        simp only [Option.isNone_none, ↓reduceIte, set_alloc_size] at h
        subst h
        refine ⟨_, _, _, _, _, _, _, _, rfl, ?_⟩
        rcases h2 with h2 | h2
        · left
          simp only [elems_from, ↓reduceIte] at h2
          rw [h2]
        · right
          simp only [elems_from, ↓reduceIte] at h2
          rw [h2]
          rfl
      | some b0 =>
        simp only [Option.isNone_some, Bool.false_eq_true, ↓reduceIte] at h
        subst h
        refine ⟨_, _, _, _, _, _, _, _, rfl, ?_⟩
        rcases h2 with h2 | h2
        · left
          simp only [elems_from, ↓reduceIte] at h2
          rw [h2]
        · right
          simp only [elems_from, ↓reduceIte] at h2
          rw [h2]
          rfl
    · cases h
    · cases h
    · cases h
  · exfalso
    refine hnot t0 rest hv0 ?_
    rw [h1.1]
    decide

/-- The branch for a record on a JSON value. -/
theorem parse_record_agree (f1 f2 : Nat)
    (HL : fields_loops_agree (parse_fields_loop f1) (parse_fields_loop f2))
    (v Z Z2 : List I3ipc_json_token) (a : List I3ipc_parse_state_allocs) (n : Nat)
    (m c : Bool) (z : Int) (e : Option (List Nat)) (s : Bool) (type : I3ipc_type)
    (b : Option Val)
    (r : I3ipc_parse_state × Option Val) (hv : json_value v)
    (h : parse_record (parse_fields_loop f1) ⟨⟨v ++ Z, false⟩, a, n, m, c, z, e, s⟩ type b
      = Outcome.done r) :
    ∃ a' n' m' c' z' e' s' b', r = (⟨⟨Z, false⟩, a', n', m', c', z', e', s'⟩, b') ∧
      (parse_record (parse_fields_loop f2) ⟨⟨v ++ Z2, false⟩, a, n, m, c, z, e, s⟩ type b
          = Outcome.starved ∨
       parse_record (parse_fields_loop f2) ⟨⟨v ++ Z2, false⟩, a, n, m, c, z, e, s⟩ type b =
         Outcome.done (⟨⟨Z2, false⟩, a', n', m', c', z', e', s'⟩, b')) := by
  unfold parse_record at h ⊢
  have hnot : ∀ t0 rest, v = t0 :: rest → t0.type ≠ 123 → False := by
    intro t0 rest hv0 ht
    split at h
    · rename_i q b1 heq
      have := fields_loop_not_object f1 v t0 rest hv0 ht Z _ _ _ _ _ _ _ _ _ _ heq
      dsimp only at this
      rw [if_pos this] at h
      cases h
    · cases h
    · cases h
    · cases h
  obtain ⟨t0, rest, hv0, h1 | h1 | h1⟩ := json_value_head v hv
  · exfalso
    refine hnot t0 rest hv0 ?_
    have := h1.1
    simp only [json_prim, Bool.or_eq_true, beq_iff_eq, I3IPC_JSON_BOOL, I3IPC_JSON_NULL,
      I3IPC_JSON_STRING, I3IPC_JSON_NUMBER] at this
    omega
  · exfalso
    refine hnot t0 rest hv0 ?_
    rw [h1.1]
    decide
  · obtain ⟨_, ms, hms, hk, hall⟩ := h1
    subst hms
    split at h
    · rename_i q b1 heq
      obtain ⟨a', n', m', c', z', e', s', b', hr, h2⟩ :=
        HL type ms ms Z Z2 _ _ _ _ _ _ _ none _ _ (extra_members_refl type ms) hk hall heq
      cases hr
      simp only [Bool.false_eq_true, ↓reduceIte, parse_finish, Outcome.done.injEq] at h
      subst h
      refine ⟨_, _, _, _, _, _, _, _, rfl, ?_⟩
      simp only [Option.isNone_none, members_from, ↓reduceIte] at h2
      rcases h2 with h2 | h2
      · left
        rw [h2]
      · right
        rw [h2]
        rfl
    · cases h
    · cases h
    · cases h

/-- One round of the array loop on the elements of an array. -/
theorem array_loop_step_agree
    (h1 h2 : I3ipc_parse_state → Nat → Nat → Option Val →
      Outcome (I3ipc_parse_state × Option Val))
    (l1 l2 : I3ipc_parse_state → Nat → Bool → Nat → List Val →
      Outcome (I3ipc_parse_state × Nat × List Val))
    (H : helpers_agree h1 h2) (HL : array_loops_agree l1 l2) :
    array_loops_agree (array_loop_step h1 l1) (array_loop_step h2 l2) := by
  intro first vs Z Z2 a n m c z e s t store i el r hi hall h
  unfold array_loop_step at h ⊢
  dsimp only at h ⊢
  rw [looparr_elems first vs hall Z false i hi] at h
  rw [looparr_elems first vs hall Z2 false i hi]
  cases vs with
  | nil =>
    simp only [looparr_answer, Bool.not_false, ↓reduceIte, Outcome.done.injEq] at h ⊢
    subst h
    exact ⟨_, _, _, _, _, _, _, _, _, rfl, Or.inr rfl⟩
  | cons v vs' =>
    simp only [looparr_answer, Bool.not_true, Bool.false_eq_true, ↓reduceIte,
      List.append_assoc] at h ⊢
    split at h
    · rename_i q x heq
      obtain ⟨a', n', m', c', z', e', s', b', hr, h2⟩ :=
        H v (elems_tail vs' ++ Z) (elems_tail vs' ++ Z2) _ _ _ _ _ _ _ _ _ _ _
          (hall v (List.mem_cons_self _ _)) heq
      cases hr
      obtain ⟨a'', n'', m'', c'', z'', e'', s'', i'', el'', hr', h3⟩ :=
        HL false vs' Z Z2 _ _ _ _ _ _ _ _ _ _ _ _ (by simp)
          (fun y hy => hall y (List.mem_cons_of_mem _ hy)) h
      refine ⟨_, _, _, _, _, _, _, _, _, hr', ?_⟩
      rcases h2 with h2 | h2
      · left
        rw [h2]
      · rw [h2]
        exact h3
    · cases h
    · cases h
    · cases h

/-- One round of the record loop on the members of an object. -/
theorem fields_loop_step_agree (f1 f2 : Nat)
    (h1 h2 : I3ipc_parse_state → Nat → Nat → Option Val →
      Outcome (I3ipc_parse_state × Option Val))
    (l1 l2 : I3ipc_parse_state → I3ipc_type → Option Nat → Option Val →
      Outcome (I3ipc_parse_state × Option Val))
    (H : helpers_agree h1 h2) (HL : fields_loops_agree l1 l2) :
    fields_loops_agree (fields_loop_step (i3ipc__parse_loopfields f1) h1 l1)
      (fields_loop_step (i3ipc__parse_loopfields f2) h2 l2) := by
  intro type ms ms2 Z Z2 a n m c z e s field b r hex hk hv h
  have hk2 := extra_members_keys type ms ms2 hex hk
  have hv2 := extra_members_values type ms ms2 hex hv
  have hj : ((if field.isNone = true then 0 else 1 : Nat) == 0) = field.isNone := by
    cases field <;> rfl
  have A1 := loopfields_members type f1 field.isNone ms Z _ hj hk hv
  have A2 := loopfields_members type f2 field.isNone ms2 Z2 _ hj hk2 hv2
  unfold fields_loop_step i3ipc__parse_loopfields at h ⊢
  dsimp only at h ⊢
  rcases A1 with A1 | A1
  · rw [A1] at h
    cases h
  rw [A1] at h
  cases hnm : next_member type ms with
  | none =>
    have hnm2 := next_member_extra_none type ms ms2 hex hnm
    simp only [loopfields_answer, hnm, Bool.not_false, ↓reduceIte, Outcome.done.injEq] at h
    subst h
    refine ⟨_, _, _, _, _, _, _, _, rfl, ?_⟩
    rcases A2 with A2 | A2
    · left
      rw [A2]
    · right
      rw [A2]
      simp only [loopfields_answer, hnm2, Bool.not_false, ↓reduceIte]
  | some x =>
    obtain ⟨fld, v, ms'⟩ := x
    obtain ⟨ms2', hnm2, hex'⟩ := next_member_extra_some type ms ms2 hex fld v ms' hnm
    obtain ⟨pre, K, hms, _, _⟩ := next_member_some type ms fld v ms' hnm
    have hvv : json_value v := hv (K, v) (by rw [hms]; simp)
    have hk' : ∀ x ∈ ms', x.1.type = I3IPC_JSON_STRING :=
      fun x hx => hk x (by rw [hms]; simp [hx])
    have hv' : ∀ x ∈ ms', json_value x.2 := fun x hx => hv x (by rw [hms]; simp [hx])
    simp only [loopfields_answer, hnm, Bool.not_true, Bool.false_eq_true, ↓reduceIte,
      List.append_assoc] at h
    cases hg : type.fields.get? fld with
    | none =>
      rw [hg] at h
      cases h
    | some f =>
      rw [hg] at h
      dsimp only at h
      split at h
      · rename_i q fb heq
        obtain ⟨a', n', m', c', z', e', s', b', hr, hh2⟩ :=
          H v (members_tail ms' ++ Z) (members_tail ms2' ++ Z2) _ _ _ _ _ _ _ _ _ _ _
            hvv heq
        cases hr
        have fin := fun (x : Option Val) hx =>
          HL type ms' ms2' Z Z2 a' n' m' c' z' e' s' (some fld) x r hex' hk' hv' hx
        simp only [Option.isNone_some, members_from, Bool.false_eq_true, ↓reduceIte] at fin
        cases b with
        | none =>
          obtain ⟨a'', n'', m'', c'', z'', e'', s'', b'', hr', h3⟩ := fin _ h
          refine ⟨_, _, _, _, _, _, _, _, hr', ?_⟩
          rcases A2 with A2 | A2
          · left
            rw [A2]
          · rw [A2]
            simp only [loopfields_answer, hnm2, Bool.not_true, Bool.false_eq_true, ↓reduceIte,
              List.append_assoc, hg]
            rcases hh2 with hh2 | hh2
            · left
              rw [hh2]
            · rw [hh2]
              exact h3
        | some b0 =>
          cases fb with
          | none =>
            obtain ⟨a'', n'', m'', c'', z'', e'', s'', b'', hr', h3⟩ := fin _ h
            refine ⟨_, _, _, _, _, _, _, _, hr', ?_⟩
            rcases A2 with A2 | A2
            · left
              rw [A2]
            · rw [A2]
              simp only [loopfields_answer, hnm2, Bool.not_true, Bool.false_eq_true,
                ↓reduceIte, List.append_assoc, hg]
              rcases hh2 with hh2 | hh2
              · left
                rw [hh2]
              · rw [hh2]
                exact h3
          | some v0 =>
            dsimp only at h
            rw [doderived_state ⟨members_tail ms' ++ Z, false⟩ ⟨[], false⟩] at h
            obtain ⟨a'', n'', m'', c'', z'', e'', s'', b'', hr', h3⟩ := fin _ h
            refine ⟨_, _, _, _, _, _, _, _, hr', ?_⟩
            rcases A2 with A2 | A2
            · left
              rw [A2]
            · rw [A2]
              simp only [loopfields_answer, hnm2, Bool.not_true, Bool.false_eq_true,
                ↓reduceIte, List.append_assoc, hg]
              rcases hh2 with hh2 | hh2
              · left
                rw [hh2]
              · rw [hh2]
                dsimp only
                rw [doderived_state ⟨members_tail ms2' ++ Z2, false⟩ ⟨[], false⟩]
                exact h3
      · cases h
      · cases h
      · cases h

/-- Two runs of `i3ipc__parse_helper` and of its loops, each with its own fuel, treat a JSON
value, the elements of an array and the members of an object alike. -/
theorem parse_helper_agree : ∀ (f1 f2 : Nat),
    helpers_agree (i3ipc__parse_helper f1) (i3ipc__parse_helper f2) ∧
    array_loops_agree (parse_array_loop f1) (parse_array_loop f2) ∧
    fields_loops_agree (parse_fields_loop f1) (parse_fields_loop f2) := by
  intro f1
  induction f1 with
  | zero =>
    intro f2
    refine ⟨?_, ?_, ?_⟩
    · intro v Z Z2 a n m c z e s t fl b r _ h
      simp [i3ipc__parse_helper] at h
    · intro first vs Z Z2 a n m c z e s t store i el r _ _ h
      simp [parse_array_loop] at h
    · intro type ms ms2 Z Z2 a n m c z e s field b r _ _ _ h
      simp [parse_fields_loop] at h
  | succ f1 ih =>
    have key : ∀ f2,
        helpers_agree (i3ipc__parse_helper (f1 + 1)) (i3ipc__parse_helper (f2 + 1)) ∧
        array_loops_agree (parse_array_loop (f1 + 1)) (parse_array_loop (f2 + 1)) ∧
        fields_loops_agree (parse_fields_loop (f1 + 1)) (parse_fields_loop (f2 + 1)) := by
      intro f2
      obtain ⟨ih1, ih2, ih3⟩ := ih f2
      refine ⟨?_, ?_, ?_⟩
      · intro v Z Z2 a n m c z e s t fl b r hv h
        unfold i3ipc__parse_helper at h ⊢
        by_cases c0 : (t == I3IPC_TYPE_EVENT) = true
        · rw [if_pos c0] at h
          cases h
        · rw [if_neg c0] at h ⊢
          cases hty : i3ipc__type_get t with
          | none =>
            rw [hty] at h
            cases h
          | some type =>
            rw [hty] at h
            dsimp only at h ⊢
            by_cases c1 : hasflag fl I3IPC_TYPE_GROUP_MAYBE = true
            · rw [if_pos c1] at h ⊢
              exact parse_maybe_agree _ _ ih1 v Z Z2 a n m c z e s type t fl b r hv h
            · rw [if_neg c1] at h ⊢
              by_cases c2 : ((t == I3IPC_TYPE_STRING && fl == 0)
                  || (t == I3IPC_TYPE_CHAR && hasflag fl I3IPC_TYPE_ISARRAY)) = true
              · rw [if_pos c2] at h ⊢
                exact parse_string_agree v Z Z2 a n m c z e s t b r hv h
              · rw [if_neg c2] at h ⊢
                by_cases c3 : hasflag fl I3IPC_TYPE_ISARRAY = true
                · rw [if_pos c3] at h ⊢
                  exact parse_array_agree _ _ ih2 v Z Z2 a n m c z e s type t b r hv h
                · rw [if_neg c3] at h ⊢
                  by_cases c4 : type.is_inline = true
                  · rw [if_pos c4] at h ⊢
                    exact parse_inline_agree _ _ ih1 v Z Z2 a n m c z e s type b r hv h
                  · rw [if_neg c4] at h ⊢
                    by_cases c5 : (fl == 0 && type.is_primitive) = true
                    · rw [if_pos c5] at h ⊢
                      exact parse_primitive_agree v Z Z2 a n m c z e s t b r hv h
                    · rw [if_neg c5] at h ⊢
                      by_cases c6 : (fl == 0) = true
                      · rw [if_pos c6] at h ⊢
                        exact parse_record_agree _ _ ih3 v Z Z2 a n m c z e s type b r hv h
                      · rw [if_neg c6] at h
                        cases h
      · intro first vs Z Z2 a n m c z e s t store i el r hi hall h
        unfold parse_array_loop at h ⊢
        exact array_loop_step_agree _ _ _ _ ih1 ih2 first vs Z Z2 a n m c z e s t store i el
          r hi hall h
      · intro type ms ms2 Z Z2 a n m c z e s field b r hex hk hv h
        unfold parse_fields_loop at h ⊢
        exact fields_loop_step_agree _ _ _ _ _ _ ih1 ih3 type ms ms2 Z Z2 a n m c z e s field
          b r hex hk hv h
    intro f2
    cases f2 with
    | succ f2 => exact key f2
    | zero =>
      obtain ⟨k1, k2, k3⟩ := key 0
      refine ⟨?_, ?_, ?_⟩
      · intro v Z Z2 a n m c z e s t fl b r hv h
        obtain ⟨a', n', m', c', z', e', s', b', hr, _⟩ :=
          k1 v Z Z2 a n m c z e s t fl b r hv h
        exact ⟨a', n', m', c', z', e', s', b', hr, Or.inl rfl⟩
      · intro first vs Z Z2 a n m c z e s t store i el r hi hall h
        obtain ⟨a', n', m', c', z', e', s', i', el', hr, _⟩ :=
          k2 first vs Z Z2 a n m c z e s t store i el r hi hall h
        exact ⟨a', n', m', c', z', e', s', i', el', hr, Or.inl rfl⟩
      · intro type ms ms2 Z Z2 a n m c z e s field b r hex hk hv h
        obtain ⟨a', n', m', c', z', e', s', b', hr, _⟩ :=
          k3 type ms ms2 Z Z2 a n m c z e s field b r hex hk hv h
        exact ⟨a', n', m', c', z', e', s', b', hr, Or.inl rfl⟩

/-- The inline branch on two lists of tokens that the call for the entry treats alike. -/
theorem parse_inline_pair
    (h1 h2 : I3ipc_parse_state → Nat → Nat → Option Val →
      Outcome (I3ipc_parse_state × Option Val))
    (T T2 Z Z2 : List I3ipc_json_token) (type : I3ipc_type)
    (H : ∀ field others, type.fields = field :: others →
      ∀ (a : List I3ipc_parse_state_allocs) (n : Nat) (m c : Bool) (z : Int)
        (e : Option (List Nat)) (s : Bool) (b : Option Val)
        (r : I3ipc_parse_state × Option Val),
      h1 ⟨⟨T, false⟩, a, n, m, c, z, e, s⟩ field.type.toNat field.flags b = Outcome.done r →
      ∃ a' n' m' c' z' e' s' b', r = (⟨⟨Z, false⟩, a', n', m', c', z', e', s'⟩, b') ∧
        (h2 ⟨⟨T2, false⟩, a, n, m, c, z, e, s⟩ field.type.toNat field.flags b
            = Outcome.starved ∨
         h2 ⟨⟨T2, false⟩, a, n, m, c, z, e, s⟩ field.type.toNat field.flags b =
           Outcome.done (⟨⟨Z2, false⟩, a', n', m', c', z', e', s'⟩, b')))
    (a : List I3ipc_parse_state_allocs) (n : Nat)
    (m c : Bool) (z : Int) (e : Option (List Nat)) (s : Bool)
    (b : Option Val) (r : I3ipc_parse_state × Option Val)
    (h : parse_inline h1 ⟨⟨T, false⟩, a, n, m, c, z, e, s⟩ type b = Outcome.done r) :
    ∃ a' n' m' c' z' e' s' b', r = (⟨⟨Z, false⟩, a', n', m', c', z', e', s'⟩, b') ∧
      (parse_inline h2 ⟨⟨T2, false⟩, a, n, m, c, z, e, s⟩ type b = Outcome.starved ∨
       parse_inline h2 ⟨⟨T2, false⟩, a, n, m, c, z, e, s⟩ type b =
         Outcome.done (⟨⟨Z2, false⟩, a', n', m', c', z', e', s'⟩, b')) := by
  unfold parse_inline at h ⊢
  cases hfs : type.fields with
  | nil =>
    rw [hfs] at h
    cases h
  | cons field others =>
    rw [hfs] at h
    dsimp only at h ⊢
    by_cases hany : (others.any (fun f => !hasflag f.flags I3IPC_TYPE_GROUP_DERIVED)) = true
    · rw [if_pos hany] at h
      cases h
    · rw [if_neg hany] at h ⊢
      split at h
      · rename_i q ib heq
        obtain ⟨a', n', m', c', z', e', s', b', hr, h2⟩ :=
          H field others hfs _ _ _ _ _ _ _ _ _ heq
        cases hr
        simp only [parse_finish, Outcome.done.injEq] at h
        subst h
        refine ⟨_, _, _, _, _, _, _, _, rfl, ?_⟩
        rcases h2 with h2 | h2
        · left
          rw [h2]
        · right
          rw [h2]
          simp only [parse_finish, Outcome.done.injEq, Prod.mk.injEq, true_and]
          cases b with
          | none => rfl
          | some b0 =>
            cases ib with
            | none => rfl
            | some v0 =>
              dsimp only
              rw [doderived_state ⟨Z2, false⟩ ⟨Z, false⟩]
      · cases h
      · cases h
      · cases h

/-- The branch for a record on two objects of which the second has further members with keys
of no entry. -/
theorem parse_record_extra (f1 f2 : Nat)
    (HL : fields_loops_agree (parse_fields_loop f1) (parse_fields_loop f2))
    (type : I3ipc_type) (ms ms2 : List (I3ipc_json_token × List I3ipc_json_token))
    (hex : extra_members type ms ms2) (hk : ∀ x ∈ ms, x.1.type = I3IPC_JSON_STRING)
    (hv : ∀ x ∈ ms, json_value x.2)
    (Z Z2 : List I3ipc_json_token) (a : List I3ipc_parse_state_allocs) (n : Nat)
    (m c : Bool) (z : Int) (e : Option (List Nat)) (s : Bool)
    (b : Option Val) (r : I3ipc_parse_state × Option Val)
    (h : parse_record (parse_fields_loop f1)
      ⟨⟨object_tokens ms ++ Z, false⟩, a, n, m, c, z, e, s⟩ type b = Outcome.done r) :
    ∃ a' n' m' c' z' e' s' b', r = (⟨⟨Z, false⟩, a', n', m', c', z', e', s'⟩, b') ∧
      (parse_record (parse_fields_loop f2)
          ⟨⟨object_tokens ms2 ++ Z2, false⟩, a, n, m, c, z, e, s⟩ type b = Outcome.starved ∨
       parse_record (parse_fields_loop f2)
          ⟨⟨object_tokens ms2 ++ Z2, false⟩, a, n, m, c, z, e, s⟩ type b =
         Outcome.done (⟨⟨Z2, false⟩, a', n', m', c', z', e', s'⟩, b')) := by
  unfold parse_record at h ⊢
  split at h
  · rename_i q b1 heq
    obtain ⟨a', n', m', c', z', e', s', b', hr, h2⟩ :=
      HL type ms ms2 Z Z2 _ _ _ _ _ _ _ none _ _ hex hk hv heq
    cases hr
    simp only [Bool.false_eq_true, ↓reduceIte, parse_finish, Outcome.done.injEq] at h
    subst h
    refine ⟨_, _, _, _, _, _, _, _, rfl, ?_⟩
    simp only [Option.isNone_none, members_from, ↓reduceIte] at h2
    rcases h2 with h2 | h2
    · left
      rw [h2]
    · right
      rw [h2]
      rfl
  · cases h
  · cases h
  · cases h

/-- Two runs of `i3ipc__parse_helper`, each with its own fuel, on two objects of which the
second has further members with keys of no entry of the record type that reads them: where
the first run succeeds, the second runs out of fuel or ends with the same result. -/
theorem parse_helper_extra : ∀ (d f1 f2 : Nat) (t fl : Nat) (type : I3ipc_type)
    (ms ms2 : List (I3ipc_json_token × List I3ipc_json_token))
    (Z Z2 : List I3ipc_json_token) (a : List I3ipc_parse_state_allocs) (n : Nat)
    (m c : Bool) (z : Int) (e : Option (List Nat)) (s : Bool)
    (b : Option Val) (r : I3ipc_parse_state × Option Val),
    object_type d t fl = some type → extra_members type ms ms2 →
    (∀ x ∈ ms, x.1.type = I3IPC_JSON_STRING) → (∀ x ∈ ms, json_value x.2) →
    i3ipc__parse_helper f1 ⟨⟨object_tokens ms ++ Z, false⟩, a, n, m, c, z, e, s⟩ t fl b
      = Outcome.done r →
    ∃ a' n' m' c' z' e' s' b', r = (⟨⟨Z, false⟩, a', n', m', c', z', e', s'⟩, b') ∧
      (i3ipc__parse_helper f2 ⟨⟨object_tokens ms2 ++ Z2, false⟩, a, n, m, c, z, e, s⟩ t fl b
          = Outcome.starved ∨
       i3ipc__parse_helper f2 ⟨⟨object_tokens ms2 ++ Z2, false⟩, a, n, m, c, z, e, s⟩ t fl b =
         Outcome.done (⟨⟨Z2, false⟩, a', n', m', c', z', e', s'⟩, b')) := by
  intro d
  induction d with
  | zero =>
    intro f1 f2 t fl type ms ms2 Z Z2 a n m c z e s b r hty
    simp [object_type] at hty
  | succ d ih =>
    intro f1 f2 t fl type ms ms2 Z Z2 a n m c z e s b r hty hex hk hv h
    obtain ⟨a', n', m', c', z', e', s', b', hr, _⟩ :=
      (parse_helper_agree f1 0).1 (object_tokens ms) Z Z a n m c z e s t fl b r
        (json_value.object ms hk hv) h
    cases f2 with
    | zero => exact ⟨a', n', m', c', z', e', s', b', hr, Or.inl rfl⟩
    | succ f2 =>
      cases f1 with
      | zero => simp [i3ipc__parse_helper] at h
      | succ f1 =>
        unfold i3ipc__parse_helper at h ⊢
        unfold object_type at hty
        by_cases c0 : (t == I3IPC_TYPE_EVENT) = true
        · rw [if_pos c0] at h
          cases h
        · rw [if_neg c0] at h hty ⊢
          cases htg : i3ipc__type_get t with
          | none =>
            rw [htg] at h
            cases h
          | some ty =>
            rw [htg] at h hty
            dsimp only at h hty ⊢
            by_cases c1 : hasflag fl I3IPC_TYPE_GROUP_MAYBE = true
            · rw [if_pos c1] at hty
              cases hty
            · rw [if_neg c1] at h hty ⊢
              by_cases c2 : ((t == I3IPC_TYPE_STRING && fl == 0)
                  || (t == I3IPC_TYPE_CHAR && hasflag fl I3IPC_TYPE_ISARRAY)) = true
              · rw [if_pos c2] at hty
                cases hty
              · rw [if_neg c2] at h hty ⊢
                by_cases c3 : hasflag fl I3IPC_TYPE_ISARRAY = true
                · rw [if_pos c3] at hty
                  cases hty
                · rw [if_neg c3] at h hty ⊢
                  by_cases c4 : ty.is_inline = true
                  · rw [if_pos c4] at h hty ⊢
                    refine parse_inline_pair _ _ (object_tokens ms ++ Z)
                      (object_tokens ms2 ++ Z2) Z Z2 ty ?_ a n m c z e s b r h
                    intro field others hfs a1 n1 m1 c1 z1 e1 s1 b1 r1 hh
                    rw [hfs] at hty
                    exact ih f1 f2 _ _ type ms ms2 Z Z2 a1 n1 m1 c1 z1 e1 s1 b1 r1 hty hex hk
                      hv hh
                  · rw [if_neg c4] at h hty ⊢
                    by_cases c5 : (fl == 0 && ty.is_primitive) = true
                    · rw [if_pos c5] at hty
                      cases hty
                    · rw [if_neg c5] at h hty ⊢
                      by_cases c6 : (fl == 0) = true
                      · rw [if_pos c6] at h hty ⊢
                        cases hty
                        exact parse_record_extra f1 f2 (parse_helper_agree f1 f2).2.2 type ms
                          ms2 hex hk hv Z Z2 a n m c z e s b r h
                      · rw [if_neg c6] at hty
                        cases hty


/-! ## Members of an object -/

/-- The first pass of `i3ipc_parse_try` on two object texts of which the second has further
members with keys of no entry: where the pass succeeds on the first text, it succeeds on the
second with the same requests. -/
theorem first_pass_extra (staticalloc : Bool) (msg_type : Int) (payload payload2 : List Nat)
    (message_type : Int) (type_id d : Nat) (rtype : I3ipc_type)
    (ms ms2 : List (I3ipc_json_token × List I3ipc_json_token))
    (hty : object_type d type_id 0 = some rtype)
    (hscan : i3ipc__json_scan payload = Outcome.done (object_tokens ms ++ [tok_zero]))
    (hk : ∀ x ∈ ms, x.1.type = I3IPC_JSON_STRING) (hv : ∀ x ∈ ms, json_value x.2)
    (hscan2 : i3ipc__json_scan payload2 = Outcome.done (object_tokens ms2 ++ [tok_zero]))
    (hex : extra_members rtype ms ms2)
    (tokens : List I3ipc_json_token) (type : I3ipc_type) (p1 : I3ipc_parse_state)
    (h : parse_first_pass staticalloc msg_type payload message_type type_id
      = Outcome.done (tokens, type, p1)) :
    ∃ a' n' m' c' z' e' s', p1 = ⟨⟨[], false⟩, a', n', m', c', z', e', s'⟩ ∧
      tokens = object_tokens ms ++ [tok_zero] ∧
      parse_first_pass staticalloc msg_type payload2 message_type type_id
        = Outcome.done (object_tokens ms2 ++ [tok_zero], type,
            ⟨⟨[], false⟩, a', n', m', c', z', e', s'⟩) := by
  unfold parse_first_pass at h ⊢
  by_cases c0 : (msg_type != message_type) = true
  · rw [if_pos c0] at h
    cases h
  · rw [if_neg c0] at h ⊢
    rw [hscan] at h
    rw [hscan2]
    dsimp only at h ⊢
    cases htg : i3ipc__type_get type_id with
    | none => rw [htg] at h; cases h
    | some ty =>
      rw [htg] at h
      simp only [parse_alloc_tokens] at h ⊢
      split at h
      · rename_i q x heq
        obtain ⟨a', n', m', c', z', e', s', b', hr, h2⟩ :=
          parse_helper_extra d _ (parse_fuel (object_tokens ms2 ++ [tok_zero]).length) _ _
            rtype ms ms2 [tok_zero] [tok_zero] _ _ _ _ _ _ _ _ _ hty hex hk hv heq
        cases hr
        have hm : ∀ (T : List I3ipc_json_token),
            i3ipc__json_match ⟨[tok_zero] ++ T, false⟩ 0 = (true, tok_zero, ⟨T, false⟩) := by
          intro T
          simp [i3ipc__json_match, matchany_cons, tok_zero]
        have hm0 := hm []
        simp only [List.append_nil] at hm0
        simp only [hm0, Bool.not_true, Bool.false_eq_true, ↓reduceIte, Outcome.done.injEq,
          Prod.mk.injEq] at h
        obtain ⟨k1, k2, k3⟩ := h
        subst k1 k2 k3
        refine ⟨_, _, _, _, _, _, _, rfl, rfl, ?_⟩
        rcases h2 with h2 | h2
        · exact absurd h2 (parse_helper_fuel _ _ _ _ _ (Nat.le_refl _))
        · rw [h2]
          simp only [hm0, Bool.not_true, Bool.false_eq_true, ↓reduceIte]
      · cases h
      · cases h
      · cases h

/-- C9, amended. Unknown keys are skipped. Take a payload whose tokens are those of a JSON
object, a record type that reads the members of the object (the type `type_id` itself, or the
type behind inline types), and a second payload whose tokens differ by one further member at
any position `k` of the object, with a string as key and any JSON value as value. When the
key of that member equals, as a C string, the JSON key of no entry of the record type that is
not derived, and `i3ipc_parse_try` succeeds on the first payload, then it succeeds on the
second payload with the same record. -/
theorem unknown_member_is_skipped (staticalloc : Bool) (msg_type : Int)
    (payload payload2 : List Nat) (message_type : Int) (type_id d : Nat) (rtype : I3ipc_type)
    (ms : List (I3ipc_json_token × List I3ipc_json_token)) (k : Nat)
    (K : I3ipc_json_token) (V : List I3ipc_json_token) (data : Val)
    (hty : object_type d type_id 0 = some rtype)
    (hscan : i3ipc__json_scan payload = Outcome.done (object_tokens ms ++ [tok_zero]))
    (hk : ∀ x ∈ ms, x.1.type = I3IPC_JSON_STRING) (hv : ∀ x ∈ ms, json_value x.2)
    (hscan2 : i3ipc__json_scan payload2 =
      Outcome.done (object_tokens (ms.take k ++ (K, V) :: ms.drop k) ++ [tok_zero]))
    (hK : K.type = I3IPC_JSON_STRING) (hV : json_value V)
    (hf : find_field rtype K = none)
    (h : i3ipc_parse_try staticalloc msg_type payload message_type type_id
      = Outcome.done data) :
    i3ipc_parse_try staticalloc msg_type payload2 message_type type_id
      = Outcome.done data := by
  have hex := extra_members_insert rtype K V hK hV hf k ms
  unfold i3ipc_parse_try at h ⊢
  cases hf1 : parse_first_pass staticalloc msg_type payload message_type type_id with
  | done x =>
    obtain ⟨tokens, type, p1⟩ := x
    obtain ⟨a', n', m', c', z', e', s', hp1, htok, hf2⟩ :=
      first_pass_extra staticalloc msg_type payload payload2 message_type type_id d rtype ms
        _ hty hscan hk hv hscan2 hex tokens type p1 hf1
    subst hp1 htok
    rw [hf1] at h
    rw [hf2]
    simp only [parse_alloc_tokens, I3ipc_parse_state.requests] at h ⊢
    split at h
    · rename_i q dat heq
      obtain ⟨a'', n'', m'', c'', z'', e'', s'', b'', hr, h2⟩ :=
        parse_helper_extra d _
          (parse_fuel (object_tokens (ms.take k ++ (K, V) :: ms.drop k) ++ [tok_zero]).length)
          _ _ rtype ms _ [tok_zero] [tok_zero] _ _ _ _ _ _ _ _ _ hty hex hk hv heq
      cases hr
      simp only [Outcome.done.injEq] at h
      subst h
      rcases h2 with h2 | h2
      · exact absurd h2 (parse_helper_fuel _ _ _ _ _ (Nat.le_refl _))
      · rw [h2]
    · cases h
    · cases h
    · cases h
    · cases h
  | fail c => rw [hf1] at h; cases h
  | aborted => rw [hf1] at h; cases h
  | starved => rw [hf1] at h; cases h

/-- A key that equals, as a C string, the JSON name of entry `i` is not looked up when `i` is
the entry that `find_field` answers. -/
theorem find_field_name (type : I3ipc_type) (key : I3ipc_json_token) (i : Nat)
    (fi : I3ipc_field) (hfi : type.fields.get? i = some fi)
    (h : find_field type key = some i) : strcmp_eq fi.json_name key.str = true := by
  obtain ⟨g, hg, hq⟩ := findIdx_some_get _ _ _ h
  rw [hfi] at hg
  cases hg
  simp only [Bool.and_eq_true] at hq
  exact hq.2

/-- The record loop on the members of an object leaves the `_enum` sibling of an entry as it
was when no key of the object is found at the entry. -/
theorem fields_loop_absent (type : I3ipc_type) (i : Nat) (fi g1 g2 : I3ipc_field)
    (hi : type.fields.get? i = some fi)
    (hind : hasflag fi.flags I3IPC_TYPE_GROUP_DERIVED = false)
    (h1 : type.fields.get? (i + 1) = some g1)
    (h1d : hasflag g1.flags I3IPC_TYPE_GROUP_DERIVED = true)
    (h2 : type.fields.get? (i + 2) = some g2)
    (h2d : hasflag g2.flags I3IPC_TYPE_GROUP_DERIVED = true) :
    ∀ (fuel : Nat) (ms : List (I3ipc_json_token × List I3ipc_json_token))
      (Z : List I3ipc_json_token) (a : List I3ipc_parse_state_allocs) (n : Nat)
      (m c : Bool) (z : Int) (e : Option (List Nat)) (s : Bool) (field : Option Nat)
      (base : Val) (r : I3ipc_parse_state × Option Val),
      (∀ x ∈ ms, x.1.type = I3IPC_JSON_STRING) → (∀ x ∈ ms, json_value x.2) →
      (∀ x ∈ ms, find_field type x.1 ≠ some i) →
      parse_fields_loop fuel ⟨⟨members_from field.isNone ms ++ Z, false⟩, a, n, m, c, z, e, s⟩
        type field (some base) = Outcome.done r →
      ∃ base', r.2 = some base' ∧ base'.field (i + 2) = base.field (i + 2) := by
  intro fuel
  induction fuel with
  | zero =>
    intro ms Z a n m c z e s field base r _ _ _ h
    simp [parse_fields_loop] at h
  | succ fuel ih =>
    intro ms Z a n m c z e s field base r hk hv habs h
    have hj : ((if field.isNone = true then 0 else 1 : Nat) == 0) = field.isNone := by
      cases field <;> rfl
    have A1 := loopfields_members type fuel field.isNone ms Z _ hj hk hv
    unfold parse_fields_loop fields_loop_step i3ipc__parse_loopfields at h
    dsimp only at h
    rcases A1 with A1 | A1
    · rw [A1] at h
      cases h
    rw [A1] at h
    cases hnm : next_member type ms with
    | none =>
      simp only [loopfields_answer, hnm, Bool.not_false, ↓reduceIte, Outcome.done.injEq] at h
      subst h
      exact ⟨base, rfl, rfl⟩
    | some x =>
      obtain ⟨fld, v, ms'⟩ := x
      obtain ⟨pre, K, hms, hK, _⟩ := next_member_some type ms fld v ms' hnm
      have hvv : json_value v := hv (K, v) (by rw [hms]; simp)
      have hk' : ∀ x ∈ ms', x.1.type = I3IPC_JSON_STRING :=
        fun x hx => hk x (by rw [hms]; simp [hx])
      have hv' : ∀ x ∈ ms', json_value x.2 := fun x hx => hv x (by rw [hms]; simp [hx])
      have habs' : ∀ x ∈ ms', find_field type x.1 ≠ some i :=
        fun x hx => habs x (by rw [hms]; simp [hx])
      have hne : i ≠ fld := by
        intro hc
        subst hc
        exact habs (K, v) (by rw [hms]; simp) hK
      obtain ⟨g, hg, hq⟩ := findIdx_some_get _ _ _ hK
      have hgnd : hasflag g.flags I3IPC_TYPE_GROUP_DERIVED = false := by
        simp only [Bool.and_eq_true, Bool.not_eq_true'] at hq
        exact hq.1
      simp only [loopfields_answer, hnm, Bool.not_true, Bool.false_eq_true, ↓reduceIte,
        List.append_assoc, hg] at h
      split at h
      · rename_i q fb heq
        obtain ⟨a', n', m', c', z', e', s', b', hr, _⟩ :=
          (parse_helper_agree fuel 0).1 v (members_tail ms' ++ Z) [] _ _ _ _ _ _ _ _ _ _ _
            hvv heq
        cases hr
        have fin := fun (x : Val) hx =>
          ih ms' Z a' n' m' c' z' e' s' (some fld) x r hk' hv' habs' hx
        simp only [Option.isNone_some, members_from, Bool.false_eq_true, ↓reduceIte] at fin
        cases fb with
        | none => exact fin _ h
        | some v0 =>
          obtain ⟨base', hb, hfield⟩ := fin _ h
          refine ⟨base', hb, ?_⟩
          rw [hfield]
          exact doderived_other_member _ type i fld fi g1 g2 g base v0 hi hind h1 h1d h2 h2d
            hg hgnd hne
      · cases h
      · cases h
      · cases h

/-- For an enum-annotated member `m` of the registry: an inline type with a single member of
the record type of `m`, without flags, is neither the event type nor the string type, and its
zeroed memory holds a record whose `_enum` sibling of `m` is 0. -/
theorem inline_records_zero (m : Nat × Nat × Nat) (hm : m ∈ enum_members) :
    i3ipc__global_types.all (fun wt => !wt.is_inline ||
      (match wt.fields with
       | f :: _ =>
         f.type.toNat != m.1 || f.flags != 0 ||
           ((wt.type != 28 && wt.type != 6) &&
            (match zero_of wt.type.toNat 0 with
             | Val.struct (x :: _) =>
               (x.field m.2.2).as_int == 0 && (x.field m.2.2 matches Val.int _)
             | _ => false))
       | [] => true)) = true := by
  have hall : enum_members.all (fun m =>
      i3ipc__global_types.all (fun wt => !wt.is_inline ||
        (match wt.fields with
         | f :: _ =>
           f.type.toNat != m.1 || f.flags != 0 ||
             ((wt.type != 28 && wt.type != 6) &&
              (match zero_of wt.type.toNat 0 with
               | Val.struct (x :: _) =>
                 (x.field m.2.2).as_int == 0 && (x.field m.2.2 matches Val.int _)
               | _ => false))
         | [] => true))) = true := by
    decide!
  exact List.all_eq_true.mp hall m hm

/-- C5, amended. Absent enum member. Take an enum-annotated member of the registry, `type_id`
its record type and `e` the index of its `_enum` sibling, and the members `ms` of a JSON
object of which no key equals, as a C string, the JSON key of the member. Then a successful
`i3ipc__parse_helper` for `type_id` on the object leaves the `_enum` sibling as the memory at
`base` held it before the call; and in the record that a successful `i3ipc_parse_try` for
`type_id` returns for a payload with the tokens of the object, the `_enum` sibling is 0, as
in the zeroed memory that the record is parsed into. The same holds for the record inside
the result of `i3ipc_parse_try` for an inline type `w` of a single member of type `type_id`,
such as the tree reply. -/
theorem absent_enum_member_is_zero
    (type_id i e : Nat) (hm : (type_id, i, e) ∈ enum_members)
    (type : I3ipc_type) (ht : i3ipc__type_get type_id = some type)
    (fi : I3ipc_field) (hfi : type.fields.get? i = some fi)
    (ms : List (I3ipc_json_token × List I3ipc_json_token))
    (hk : ∀ x ∈ ms, x.1.type = I3IPC_JSON_STRING) (hv : ∀ x ∈ ms, json_value x.2)
    (habs : ∀ x ∈ ms, strcmp_eq fi.json_name x.1.str = false) :
    (∀ (fuel : Nat) (Z : List I3ipc_json_token) (a : List I3ipc_parse_state_allocs)
        (n : Nat) (m c : Bool) (z : Int) (en : Option (List Nat)) (s : Bool) (base : Val)
        (r : I3ipc_parse_state × Option Val),
      i3ipc__parse_helper fuel ⟨⟨object_tokens ms ++ Z, false⟩, a, n, m, c, z, en, s⟩
        type_id 0 (some base) = Outcome.done r →
      ∃ v, r.2 = some v ∧ v.field e = base.field e) ∧
    (∀ (staticalloc : Bool) (msg_type : Int) (payload : List Nat) (message_type : Int)
        (data : Val),
      i3ipc__json_scan payload = Outcome.done (object_tokens ms ++ [tok_zero]) →
      i3ipc_parse_try staticalloc msg_type payload message_type type_id = Outcome.done data →
      data.field e = Val.int 0) ∧
    (∀ (staticalloc : Bool) (msg_type : Int) (payload : List Nat) (message_type : Int)
        (w : Nat) (wt : I3ipc_type) (f : I3ipc_field) (others : List I3ipc_field)
        (data : Val),
      i3ipc__type_get w = some wt → wt.is_inline = true → wt.fields = f :: others →
      f.type.toNat = type_id → f.flags = 0 →
      i3ipc__json_scan payload = Outcome.done (object_tokens ms ++ [tok_zero]) →
      i3ipc_parse_try staticalloc msg_type payload message_type w = Outcome.done data →
      (data.field 0).field e = Val.int 0) := by
  have hs := List.all_eq_true.mp enum_members_record _ hm
  simp only [ht, Bool.and_eq_true, Bool.not_eq_true', bne_iff_ne, ne_eq, beq_iff_eq] at hs
  obtain ⟨⟨⟨⟨⟨⟨⟨⟨hinl, hprim⟩, h28⟩, h6⟩, h1⟩, he⟩, hsh⟩, hz⟩, hzi⟩ := hs
  subst he
  have habs' : ∀ x ∈ ms, find_field type x.1 ≠ some i := by
    intro x hx hc
    have := find_field_name type x.1 i fi hfi hc
    rw [habs x hx] at this
    cases this
  have part1 : ∀ (fuel : Nat) (Z : List I3ipc_json_token) (a : List I3ipc_parse_state_allocs)
        (n : Nat) (m c : Bool) (z : Int) (en : Option (List Nat)) (s : Bool) (base : Val)
        (r : I3ipc_parse_state × Option Val),
      i3ipc__parse_helper fuel ⟨⟨object_tokens ms ++ Z, false⟩, a, n, m, c, z, en, s⟩
        type_id 0 (some base) = Outcome.done r →
      ∃ v, r.2 = some v ∧ v.field (i + 2) = base.field (i + 2) := by
    intro fuel Z a n m c z en s base r hrun
    cases fuel with
    | zero => simp [i3ipc__parse_helper] at hrun
    | succ fuel =>
      split at hsh
      · rename_i fi' g1 g2 hfi' hg1 hg2
        simp only [Bool.and_eq_true, Bool.not_eq_true'] at hsh
        obtain ⟨⟨hind, h1d⟩, h2d⟩ := hsh
        rw [hfi] at hfi'
        cases hfi'
        unfold i3ipc__parse_helper at hrun
        have e1 : (type_id == I3IPC_TYPE_EVENT) = false := by simpa [I3IPC_TYPE_EVENT] using h28
        have e2 : (type_id == I3IPC_TYPE_STRING) = false := by
          simpa [I3IPC_TYPE_STRING] using h6
        have e3 : (type_id == I3IPC_TYPE_CHAR) = false := by simpa [I3IPC_TYPE_CHAR] using h1
        have e4 : ∀ k, hasflag 0 k = false := by intro k; simp [hasflag]
        simp only [e1, e2, e3, e4, ht, hinl, hprim, Bool.false_eq_true, ↓reduceIte,
          Bool.false_and, Bool.or_self, Bool.and_false, beq_self_eq_true] at hrun
        unfold parse_record at hrun
        split at hrun
        · rename_i q b1 heq
          obtain ⟨base', hb, hfield⟩ :=
            fields_loop_absent type i fi g1 g2 hfi hind hg1 h1d hg2 h2d fuel ms Z a n m c z en
              s none base _ hk hv habs' heq
          dsimp only at hb
          subst hb
          split at hrun
          · cases hrun
          · simp only [parse_finish, Outcome.done.injEq] at hrun
            subst hrun
            exact ⟨base', rfl, hfield⟩
        · cases hrun
        · cases hrun
        · cases hrun
      · simp at hsh
  have hobj : ∀ d, object_type (d + 1) type_id 0 = some type := by
    intro d
    unfold object_type
    have e1 : (type_id == I3IPC_TYPE_EVENT) = false := by
      simpa [I3IPC_TYPE_EVENT] using h28
    have e2 : (type_id == I3IPC_TYPE_STRING) = false := by
      simpa [I3IPC_TYPE_STRING] using h6
    have e3 : (type_id == I3IPC_TYPE_CHAR) = false := by
      simpa [I3IPC_TYPE_CHAR] using h1
    have e4 : ∀ k, hasflag 0 k = false := by intro k; simp [hasflag]
    simp only [e1, e2, e3, e4, ht, hinl, hprim, Bool.false_eq_true, ↓reduceIte,
      Bool.false_and, Bool.or_self, Bool.and_false, beq_self_eq_true]
  refine ⟨part1, ?_, ?_⟩
  rotate_left
  · intro staticalloc msg_type payload message_type w wt f others data hw hin hfs hft hff
      hscan h
    obtain ⟨hmem, hwt⟩ := type_get_mem w wt hw
    have R := List.all_eq_true.mp (inline_records_zero (type_id, i, i + 2) hm) wt hmem
    simp only [hin, Bool.not_true, Bool.false_or, hfs, hft, hff, bne_self_eq_false,
      Bool.and_eq_true, bne_iff_ne, ne_eq, hwt, Int.toNat_ofNat] at R
    obtain ⟨⟨h28w, h6w⟩, R⟩ := R
    have hw28 : (w == I3IPC_TYPE_EVENT) = false := by
      simp only [I3IPC_TYPE_EVENT, beq_eq_false_iff_ne, ne_eq]
      intro hc
      exact h28w (by rw [hc]; rfl)
    have hw6 : (w == I3IPC_TYPE_STRING) = false := by
      simp only [I3IPC_TYPE_STRING, beq_eq_false_iff_ne, ne_eq]
      intro hc
      exact h6w (by rw [hc]; rfl)
    have e4 : ∀ k, hasflag 0 k = false := by intro k; simp [hasflag]
    have hobjw : object_type 2 w 0 = some type := by
      unfold object_type
      simp only [hw28, hw6, e4, hw, hin, hfs, Bool.false_eq_true, ↓reduceIte, Bool.false_and,
        Bool.or_self, Bool.and_false, hft, hff]
      exact hobj 0
    cases hz0 : zero_of w 0 with
    | struct fs =>
      rw [hz0] at R
      cases fs with
      | nil => simp at R
      | cons x0 fs0 =>
        simp only [Bool.and_eq_true, beq_iff_eq] at R
        unfold i3ipc_parse_try at h
        cases hf1 : parse_first_pass staticalloc msg_type payload message_type w with
        | done x =>
          obtain ⟨tokens, type', p1⟩ := x
          obtain ⟨a', n', m', c', z', e', s', hp1, htok, _⟩ :=
            first_pass_extra staticalloc msg_type payload payload message_type w 2 type ms ms
              hobjw hscan hk hv hscan (extra_members_refl type ms) tokens type' p1 hf1
          subst hp1 htok
          rw [hf1] at h
          simp only [parse_alloc_tokens, I3ipc_parse_state.requests] at h
          split at h
          · rename_i q dat heq
            simp only [Outcome.done.injEq] at h
            subst h
            unfold parse_fuel at heq
            unfold i3ipc__parse_helper at heq
            simp only [hw28, hw6, e4, hw, hin, Bool.false_eq_true, ↓reduceIte, Bool.false_and,
              Bool.or_self, Bool.and_false] at heq
            unfold parse_inline at heq
            rw [hfs] at heq
            dsimp only at heq
            split at heq
            · cases heq
            · split at heq
              · rename_i q2 ib heq2
                rw [hft, hff] at heq2
                obtain ⟨v, hv1, hv2⟩ := part1 _ _ _ _ _ _ _ _ _ _ _ heq2
                dsimp only at hv1
                subst hv1
                simp only [parse_finish, Outcome.done.injEq, Prod.mk.injEq,
                  Option.some.injEq] at heq
                obtain ⟨_, hd⟩ := heq
                rw [← hd]
                have hget : (i3ipc__parse_doderived q2 wt 0
                    ((zero_of w 0).set_field 0 v)).field 0
                    = ((zero_of w 0).set_field 0 v).field 0 := by
                  unfold i3ipc__parse_doderived
                  cases wt.fields.get? 0 with
                  | none => rfl
                  | some f0 => exact doderived_loop_below _ _ _ _ _ _ (by omega)
                dsimp only at hv2
                rw [hz0] at hv2
                rw [hget, hz0, field_set_field_eq _ _ _ (by simp), hv2]
                have hx0 : (Val.struct (x0 :: fs0)).field 0 = x0 := rfl
                rw [hx0, val_int_of_as_int _ R.2, R.1]
              · cases heq
              · cases heq
              · cases heq
          · cases h
          · cases h
          · cases h
          · cases h
        | fail c => rw [hf1] at h; cases h
        | aborted => rw [hf1] at h; cases h
        | starved => rw [hf1] at h; cases h
    | bool b => rw [hz0] at R; simp at R
    | int n => rw [hz0] at R; simp at R
    | sizet n => rw [hz0] at R; simp at R
    | float d => rw [hz0] at R; simp at R
    | chars p => rw [hz0] at R; simp at R
    | block p => rw [hz0] at R; simp at R
    | event t b => rw [hz0] at R; simp at R
  intro staticalloc msg_type payload message_type data hscan h
  unfold i3ipc_parse_try at h
  cases hf1 : parse_first_pass staticalloc msg_type payload message_type type_id with
  | done x =>
    obtain ⟨tokens, type', p1⟩ := x
    obtain ⟨a', n', m', c', z', e', s', hp1, htok, _⟩ :=
      first_pass_extra staticalloc msg_type payload payload message_type type_id 1 type ms ms
        (by
          unfold object_type
          have e1 : (type_id == I3IPC_TYPE_EVENT) = false := by
            simpa [I3IPC_TYPE_EVENT] using h28
          have e2 : (type_id == I3IPC_TYPE_STRING) = false := by
            simpa [I3IPC_TYPE_STRING] using h6
          have e3 : (type_id == I3IPC_TYPE_CHAR) = false := by
            simpa [I3IPC_TYPE_CHAR] using h1
          have e4 : ∀ k, hasflag 0 k = false := by intro k; simp [hasflag]
          simp only [e1, e2, e3, e4, ht, hinl, hprim, Bool.false_eq_true, ↓reduceIte,
            Bool.false_and, Bool.or_self, Bool.and_false, beq_self_eq_true])
        hscan hk hv hscan (extra_members_refl type ms) tokens type' p1 hf1
    subst hp1 htok
    rw [hf1] at h
    simp only [parse_alloc_tokens, I3ipc_parse_state.requests] at h
    split at h
    · rename_i q dat heq
      obtain ⟨v, hv1, hv2⟩ := part1 _ _ _ _ _ _ _ _ _ _ _ heq
      simp only [Option.some.injEq] at hv1
      subst hv1
      simp only [Outcome.done.injEq] at h
      subst h
      rw [hv2, val_int_of_as_int _ hzi, hz]
    · cases h
    · cases h
    · cases h
    · cases h
  | fail c => rw [hf1] at h; cases h
  | aborted => rw [hf1] at h; cases h
  | starved => rw [hf1] at h; cases h

/-- The amended C9 at the version reply `{"major":4}`: with the member
`"xyzzy":[5,{"a":null}]` put in behind its member, `i3ipc_parse_try` returns the same
record. -/
theorem unknown_member_is_skipped_witness :
    i3ipc_parse_try false 7 (bytes "\x7b\"major\":4,\"xyzzy\":[5,\x7b\"a\":null\x7d]\x7d") 7
        I3IPC_TYPE_REPLY_VERSION =
      Outcome.done ((i3ipc_parse_try false 7 (bytes "\x7b\"major\":4\x7d") 7
        I3IPC_TYPE_REPLY_VERSION).getD (Val.int 0)) :=
  unknown_member_is_skipped false 7 (bytes "\x7b\"major\":4\x7d")
    (bytes "\x7b\"major\":4,\"xyzzy\":[5,\x7b\"a\":null\x7d]\x7d") 7 I3IPC_TYPE_REPLY_VERSION 1
    (type_of I3IPC_TYPE_REPLY_VERSION)
    [(tok_string (bytes "major"), [tok_number ⟨false, 4, 0, 1⟩ 4])] 1
    (tok_string (bytes "xyzzy"))
    (array_tokens [[tok_number ⟨false, 5, 0, 1⟩ 5],
      object_tokens [(tok_string (bytes "a"), [tok_null])]])
    _ (by decide!) (by with_unfolding_all rfl) (by decide!)
    (by
      intro x hx
      rw [List.mem_singleton] at hx
      subst hx
      exact json_value.prim _ (by decide))
    (by with_unfolding_all rfl) rfl
    (json_value.array _ (by
      intro v hv
      rcases List.mem_cons.mp hv with rfl | hv
      · exact json_value.prim _ (by decide)
      · rw [List.mem_singleton] at hv
        subst hv
        refine json_value.object _ (by decide!) ?_
        intro x hx
        rw [List.mem_singleton] at hx
        subst hx
        exact json_value.prim _ (by decide)))
    (by decide!)
    (outcome_done_getD _ _ (by decide!))

/-- The amended C5 at the tree `{"name":"a"}` and the member `type` of the node: the sibling
`type_enum` of the node in the tree reply is 0. -/
theorem absent_enum_member_is_zero_witness :
    (((i3ipc_parse_try false 4 (bytes "\x7b\"name\":\"a\"\x7d") 4 I3IPC_TYPE_REPLY_TREE).getD
        (Val.int 1)).field 0).field 5 = Val.int 0 :=
  (absent_enum_member_is_zero I3IPC_TYPE_NODE 3 5 (by decide!)
    (type_of I3IPC_TYPE_NODE) (by with_unfolding_all rfl)
    (field_of I3IPC_TYPE_NODE 3) (by with_unfolding_all rfl)
    [(tok_string (bytes "name"), [tok_string (bytes "a")])] (by decide!)
    (by
      intro x hx
      rw [List.mem_singleton] at hx
      subst hx
      exact json_value.prim _ (by decide))
    (by decide!)).2.2 false 4 (bytes "\x7b\"name\":\"a\"\x7d") 4 I3IPC_TYPE_REPLY_TREE
      (type_of I3IPC_TYPE_REPLY_TREE) (field_of I3IPC_TYPE_REPLY_TREE 0) [] _
      (by with_unfolding_all rfl) (by decide!) (by with_unfolding_all rfl) (by decide!)
      (by decide!) (by with_unfolding_all rfl) (outcome_done_getD _ _ (by decide!))


/-! ## The pointers stored in the record -/

/-- The branch for `MAYBE` with its stores is `parse_maybe`. -/
theorem parse_maybe_stores_model
    (hs : I3ipc_parse_state → Nat → Nat → Option Val →
      Outcome (I3ipc_parse_state × Option Val × List I3ipc_pointer))
    (h : I3ipc_parse_state → Nat → Nat → Option Val →
      Outcome (I3ipc_parse_state × Option Val))
    (H : ∀ p t fl b, (hs p t fl b).without_stores = h p t fl b)
    (p : I3ipc_parse_state) (type : I3ipc_type) (t fl : Nat) (b : Option Val) :
    (parse_maybe_stores hs p type t fl b).without_stores = parse_maybe h p type t fl b := by
  unfold parse_maybe_stores parse_maybe
  dsimp only
  by_cases c1 : (!(i3ipc__json_trymatch p.state I3IPC_JSON_NULL).1) = true
  · rw [if_pos c1, if_pos c1]
    by_cases c2 : hasflag fl I3IPC_TYPE_ISPTR = true
    · rw [if_pos c2, if_pos c2, ← H]
      cases hs _ _ _ _ with
      | done x => rfl
      | fail c => rfl
      | aborted => rfl
      | starved => rfl
    · rw [if_neg c2, if_neg c2, ← H]
      cases hs _ _ _ _ with
      | done x => rfl
      | fail c => rfl
      | aborted => rfl
      | starved => rfl
  · rw [if_neg c1, if_neg c1]
    rfl

/-- The branch for a string with its stores is `parse_string`. -/
theorem parse_string_stores_model (p : I3ipc_parse_state) (t : Nat) (b : Option Val) :
    (parse_string_stores p t b).without_stores = parse_string p t b := by
  unfold parse_string_stores
  dsimp only
  cases parse_string p t b with
  | done x => rfl
  | fail c => rfl
  | aborted => rfl
  | starved => rfl

/-- The branch for an array with its stores is `parse_array`. -/
theorem parse_array_stores_model
    (ls : I3ipc_parse_state → Nat → Bool → Nat → List Val →
      Outcome (I3ipc_parse_state × Nat × List Val × List I3ipc_pointer))
    (l : I3ipc_parse_state → Nat → Bool → Nat → List Val →
      Outcome (I3ipc_parse_state × Nat × List Val))
    (H : ∀ p t s i e, (ls p t s i e).without_loop_stores = l p t s i e)
    (p : I3ipc_parse_state) (type : I3ipc_type) (t : Nat) (b : Option Val) :
    (parse_array_stores ls p type t b).without_stores = parse_array l p type t b := by
  unfold parse_array_stores parse_array
  dsimp only
  rw [← H]
  cases ls _ _ _ _ _ with
  | done x =>
    obtain ⟨q, i, el, s⟩ := x
    simp only [Outcome.without_loop_stores]
    by_cases c : q.state.err_flag = true
    · rw [if_pos c, if_pos c]
      rfl
    · rw [if_neg c, if_neg c]
      rfl
  | fail c => rfl
  | aborted => rfl
  | starved => rfl

/-- The inline branch with its stores is `parse_inline`. -/
theorem parse_inline_stores_model
    (hs : I3ipc_parse_state → Nat → Nat → Option Val →
      Outcome (I3ipc_parse_state × Option Val × List I3ipc_pointer))
    (h : I3ipc_parse_state → Nat → Nat → Option Val →
      Outcome (I3ipc_parse_state × Option Val))
    (H : ∀ p t fl b, (hs p t fl b).without_stores = h p t fl b)
    (p : I3ipc_parse_state) (type : I3ipc_type) (b : Option Val) :
    (parse_inline_stores hs p type b).without_stores = parse_inline h p type b := by
  unfold parse_inline_stores parse_inline
  cases type.fields with
  | nil => rfl
  | cons field others =>
    dsimp only
    by_cases c : (others.any (fun f => !hasflag f.flags I3IPC_TYPE_GROUP_DERIVED)) = true
    · rw [if_pos c, if_pos c]
      rfl
    · rw [if_neg c, if_neg c, ← H]
      cases hs _ _ _ _ with
      | done x => rfl
      | fail c => rfl
      | aborted => rfl
      | starved => rfl

/-- The branch for a record with its stores is `parse_record`. -/
theorem parse_record_stores_model
    (ls : I3ipc_parse_state → I3ipc_type → Option Nat → Option Val →
      Outcome (I3ipc_parse_state × Option Val × List I3ipc_pointer))
    (l : I3ipc_parse_state → I3ipc_type → Option Nat → Option Val →
      Outcome (I3ipc_parse_state × Option Val))
    (H : ∀ p ty f b, (ls p ty f b).without_stores = l p ty f b)
    (p : I3ipc_parse_state) (type : I3ipc_type) (b : Option Val) :
    (parse_record_stores ls p type b).without_stores = parse_record l p type b := by
  unfold parse_record_stores parse_record
  rw [← H]
  cases ls _ _ _ _ with
  | done x =>
    obtain ⟨q, v, s⟩ := x
    simp only [Outcome.without_stores]
    by_cases c : q.state.err_flag = true
    · rw [if_pos c, if_pos c]
    · rw [if_neg c, if_neg c]
      rfl
  | fail c => rfl
  | aborted => rfl
  | starved => rfl

/-- One round of the array loop with its stores is `array_loop_step`. -/
theorem array_loop_step_stores_model
    (hs : I3ipc_parse_state → Nat → Nat → Option Val →
      Outcome (I3ipc_parse_state × Option Val × List I3ipc_pointer))
    (h : I3ipc_parse_state → Nat → Nat → Option Val →
      Outcome (I3ipc_parse_state × Option Val))
    (ls : I3ipc_parse_state → Nat → Bool → Nat → List Val →
      Outcome (I3ipc_parse_state × Nat × List Val × List I3ipc_pointer))
    (l : I3ipc_parse_state → Nat → Bool → Nat → List Val →
      Outcome (I3ipc_parse_state × Nat × List Val))
    (H : ∀ p t fl b, (hs p t fl b).without_stores = h p t fl b)
    (HL : ∀ p t s i e, (ls p t s i e).without_loop_stores = l p t s i e)
    (p : I3ipc_parse_state) (t : Nat) (s : Bool) (i : Nat) (e : List Val) :
    (array_loop_step_stores hs ls p t s i e).without_loop_stores
      = array_loop_step h l p t s i e := by
  unfold array_loop_step_stores array_loop_step
  dsimp only
  by_cases c : (!(i3ipc__json_looparr p.state i).1) = true
  · rw [if_pos c, if_pos c]
    rfl
  · rw [if_neg c, if_neg c, ← H]
    cases hs _ _ _ _ with
    | done x =>
      obtain ⟨q, v, s1⟩ := x
      simp only [Outcome.without_stores]
      rw [← HL]
      cases ls _ _ _ _ _ with
      | done y => rfl
      | fail c => rfl
      | aborted => rfl
      | starved => rfl
    | fail c => rfl
    | aborted => rfl
    | starved => rfl

/-- One round of the record loop with its stores is `fields_loop_step`. -/
theorem fields_loop_step_stores_model
    (lf : I3ipc_json_state → I3ipc_type → Option Nat →
      Outcome (Bool × Nat × I3ipc_json_state))
    (hs : I3ipc_parse_state → Nat → Nat → Option Val →
      Outcome (I3ipc_parse_state × Option Val × List I3ipc_pointer))
    (h : I3ipc_parse_state → Nat → Nat → Option Val →
      Outcome (I3ipc_parse_state × Option Val))
    (ls : I3ipc_parse_state → I3ipc_type → Option Nat → Option Val →
      Outcome (I3ipc_parse_state × Option Val × List I3ipc_pointer))
    (l : I3ipc_parse_state → I3ipc_type → Option Nat → Option Val →
      Outcome (I3ipc_parse_state × Option Val))
    (H : ∀ p t fl b, (hs p t fl b).without_stores = h p t fl b)
    (HL : ∀ p ty f b, (ls p ty f b).without_stores = l p ty f b)
    (p : I3ipc_parse_state) (type : I3ipc_type) (f : Option Nat) (b : Option Val) :
    (fields_loop_step_stores lf hs ls p type f b).without_stores
      = fields_loop_step lf h l p type f b := by
  unfold fields_loop_step_stores fields_loop_step
  cases lf p.state type f with
  | done x =>
    obtain ⟨more, fld, st⟩ := x
    dsimp only
    by_cases c : (!more) = true
    · rw [if_pos c, if_pos c]
      rfl
    · rw [if_neg c, if_neg c]
      cases type.fields.get? fld with
      | none => rfl
      | some g =>
        dsimp only
        rw [← H]
        cases hs _ _ _ _ with
        | done y =>
          obtain ⟨q, v, s1⟩ := y
          simp only [Outcome.without_stores]
          rw [← HL]
          have fin : ∀ (x : Option Val),
              (match ls q type (some fld) x with
                | Outcome.done (p, base, s2) => Outcome.done (p, base, s1 ++ s2)
                | Outcome.fail c => Outcome.fail c
                | Outcome.aborted => Outcome.aborted
                | Outcome.starved => Outcome.starved).without_stores
                = (ls q type (some fld) x).without_stores := by
            intro x
            cases ls q type (some fld) x with
            | done z => rfl
            | fail c => rfl
            | aborted => rfl
            | starved => rfl
          cases b with
          | none => exact fin _
          | some b0 =>
            cases v with
            | none => exact fin _
            | some v0 => exact fin _
        | fail c => rfl
        | aborted => rfl
        | starved => rfl
  | fail c => rfl
  | aborted => rfl
  | starved => rfl

/-- `i3ipc__parse_helper_stores` and its loops are `i3ipc__parse_helper` and its loops, with
the stored pointers besides the result. -/
theorem parse_helper_stores_model : ∀ (fuel : Nat),
    (∀ p t fl b, (i3ipc__parse_helper_stores fuel p t fl b).without_stores
      = i3ipc__parse_helper fuel p t fl b) ∧
    (∀ p t s i e, (parse_array_loop_stores fuel p t s i e).without_loop_stores
      = parse_array_loop fuel p t s i e) ∧
    (∀ p ty f b, (parse_fields_loop_stores fuel p ty f b).without_stores
      = parse_fields_loop fuel p ty f b) := by
  intro fuel
  induction fuel with
  | zero =>
    refine ⟨?_, ?_, ?_⟩
    · intro p t fl b
      rfl
    · intro p t s i e
      rfl
    · intro p ty f b
      rfl
  | succ fuel ih =>
    obtain ⟨ih1, ih2, ih3⟩ := ih
    refine ⟨?_, ?_, ?_⟩
    · intro p t fl b
      unfold i3ipc__parse_helper_stores i3ipc__parse_helper
      by_cases c0 : (t == I3IPC_TYPE_EVENT) = true
      · rw [if_pos c0, if_pos c0]
        rfl
      · rw [if_neg c0, if_neg c0]
        cases i3ipc__type_get t with
        | none => rfl
        | some type =>
          dsimp only
          by_cases c1 : hasflag fl I3IPC_TYPE_GROUP_MAYBE = true
          · rw [if_pos c1, if_pos c1]
            exact parse_maybe_stores_model _ _ ih1 p type t fl b
          · rw [if_neg c1, if_neg c1]
            by_cases c2 : ((t == I3IPC_TYPE_STRING && fl == 0)
                || (t == I3IPC_TYPE_CHAR && hasflag fl I3IPC_TYPE_ISARRAY)) = true
            · rw [if_pos c2, if_pos c2]
              exact parse_string_stores_model p t b
            · rw [if_neg c2, if_neg c2]
              by_cases c3 : hasflag fl I3IPC_TYPE_ISARRAY = true
              · rw [if_pos c3, if_pos c3]
                exact parse_array_stores_model _ _ ih2 p type t b
              · rw [if_neg c3, if_neg c3]
                by_cases c4 : type.is_inline = true
                · rw [if_pos c4, if_pos c4]
                  exact parse_inline_stores_model _ _ ih1 p type b
                · rw [if_neg c4, if_neg c4]
                  by_cases c5 : (fl == 0 && type.is_primitive) = true
                  · rw [if_pos c5, if_pos c5]
                    cases parse_primitive p t b with
                    | done x => rfl
                    | fail c => rfl
                    | aborted => rfl
                    | starved => rfl
                  · rw [if_neg c5, if_neg c5]
                    by_cases c6 : (fl == 0) = true
                    · rw [if_pos c6, if_pos c6]
                      exact parse_record_stores_model _ _ ih3 p type b
                    · rw [if_neg c6, if_neg c6]
                      rfl
    · intro p t s i e
      unfold parse_array_loop_stores parse_array_loop
      exact array_loop_step_stores_model _ _ _ _ ih1 ih2 p t s i e
    · intro p ty f b
      unfold parse_fields_loop_stores parse_fields_loop
      exact fields_loop_step_stores_model _ _ _ _ _ ih1 ih3 p ty f b

/-- `i3ipc__parse_alloc` with memory. -/
theorem parse_alloc_memory (p : I3ipc_parse_state) (hm : p.memory = true) (size al : Nat) :
    i3ipc__parse_alloc p size al =
      ({ p with allocs_size := p.allocs_size + 1 }, p.allocs_size,
        some ((p.allocs.getD p.allocs_size ⟨0, 0⟩).size)) := by
  unfold i3ipc__parse_alloc
  simp [hm]

/-- `i3ipc__parse_alloc` with memory returns a pointer. -/
theorem parse_alloc_isSome (p : I3ipc_parse_state) (hm : p.memory = true) (size al : Nat) :
    (i3ipc__parse_alloc p size al).2.2.isSome = true := by
  rw [parse_alloc_memory p hm]
  rfl

/-- A run that stores nothing and makes no request. -/
theorem stores_planned_refl (p r : I3ipc_parse_state) (hm : p.memory = true)
    (hc : p.copy_strings = true) (h1 : r.memory = p.memory)
    (h2 : r.copy_strings = p.copy_strings) (h3 : r.allocs = p.allocs)
    (h4 : r.allocs_size = p.allocs_size) : stores_planned p r [] := by
  refine ⟨by rw [h1, hm], by rw [h2, hc], h3, by omega, ?_⟩
  intro x hx
  cases hx

/-- Two runs one after the other. -/
theorem stores_planned_trans (p q r : I3ipc_parse_state) (s1 s2 : List I3ipc_pointer)
    (h1 : stores_planned p q s1) (h2 : stores_planned q r s2) :
    stores_planned p r (s1 ++ s2) := by
  obtain ⟨_, _, a3, a4, a5⟩ := h1
  obtain ⟨b1, b2, b3, b4, b5⟩ := h2
  refine ⟨b1, b2, b3.trans a3, by omega, ?_⟩
  intro x hx
  rcases List.mem_append.mp hx with hx | hx
  · obtain ⟨k, k1, k2, k3⟩ := a5 x hx
    exact ⟨k, k1, by omega, k3⟩
  · obtain ⟨k, k1, k2, k3⟩ := b5 x hx
    exact ⟨k, by omega, k2, by rw [← a3]; exact k3⟩

/-- A run keeps its stores when the start and the end are replaced by states with the same
requests. -/
theorem stores_planned_of (p q p' q' : I3ipc_parse_state) (s : List I3ipc_pointer)
    (h : stores_planned p q s) (hp1 : p'.allocs = p.allocs)
    (hp2 : p'.allocs_size = p.allocs_size) (hq1 : q'.allocs = q.allocs)
    (hq2 : q'.allocs_size = q.allocs_size) (hq3 : q'.memory = q.memory)
    (hq4 : q'.copy_strings = q.copy_strings) : stores_planned p' q' s := by
  obtain ⟨a1, a2, a3, a4, a5⟩ := h
  refine ⟨by rw [hq3, a1], by rw [hq4, a2], by rw [hq1, a3, hp1], by omega, ?_⟩
  intro x hx
  obtain ⟨k, k1, k2, k3⟩ := a5 x hx
  exact ⟨k, by omega, by omega, by rw [hp1]; exact k3⟩

/-- The pointer of a request that is made with memory is a planned store. -/
theorem stores_planned_alloc (p : I3ipc_parse_state) (hm : p.memory = true)
    (hc : p.copy_strings = true) (size al : Nat) :
    stores_planned p (i3ipc__parse_alloc p size al).1
      [alloc_pointer (i3ipc__parse_alloc p size al).2.2] := by
  rw [parse_alloc_memory p hm]
  refine ⟨hm, hc, rfl, by simp, ?_⟩
  intro x hx
  rw [List.mem_singleton] at hx
  subst hx
  exact ⟨p.allocs_size, Nat.le_refl _, by simp, rfl⟩

/-- The branch for `MAYBE` stores planned pointers. -/
theorem parse_maybe_stores_planned
    (hs : I3ipc_parse_state → Nat → Nat → Option Val →
      Outcome (I3ipc_parse_state × Option Val × List I3ipc_pointer))
    (H : ∀ p t fl b r, p.memory = true → p.copy_strings = true →
      hs p t fl (some b) = Outcome.done r → stores_planned p r.1 r.2.2)
    (p : I3ipc_parse_state) (type : I3ipc_type) (t fl : Nat) (b : Val)
    (r : I3ipc_parse_state × Option Val × List I3ipc_pointer)
    (hm : p.memory = true) (hc : p.copy_strings = true)
    (h : parse_maybe_stores hs p type t fl (some b) = Outcome.done r) :
    stores_planned p r.1 r.2.2 := by
  unfold parse_maybe_stores at h
  dsimp only at h
  by_cases c1 : (!(i3ipc__json_trymatch p.state I3IPC_JSON_NULL).1) = true
  · rw [if_pos c1] at h
    by_cases c2 : hasflag fl I3IPC_TYPE_ISPTR = true
    · rw [if_pos c2] at h
      have ha := stores_planned_alloc
        { p with state := (i3ipc__json_trymatch p.state I3IPC_JSON_NULL).2.2 } hm hc
        type.size type.alignment
      have hsome : (i3ipc__parse_alloc
          { p with state := (i3ipc__json_trymatch p.state I3IPC_JSON_NULL).2.2 }
          type.size type.alignment).2.2.isSome = true :=
        parse_alloc_isSome
          { p with state := (i3ipc__json_trymatch p.state I3IPC_JSON_NULL).2.2 } hm _ _
      rw [hsome] at h
      simp only [↓reduceIte, Option.isSome_some] at h
      split at h
      · rename_i q v s heq
        have hq := H _ _ _ _ _ ha.1 ha.2.1 heq
        simp only [Outcome.done.injEq] at h
        subst h
        have := stores_planned_trans _ _ _ _ _ ha hq
        exact stores_planned_of _ _ _ _ _ this rfl rfl rfl rfl rfl rfl
      · cases h
      · cases h
      · cases h
    · rw [if_neg c2] at h
      split at h
      · rename_i q v s heq
        have hq := H { p with state := (i3ipc__json_trymatch p.state I3IPC_JSON_NULL).2.2 }
          _ _ _ _ hm hc heq
        simp only [Outcome.done.injEq] at h
        subst h
        exact stores_planned_of _ _ _ _ _ hq rfl rfl rfl rfl rfl rfl
      · cases h
      · cases h
      · cases h
  · rw [if_neg c1] at h
    simp only [Outcome.done.injEq] at h
    subst h
    exact stores_planned_refl _ _ hm hc rfl rfl rfl rfl

/-- The branch for a string stores a planned pointer. -/
theorem parse_string_stores_planned
    (p : I3ipc_parse_state) (t : Nat) (b : Val)
    (r : I3ipc_parse_state × Option Val × List I3ipc_pointer)
    (hm : p.memory = true) (hc : p.copy_strings = true)
    (h : parse_string_stores p t (some b) = Outcome.done r) :
    stores_planned p r.1 r.2.2 := by
  obtain ⟨st, a, n, m, c, z, e, s⟩ := p
  dsimp only at hm hc
  subst hm hc
  unfold parse_string_stores at h
  dsimp only at h
  split at h
  · rename_i q v heq
    simp only [Outcome.done.injEq] at h
    subst h
    unfold parse_string at heq
    dsimp only at heq
    by_cases c1 : (!(i3ipc__json_match st I3IPC_JSON_STRING).1) = true
    · rw [if_pos c1] at heq
      cases heq
    · rw [if_neg c1] at heq
      have ha := stores_planned_alloc
        ⟨(i3ipc__json_match st I3IPC_JSON_STRING).2.2, a, n, true, true, z, e, s⟩ rfl rfl
        ((i3ipc__json_match st I3IPC_JSON_STRING).2.1.str_size + 1) 1
      simp only [↓reduceIte, Option.isSome_some] at heq ⊢
      by_cases c2 : (t == I3IPC_TYPE_STRING) = true
      · rw [if_pos c2] at heq
        simp only [parse_finish, Outcome.done.injEq, Prod.mk.injEq] at heq
        obtain ⟨hq, _⟩ := heq
        subst hq
        exact stores_planned_of _ _ _ _ _ ha rfl rfl rfl rfl rfl rfl
      · rw [if_neg c2] at heq
        simp only [parse_finish, Outcome.done.injEq, Prod.mk.injEq] at heq
        obtain ⟨hq, _⟩ := heq
        subst hq
        exact stores_planned_of _ _ _ _ _ ha rfl rfl rfl rfl rfl rfl
  · cases h
  · cases h
  · cases h

/-- The branch for a primitive type makes no request. -/
theorem parse_primitive_requests (p : I3ipc_parse_state) (t : Nat) (b : Option Val)
    (r : I3ipc_parse_state × Option Val) (h : parse_primitive p t b = Outcome.done r) :
    r.1.memory = p.memory ∧ r.1.copy_strings = p.copy_strings ∧ r.1.allocs = p.allocs ∧
      r.1.allocs_size = p.allocs_size := by
  unfold parse_primitive at h
  dsimp only at h
  by_cases c1 : (!(i3ipc__json_match p.state
      (if (t == I3IPC_TYPE_BOOL) = true then I3IPC_JSON_BOOL else I3IPC_JSON_NUMBER)).1) = true
  · rw [if_pos c1] at h
    cases h
  · rw [if_neg c1] at h
    cases b with
    | none =>
      simp only [parse_finish, Outcome.done.injEq] at h
      subst h
      exact ⟨rfl, rfl, rfl, rfl⟩
    | some b0 =>
      dsimp only at h
      by_cases d1 : (t == I3IPC_TYPE_BOOL) = true
      · rw [if_pos d1] at h
        simp only [parse_finish, Outcome.done.injEq] at h
        subst h
        exact ⟨rfl, rfl, rfl, rfl⟩
      · rw [if_neg d1] at h
        by_cases d2 : (t == I3IPC_TYPE_SIZET) = true
        · rw [if_pos d2] at h
          simp only [parse_finish, Outcome.done.injEq] at h
          subst h
          exact ⟨rfl, rfl, rfl, rfl⟩
        · rw [if_neg d2] at h
          by_cases d3 : (t == I3IPC_TYPE_INT) = true
          · rw [if_pos d3] at h
            simp only [parse_finish, Outcome.done.injEq] at h
            subst h
            exact ⟨rfl, rfl, rfl, rfl⟩
          · rw [if_neg d3] at h
            by_cases d4 : (t == I3IPC_TYPE_FLOAT) = true
            · rw [if_pos d4] at h
              simp only [parse_finish, Outcome.done.injEq] at h
              subst h
              exact ⟨rfl, rfl, rfl, rfl⟩
            · rw [if_neg d4] at h
              cases h

/-- The branch for an array stores planned pointers. -/
theorem parse_array_stores_planned
    (ls : I3ipc_parse_state → Nat → Bool → Nat → List Val →
      Outcome (I3ipc_parse_state × Nat × List Val × List I3ipc_pointer))
    (H : ∀ p t i e r, p.memory = true → p.copy_strings = true →
      ls p t true i e = Outcome.done r → stores_planned p r.1 r.2.2.2)
    (p : I3ipc_parse_state) (type : I3ipc_type) (t : Nat) (b : Val)
    (r : I3ipc_parse_state × Option Val × List I3ipc_pointer)
    (hm : p.memory = true) (hc : p.copy_strings = true)
    (h : parse_array_stores ls p type t (some b) = Outcome.done r) :
    stores_planned p r.1 r.2.2 := by
  unfold parse_array_stores at h
  dsimp only at h
  have ha := stores_planned_alloc p hm hc (2 ^ 64 - 1) type.alignment
  have hsome : (i3ipc__parse_alloc p (2 ^ 64 - 1) type.alignment).2.2.isSome = true :=
    parse_alloc_isSome p hm _ _
  rw [hsome] at h
  simp only [Option.isSome_some, Bool.and_self, ↓reduceIte, Option.isNone_some,
    Bool.false_eq_true] at h
  split at h
  · rename_i q i el s heq
    have hq := H _ _ _ _ _ ha.1 ha.2.1 heq
    split at h
    · cases h
    · simp only [Outcome.done.injEq] at h
      subst h
      have := stores_planned_trans _ _ _ _ _ ha hq
      exact stores_planned_of _ _ _ _ _ this rfl rfl rfl rfl rfl rfl
  · cases h
  · cases h
  · cases h

/-- The inline branch stores planned pointers. -/
theorem parse_inline_stores_planned
    (hs : I3ipc_parse_state → Nat → Nat → Option Val →
      Outcome (I3ipc_parse_state × Option Val × List I3ipc_pointer))
    (H : ∀ p t fl b r, p.memory = true → p.copy_strings = true →
      hs p t fl (some b) = Outcome.done r → stores_planned p r.1 r.2.2)
    (p : I3ipc_parse_state) (type : I3ipc_type) (b : Val)
    (r : I3ipc_parse_state × Option Val × List I3ipc_pointer)
    (hm : p.memory = true) (hc : p.copy_strings = true)
    (h : parse_inline_stores hs p type (some b) = Outcome.done r) :
    stores_planned p r.1 r.2.2 := by
  unfold parse_inline_stores at h
  split at h
  · cases h
  · split at h
    · cases h
    · split at h
      · rename_i q v s heq
        have hq := H _ _ _ _ _ hm hc heq
        simp only [Outcome.done.injEq] at h
        subst h
        exact stores_planned_of _ _ _ _ _ hq rfl rfl rfl rfl rfl rfl
      · cases h
      · cases h
      · cases h

/-- The branch for a record stores planned pointers. -/
theorem parse_record_stores_planned
    (ls : I3ipc_parse_state → I3ipc_type → Option Nat → Option Val →
      Outcome (I3ipc_parse_state × Option Val × List I3ipc_pointer))
    (H : ∀ p ty f b r, p.memory = true → p.copy_strings = true →
      ls p ty f (some b) = Outcome.done r → stores_planned p r.1 r.2.2)
    (p : I3ipc_parse_state) (type : I3ipc_type) (b : Val)
    (r : I3ipc_parse_state × Option Val × List I3ipc_pointer)
    (hm : p.memory = true) (hc : p.copy_strings = true)
    (h : parse_record_stores ls p type (some b) = Outcome.done r) :
    stores_planned p r.1 r.2.2 := by
  unfold parse_record_stores at h
  split at h
  · rename_i q v s heq
    have hq := H _ _ _ _ _ hm hc heq
    split at h
    · cases h
    · simp only [Outcome.done.injEq] at h
      subst h
      exact stores_planned_of _ _ _ _ _ hq rfl rfl rfl rfl rfl rfl
  · cases h
  · cases h
  · cases h

/-- One round of the array loop stores planned pointers. -/
theorem array_loop_step_stores_planned
    (hs : I3ipc_parse_state → Nat → Nat → Option Val →
      Outcome (I3ipc_parse_state × Option Val × List I3ipc_pointer))
    (ls : I3ipc_parse_state → Nat → Bool → Nat → List Val →
      Outcome (I3ipc_parse_state × Nat × List Val × List I3ipc_pointer))
    (H : ∀ p t fl b r, p.memory = true → p.copy_strings = true →
      hs p t fl (some b) = Outcome.done r → stores_planned p r.1 r.2.2)
    (HL : ∀ p t i e r, p.memory = true → p.copy_strings = true →
      ls p t true i e = Outcome.done r → stores_planned p r.1 r.2.2.2)
    (p : I3ipc_parse_state) (t : Nat) (i : Nat) (e : List Val)
    (r : I3ipc_parse_state × Nat × List Val × List I3ipc_pointer)
    (hm : p.memory = true) (hc : p.copy_strings = true)
    (h : array_loop_step_stores hs ls p t true i e = Outcome.done r) :
    stores_planned p r.1 r.2.2.2 := by
  unfold array_loop_step_stores at h
  dsimp only at h
  split at h
  · simp only [Outcome.done.injEq] at h
    subst h
    exact stores_planned_refl _ _ hm hc rfl rfl rfl rfl
  · simp only [↓reduceIte] at h
    split at h
    · rename_i q v s heq
      have hq := H { p with state := (i3ipc__json_looparr p.state i).2 } _ _ _ _ hm hc heq
      split at h
      · rename_i q2 i2 el2 s2 heq2
        have hq2 := HL _ _ _ _ _ hq.1 hq.2.1 heq2
        simp only [Outcome.done.injEq] at h
        subst h
        have := stores_planned_trans _ _ _ _ _ hq hq2
        exact stores_planned_of _ _ _ _ _ this rfl rfl rfl rfl rfl rfl
      · cases h
      · cases h
      · cases h
    · cases h
    · cases h
    · cases h

/-- One round of the record loop stores planned pointers. -/
theorem fields_loop_step_stores_planned
    (lf : I3ipc_json_state → I3ipc_type → Option Nat →
      Outcome (Bool × Nat × I3ipc_json_state))
    (hs : I3ipc_parse_state → Nat → Nat → Option Val →
      Outcome (I3ipc_parse_state × Option Val × List I3ipc_pointer))
    (ls : I3ipc_parse_state → I3ipc_type → Option Nat → Option Val →
      Outcome (I3ipc_parse_state × Option Val × List I3ipc_pointer))
    (H : ∀ p t fl b r, p.memory = true → p.copy_strings = true →
      hs p t fl (some b) = Outcome.done r → stores_planned p r.1 r.2.2)
    (HL : ∀ p ty f b r, p.memory = true → p.copy_strings = true →
      ls p ty f (some b) = Outcome.done r → stores_planned p r.1 r.2.2)
    (p : I3ipc_parse_state) (type : I3ipc_type) (f : Option Nat) (b : Val)
    (r : I3ipc_parse_state × Option Val × List I3ipc_pointer)
    (hm : p.memory = true) (hc : p.copy_strings = true)
    (h : fields_loop_step_stores lf hs ls p type f (some b) = Outcome.done r) :
    stores_planned p r.1 r.2.2 := by
  unfold fields_loop_step_stores at h
  split at h
  · rename_i more fld st hlf
    dsimp only at h
    split at h
    · simp only [Outcome.done.injEq] at h
      subst h
      exact stores_planned_refl _ _ hm hc rfl rfl rfl rfl
    · split at h
      · cases h
      · rename_i g hg
        split at h
        · rename_i q v s heq
          have hq := H { p with state := st } _ _ _ _ hm hc heq
          have fin : ∀ (x : Val) (y : I3ipc_parse_state × Option Val × List I3ipc_pointer),
              ls q type (some fld) (some x) = Outcome.done y →
              stores_planned p y.1 (s ++ y.2.2) := by
            intro x y hy
            have hq2 := HL _ _ _ _ _ hq.1 hq.2.1 hy
            have := stores_planned_trans _ _ _ _ _ hq hq2
            exact stores_planned_of _ _ _ _ _ this rfl rfl rfl rfl rfl rfl
          cases v with
          | none =>
            dsimp only at h
            split at h
            · rename_i q2 b2 s2 heq2
              simp only [Outcome.done.injEq] at h
              subst h
              exact fin _ _ heq2
            · cases h
            · cases h
            · cases h
          | some v0 =>
            dsimp only at h
            split at h
            · rename_i q2 b2 s2 heq2
              simp only [Outcome.done.injEq] at h
              subst h
              exact fin _ _ heq2
            · cases h
            · cases h
            · cases h
        · cases h
        · cases h
        · cases h
  · cases h
  · cases h
  · cases h

/-- With memory and copied strings, every pointer that `i3ipc__parse_helper` and its loops
store is `p->memory` plus the offset of a request made by the call. -/
theorem parse_helper_stores_planned : ∀ (fuel : Nat),
    (∀ p t fl b r, p.memory = true → p.copy_strings = true →
      i3ipc__parse_helper_stores fuel p t fl (some b) = Outcome.done r →
      stores_planned p r.1 r.2.2) ∧
    (∀ p t i e r, p.memory = true → p.copy_strings = true →
      parse_array_loop_stores fuel p t true i e = Outcome.done r →
      stores_planned p r.1 r.2.2.2) ∧
    (∀ p ty f b r, p.memory = true → p.copy_strings = true →
      parse_fields_loop_stores fuel p ty f (some b) = Outcome.done r →
      stores_planned p r.1 r.2.2) := by
  intro fuel
  induction fuel with
  | zero =>
    refine ⟨?_, ?_, ?_⟩
    · intro p t fl b r _ _ h
      simp [i3ipc__parse_helper_stores] at h
    · intro p t i e r _ _ h
      simp [parse_array_loop_stores] at h
    · intro p ty f b r _ _ h
      simp [parse_fields_loop_stores] at h
  | succ fuel ih =>
    obtain ⟨ih1, ih2, ih3⟩ := ih
    refine ⟨?_, ?_, ?_⟩
    · intro p t fl b r hm hc h
      unfold i3ipc__parse_helper_stores at h
      by_cases c0 : (t == I3IPC_TYPE_EVENT) = true
      · rw [if_pos c0] at h
        cases h
      · rw [if_neg c0] at h
        cases hty : i3ipc__type_get t with
        | none => rw [hty] at h; cases h
        | some type =>
          rw [hty] at h
          dsimp only at h
          by_cases c1 : hasflag fl I3IPC_TYPE_GROUP_MAYBE = true
          · rw [if_pos c1] at h
            exact parse_maybe_stores_planned _ ih1 p type t fl b r hm hc h
          · rw [if_neg c1] at h
            by_cases c2 : ((t == I3IPC_TYPE_STRING && fl == 0)
                || (t == I3IPC_TYPE_CHAR && hasflag fl I3IPC_TYPE_ISARRAY)) = true
            · rw [if_pos c2] at h
              exact parse_string_stores_planned p t b r hm hc h
            · rw [if_neg c2] at h
              by_cases c3 : hasflag fl I3IPC_TYPE_ISARRAY = true
              · rw [if_pos c3] at h
                exact parse_array_stores_planned _ ih2 p type t b r hm hc h
              · rw [if_neg c3] at h
                by_cases c4 : type.is_inline = true
                · rw [if_pos c4] at h
                  exact parse_inline_stores_planned _ ih1 p type b r hm hc h
                · rw [if_neg c4] at h
                  by_cases c5 : (fl == 0 && type.is_primitive) = true
                  · rw [if_pos c5] at h
                    split at h
                    · rename_i q v heq
                      obtain ⟨k1, k2, k3, k4⟩ := parse_primitive_requests p t _ _ heq
                      simp only [Outcome.done.injEq] at h
                      subst h
                      exact stores_planned_refl _ _ hm hc k1 k2 k3 k4
                    · cases h
                    · cases h
                    · cases h
                  · rw [if_neg c5] at h
                    by_cases c6 : (fl == 0) = true
                    · rw [if_pos c6] at h
                      exact parse_record_stores_planned _ ih3 p type b r hm hc h
                    · rw [if_neg c6] at h
                      cases h
    · intro p t i e r hm hc h
      unfold parse_array_loop_stores at h
      exact array_loop_step_stores_planned _ _ ih1 ih2 p t i e r hm hc h
    · intro p ty f b r hm hc h
      unfold parse_fields_loop_stores at h
      exact fields_loop_step_stores_planned _ _ _ ih1 ih3 p ty f b r hm hc h

/-! ## The size of the arena -/

/-- `i3ipc__json_trymatchany` and the cost of the tokens. -/
theorem trymatchany_cost (st : I3ipc_json_state) (ty : List Nat) :
    (i3ipc__json_trymatchany st ty).2.2.err_flag = st.err_flag ∧
    tokens_cost (i3ipc__json_trymatchany st ty).2.2.tokens ≤ tokens_cost st.tokens ∧
    ((i3ipc__json_trymatchany st ty).1 = true → ty.contains 0 = false →
      tokens_cost (i3ipc__json_trymatchany st ty).2.2.tokens
        + token_cost (i3ipc__json_trymatchany st ty).2.1 = tokens_cost st.tokens) := by
  unfold i3ipc__json_trymatchany i3ipc__json_peek i3ipc__json_pop
  dsimp only
  cases hts : st.tokens with
  | nil =>
    simp only [List.headD_nil, List.drop_nil]
    by_cases hc : ty.contains tok_zero.type = true
    · rw [if_pos hc]
      refine ⟨rfl, Nat.le_refl _, ?_⟩
      intro _ h0
      have : tok_zero.type = 0 := rfl
      rw [this, h0] at hc
      cases hc
    · rw [if_neg hc]
      refine ⟨rfl, by rw [hts], ?_⟩
      intro h
      cases h
  | cons x xs =>
    simp only [List.headD_cons, List.drop_one, List.tail_cons]
    by_cases hc : ty.contains x.type = true
    · rw [if_pos hc]
      refine ⟨rfl, ?_, ?_⟩
      · simp only [tokens_cost]
        omega
      · intro _ _
        simp only [tokens_cost]
        omega
    · rw [if_neg hc]
      refine ⟨rfl, by rw [hts], ?_⟩
      intro h
      cases h

/-- `i3ipc__json_matchany` and the cost of the tokens. -/
theorem matchany_cost (st : I3ipc_json_state) (ty : List Nat) :
    tokens_cost (i3ipc__json_matchany st ty).2.2.tokens ≤ tokens_cost st.tokens ∧
    ((i3ipc__json_matchany st ty).1 = true → ty.contains 0 = false →
      tokens_cost (i3ipc__json_matchany st ty).2.2.tokens
        + token_cost (i3ipc__json_matchany st ty).2.1 = tokens_cost st.tokens) ∧
    ((i3ipc__json_matchany st ty).1 = false →
      (i3ipc__json_matchany st ty).2.2.err_flag = true) := by
  obtain ⟨h1, h2, h3⟩ := trymatchany_cost st ty
  unfold i3ipc__json_matchany
  dsimp only
  by_cases hc : (i3ipc__json_trymatchany st ty).1 = true
  · rw [if_pos hc]
    refine ⟨h2, h3, ?_⟩
    intro h
    rw [hc] at h
    cases h
  · rw [if_neg hc]
    refine ⟨Nat.le_refl _, ?_, fun _ => rfl⟩
    intro h
    cases h

/-- A token costs at least five times `request_unit`. -/
theorem token_cost_ge (t : I3ipc_json_token) : 2160 ≤ token_cost t := by
  simp only [token_cost, request_unit]
  omega

/-- `i3ipc__json_looparr` and the cost of the tokens: before the first element a token is
popped unless the error flag is set. -/
theorem looparr_cost (st : I3ipc_json_state) (i : Nat) :
    tokens_cost (i3ipc__json_looparr st i).2.tokens
      + (if i == 0 && ((i3ipc__json_looparr st i).1 || !(i3ipc__json_looparr st i).2.err_flag)
          then 2160 else 0)
      ≤ tokens_cost st.tokens := by
  unfold i3ipc__json_looparr
  by_cases h0 : (i == 0) = true
  · rw [if_pos h0]
    simp only [h0, Bool.true_and]
    obtain ⟨m1, m2, m3⟩ := matchany_cost st [91]
    have g1 := token_cost_ge (i3ipc__json_matchany st [91]).2.1
    obtain ⟨t1, t2, _⟩ := trymatchany_cost (i3ipc__json_matchany st [91]).2.2 [93]
    simp only [i3ipc__json_match, i3ipc__json_trymatch]
    by_cases c1 : (i3ipc__json_matchany st [91]).1 = true
    · have := m2 c1 (by decide)
      simp only [c1, Bool.not_true, Bool.false_eq_true, ↓reduceIte]
      by_cases c2 : (i3ipc__json_trymatchany (i3ipc__json_matchany st [91]).2.2 [93]).1 = true
      · simp only [c2, ↓reduceIte]
        split <;> omega
      · simp only [c2, Bool.false_eq_true, ↓reduceIte]
        split <;> omega
    · simp only [c1, Bool.not_false, ↓reduceIte, Bool.not_true, Bool.or_self,
        Bool.false_eq_true]
      omega
  · rw [if_neg h0]
    simp only [h0, Bool.false_and, Bool.false_eq_true, ↓reduceIte, Nat.add_zero]
    obtain ⟨m1, _, _⟩ := matchany_cost st [44, 93]
    by_cases c1 : (i3ipc__json_matchany st [44, 93]).1 = true
    · simp only [c1, Bool.not_true, Bool.false_eq_true, ↓reduceIte]
      split <;> exact m1
    · simp only [c1, Bool.not_false, ↓reduceIte]
      exact m1

/-- The tail of `i3ipc__json_loopobj` and the cost of the tokens. -/
theorem loopobj_key_cost (st : I3ipc_json_state) :
    tokens_cost (loopobj_key st).2.2.tokens ≤ tokens_cost st.tokens ∧
    ((loopobj_key st).1 = false → st.err_flag = true → (loopobj_key st).2.2.err_flag = true)
    := by
  unfold loopobj_key
  obtain ⟨m1, _, m3⟩ := matchany_cost st [I3IPC_JSON_STRING]
  obtain ⟨n1, _, n3⟩ := matchany_cost (i3ipc__json_matchany st [I3IPC_JSON_STRING]).2.2 [58]
  simp only [i3ipc__json_match]
  by_cases c1 : (i3ipc__json_matchany st [I3IPC_JSON_STRING]).1 = true
  · simp only [c1, Bool.not_true, Bool.false_eq_true, ↓reduceIte]
    by_cases c2 : (i3ipc__json_matchany (i3ipc__json_matchany st [I3IPC_JSON_STRING]).2.2
        [58]).1 = true
    · simp only [c2, Bool.not_true, Bool.false_eq_true, ↓reduceIte]
      refine ⟨by omega, ?_⟩
      intro h
      cases h
    · simp only [c2, Bool.not_false, ↓reduceIte]
      refine ⟨by omega, ?_⟩
      intro _ _
      exact n3 (by simpa using c2)
  · simp only [c1, Bool.not_false, ↓reduceIte]
    refine ⟨m1, ?_⟩
    intro _ _
    exact m3 (by simpa using c1)

/-- `i3ipc__json_loopobj` and the cost of the tokens: before the first member a token is
popped unless the error flag is set. -/
theorem loopobj_cost (st : I3ipc_json_state) (i : Nat) :
    tokens_cost (i3ipc__json_loopobj st i).2.2.tokens
      + (if i == 0 &&
            ((i3ipc__json_loopobj st i).1 || !(i3ipc__json_loopobj st i).2.2.err_flag)
          then 2160 else 0)
      ≤ tokens_cost st.tokens := by
  unfold i3ipc__json_loopobj
  by_cases h0 : (i == 0) = true
  · rw [if_pos h0]
    simp only [h0, Bool.true_and]
    obtain ⟨m1, m2, m3⟩ := matchany_cost st [123]
    have g1 := token_cost_ge (i3ipc__json_matchany st [123]).2.1
    obtain ⟨t1, t2, _⟩ := trymatchany_cost (i3ipc__json_matchany st [123]).2.2 [125]
    obtain ⟨k1, _⟩ := loopobj_key_cost
      (i3ipc__json_trymatchany (i3ipc__json_matchany st [123]).2.2 [125]).2.2
    simp only [i3ipc__json_match, i3ipc__json_trymatch]
    by_cases c1 : (i3ipc__json_matchany st [123]).1 = true
    · have := m2 c1 (by decide)
      simp only [c1, Bool.not_true, Bool.false_eq_true, ↓reduceIte]
      by_cases c2 : (i3ipc__json_trymatchany (i3ipc__json_matchany st [123]).2.2 [125]).1
          = true
      · simp only [c2, ↓reduceIte]
        split <;> omega
      · simp only [c2, Bool.false_eq_true, ↓reduceIte]
        split <;> omega
    · simp only [c1, Bool.not_false, ↓reduceIte, Bool.not_true, Bool.or_self,
        Bool.false_eq_true]
      omega
  · rw [if_neg h0]
    simp only [h0, Bool.false_and, Bool.false_eq_true, ↓reduceIte, Nat.add_zero]
    obtain ⟨m1, _, _⟩ := matchany_cost st [44, 125]
    obtain ⟨k1, _⟩ := loopobj_key_cost (i3ipc__json_matchany st [44, 125]).2.2
    by_cases c1 : (i3ipc__json_matchany st [44, 125]).1 = true
    · simp only [c1, Bool.not_true, Bool.false_eq_true, ↓reduceIte]
      split
      · exact m1
      · omega
    · simp only [c1, Bool.not_false, ↓reduceIte]
      exact m1

/-- `i3ipc__json_skip` and its loops do not add to the cost of the tokens. -/
theorem json_skip_cost : ∀ (fuel : Nat),
    (∀ st r, i3ipc__json_skip fuel st = Outcome.done r →
      tokens_cost r.2.tokens ≤ tokens_cost st.tokens) ∧
    (∀ st i r, json_skip_obj fuel st i = Outcome.done r →
      tokens_cost r.2.tokens ≤ tokens_cost st.tokens) ∧
    (∀ st i r, json_skip_arr fuel st i = Outcome.done r →
      tokens_cost r.2.tokens ≤ tokens_cost st.tokens) := by
  intro fuel
  induction fuel with
  | zero =>
    refine ⟨?_, ?_, ?_⟩
    · intro st r h
      simp [i3ipc__json_skip] at h
    · intro st i r h
      simp [json_skip_obj] at h
    · intro st i r h
      simp [json_skip_arr] at h
  | succ fuel ih =>
    obtain ⟨ih1, ih2, ih3⟩ := ih
    refine ⟨?_, ?_, ?_⟩
    · intro st r h
      unfold i3ipc__json_skip at h
      dsimp only at h
      obtain ⟨m1, _, _⟩ := matchany_cost st
        [123, 91, I3IPC_JSON_STRING, I3IPC_JSON_NUMBER, I3IPC_JSON_BOOL, I3IPC_JSON_NULL]
      split at h
      · simp only [Outcome.done.injEq] at h
        subst h
        exact m1
      · split at h
        · exact ih2 _ _ _ h
        · split at h
          · exact ih3 _ _ _ h
          · simp only [Outcome.done.injEq] at h
            subst h
            exact m1
    · intro st i r h
      unfold json_skip_obj at h
      dsimp only at h
      have g := loopobj_cost st i
      split at h
      · split at h
        · rename_i c st2 heq
          have g2 := ih1 _ _ heq
          dsimp only at g2
          split at h
          · simp only [Outcome.done.injEq] at h
            subst h
            dsimp only
            omega
          · have g3 := ih2 _ _ _ h
            omega
        · rename_i o hne
          exact absurd h (hne r.1 r.2)
      · split at h
        · simp only [Outcome.done.injEq] at h
          subst h
          dsimp only
          omega
        · simp only [Outcome.done.injEq] at h
          subst h
          dsimp only
          omega
    · intro st i r h
      unfold json_skip_arr at h
      dsimp only at h
      have g := looparr_cost st i
      split at h
      · split at h
        · rename_i c st2 heq
          have g2 := ih1 _ _ heq
          dsimp only at g2
          split at h
          · simp only [Outcome.done.injEq] at h
            subst h
            dsimp only
            omega
          · have g3 := ih3 _ _ _ h
            omega
        · rename_i o hne
          exact absurd h (hne r.1 r.2)
      · split at h
        · simp only [Outcome.done.injEq] at h
          subst h
          dsimp only
          omega
        · simp only [Outcome.done.injEq] at h
          subst h
          dsimp only
          omega

/-- The loop of `i3ipc__parse_loopfields` and the cost of the tokens: before the first
member a token is popped unless the error flag is set. -/
theorem loopfields_cost (type : I3ipc_type) : ∀ (fuel : Nat) (st : I3ipc_json_state)
    (j : Nat) (r : Bool × Nat × I3ipc_json_state),
    parse_loopfields_loop fuel st type j = Outcome.done r →
    tokens_cost r.2.2.tokens + (if j == 0 && (r.1 || !r.2.2.err_flag) then 2160 else 0)
      ≤ tokens_cost st.tokens := by
  intro fuel
  induction fuel with
  | zero =>
    intro st j r h
    simp [parse_loopfields_loop] at h
  | succ fuel ih =>
    intro st j r h
    unfold parse_loopfields_loop at h
    dsimp only at h
    have g := loopobj_cost st j
    by_cases c1 : (i3ipc__json_loopobj st j).1 = true
    · simp only [c1, Bool.not_true, Bool.false_eq_true, ↓reduceIte, Bool.true_or,
        Bool.and_true] at h g
      have key : ∀ (b : Bool) (x : Nat), x ≤ tokens_cost (i3ipc__json_loopobj st j).2.2.tokens →
          x + (if (j == 0 && b) = true then 2160 else 0) ≤ tokens_cost st.tokens := by
        intro b x hx
        by_cases hj : (j == 0) = true
        · simp only [hj, ↓reduceIte, Bool.true_and] at g ⊢
          split <;> omega
        · simp only [hj, Bool.false_eq_true, ↓reduceIte, Bool.false_and] at g ⊢
          omega
      split at h
      · simp only [Outcome.done.injEq] at h
        subst h
        exact key _ _ (Nat.le_refl _)
      · split at h
        · rename_i c st2 heq
          have g2 := (json_skip_cost fuel).1 _ _ heq
          dsimp only at g2
          split at h
          · simp only [Outcome.done.injEq] at h
            subst h
            exact key _ _ g2
          · have g3 := ih _ _ _ h
            simp only [show ((1 : Nat) == 0) = false from rfl, Bool.false_and,
              Bool.false_eq_true, ↓reduceIte, Nat.add_zero] at g3
            exact key _ _ (by omega)
        · cases h
        · cases h
        · cases h
    · simp only [c1, Bool.not_false, ↓reduceIte, Outcome.done.injEq] at h
      subst h
      simp only [c1, Bool.false_or] at g ⊢
      exact g

/-- The size and the alignment of a type of the registry add up to at most
`request_unit`. -/
theorem type_size_le (type_id : Nat) (type : I3ipc_type)
    (h : i3ipc__type_get type_id = some type) : type.size + type.alignment ≤ 432 := by
  have hall : i3ipc__global_types.all (fun t => decide (t.size + t.alignment ≤ 432)) = true := by
    decide!
  have := List.all_eq_true.mp hall type (type_get_mem type_id type h).1
  simpa using this

/-- `allocs_bound` of two lists of requests. -/
theorem allocs_bound_append (a b : List I3ipc_parse_state_allocs) :
    allocs_bound (a ++ b) = allocs_bound a + allocs_bound b := by
  induction a with
  | nil => simp [allocs_bound]
  | cons x xs ih =>
    show allocs_bound (x :: (xs ++ b)) = allocs_bound (x :: xs) + allocs_bound b
    simp only [allocs_bound, ih]
    omega

/-- `i3ipc__parse_alloc` in the first pass, when every entry of `allocs` is a request. -/
theorem parse_alloc_first (st : I3ipc_json_state) (a : List I3ipc_parse_state_allocs)
    (c : Bool) (z : Int) (e : Option (List Nat)) (s : Bool) (size al : Nat) :
    i3ipc__parse_alloc ⟨st, a, a.length, false, c, z, e, s⟩ size al =
      (⟨st, a ++ [⟨size, al⟩], a.length + 1, false, c, z, e, s⟩, a.length, none) := by
  simp [i3ipc__parse_alloc]

/-- Setting the size of the request behind the requests `a`. -/
theorem modify_append_cons (f : I3ipc_parse_state_allocs → I3ipc_parse_state_allocs)
    (x : I3ipc_parse_state_allocs) (new : List I3ipc_parse_state_allocs) :
    ∀ (a : List I3ipc_parse_state_allocs),
      (a ++ x :: new).modify f a.length = a ++ f x :: new := by
  intro a
  induction a with
  | nil => rfl
  | cons y ys ih =>
    simp only [List.cons_append, List.length_cons, List.modify_succ_cons, ih]

/-- Two runs of the first pass one after the other. -/
theorem first_pass_run_trans (p q r : I3ipc_parse_state) (e1 e2 : Nat)
    (h1 : first_pass_run p q e1) (h2 : first_pass_run q r e2) :
    first_pass_run p r (e1 + e2) := by
  obtain ⟨_, a2, _, new1, a4, a5⟩ := h1
  obtain ⟨b1, b2, b3, new2, b4, b5⟩ := h2
  refine ⟨b1, b2.trans a2, b3, new1 ++ new2, by rw [b4, a4, List.append_assoc], ?_⟩
  rw [allocs_bound_append]
  omega

/-- A run of the first pass between states with the same requests. -/
theorem first_pass_run_of (p q p' q' : I3ipc_parse_state) (e e' : Nat)
    (h : first_pass_run p q e) (hp1 : p'.allocs = p.allocs)
    (hp2 : p'.copy_strings = p.copy_strings) (hq1 : q'.allocs = q.allocs)
    (hq2 : q'.allocs_size = q.allocs_size) (hq3 : q'.memory = q.memory)
    (hq4 : q'.copy_strings = q.copy_strings)
    (hcost : e' + tokens_cost q'.state.tokens + tokens_cost p.state.tokens
      ≤ e + tokens_cost q.state.tokens + tokens_cost p'.state.tokens) :
    first_pass_run p' q' e' := by
  obtain ⟨a1, a2, a3, new, a4, a5⟩ := h
  refine ⟨by rw [hq3, a1], by rw [hq4, a2, hp2], by rw [hq2, hq1, a3], new,
    by rw [hq1, a4, hp1], ?_⟩
  omega

/-- A run of the first pass that makes no request. -/
theorem first_pass_run_refl (p q : I3ipc_parse_state) (e : Nat) (hm : p.memory = false)
    (hs : p.allocs_size = p.allocs.length) (h1 : q.memory = p.memory)
    (h2 : q.copy_strings = p.copy_strings) (h3 : q.allocs = p.allocs)
    (h4 : q.allocs_size = p.allocs_size)
    (hcost : e + tokens_cost q.state.tokens ≤ tokens_cost p.state.tokens) :
    first_pass_run p q e := by
  refine ⟨by rw [h1, hm], h2, by rw [h4, h3, hs], [], by rw [h3, List.append_nil], ?_⟩
  simp only [allocs_bound]
  omega

/-- The branch for `MAYBE` in the first pass. -/
theorem parse_maybe_first_pass
    (h1 : I3ipc_parse_state → Nat → Nat → Option Val →
      Outcome (I3ipc_parse_state × Option Val))
    (H : ∀ p t fl r, p.memory = false → p.allocs_size = p.allocs.length →
      h1 p t fl none = Outcome.done r →
      first_pass_run p r.1 (432 * (4 - descriptor_weight t fl)))
    (p : I3ipc_parse_state) (type : I3ipc_type) (t fl : Nat)
    (r : I3ipc_parse_state × Option Val)
    (hm : p.memory = false) (hs : p.allocs_size = p.allocs.length)
    (hty : i3ipc__type_get t = some type)
    (hfl : hasflag fl I3IPC_TYPE_GROUP_MAYBE = true)
    (h : parse_maybe h1 p type t fl none = Outcome.done r) :
    first_pass_run p r.1 (432 * (4 - descriptor_weight t fl)) := by
  obtain ⟨st, a, n, m, c, z, e, s⟩ := p
  dsimp only at hm hs
  subst hm hs
  have hw := weight_maybe t fl hfl
  have hw3 := weight_le t fl
  have hsz := type_size_le t type hty
  obtain ⟨e1, e2, e3⟩ := trymatchany_cost st [I3IPC_JSON_NULL]
  have g1 := token_cost_ge (i3ipc__json_trymatchany st [I3IPC_JSON_NULL]).2.1
  unfold parse_maybe at h
  simp only [i3ipc__json_trymatch, parse_alloc_first] at h
  by_cases c1 : (!(i3ipc__json_trymatchany st [I3IPC_JSON_NULL]).1) = true
  · rw [if_pos c1] at h
    by_cases c2 : hasflag fl I3IPC_TYPE_ISPTR = true
    · rw [if_pos c2] at h
      simp only [Option.isSome_none, Bool.false_eq_true, ↓reduceIte] at h
      split at h
      · rename_i q v heq
        obtain ⟨r1, r2, r3, new, r4, r5⟩ := H _ _ _ _ rfl (by simp) heq
        simp only [parse_finish, Outcome.done.injEq] at h
        subst h
        refine ⟨r1, r2, r3, ⟨type.size, type.alignment⟩ :: new, ?_, ?_⟩
        · dsimp only at r4 ⊢
          rw [r4]
          simp
        · dsimp only at r5 ⊢
          simp only [allocs_bound]
          omega
      · cases h
      · cases h
      · cases h
    · rw [if_neg c2] at h
      split at h
      · rename_i q v heq
        have hq := H _ _ _ _ rfl rfl heq
        simp only [parse_finish, Outcome.done.injEq] at h
        subst h
        refine first_pass_run_of _ _ _ _ _ _ hq rfl rfl rfl rfl rfl rfl ?_
        dsimp only
        omega
      · cases h
      · cases h
      · cases h
  · rw [if_neg c1] at h
    simp only [parse_finish, Outcome.done.injEq] at h
    subst h
    have := e3 (by simpa using c1) (by decide)
    refine first_pass_run_refl _ _ _ rfl rfl rfl rfl rfl rfl ?_
    dsimp only
    omega

/-- The branch for a string in the first pass. -/
theorem parse_string_first_pass (p : I3ipc_parse_state) (t fl : Nat)
    (r : I3ipc_parse_state × Option Val)
    (hm : p.memory = false) (hs : p.allocs_size = p.allocs.length)
    (h : parse_string p t none = Outcome.done r) :
    first_pass_run p r.1 (432 * (4 - descriptor_weight t fl)) := by
  obtain ⟨st, a, n, m, c, z, e, s⟩ := p
  dsimp only at hm hs
  subst hm hs
  obtain ⟨m1, m2, _⟩ := matchany_cost st [I3IPC_JSON_STRING]
  unfold parse_string at h
  simp only [i3ipc__json_match, parse_alloc_first] at h
  by_cases c1 : (!(i3ipc__json_matchany st [I3IPC_JSON_STRING]).1) = true
  · rw [if_pos c1] at h
    cases h
  · rw [if_neg c1] at h
    have := m2 (by simpa using c1) (by decide)
    cases c with
    | false =>
      simp only [Bool.false_eq_true, ↓reduceIte, parse_finish, Outcome.done.injEq] at h
      subst h
      refine first_pass_run_refl _ _ _ rfl rfl rfl rfl rfl rfl ?_
      dsimp only
      simp only [token_cost, request_unit] at this
      omega
    | true =>
      simp only [↓reduceIte, parse_finish, Outcome.done.injEq] at h
      subst h
      refine ⟨rfl, rfl, by simp, [⟨_, _⟩], rfl, ?_⟩
      dsimp only
      simp only [allocs_bound, token_cost, request_unit, I3ipc_json_token.str_size] at this ⊢
      omega

/-- The branch for a primitive type in the first pass. -/
theorem parse_primitive_first_pass (p : I3ipc_parse_state) (t fl : Nat)
    (r : I3ipc_parse_state × Option Val)
    (hm : p.memory = false) (hs : p.allocs_size = p.allocs.length)
    (h : parse_primitive p t none = Outcome.done r) :
    first_pass_run p r.1 (432 * (4 - descriptor_weight t fl)) := by
  obtain ⟨st, a, n, m, c, z, e, s⟩ := p
  dsimp only at hm hs
  subst hm hs
  obtain ⟨m1, m2, _⟩ := matchany_cost st
    [if (t == I3IPC_TYPE_BOOL) = true then I3IPC_JSON_BOOL else I3IPC_JSON_NUMBER]
  have g1 := token_cost_ge (i3ipc__json_matchany st
    [if (t == I3IPC_TYPE_BOOL) = true then I3IPC_JSON_BOOL else I3IPC_JSON_NUMBER]).2.1
  unfold parse_primitive at h
  simp only [i3ipc__json_match] at h
  by_cases c1 : (!(i3ipc__json_matchany st
      [if (t == I3IPC_TYPE_BOOL) = true then I3IPC_JSON_BOOL else I3IPC_JSON_NUMBER]).1) = true
  · rw [if_pos c1] at h
    cases h
  · rw [if_neg c1] at h
    have := m2 (by simpa using c1) (by split <;> decide)
    simp only [parse_finish, Outcome.done.injEq] at h
    subst h
    refine first_pass_run_refl _ _ _ rfl rfl rfl rfl rfl rfl ?_
    dsimp only
    omega

/-- The inline branch in the first pass. -/
theorem parse_inline_first_pass
    (h1 : I3ipc_parse_state → Nat → Nat → Option Val →
      Outcome (I3ipc_parse_state × Option Val))
    (H : ∀ p t fl r, p.memory = false → p.allocs_size = p.allocs.length →
      h1 p t fl none = Outcome.done r →
      first_pass_run p r.1 (432 * (4 - descriptor_weight t fl)))
    (p : I3ipc_parse_state) (type : I3ipc_type) (t fl : Nat)
    (r : I3ipc_parse_state × Option Val)
    (hm : p.memory = false) (hs : p.allocs_size = p.allocs.length)
    (hty : i3ipc__type_get t = some type) (hin : type.is_inline = true)
    (h : parse_inline h1 p type none = Outcome.done r) :
    first_pass_run p r.1 (432 * (4 - descriptor_weight t fl)) := by
  unfold parse_inline at h
  cases hfs : type.fields with
  | nil =>
    rw [hfs] at h
    cases h
  | cons field others =>
    rw [hfs] at h
    dsimp only at h
    have hw := weight_inline t fl type field others hty hin hfs
    split at h
    · cases h
    · split at h
      · rename_i q v heq
        have hq := H _ _ _ _ hm hs heq
        simp only [parse_finish, Outcome.done.injEq] at h
        subst h
        refine first_pass_run_of _ _ _ _ _ _ hq rfl rfl rfl rfl rfl rfl ?_
        dsimp only
        omega
      · cases h
      · cases h
      · cases h

/-- The branch for an array in the first pass. -/
theorem parse_array_first_pass
    (l1 : I3ipc_parse_state → Nat → Bool → Nat → List Val →
      Outcome (I3ipc_parse_state × Nat × List Val))
    (H : ∀ p t i el r, p.memory = false → p.allocs_size = p.allocs.length →
      l1 p t false i el = Outcome.done r →
      i ≤ r.2.1 ∧ first_pass_run p r.1
        ((r.2.1 - i) * 432 + (if i == 0 && !r.1.state.err_flag then 2160 else 0)))
    (p : I3ipc_parse_state) (type : I3ipc_type) (t fl : Nat)
    (r : I3ipc_parse_state × Option Val)
    (hm : p.memory = false) (hs : p.allocs_size = p.allocs.length)
    (hty : i3ipc__type_get t = some type)
    (h : parse_array l1 p type t none = Outcome.done r) :
    first_pass_run p r.1 (432 * (4 - descriptor_weight t fl)) := by
  obtain ⟨st, a, n, m, c, z, e, s⟩ := p
  dsimp only at hm hs
  subst hm hs
  have hsz := type_size_le t type hty
  unfold parse_array at h
  simp only [parse_alloc_first, Option.isSome_none, Bool.and_self, Option.isNone_none,
    ↓reduceIte] at h
  split at h
  · rename_i q i el heq
    obtain ⟨_, r1, r2, r3, new, r4, r5⟩ := H _ _ _ _ _ rfl (by simp) heq
    by_cases ce : q.state.err_flag = true
    · rw [if_pos ce] at h
      cases h
    · rw [if_neg ce] at h
      simp only [parse_finish, Outcome.done.injEq] at h
      subst h
      have ce' : q.state.err_flag = false := by simpa using ce
      dsimp only at r4 r5
      simp only [ce', Bool.not_false, Bool.and_true, beq_self_eq_true, ↓reduceIte,
        Nat.sub_zero] at r5
      have hmod : (q.allocs.modify (fun x => { x with size := (i * type.size) % 2 ^ 64 })
          a.length) = a ++ ⟨(i * type.size) % 2 ^ 64, type.alignment⟩ :: new := by
        rw [r4, List.append_assoc, List.singleton_append, modify_append_cons]
      refine ⟨r1, r2, ?_, ⟨(i * type.size) % 2 ^ 64, type.alignment⟩ :: new, ?_, ?_⟩
      · simp only [set_alloc_size, hmod]
        dsimp only at r3
        rw [r3, r4]
        simp
      · simp only [set_alloc_size, hmod]
      · simp only [set_alloc_size, allocs_bound]
        have h1 : (i * type.size) % 2 ^ 64 ≤ i * type.size := Nat.mod_le _ _
        have h2 : i * type.size ≤ i * 432 := Nat.mul_le_mul_left i (by omega)
        have hw3 := weight_le t fl
        omega
  · cases h
  · cases h
  · cases h

/-- The branch for a record in the first pass. -/
theorem parse_record_first_pass
    (l1 : I3ipc_parse_state → I3ipc_type → Option Nat → Option Val →
      Outcome (I3ipc_parse_state × Option Val))
    (H : ∀ p ty f r, p.memory = false → p.allocs_size = p.allocs.length →
      l1 p ty f none = Outcome.done r →
      first_pass_run p r.1 (if f.isNone && !r.1.state.err_flag then 2160 else 0))
    (p : I3ipc_parse_state) (type : I3ipc_type) (t fl : Nat)
    (r : I3ipc_parse_state × Option Val)
    (hm : p.memory = false) (hs : p.allocs_size = p.allocs.length)
    (h : parse_record l1 p type none = Outcome.done r) :
    first_pass_run p r.1 (432 * (4 - descriptor_weight t fl)) := by
  unfold parse_record at h
  split at h
  · rename_i q v heq
    have hq := H _ _ _ _ hm hs heq
    by_cases ce : q.state.err_flag = true
    · rw [if_pos ce] at h
      cases h
    · rw [if_neg ce] at h
      simp only [parse_finish, Outcome.done.injEq] at h
      subst h
      have ce' : q.state.err_flag = false := by simpa using ce
      dsimp only at hq
      simp only [ce', Option.isNone_none, Bool.not_false, Bool.and_self, ↓reduceIte] at hq
      refine first_pass_run_of _ _ _ _ _ _ hq rfl rfl rfl rfl rfl rfl ?_
      dsimp only
      omega
  · cases h
  · cases h
  · cases h

/-- One round of the array loop in the first pass. -/
theorem array_loop_step_first_pass
    (h1 : I3ipc_parse_state → Nat → Nat → Option Val →
      Outcome (I3ipc_parse_state × Option Val))
    (l1 : I3ipc_parse_state → Nat → Bool → Nat → List Val →
      Outcome (I3ipc_parse_state × Nat × List Val))
    (H : ∀ p t fl r, p.memory = false → p.allocs_size = p.allocs.length →
      h1 p t fl none = Outcome.done r →
      first_pass_run p r.1 (432 * (4 - descriptor_weight t fl)))
    (HL : ∀ p t i el r, p.memory = false → p.allocs_size = p.allocs.length →
      l1 p t false i el = Outcome.done r →
      i ≤ r.2.1 ∧ first_pass_run p r.1
        ((r.2.1 - i) * 432 + (if i == 0 && !r.1.state.err_flag then 2160 else 0)))
    (p : I3ipc_parse_state) (t i : Nat) (el : List Val)
    (r : I3ipc_parse_state × Nat × List Val)
    (hm : p.memory = false) (hs : p.allocs_size = p.allocs.length)
    (h : array_loop_step h1 l1 p t false i el = Outcome.done r) :
    i ≤ r.2.1 ∧ first_pass_run p r.1
      ((r.2.1 - i) * 432 + (if i == 0 && !r.1.state.err_flag then 2160 else 0)) := by
  unfold array_loop_step at h
  dsimp only at h
  have g := looparr_cost p.state i
  by_cases c1 : (i3ipc__json_looparr p.state i).1 = true
  · simp only [c1, Bool.not_true, Bool.false_eq_true, ↓reduceIte, Bool.true_or,
      Bool.and_true] at h g
    split at h
    · rename_i q v heq
      have hq := H { p with state := (i3ipc__json_looparr p.state i).2 } _ _ _ hm hs heq
      obtain ⟨hi, hq2⟩ := HL _ _ _ _ _ hq.1 hq.2.2.1 h
      have hw := weight_plain t
      refine ⟨by omega, ?_⟩
      have := first_pass_run_trans _ _ _ _ _ hq hq2
      refine first_pass_run_of _ _ _ _ _ _ this rfl rfl rfl rfl rfl rfl ?_
      dsimp only
      simp only [show ((i + 1 == 0) = false) from by simp, Bool.false_and,
        Bool.false_eq_true, ↓reduceIte, Nat.add_zero]
      have e1 : (r.2.1 - i) * 432 = (r.2.1 - (i + 1)) * 432 + 432 := by
        have : r.2.1 - i = (r.2.1 - (i + 1)) + 1 := by omega
        rw [this]
        omega
      rw [e1]
      split <;> split at g <;> simp_all <;> omega
    · cases h
    · cases h
    · cases h
  · simp only [c1, Bool.not_false, ↓reduceIte, Outcome.done.injEq] at h
    subst h
    refine ⟨Nat.le_refl _, ?_⟩
    refine first_pass_run_refl _ _ _ hm hs rfl rfl rfl rfl ?_
    dsimp only
    simp only [c1, Bool.false_or, Nat.sub_self, Nat.zero_mul, Nat.zero_add] at g ⊢
    omega

/-- One round of the record loop in the first pass. -/
theorem fields_loop_step_first_pass (fuel : Nat)
    (h1 : I3ipc_parse_state → Nat → Nat → Option Val →
      Outcome (I3ipc_parse_state × Option Val))
    (l1 : I3ipc_parse_state → I3ipc_type → Option Nat → Option Val →
      Outcome (I3ipc_parse_state × Option Val))
    (H : ∀ p t fl r, p.memory = false → p.allocs_size = p.allocs.length →
      h1 p t fl none = Outcome.done r →
      first_pass_run p r.1 (432 * (4 - descriptor_weight t fl)))
    (HL : ∀ p ty f r, p.memory = false → p.allocs_size = p.allocs.length →
      l1 p ty f none = Outcome.done r →
      first_pass_run p r.1 (if f.isNone && !r.1.state.err_flag then 2160 else 0))
    (p : I3ipc_parse_state) (type : I3ipc_type) (f : Option Nat)
    (r : I3ipc_parse_state × Option Val)
    (hm : p.memory = false) (hs : p.allocs_size = p.allocs.length)
    (h : fields_loop_step (i3ipc__parse_loopfields fuel) h1 l1 p type f none
      = Outcome.done r) :
    first_pass_run p r.1 (if f.isNone && !r.1.state.err_flag then 2160 else 0) := by
  unfold fields_loop_step i3ipc__parse_loopfields at h
  split at h
  · rename_i more fld st hlf
    have g := loopfields_cost type fuel _ _ _ hlf
    have hj : ((if f.isNone = true then 0 else 1 : Nat) == 0) = f.isNone := by
      cases f <;> rfl
    rw [hj] at g
    dsimp only at h g
    cases more with
    | false =>
      simp only [Bool.not_false, ↓reduceIte, Outcome.done.injEq] at h
      subst h
      refine first_pass_run_refl _ _ _ hm hs rfl rfl rfl rfl ?_
      dsimp only
      simp only [Bool.false_or] at g
      omega
    | true =>
      simp only [Bool.not_true, Bool.false_eq_true, ↓reduceIte, Bool.true_or,
        Bool.and_true] at h g
      split at h
      · cases h
      · rename_i fl hfl
        split at h
        · rename_i q v heq
          have hq := H { p with state := st } _ _ _ hm hs heq
          have hq2 := HL _ _ _ _ hq.1 hq.2.2.1 h
          have := first_pass_run_trans _ _ _ _ _ hq hq2
          refine first_pass_run_of _ _ _ _ _ _ this rfl rfl rfl rfl rfl rfl ?_
          dsimp only
          simp only [Option.isNone_some, Bool.false_and, Bool.false_eq_true, ↓reduceIte,
            Nat.add_zero]
          split <;> split at g <;> simp_all <;> omega
        · cases h
        · cases h
        · cases h
  · cases h
  · cases h
  · cases h

/-- In the first pass `i3ipc__parse_helper` and its loops leave the earlier requests alone,
and the tokens that are popped pay for the requests that are made: every value leaves 432
for the element of an array that holds it. -/
theorem parse_helper_first_pass : ∀ (fuel : Nat),
    (∀ p t fl r, p.memory = false → p.allocs_size = p.allocs.length →
      i3ipc__parse_helper fuel p t fl none = Outcome.done r →
      first_pass_run p r.1 (432 * (4 - descriptor_weight t fl))) ∧
    (∀ p t i el r, p.memory = false → p.allocs_size = p.allocs.length →
      parse_array_loop fuel p t false i el = Outcome.done r →
      i ≤ r.2.1 ∧ first_pass_run p r.1
        ((r.2.1 - i) * 432 + (if i == 0 && !r.1.state.err_flag then 2160 else 0))) ∧
    (∀ p ty f r, p.memory = false → p.allocs_size = p.allocs.length →
      parse_fields_loop fuel p ty f none = Outcome.done r →
      first_pass_run p r.1 (if f.isNone && !r.1.state.err_flag then 2160 else 0)) := by
  intro fuel
  induction fuel with
  | zero =>
    refine ⟨?_, ?_, ?_⟩
    · intro p t fl r _ _ h
      simp [i3ipc__parse_helper] at h
    · intro p t i el r _ _ h
      simp [parse_array_loop] at h
    · intro p ty f r _ _ h
      simp [parse_fields_loop] at h
  | succ fuel ih =>
    obtain ⟨ih1, ih2, ih3⟩ := ih
    refine ⟨?_, ?_, ?_⟩
    · intro p t fl r hm hs h
      unfold i3ipc__parse_helper at h
      by_cases c0 : (t == I3IPC_TYPE_EVENT) = true
      · rw [if_pos c0] at h
        cases h
      · rw [if_neg c0] at h
        cases hty : i3ipc__type_get t with
        | none => rw [hty] at h; cases h
        | some type =>
          rw [hty] at h
          dsimp only at h
          by_cases c1 : hasflag fl I3IPC_TYPE_GROUP_MAYBE = true
          · rw [if_pos c1] at h
            exact parse_maybe_first_pass _ ih1 p type t fl r hm hs hty c1 h
          · rw [if_neg c1] at h
            by_cases c2 : ((t == I3IPC_TYPE_STRING && fl == 0)
                || (t == I3IPC_TYPE_CHAR && hasflag fl I3IPC_TYPE_ISARRAY)) = true
            · rw [if_pos c2] at h
              exact parse_string_first_pass p t fl r hm hs h
            · rw [if_neg c2] at h
              by_cases c3 : hasflag fl I3IPC_TYPE_ISARRAY = true
              · rw [if_pos c3] at h
                exact parse_array_first_pass _ ih2 p type t fl r hm hs hty h
              · rw [if_neg c3] at h
                by_cases c4 : type.is_inline = true
                · rw [if_pos c4] at h
                  exact parse_inline_first_pass _ ih1 p type t fl r hm hs hty c4 h
                · rw [if_neg c4] at h
                  by_cases c5 : (fl == 0 && type.is_primitive) = true
                  · rw [if_pos c5] at h
                    exact parse_primitive_first_pass p t fl r hm hs h
                  · rw [if_neg c5] at h
                    by_cases c6 : (fl == 0) = true
                    · rw [if_pos c6] at h
                      exact parse_record_first_pass _ ih3 p type t fl r hm hs h
                    · rw [if_neg c6] at h
                      cases h
    · intro p t i el r hm hs h
      unfold parse_array_loop at h
      exact array_loop_step_first_pass _ _ ih1 ih2 p t i el r hm hs h
    · intro p ty f r hm hs h
      unfold parse_fields_loop at h
      exact fields_loop_step_first_pass _ _ _ ih1 ih3 p ty f r hm hs h

/-- A token other than the end token is scanned from more bytes than its string holds; the
end token has no string. -/
theorem scan_token_cost (cur rest : List Nat) (tok : I3ipc_json_token)
    (h : i3ipc__json_scan_token cur = Outcome.done (tok, rest)) :
    (tok.type ≠ 0 → tok.str.length + 1 + rest.length ≤ cur.length) ∧
    (tok.type = 0 → tok.str = []) := by
  have hcons := scan_token_consumes cur rest tok h
  unfold i3ipc__json_scan_token at h
  have hle : (cur.dropWhile isspace).length ≤ cur.length :=
    (List.dropWhile_sublist isspace).length_le
  generalize cur.dropWhile isspace = c0 at h hle
  have plain : tok.str = [] →
      (tok.type ≠ 0 → tok.str.length + 1 + rest.length ≤ cur.length) ∧
      (tok.type = 0 → tok.str = []) := by
    intro hs
    refine ⟨?_, fun _ => hs⟩
    intro ht
    have := hcons ht
    rw [hs]
    simp only [List.length_nil]
    omega
  cases c0 with
  | nil =>
    simp only [Outcome.done.injEq, Prod.mk.injEq] at h
    exact plain (by rw [← h.1]; rfl)
  | cons c r =>
    dsimp only at h
    split at h
    · simp only [Outcome.done.injEq, Prod.mk.injEq] at h
      exact plain (by rw [← h.1]; rfl)
    · split at h
      · split at h
        · cases h
        · simp only [Outcome.done.injEq, Prod.mk.injEq] at h
          exact plain (by rw [← h.1]; rfl)
      · split at h
        · split at h
          · cases h
          · simp only [Outcome.done.injEq, Prod.mk.injEq] at h
            exact plain (by rw [← h.1]; rfl)
        · split at h
          · split at h
            · cases h
            · simp only [Outcome.done.injEq, Prod.mk.injEq] at h
              exact plain (by rw [← h.1]; rfl)
          · split at h
            · simp only [Outcome.done.injEq, Prod.mk.injEq] at h
              obtain ⟨ht, hr⟩ := h
              subst ht hr
              refine ⟨?_, ?_⟩
              · intro _
                have e := scan_string_stores_eq (c :: r).length ((c :: r).drop 1) [] 1
                have b := (scan_string_stores_below (c :: r).length ((c :: r).drop 1) 0 1
                  (by omega)).2
                simp only [List.length_nil, Prod.mk.injEq] at e
                rw [e.1, e.2] at b
                simp only [i3ipc__json_scan_string, tok_string, List.length_drop]
                simp only [List.drop_succ_cons, List.drop_zero, List.length_cons] at b hle ⊢
                omega
              · intro ht
                simp [tok_string, I3IPC_JSON_STRING] at ht
            · split at h
              · split at h
                · rename_i d n rest2 heq
                  simp only [Outcome.done.injEq, Prod.mk.injEq] at h
                  exact plain (by rw [← h.1]; rfl)
                · cases h
              · cases h

/-- The tokens that `i3ipc__json_scan` stores cost at most 2161 for every byte that is left,
and 2160 for the end token. -/
theorem scan_loop_cost : ∀ (fuel : Nat) (cur : List Nat) (acc toks : List I3ipc_json_token),
    json_scan_loop fuel cur acc = Outcome.done toks →
    ∃ new, toks = acc ++ new ∧ tokens_cost new ≤ 2161 * cur.length + 2160 := by
  intro fuel
  induction fuel with
  | zero =>
    intro cur acc toks h
    simp [json_scan_loop] at h
  | succ fuel ih =>
    intro cur acc toks h
    unfold json_scan_loop at h
    split at h
    · rename_i tok rest heq
      obtain ⟨g1, g2⟩ := scan_token_cost cur rest tok heq
      by_cases c1 : (tok.type == 0) = true
      · rw [if_pos c1] at h
        simp only [Outcome.done.injEq] at h
        subst h
        refine ⟨[tok], rfl, ?_⟩
        have := g2 (by simpa using c1)
        simp only [tokens_cost, token_cost, request_unit, this, List.length_nil]
        omega
      · rw [if_neg c1] at h
        obtain ⟨new, hn, hc⟩ := ih _ _ _ h
        refine ⟨tok :: new, by rw [hn]; simp, ?_⟩
        have := g1 (by simpa using c1)
        simp only [tokens_cost, token_cost, request_unit]
        omega
    · cases h

/-- `tokens_cost` of two lists of tokens. -/
theorem tokens_cost_nil_append (new : List I3ipc_json_token) :
    tokens_cost ([] ++ new) = tokens_cost new := rfl

/-- The tokens of a payload cost at most 2161 for every byte, and 2160 more. -/
theorem scan_cost (payload : List Nat) (toks : List I3ipc_json_token)
    (h : i3ipc__json_scan payload = Outcome.done toks) :
    tokens_cost toks ≤ 2161 * payload.length + 2160 := by
  obtain ⟨new, hn, hc⟩ := scan_loop_cost _ _ _ _ h
  rw [hn]
  exact hc

/-- The tokens of a successful first pass are those of the payload. -/
theorem first_pass_scan (staticalloc : Bool) (msg_type : Int) (payload : List Nat)
    (message_type : Int) (type_id : Nat) (tokens : List I3ipc_json_token) (type : I3ipc_type)
    (p1 : I3ipc_parse_state)
    (h : parse_first_pass staticalloc msg_type payload message_type type_id
      = Outcome.done (tokens, type, p1)) :
    i3ipc__json_scan payload = Outcome.done tokens := by
  unfold parse_first_pass at h
  split at h
  · cases h
  · split at h
    · rename_i toks hsc
      split at h
      · cases h
      · dsimp only at h
        split at h
        · split at h
          · cases h
          · simp only [Outcome.done.injEq, Prod.mk.injEq] at h
            rw [hsc, h.1]
        · cases h
        · cases h
        · cases h
    · cases h
    · cases h
    · cases h

/-- Behind a successful first pass every entry of `allocs` is a request, and the sizes and
alignments add up to at most 432 and the cost of the tokens. -/
theorem first_pass_requests (staticalloc : Bool) (msg_type : Int) (payload : List Nat)
    (message_type : Int) (type_id : Nat) (tokens : List I3ipc_json_token) (type : I3ipc_type)
    (p1 : I3ipc_parse_state)
    (h : parse_first_pass staticalloc msg_type payload message_type type_id
      = Outcome.done (tokens, type, p1)) :
    p1.copy_strings = (!staticalloc) ∧ p1.allocs_size = p1.allocs.length ∧
    p1.requests = p1.allocs ∧ 1 ≤ p1.allocs_size ∧
    allocs_bound p1.requests ≤ 432 + tokens_cost tokens := by
  obtain ⟨hty, q, v, hq, _, hp1⟩ := first_pass_parts _ _ _ _ _ _ _ _ h
  obtain ⟨_, r2, r3, new, r4, r5⟩ := (parse_helper_first_pass _).1 _ _ _ _ rfl rfl hq
  have hsz := type_size_le type_id type hty
  dsimp only at r2 r3 r4 r5
  have hreq : p1.requests = p1.allocs := by
    rw [hp1]
    simp only [I3ipc_parse_state.requests, r3, List.take_length]
  refine ⟨by rw [hp1]; exact r2, by rw [hp1]; exact r3, hreq, ?_, ?_⟩
  · rw [hp1]
    dsimp only
    rw [r3, r4]
    simp
  · rw [hreq, hp1]
    dsimp only
    rw [r4, allocs_bound_append]
    simp only [allocs_bound]
    omega

/-- The branch for a primitive type does not succeed for a single `char` with memory. -/
theorem parse_primitive_char (p : I3ipc_parse_state) (b : Val)
    (r : I3ipc_parse_state × Option Val) :
    parse_primitive p I3IPC_TYPE_CHAR (some b) ≠ Outcome.done r := by
  intro h
  unfold parse_primitive at h
  simp only [show (I3IPC_TYPE_CHAR == I3IPC_TYPE_BOOL) = false from rfl,
    show (I3IPC_TYPE_CHAR == I3IPC_TYPE_SIZET) = false from rfl,
    show (I3IPC_TYPE_CHAR == I3IPC_TYPE_INT) = false from rfl,
    show (I3IPC_TYPE_CHAR == I3IPC_TYPE_FLOAT) = false from rfl, Bool.false_eq_true,
    ↓reduceIte] at h
  split at h <;> cases h

/-- `i3ipc_parse_try` does not succeed for the type of a single `char`. -/
theorem parse_try_not_char (staticalloc : Bool) (msg_type : Int) (payload : List Nat)
    (message_type : Int) (type_id : Nat) (data : Val)
    (h : i3ipc_parse_try staticalloc msg_type payload message_type type_id
      = Outcome.done data) : type_id ≠ I3IPC_TYPE_CHAR := by
  intro hc
  subst hc
  unfold i3ipc_parse_try at h
  split at h
  · rename_i tokens type p hf
    dsimp only at h
    split at h
    · rename_i q dat heq
      unfold parse_fuel at heq
      unfold i3ipc__parse_helper at heq
      have e : i3ipc__type_get I3IPC_TYPE_CHAR = some (type_of I3IPC_TYPE_CHAR) := by
        with_unfolding_all rfl
      have e1 : (type_of I3IPC_TYPE_CHAR).is_inline = false := by decide!
      have e2 : (type_of I3IPC_TYPE_CHAR).is_primitive = true := by decide!
      have e3 : ∀ k, hasflag 0 k = false := by intro k; simp [hasflag]
      simp only [e, e1, e2, e3, show (I3IPC_TYPE_CHAR == I3IPC_TYPE_EVENT) = false from rfl,
        show (I3IPC_TYPE_CHAR == I3IPC_TYPE_STRING) = false from rfl, Bool.false_eq_true,
        ↓reduceIte, Bool.false_and, Bool.and_false, Bool.or_self, beq_self_eq_true,
        Bool.and_self] at heq
      exact parse_primitive_char _ _ _ heq
    · cases h
    · cases h
    · cases h
    · cases h
  · cases h
  · cases h
  · cases h

/-- C11. Arena containment in owning mode (`staticalloc` off), for a payload of less than
2^52 bytes; the `int32_t` length of a message holds less than 2^31. Take a record that
`i3ipc_parse_try` returns. Then `i3ipc_parse_try_stores`, which also keeps the pointers that
are stored, gives the same record, and every stored pointer (`base` itself and every array
base, string pointer and pointer target that `i3ipc__parse_helper` stores in the second
pass) is `p->memory + off_i` for a request `i` of the first pass, where the offset `off_i`
from the alignment loop is a multiple of the alignment of the request, `off_i + size_i` is at
most `total_size`, and the region of `size_i` bytes at `off_i` ends before or starts behind
the region of every other request: the offsets and `total_size` are computed without
overflow. -/
theorem arena_containment (msg_type : Int) (payload : List Nat) (message_type : Int)
    (type_id : Nat) (data : Val)
    (hlen : payload.length < 2 ^ 52)
    (h : i3ipc_parse_try false msg_type payload message_type type_id = Outcome.done data) :
    ∃ res, i3ipc_parse_try_stores false msg_type payload message_type type_id
        = Outcome.done res ∧
      res.data = data ∧ res.offsets.length = res.requests.length ∧
      ∀ x ∈ res.stored, ∃ i a q, res.requests.get? i = some a ∧
        res.offsets.get? i = some q ∧ x = I3ipc_pointer.memory q.size ∧
        a.alignment ∣ q.size ∧ q.size + a.size ≤ res.total_size ∧
        ∀ j b q2, j ≠ i → res.requests.get? j = some b → res.offsets.get? j = some q2 →
          q.size + a.size ≤ q2.size ∨ q2.size + b.size ≤ q.size := by
  obtain ⟨⟨tokens, type, p1⟩, hfirst⟩ := parse_try_first_pass _ _ _ _ _ _ h
  have hc := parse_try_not_char _ _ _ _ _ _ h
  obtain ⟨p2, data', h2, htry, hsize, hallocs, _⟩ :=
    second_pass_follows false msg_type payload message_type type_id tokens type p1 hfirst hc
  rw [h] at htry
  simp only [Outcome.done.injEq] at htry
  subst htry
  obtain ⟨hcopy, hlenp, hreq, hone, hbound⟩ := first_pass_requests _ _ _ _ _ _ _ _ hfirst
  have hscan := scan_cost payload tokens (first_pass_scan _ _ _ _ _ _ _ _ hfirst)
  have hal := first_pass_aligned false msg_type payload message_type type_id tokens type p1
    hfirst
  have hfit : 0 + allocs_bound p1.requests < 2 ^ 64 := by omega
  obtain ⟨g1, _, _, g4⟩ := layout_allocs_spec p1.requests 0 hal hfit
  have hmodel := (parse_helper_stores_model (parse_fuel tokens.length)).1
    (second_pass_start tokens type p1) type_id 0 (some (zero_of type_id 0))
  rw [h2] at hmodel
  cases hst : i3ipc__parse_helper_stores (parse_fuel tokens.length)
      (second_pass_start tokens type p1) type_id 0 (some (zero_of type_id 0)) with
  | done x =>
    obtain ⟨q, v, s⟩ := x
    rw [hst] at hmodel
    simp only [Outcome.without_stores, Outcome.done.injEq, Prod.mk.injEq] at hmodel
    obtain ⟨rfl, rfl⟩ := hmodel
    have hstart : (second_pass_start tokens type p1).memory = true ∧
        (second_pass_start tokens type p1).copy_strings = true ∧
        (second_pass_start tokens type p1).allocs = (layout_allocs p1.requests 0).1 ∧
        (second_pass_start tokens type p1).allocs_size = 1 := by
      simp only [second_pass_start, i3ipc__parse_alloc, Bool.not_true, Bool.false_eq_true,
        ↓reduceIte, hcopy, Bool.not_false, and_self]
    obtain ⟨s1, s2, s3, s4⟩ := hstart
    obtain ⟨_, _, _, k4, k5⟩ := (parse_helper_stores_planned _).1 _ _ _ _ _ s1 s2 hst
    have hres : i3ipc_parse_try_stores false msg_type payload message_type type_id
        = Outcome.done ⟨data, alloc_pointer (some (((layout_allocs p1.requests 0).1.getD 0
            ⟨0, 0⟩).size)) :: s, p1.requests, (layout_allocs p1.requests 0).1,
            (layout_allocs p1.requests 0).2⟩ := by
      unfold i3ipc_parse_try_stores
      rw [hfirst]
      dsimp only
      have e : i3ipc__parse_helper_stores (parse_fuel tokens.length)
          (i3ipc__parse_alloc
            { p1 with
              state := { p1.state with tokens := tokens },
              allocs := (layout_allocs p1.requests 0).1, allocs_size := 0, memory := true }
            type.size type.alignment).1 type_id 0 (some (zero_of type_id 0))
          = Outcome.done (_, some data, s) := hst
      rw [e]
      simp [i3ipc__parse_alloc]
    refine ⟨_, hres, rfl, g1, ?_⟩
    have hplan : ∀ k, k < p1.allocs_size → ∃ a q0, p1.requests.get? k = some a ∧
        (layout_allocs p1.requests 0).1.get? k = some q0 ∧
        ((layout_allocs p1.requests 0).1.getD k ⟨0, 0⟩).size = q0.size := by
      intro k hk
      have hk1 : k < p1.requests.length := by rw [hreq, ← hlenp]; exact hk
      have hk2 : k < (layout_allocs p1.requests 0).1.length := by rw [g1]; exact hk1
      refine ⟨p1.requests.get ⟨k, hk1⟩, (layout_allocs p1.requests 0).1.get ⟨k, hk2⟩,
        List.get?_eq_get hk1, List.get?_eq_get hk2, ?_⟩
      rw [List.getD_eq_getElem _ _ hk2]
      rfl
    have fin : ∀ k, k < p1.allocs_size →
        ∃ i a q0, p1.requests.get? i = some a ∧
          (layout_allocs p1.requests 0).1.get? i = some q0 ∧
          I3ipc_pointer.memory (((layout_allocs p1.requests 0).1.getD k ⟨0, 0⟩).size)
            = I3ipc_pointer.memory q0.size ∧
          a.alignment ∣ q0.size ∧ q0.size + a.size ≤ (layout_allocs p1.requests 0).2 ∧
          ∀ j b q2, j ≠ i → p1.requests.get? j = some b →
            (layout_allocs p1.requests 0).1.get? j = some q2 →
            q0.size + a.size ≤ q2.size ∨ q2.size + b.size ≤ q0.size := by
      intro k hk
      obtain ⟨a, q0, ha, hq0, hsz⟩ := hplan k hk
      obtain ⟨_, f2, f3, f4⟩ := g4 k a q0 ha hq0
      refine ⟨k, a, q0, ha, hq0, by rw [hsz], f2, f3, ?_⟩
      intro j b q2 hj hb hq2
      rcases Nat.lt_or_gt_of_ne hj with hlt | hgt
      · right
        exact (g4 j b q2 hb hq2).2.2.2 k a q0 hlt ha hq0
      · left
        exact f4 j b q2 hgt hb hq2
    intro x hx
    dsimp only at hx
    rcases List.mem_cons.mp hx with rfl | hx
    · exact fin 0 (by omega)
    · obtain ⟨k, _, k2, k3⟩ := k5 x hx
      rw [k3, s3]
      exact fin k (by rw [← hsize]; exact k2)
  | fail c => rw [hst] at hmodel; cases hmodel
  | aborted => rw [hst] at hmodel; cases hmodel
  | starved => rw [hst] at hmodel; cases hmodel

/-- C11 at the tree `{"name":"a","marks":["b"]}`: the pointers that are stored are `base`,
the name, the array of marks and the mark, at the offsets 0, 272, 280 and 296 of an arena of
298 bytes. -/
theorem arena_containment_witness :
    (∃ res, i3ipc_parse_try_stores false 4 (bytes "\x7b\"name\":\"a\",\"marks\":[\"b\"]\x7d") 4
          I3IPC_TYPE_REPLY_TREE = Outcome.done res ∧
        res.data = (i3ipc_parse_try false 4 (bytes "\x7b\"name\":\"a\",\"marks\":[\"b\"]\x7d") 4
          I3IPC_TYPE_REPLY_TREE).getD (Val.int 0) ∧
        res.offsets.length = res.requests.length ∧
        ∀ x ∈ res.stored, ∃ i a q, res.requests.get? i = some a ∧
          res.offsets.get? i = some q ∧ x = I3ipc_pointer.memory q.size ∧
          a.alignment ∣ q.size ∧ q.size + a.size ≤ res.total_size ∧
          ∀ j b q2, j ≠ i → res.requests.get? j = some b → res.offsets.get? j = some q2 →
            q.size + a.size ≤ q2.size ∨ q2.size + b.size ≤ q.size) ∧
    ((i3ipc_parse_try_stores false 4 (bytes "\x7b\"name\":\"a\",\"marks\":[\"b\"]\x7d") 4
        I3IPC_TYPE_REPLY_TREE).getD ⟨Val.int 0, [], [], [], 0⟩).stored =
      [I3ipc_pointer.memory 0, I3ipc_pointer.memory 272, I3ipc_pointer.memory 280,
        I3ipc_pointer.memory 296] ∧
    ((i3ipc_parse_try_stores false 4 (bytes "\x7b\"name\":\"a\",\"marks\":[\"b\"]\x7d") 4
        I3IPC_TYPE_REPLY_TREE).getD ⟨Val.int 0, [], [], [], 0⟩).total_size = 298 :=
  ⟨arena_containment 4 (bytes "\x7b\"name\":\"a\",\"marks\":[\"b\"]\x7d") 4 I3IPC_TYPE_REPLY_TREE _
      (by decide) (outcome_done_getD _ _ (by decide!)), by decide!, by decide!⟩


end I3ipc
